import Mathlib

/-!
# Name binding of the artic front end

A shallow embedding of `include/artic/loc.h`, `include/artic/symbol.h` and
`src/bind.cpp`.

Conventions of the embedding:

* a `std::vector` used as a stack (`NameBinder::scopes_`) is a `List` whose head is
  the vector's `back()`;
* the `std::unordered_map` of a `SymbolTable` is an association list; its iteration
  order is the order of the list, and `emplace` adds at the end;
* a `std::shared_ptr<Symbol>` held by a frame is the pointee together with the use
  count of its control block;
* a raw pointer to an AST node (`ast::NamedDecl*`, `ast::FnExpr*`, the loop of a
  `break`) is the address of that node, a natural number stored in the node;
* the fields that `bind` assigns in place (`Path::symbol`, `BreakExpr::loop`,
  `ContinueExpr::loop`, `ReturnExpr::fn`) are fields of the tree, and `bind` returns
  the updated tree next to the updated binder;
* `assert`s are not executed (release build).
-/

namespace artic

/-! ## `loc.h` -/

/-- Struct `Loc::Pos`. -/
structure Loc.Pos where
  row : Int
  col : Int
  deriving DecidableEq, Repr

/-- Struct `Loc`: the file is a `shared_ptr<std::string>` that `operator==` compares by
address, so it is a handle. -/
structure Loc where
  file : Nat
  begin_ : Loc.Pos
  end_ : Loc.Pos
  deriving DecidableEq, Repr

/-! ## `symbol.h` -/

/-- Struct `ast::Identifier`: the name and where it is written. -/
structure Identifier where
  name : String
  loc : Loc
  deriving DecidableEq, Repr

/-- Dynamic class of an `ast::NamedDecl`, as `isa<...>` observes it. -/
inductive DeclKind where
  | PtrnDecl | TypeParam | StaticDecl | FnDecl | FieldDecl | StructDecl
  | OptionDecl | EnumDecl | TypeDecl | ModDecl
  deriving DecidableEq, Repr

/-- The members of an `ast::NamedDecl` that the binder reads, with the node's address. -/
structure NamedDecl where
  addr : Nat
  id : Identifier
  loc : Loc
  is_top_level : Bool
  deriving DecidableEq, Repr

/-- An `ast::NamedDecl*`: the dynamic class of the pointee and the pointee. -/
structure DeclPtr where
  kind : DeclKind
  decl : NamedDecl
  deriving DecidableEq, Repr

/-- Struct `Symbol`. -/
structure Symbol where
  decls : List DeclPtr
  deriving DecidableEq, Repr

/-- Constructor `Symbol::Symbol(ast::NamedDecl* decl) : decls{ decl }`. -/
def Symbol.ofDecl (decl : DeclPtr) : Symbol := ⟨[decl]⟩

/-- A `std::shared_ptr<Symbol>` stored in a frame. -/
structure SymbolPtr where
  sym : Symbol
  use_count : Nat
  deriving DecidableEq, Repr

/-- Struct `SymbolTable`. -/
structure SymbolTable where
  top_level : Bool
  symbols : List (String × SymbolPtr)
  deriving DecidableEq, Repr

/-- Call `symbols.find(name)`: the first entry of the map with that key. -/
def SymbolTable.lookup (t : SymbolTable) (name : String) : Option SymbolPtr :=
  (t.symbols.find? (fun e => e.1 == name)).map Prod.snd

/-- Method `SymbolTable::find`. -/
def SymbolTable.find (t : SymbolTable) (name : String) : Option Symbol :=
  (t.lookup name).map SymbolPtr.sym

/-- Method `SymbolTable::find_similar`. -/
def SymbolTable.find_similar (t : SymbolTable) (name : String) (min : Nat)
    (distance : String → String → Nat → Nat) : Nat × Option Symbol :=
  t.symbols.foldl
    (fun (acc : Nat × Option Symbol) symbol =>
      let d := distance symbol.1 name acc.1
      if d < acc.1 then (d, some symbol.2.sym) else acc)
    (min, none)

/-- The map after `it->second->decls` has been extended by `decls`, `it` being the
first entry with key `name`. -/
def appendDecls (name : String) (decls : List DeclPtr) :
    List (String × SymbolPtr) → List (String × SymbolPtr)
  | [] => []
  | e :: es =>
    if e.1 == name then (e.1, { e.2 with sym := ⟨e.2.sym.decls ++ decls⟩ }) :: es
    else e :: appendDecls name decls es

/-- Method `SymbolTable::insert`: the returned flag and the table afterwards. -/
def SymbolTable.insert (t : SymbolTable) (name : String) (symbol : Symbol) :
    Bool × SymbolTable :=
  match t.lookup name with
  | some _ => (false, { t with symbols := appendDecls name symbol.decls t.symbols })
  | none => (true, { t with symbols := t.symbols ++ [(name, ⟨symbol, 1⟩)] })

/-! ## The diagnostic sink and the binder state -/

/-- Severity of a diagnostic. -/
inductive Severity where
  | error | warn | note
  deriving DecidableEq, Repr

/-- One reported diagnostic: its severity, its location when it has one, the format
string and the arguments that fill its `{}` holes. -/
structure Diag where
  severity : Severity
  loc : Option Loc
  fmt : String
  args : List String
  deriving DecidableEq, Repr

/-- Class `NameBinder`: the frame stack, the enclosing function and loop, the option
`warn_on_shadowing`, and the state of the `Logger` base (the error and warning
counters and everything written so far, oldest first). -/
structure NameBinder where
  scopes_ : List SymbolTable
  cur_fn_ : Option Nat
  cur_loop_ : Option Nat
  warn_on_shadowing : Bool
  errors : Nat
  warns : Nat
  diags : List Diag
  deriving DecidableEq, Repr

namespace NameBinder

/-- Modelled from the spec: `Logger::error` of `log.h`, which is not among the sources
(section 6.3, `error(loc, fmt, args…)`; section 7, "pass success is `errors == 0`"):
the diagnostic is written and counted as an error. -/
def error (st : NameBinder) (loc : Loc) (fmt : String) (args : List String) : NameBinder :=
  { st with errors := st.errors + 1, diags := st.diags ++ [⟨.error, some loc, fmt, args⟩] }

/-- Modelled from the spec: `Logger::warn` of `log.h`, which is not among the sources
(section 6.3, `warn(loc, …)`; section 6.4, "warning count is not part of success"):
the diagnostic is written and counted as a warning. -/
def warn (st : NameBinder) (loc : Loc) (fmt : String) (args : List String) : NameBinder :=
  { st with warns := st.warns + 1, diags := st.diags ++ [⟨.warn, some loc, fmt, args⟩] }

/-- Modelled from the spec: `Logger::note` of `log.h`, which is not among the sources
(section 6.3, `note([loc,] …)`): the note is written, nothing is counted. -/
def note (st : NameBinder) (loc : Option Loc) (fmt : String) (args : List String) :
    NameBinder :=
  { st with diags := st.diags ++ [⟨.note, loc, fmt, args⟩] }

/-- Modelled from the spec: `NameBinder::push_scope` of `bind.h`, which is not among
the sources (section 4.1, `push(top_level?)`): a new empty innermost frame. -/
def push_scope (st : NameBinder) (top_level : Bool) : NameBinder :=
  { st with scopes_ := ⟨top_level, []⟩ :: st.scopes_ }

/-- Modelled from the spec: `NameBinder::find_symbol` of `bind.h`, which is not among
the sources (section 4.1, "`find(name)`: innermost-first linear scan; returns the
symbol or none"), over `SymbolTable::find`. -/
def findIn : List SymbolTable → String → Option Symbol
  | [], _ => none
  | t :: ts, name =>
    match t.find name with
    | some s => some s
    | none => findIn ts name

/-- Modelled from the spec: `NameBinder::find_symbol` of `bind.h` on the binder's own
stack (see `findIn`). -/
def find_symbol (st : NameBinder) (name : String) : Option Symbol :=
  findIn st.scopes_ name

/-- The map after one more `shared_ptr` to the symbol of its first entry with key
`name` has been created. -/
def retainEntry (name : String) : List (String × SymbolPtr) → List (String × SymbolPtr)
  | [] => []
  | e :: es =>
    if e.1 == name then (e.1, { e.2 with use_count := e.2.use_count + 1 }) :: es
    else e :: retainEntry name es

/-- The stack after the `shared_ptr` returned by `find_symbol(name)` has been stored:
the use count of the symbol that `findIn` returns is one higher. -/
def retainIn : List SymbolTable → String → List SymbolTable
  | [], _ => []
  | t :: ts, name =>
    match t.find name with
    | some _ => { t with symbols := retainEntry name t.symbols } :: ts
    | none => t :: retainIn ts name

/-- Modelled from the spec: the edit distance behind `find_similar_symbol` of `bind.h`,
which is not among the sources (section 4.2, "Levenshtein-like distance"): one row
of the Levenshtein table, from the row above it. `diag` is the entry above-left and
`left` the entry to the left of the next cell. -/
def levenshteinRow (c : Char) : List Char → List Nat → Nat → Nat → List Nat
  | b :: bs, up :: ups, diag, left =>
    let cell := min (min (up + 1) (left + 1)) (diag + if b = c then 0 else 1)
    cell :: levenshteinRow c bs ups up cell
  | _, _, _, _ => []

/-- Modelled from the spec: the rows of the Levenshtein table for the characters of
the first word, `row` being the row of the empty prefix at first. -/
def levenshteinRows (b : List Char) : List Char → Nat → List Nat → List Nat
  | [], _, row => row
  | c :: cs, i, row =>
    levenshteinRows b cs (i + 1) ((i + 1) :: levenshteinRow c b (row.drop 1) i (i + 1))

/-- Modelled from the spec: the distance function handed to
`SymbolTable::find_similar` (section 4.2, "Levenshtein-like distance"); the bound
passed as third argument is not used. -/
def levenshtein (a b : String) (_bound : Nat) : Nat :=
  ((levenshteinRows b.data a.data 0 (List.range (b.data.length + 1))).getLast?).getD 0

/-- Modelled from the spec: `NameBinder::find_similar_symbol` of `bind.h`, which is
not among the sources (section 4.1, "best symbol over all frames by a
caller-supplied string distance"; section 4.2, "distance ≤ 2"), over
`SymbolTable::find_similar`, innermost frame first. -/
def find_similar_symbol (st : NameBinder) (name : String) : Option Symbol :=
  (st.scopes_.foldl
    (fun (acc : Nat × Option Symbol) frame =>
      let r := frame.find_similar name acc.1 levenshtein
      if r.2.isSome then r else acc)
    (3, none)).2

/-- Modelled from the spec: `NameBinder::push_fn` of `bind.h`, which is not among the
sources (design notes, "push/pop current-function"): the new current function; the
previous one is what the call returns. -/
def push_fn (st : NameBinder) (fn : Nat) : NameBinder := { st with cur_fn_ := some fn }

/-- Modelled from the spec: `NameBinder::pop_fn` of `bind.h`, which is not among the
sources: the current function is the given one again. -/
def pop_fn (st : NameBinder) (old : Option Nat) : NameBinder := { st with cur_fn_ := old }

/-- Modelled from the spec: `NameBinder::push_loop` of `bind.h`, which is not among the
sources (design notes, "push/pop current-loop"): the new current loop; the previous
one is what the call returns. -/
def push_loop (st : NameBinder) (loop : Nat) : NameBinder := { st with cur_loop_ := some loop }

/-- Modelled from the spec: `NameBinder::pop_loop` of `bind.h`, which is not among the
sources: the current loop is the given one again. -/
def pop_loop (st : NameBinder) (old : Option Nat) : NameBinder := { st with cur_loop_ := old }

/-- The test `name[0] == '_'`. -/
def startsWithUnderscore (name : String) : Bool :=
  name.data.head? == some '_'

/-- The loop `for (auto other : shadow_symbol->decls) if (other != &decl) note(...)`
of `insert_symbol`. -/
def notePrevious (decl : NamedDecl) : List DeclPtr → NameBinder → NameBinder
  | [], st => st
  | other :: others, st =>
    notePrevious decl others
      (if other.decl.addr != decl.addr then
        st.note (some other.decl.loc) "previously declared here" []
      else st)

/-- Method `NameBinder::insert_symbol`. After a failed `insert`, `shadow_symbol` points to the
symbol of the innermost frame, whose declaration list `insert` has just extended: the
loop runs over the extended list. -/
def insert_symbol (st : NameBinder) (decl : DeclPtr) : NameBinder :=
  let name := decl.decl.id.name
  if startsWithUnderscore name then st
  else
    match st.scopes_ with
    | [] => st
    | back :: rest =>
      let shadow_symbol := st.find_symbol name
      let r := back.insert name (Symbol.ofDecl decl)
      let st1 := { st with scopes_ := r.2 :: rest }
      if !r.1 then
        let st2 := st1.error decl.decl.loc "identifier '{}' already declared" [name]
        match st2.find_symbol name with
        | some shadow => notePrevious decl.decl shadow.decls st2
        | none => st2
      else
        match shadow_symbol with
        | some shadow =>
          match shadow.decls with
          | first :: _ =>
            if st.warn_on_shadowing && decl.kind == .PtrnDecl && !first.decl.is_top_level then
              (st1.warn decl.decl.loc "declaration shadows identifier '{}'" [name]).note
                (some first.decl.loc) "previously declared here" []
            else st1
          | [] => st1
        | none => st1

/-- The loop of `NameBinder::pop_scope` over the symbols of the innermost frame. -/
def warnUnused (top_level : Bool) : List (String × SymbolPtr) → NameBinder → NameBinder
  | [], st => st
  | pair :: pairs, st =>
    warnUnused top_level pairs
      (match pair.2.sym.decls with
       | decl :: _ =>
         if pair.2.use_count ≤ 1 && !top_level && decl.kind != .FieldDecl &&
             decl.kind != .OptionDecl then
           (st.warn decl.decl.loc "unused identifier '{}'" [pair.1]).note none
             "prefix unused identifiers with '_'" []
         else st
       | [] => st)

/-- Method `NameBinder::pop_scope`. -/
def pop_scope (st : NameBinder) : NameBinder :=
  match st.scopes_ with
  | [] => st
  | back :: rest => { warnUnused back.top_level back.symbols st with scopes_ := rest }

end NameBinder

/-! ## The syntax tree, as `bind.cpp` uses it

`ast.h` is not among the sources: each class has the children that its `bind`
reads, under the names `bind.cpp` gives them. A child that `bind` tests before use
(`if (cond)`, `if (to)`) is an `Option`; `bind` applied to an absent child that the
C++ code dereferences without a test does nothing. The static class of a child
(`Ptr<Expr>`, `Ptr<Type>`, …) is not part of the Lean type. -/

mutual

/-- Class `ast::Node`: the attributes every node may carry (`Node::attrs`), and the object
of the derived class. -/
inductive Node where
  | mk (attrs : Option Node) (form : Form)

/-- Struct `ast::Path::Elem`. -/
inductive PathElem where
  | mk (id : Identifier) (args : List Node)

/-- The members of an `ast::FnExpr`; `addr` is the address of the expression, which
`push_fn(this)` stores. -/
inductive FnExpr where
  | mk (addr : Nat) (filter param ret_type body : Option Node)

/-- The classes derived from `ast::Node`, with their members. -/
inductive Form where
  | Path (elems : List PathElem) (symbol : Option Symbol)
  | Filter (expr : Option Node)
  | Attr
  | PathAttr (path : Node)
  | NamedAttr (args : List Node)
  | PrimType
  | TupleType (args : List Node)
  | ArrayType (elem : Node)
  | FnType (from_ : Node) (to_ : Option Node)
  | PtrType (pointee : Node)
  | TypeApp (path : Node)
  | ErrorType
  | DeclStmt (decl : Node)
  | ExprStmt (expr : Node)
  | TypedExpr (expr type : Node)
  | PathExpr (path : Node)
  | LiteralExpr
  | FieldExpr (expr : Node)
  | RecordExpr (expr type : Option Node) (fields : List Node)
  | TupleExpr (args : List Node)
  | ArrayExpr (elems : List Node)
  | RepeatArrayExpr (elem : Node)
  | FnExpr (fn : FnExpr)
  | BlockExpr (stmts : List Node)
  | CallExpr (callee arg : Node)
  | UnaryExpr (arg : Node)
  | BinaryExpr (left right : Node)
  | ProjExpr (expr : Node)
  | IfExpr (cond ptrn expr : Option Node) (if_true : Node) (if_false : Option Node)
  | CaseExpr (ptrn expr : Node)
  | MatchExpr (arg : Node) (cases : List Node)
  | WhileExpr (addr : Nat) (cond ptrn expr : Option Node) (body : Node)
  /-- Class `ForExpr`, whose `call` is `iterate(|i| { ... })(...)`: `callee` is
  `call->callee->as<CallExpr>()->callee`, `loop_body` with its attributes is
  `call->callee->as<CallExpr>()->arg->as<FnExpr>()`, and `arg` is `call->arg`. -/
  | ForExpr (addr : Nat) (callee : Node) (loop_body_attrs : Option Node)
      (loop_body : FnExpr) (arg : Node)
  | BreakExpr (loc : Loc) (loop : Option Nat)
  | ContinueExpr (loc : Loc) (loop : Option Nat)
  | ReturnExpr (loc : Loc) (fn : Option Nat)
  | FilterExpr (filter expr : Node)
  | CastExpr (expr type : Node)
  | ImplicitCastExpr
  | AsmExpr (ins outs : List Node)
  | ErrorExpr
  | TypedPtrn (ptrn : Option Node) (type : Node)
  | IdPtrn (decl : Node) (sub_ptrn : Option Node)
  | LiteralPtrn
  | FieldPtrn (ptrn : Option Node)
  | RecordPtrn (path : Node) (fields : List Node)
  | CtorPtrn (path : Node) (arg : Option Node)
  | TuplePtrn (args : List Node)
  | ArrayPtrn (elems : List Node)
  | ErrorPtrn
  | TypeParam (decl : NamedDecl)
  | TypeParamList (params : List Node)
  | PtrnDecl (decl : NamedDecl)
  | LetDecl (init : Option Node) (ptrn : Node)
  | StaticDecl (decl : NamedDecl) (type init : Option Node)
  /-- Class `FnDecl`: `fn` is a `Ptr<FnExpr>`, a node with attributes of its own. -/
  | FnDecl (decl : NamedDecl) (type_params : Option Node) (fn_attrs : Option Node)
      (fn : FnExpr)
  | FieldDecl (type : Node) (init : Option Node)
  | StructDecl (decl : NamedDecl) (type_params : Option Node) (fields : List Node)
  | OptionDecl (decl : NamedDecl) (param : Option Node) (fields : List Node)
  | EnumDecl (decl : NamedDecl) (type_params : Option Node) (options : List Node)
  | TypeDecl (decl : NamedDecl) (type_params : Option Node) (aliased_type : Node)
  | ModDecl (decl : NamedDecl) (decls : List Node)
  | ErrorDecl

end

/-- Member `Node::attrs`. -/
def Node.attrs : Node → Option Node
  | .mk attrs _ => attrs

/-- The object of the derived class. -/
def Node.form : Node → Form
  | .mk _ form => form

/-! ## `bind.cpp` -/

/-- The virtual `Decl::bind_head`, called by `NameBinder::bind_head`. `bind.cpp`
defines it for `StaticDecl`, `FnDecl`, `StructDecl`, `EnumDecl`, `TypeDecl` and
`ModDecl`; for the other classes it does nothing. It assigns no member of the tree. -/
def NameBinder.bind_head (decl : Node) (st : NameBinder) : NameBinder :=
  match decl.form with
  | .StaticDecl d _ _ => st.insert_symbol ⟨.StaticDecl, d⟩
  | .FnDecl d _ _ _ => st.insert_symbol ⟨.FnDecl, d⟩
  | .StructDecl d _ _ => st.insert_symbol ⟨.StructDecl, d⟩
  | .EnumDecl d _ _ => st.insert_symbol ⟨.EnumDecl, d⟩
  | .TypeDecl d _ _ => st.insert_symbol ⟨.TypeDecl, d⟩
  | .ModDecl d _ => if d.id.name != "" then st.insert_symbol ⟨.ModDecl, d⟩ else st
  | _ => st

/-- The loop `for (auto& decl : decls) binder.bind_head(*decl)` of `ModDecl::bind`. -/
def NameBinder.bind_heads : List Node → NameBinder → NameBinder
  | [], st => st
  | decl :: decls, st => bind_heads decls (bind_head decl st)

/-- The loop of `BlockExpr::bind` that calls `bind_head` on the declaration of every
`DeclStmt`. -/
def NameBinder.bind_stmt_heads : List Node → NameBinder → NameBinder
  | [], st => st
  | stmt :: stmts, st =>
    bind_stmt_heads stmts
      (match stmt.form with
       | .DeclStmt decl => bind_head decl st
       | _ => st)

mutual

/-- The virtual `Node::bind(NameBinder&)`, one case for each class of `bind.cpp`. -/
def Form.bind : Form → NameBinder → Form × NameBinder
  -- Path::bind; `elems.front()` needs an element
  | .Path [] symbol, st => (.Path [] symbol, st)
  | .Path (.mk id args :: rest) symbol, st =>
    let r :=
      if NameBinder.startsWithUnderscore id.name then
        (symbol,
          st.error id.loc "identifiers beginning with '_' cannot be referenced" [])
      else
        match st.find_symbol id.name with
        | some s => (some s, { st with scopes_ := NameBinder.retainIn st.scopes_ id.name })
        | none =>
          let st1 := st.error id.loc "unknown identifier '{}'" [id.name]
          (none,
            match st1.find_similar_symbol id.name with
            | some similar =>
              match similar.decls with
              | decl :: _ => st1.note none "did you mean '{}'?" [decl.decl.id.name]
              | [] => st1
            | none => st1)
    let e := bindElems (.mk id args :: rest) r.2
    (.Path e.1 r.1, e.2)
  | .Filter expr, st =>
    let r := bindOpt expr st
    (.Filter r.1, r.2)
  | .Attr, st => (.Attr, st)
  | .PathAttr path, st =>
    let r := NameBinder.bind path st
    (.PathAttr r.1, r.2)
  | .NamedAttr args, st =>
    let r := bindList args st
    (.NamedAttr r.1, r.2)
  | .PrimType, st => (.PrimType, st)
  | .TupleType args, st =>
    let r := bindList args st
    (.TupleType r.1, r.2)
  | .ArrayType elem, st =>
    let r := NameBinder.bind elem st
    (.ArrayType r.1, r.2)
  | .FnType from_ to_, st =>
    let f := NameBinder.bind from_ st
    let t := bindOpt to_ f.2
    (.FnType f.1 t.1, t.2)
  | .PtrType pointee, st =>
    let r := NameBinder.bind pointee st
    (.PtrType r.1, r.2)
  | .TypeApp path, st =>
    let r := NameBinder.bind path st
    (.TypeApp r.1, r.2)
  | .ErrorType, st => (.ErrorType, st)
  | .DeclStmt decl, st =>
    let r := NameBinder.bind decl st
    (.DeclStmt r.1, r.2)
  | .ExprStmt expr, st =>
    let r := NameBinder.bind expr st
    (.ExprStmt r.1, r.2)
  | .TypedExpr expr type, st =>
    let e := NameBinder.bind expr st
    let t := NameBinder.bind type e.2
    (.TypedExpr e.1 t.1, t.2)
  | .PathExpr path, st =>
    let r := NameBinder.bind path st
    (.PathExpr r.1, r.2)
  | .LiteralExpr, st => (.LiteralExpr, st)
  | .FieldExpr expr, st =>
    let r := NameBinder.bind expr st
    (.FieldExpr r.1, r.2)
  | .RecordExpr (some expr) type fields, st =>
    let e := NameBinder.bind expr st
    let f := bindList fields e.2
    (.RecordExpr (some e.1) type f.1, f.2)
  | .RecordExpr none type fields, st =>
    let t := bindOpt type st
    let f := bindList fields t.2
    (.RecordExpr none t.1 f.1, f.2)
  | .TupleExpr args, st =>
    let r := bindList args st
    (.TupleExpr r.1, r.2)
  | .ArrayExpr elems, st =>
    let r := bindList elems st
    (.ArrayExpr r.1, r.2)
  | .RepeatArrayExpr elem, st =>
    let r := NameBinder.bind elem st
    (.RepeatArrayExpr r.1, r.2)
  -- FnExpr::bind(NameBinder&) is bind(binder, false)
  | .FnExpr fn, st =>
    let r := FnExpr.bind fn false st
    (.FnExpr r.1, r.2)
  | .BlockExpr stmts, st =>
    let st1 := st.push_scope false
    let st2 := NameBinder.bind_stmt_heads stmts st1
    let r := bindList stmts st2
    (.BlockExpr r.1, r.2.pop_scope)
  | .CallExpr callee arg, st =>
    let c := NameBinder.bind callee st
    let a := NameBinder.bind arg c.2
    (.CallExpr c.1 a.1, a.2)
  | .UnaryExpr arg, st =>
    let r := NameBinder.bind arg st
    (.UnaryExpr r.1, r.2)
  | .BinaryExpr left right, st =>
    let l := NameBinder.bind left st
    let r := NameBinder.bind right l.2
    (.BinaryExpr l.1 r.1, r.2)
  | .ProjExpr expr, st =>
    let r := NameBinder.bind expr st
    (.ProjExpr r.1, r.2)
  | .IfExpr (some cond) ptrn expr if_true if_false, st =>
    let st1 := st.push_scope false
    let c := NameBinder.bind cond st1
    let t := NameBinder.bind if_true c.2
    let f := bindOpt if_false t.2.pop_scope
    (.IfExpr (some c.1) ptrn expr t.1 f.1, f.2)
  | .IfExpr none ptrn expr if_true if_false, st =>
    let st1 := st.push_scope false
    let p := bindOpt ptrn st1
    let e := bindOpt expr p.2
    let t := NameBinder.bind if_true e.2
    let f := bindOpt if_false t.2.pop_scope
    (.IfExpr none p.1 e.1 t.1 f.1, f.2)
  | .CaseExpr ptrn expr, st =>
    let st1 := st.push_scope false
    let p := NameBinder.bind ptrn st1
    let e := NameBinder.bind expr p.2
    (.CaseExpr p.1 e.1, e.2.pop_scope)
  | .MatchExpr arg cases, st =>
    let a := NameBinder.bind arg st
    let c := bindList cases a.2
    (.MatchExpr a.1 c.1, c.2)
  | .WhileExpr addr (some cond) ptrn expr body, st =>
    let st1 := st.push_scope false
    let c := NameBinder.bind cond st1
    let old := c.2.cur_loop_
    let b := NameBinder.bind body (c.2.push_loop addr)
    (.WhileExpr addr (some c.1) ptrn expr b.1, (b.2.pop_loop old).pop_scope)
  | .WhileExpr addr none ptrn expr body, st =>
    let st1 := st.push_scope false
    let p := bindOpt ptrn st1
    let e := bindOpt expr p.2
    let old := e.2.cur_loop_
    let b := NameBinder.bind body (e.2.push_loop addr)
    (.WhileExpr addr none p.1 e.1 b.1, (b.2.pop_loop old).pop_scope)
  | .ForExpr addr callee loop_body_attrs loop_body arg, st =>
    let c := NameBinder.bind callee st
    let old := c.2.cur_loop_
    let la := bindAttrs loop_body_attrs (c.2.push_loop addr)
    let lb := FnExpr.bind loop_body true la.2
    let a := NameBinder.bind arg (lb.2.pop_loop old)
    (.ForExpr addr c.1 la.1 lb.1 a.1, a.2)
  | .BreakExpr loc _, st =>
    (.BreakExpr loc st.cur_loop_,
      if st.cur_loop_.isNone then st.error loc "use of '{}' outside of a loop" ["break"]
      else st)
  | .ContinueExpr loc _, st =>
    (.ContinueExpr loc st.cur_loop_,
      if st.cur_loop_.isNone then st.error loc "use of '{}' outside of a loop" ["continue"]
      else st)
  | .ReturnExpr loc _, st =>
    (.ReturnExpr loc st.cur_fn_,
      if st.cur_fn_.isNone then st.error loc "use of '{}' outside of a function" ["return"]
      else st)
  | .FilterExpr filter expr, st =>
    let f := NameBinder.bind filter st
    let e := NameBinder.bind expr f.2
    (.FilterExpr f.1 e.1, e.2)
  | .CastExpr expr type, st =>
    let e := NameBinder.bind expr st
    let t := NameBinder.bind type e.2
    (.CastExpr e.1 t.1, t.2)
  | .ImplicitCastExpr, st => (.ImplicitCastExpr, st)
  | .AsmExpr ins outs, st =>
    let i := bindList ins st
    let o := bindList outs i.2
    (.AsmExpr i.1 o.1, o.2)
  | .ErrorExpr, st => (.ErrorExpr, st)
  | .TypedPtrn ptrn type, st =>
    let p := bindOpt ptrn st
    let t := NameBinder.bind type p.2
    (.TypedPtrn p.1 t.1, t.2)
  | .IdPtrn decl sub_ptrn, st =>
    let d := NameBinder.bind decl st
    let s := bindOpt sub_ptrn d.2
    (.IdPtrn d.1 s.1, s.2)
  | .LiteralPtrn, st => (.LiteralPtrn, st)
  | .FieldPtrn ptrn, st =>
    let r := bindOpt ptrn st
    (.FieldPtrn r.1, r.2)
  | .RecordPtrn path fields, st =>
    let p := NameBinder.bind path st
    let f := bindList fields p.2
    (.RecordPtrn p.1 f.1, f.2)
  | .CtorPtrn path arg, st =>
    let p := NameBinder.bind path st
    let a := bindOpt arg p.2
    (.CtorPtrn p.1 a.1, a.2)
  | .TuplePtrn args, st =>
    let r := bindList args st
    (.TuplePtrn r.1, r.2)
  | .ArrayPtrn elems, st =>
    let r := bindList elems st
    (.ArrayPtrn r.1, r.2)
  | .ErrorPtrn, st => (.ErrorPtrn, st)
  | .TypeParam decl, st => (.TypeParam decl, st.insert_symbol ⟨.TypeParam, decl⟩)
  | .TypeParamList params, st =>
    let r := bindList params st
    (.TypeParamList r.1, r.2)
  | .PtrnDecl decl, st => (.PtrnDecl decl, st.insert_symbol ⟨.PtrnDecl, decl⟩)
  | .LetDecl init ptrn, st =>
    let i := bindOpt init st
    let p := NameBinder.bind ptrn i.2
    (.LetDecl i.1 p.1, p.2)
  | .StaticDecl decl type init, st =>
    let t := bindOpt type st
    let i := bindOpt init t.2
    (.StaticDecl decl t.1 i.1, i.2)
  | .FnDecl decl type_params fn_attrs (.mk addr filter param ret_type (some body)), st =>
    let st1 := st.push_scope false
    let tp := bindOpt type_params st1
    let fa := bindAttrs fn_attrs tp.2
    let f := FnExpr.bind (.mk addr filter param ret_type (some body)) false fa.2
    (.FnDecl decl tp.1 fa.1 f.1, f.2.pop_scope)
  | .FnDecl decl type_params fn_attrs (.mk addr filter param ret_type none), st =>
    let st1 := st.push_scope false
    let tp := bindOpt type_params st1
    let p := bindOpt param tp.2
    let r := bindOpt ret_type p.2
    (.FnDecl decl tp.1 fn_attrs (.mk addr filter p.1 r.1 none), r.2.pop_scope)
  | .FieldDecl type init, st =>
    let t := NameBinder.bind type st
    let i := bindOpt init t.2
    (.FieldDecl t.1 i.1, i.2)
  | .StructDecl decl type_params fields, st =>
    let st1 := st.push_scope false
    let tp := bindOpt type_params st1
    let f := bindList fields tp.2
    (.StructDecl decl tp.1 f.1, f.2.pop_scope)
  | .OptionDecl decl (some param) fields, st =>
    let p := NameBinder.bind param st
    (.OptionDecl decl (some p.1) fields, p.2.insert_symbol ⟨.OptionDecl, decl⟩)
  | .OptionDecl decl none fields, st =>
    let f := bindList fields st
    (.OptionDecl decl none f.1, f.2.insert_symbol ⟨.OptionDecl, decl⟩)
  | .EnumDecl decl type_params options, st =>
    let st1 := st.push_scope false
    let tp := bindOpt type_params st1
    let o := bindList options tp.2
    (.EnumDecl decl tp.1 o.1, o.2.pop_scope)
  | .TypeDecl decl type_params aliased_type, st =>
    let st1 := st.push_scope false
    let tp := bindOpt type_params st1
    let a := NameBinder.bind aliased_type tp.2
    (.TypeDecl decl tp.1 a.1, a.2.pop_scope)
  -- ModDecl::bind: the two `std::swap(binder.scopes_, old)`
  | .ModDecl decl decls, st =>
    let old := st.scopes_
    let st1 := ({ st with scopes_ := [] }).push_scope false
    let st2 := NameBinder.bind_heads decls st1
    let r := bindList decls st2
    (.ModDecl decl r.1, { r.2 with scopes_ := old })
  | .ErrorDecl, st => (.ErrorDecl, st)

/-- The loop `for (auto& elem : elems) for (auto& arg : elem.args) binder.bind(*arg)`
of `Path::bind`. -/
def bindElems : List PathElem → NameBinder → List PathElem × NameBinder
  | [], st => ([], st)
  | .mk id args :: elems, st =>
    let a := bindList args st
    let e := bindElems elems a.2
    (.mk id a.1 :: e.1, e.2)

/-- `FnExpr::bind(NameBinder&, bool in_for_loop)`. -/
def FnExpr.bind : FnExpr → Bool → NameBinder → FnExpr × NameBinder
  | .mk addr filter param ret_type body, in_for_loop, st =>
    let st1 := st.push_scope false
    let p := bindOpt param st1
    let r := bindOpt ret_type p.2
    let f := bindOpt filter r.2
    let st2 := f.2.push_scope false
    let old := st2.cur_fn_
    let st3 := if in_for_loop then st2 else st2.push_fn addr
    let b := bindOpt body st3
    let st4 := if in_for_loop then b.2 else b.2.pop_fn old
    (.mk addr f.1 p.1 r.1 b.1, st4.pop_scope.pop_scope)

/-- The statement `node.attrs->bind(*this)` when `node.attrs` is set: the virtual
`bind` of the attribute node. -/
def bindAttrs : Option Node → NameBinder → Option Node × NameBinder
  | none, st => (none, st)
  | some (.mk attrs form), st =>
    let r := Form.bind form st
    (some (.mk attrs r.1), r.2)

/-- `NameBinder::bind(ast::Node&)`. -/
def NameBinder.bind : Node → NameBinder → Node × NameBinder
  | .mk attrs form, st =>
    let a := bindAttrs attrs st
    let r := Form.bind form a.2
    (.mk a.1 r.1, r.2)

/-- A loop `for (auto& x : xs) binder.bind(*x)`. -/
def bindList : List Node → NameBinder → List Node × NameBinder
  | [], st => ([], st)
  | node :: nodes, st =>
    let r := NameBinder.bind node st
    let rs := bindList nodes r.2
    (r.1 :: rs.1, rs.2)

/-- A statement `if (x) binder.bind(*x)`. -/
def bindOpt : Option Node → NameBinder → Option Node × NameBinder
  | none, st => (none, st)
  | some node, st =>
    let r := NameBinder.bind node st
    (some r.1, r.2)

end

/-- `NameBinder::run`: the bound module and the returned flag. -/
def NameBinder.run (st : NameBinder) (mod : Node) : Node × NameBinder × Bool :=
  let r := NameBinder.bind mod st
  (r.1, r.2, r.2.errors == 0)

/-- Member `args` of a `Path::Elem`. -/
def PathElem.args : PathElem → List Node
  | .mk _ args => args


/-- Number of diagnostics of severity error in a list. -/
def countErrors (ds : List Diag) : Nat := ds.countP (fun d => d.severity == .error)

/-- Number of `identifier '{}' already declared` errors written for `name`. -/
def countAlreadyDeclared (name : String) (ds : List Diag) : Nat :=
  ds.countP (fun d =>
    d.severity == .error && d.fmt == "identifier '{}' already declared" && d.args == [name])

/-- The `previously declared here` notes for the declarations of `others` that are not
the declaration `decl` itself, in order. -/
def previousNotes (decl : NamedDecl) (others : List DeclPtr) : List Diag :=
  (others.filter (fun o => o.decl.addr != decl.addr)).map
    (fun o => ⟨.note, some o.decl.loc, "previously declared here", []⟩)

/-- The invariant behind the count of redeclaration errors, for the innermost frame
over fixed outer frames. -/
def RedeclInv (outer : List SymbolTable) (st : NameBinder) : Prop :=
  ∃ frame, st.scopes_ = frame :: outer ∧
    (∀ name sym, frame.find name = some sym →
      1 ≤ sym.decls.length ∧ countAlreadyDeclared name st.diags = sym.decls.length - 1) ∧
    (∀ name, frame.find name = none → countAlreadyDeclared name st.diags = 0)

/-- The members of the binder other than the frame stack and the log: the current
function, the current loop and the option `warn_on_shadowing`. -/
def NameBinder.ctx (st : NameBinder) : Option Nat × Option Nat × Bool :=
  (st.cur_fn_, st.cur_loop_, st.warn_on_shadowing)

/-- What a `break`, `continue` or `return` expression holds after binding: the loop
stored in a `BreakExpr` or `ContinueExpr`, or the function stored in a `ReturnExpr`
(null when there is none). -/
inductive Jump where
  | loop (target : Option Nat)
  | fn (target : Option Nat)
  deriving DecidableEq, Repr

mutual

/-- The loops and functions stored in the `break`, `continue` and `return` expressions
that `bind` reaches in an object, in the order in which it reaches them. -/
def Form.boundJumps : Form → List Jump
  | .Path elems _ =>
    boundJumpsElems elems
  | .Filter expr =>
    boundJumpsOpt expr
  | .Attr => []
  | .PathAttr path =>
    Node.boundJumps path
  | .NamedAttr args =>
    boundJumpsList args
  | .PrimType => []
  | .TupleType args =>
    boundJumpsList args
  | .ArrayType elem =>
    Node.boundJumps elem
  | .FnType from_ to_ =>
    Node.boundJumps from_ ++
      boundJumpsOpt to_
  | .PtrType pointee =>
    Node.boundJumps pointee
  | .TypeApp path =>
    Node.boundJumps path
  | .ErrorType => []
  | .DeclStmt decl =>
    Node.boundJumps decl
  | .ExprStmt expr =>
    Node.boundJumps expr
  | .TypedExpr expr type =>
    Node.boundJumps expr ++
      Node.boundJumps type
  | .PathExpr path =>
    Node.boundJumps path
  | .LiteralExpr => []
  | .FieldExpr expr =>
    Node.boundJumps expr
  | .RecordExpr (some expr) _ fields =>
    Node.boundJumps expr ++
      boundJumpsList fields
  | .RecordExpr none type fields =>
    boundJumpsOpt type ++
      boundJumpsList fields
  | .TupleExpr args =>
    boundJumpsList args
  | .ArrayExpr elems =>
    boundJumpsList elems
  | .RepeatArrayExpr elem =>
    Node.boundJumps elem
  | .FnExpr fn =>
    FnExpr.boundJumps fn
  | .BlockExpr stmts =>
    boundJumpsList stmts
  | .CallExpr callee arg =>
    Node.boundJumps callee ++
      Node.boundJumps arg
  | .UnaryExpr arg =>
    Node.boundJumps arg
  | .BinaryExpr left right =>
    Node.boundJumps left ++
      Node.boundJumps right
  | .ProjExpr expr =>
    Node.boundJumps expr
  | .IfExpr (some cond) _ _ if_true if_false =>
    Node.boundJumps cond ++
      Node.boundJumps if_true ++
      boundJumpsOpt if_false
  | .IfExpr none ptrn expr if_true if_false =>
    boundJumpsOpt ptrn ++
      boundJumpsOpt expr ++
      Node.boundJumps if_true ++
      boundJumpsOpt if_false
  | .CaseExpr ptrn expr =>
    Node.boundJumps ptrn ++
      Node.boundJumps expr
  | .MatchExpr arg cases =>
    Node.boundJumps arg ++
      boundJumpsList cases
  | .WhileExpr _ (some cond) _ _ body =>
    Node.boundJumps cond ++
      Node.boundJumps body
  | .WhileExpr _ none ptrn expr body =>
    boundJumpsOpt ptrn ++
      boundJumpsOpt expr ++
      Node.boundJumps body
  | .ForExpr _ callee loop_body_attrs loop_body arg =>
    Node.boundJumps callee ++
      boundJumpsAttrs loop_body_attrs ++
      FnExpr.boundJumps loop_body ++
      Node.boundJumps arg
  | .BreakExpr _ loop => [.loop loop]
  | .ContinueExpr _ loop => [.loop loop]
  | .ReturnExpr _ fn => [.fn fn]
  | .FilterExpr filter expr =>
    Node.boundJumps filter ++
      Node.boundJumps expr
  | .CastExpr expr type =>
    Node.boundJumps expr ++
      Node.boundJumps type
  | .ImplicitCastExpr => []
  | .AsmExpr ins outs =>
    boundJumpsList ins ++
      boundJumpsList outs
  | .ErrorExpr => []
  | .TypedPtrn ptrn type =>
    boundJumpsOpt ptrn ++
      Node.boundJumps type
  | .IdPtrn decl sub_ptrn =>
    Node.boundJumps decl ++
      boundJumpsOpt sub_ptrn
  | .LiteralPtrn => []
  | .FieldPtrn ptrn =>
    boundJumpsOpt ptrn
  | .RecordPtrn path fields =>
    Node.boundJumps path ++
      boundJumpsList fields
  | .CtorPtrn path arg =>
    Node.boundJumps path ++
      boundJumpsOpt arg
  | .TuplePtrn args =>
    boundJumpsList args
  | .ArrayPtrn elems =>
    boundJumpsList elems
  | .ErrorPtrn => []
  | .TypeParam _ => []
  | .TypeParamList params =>
    boundJumpsList params
  | .PtrnDecl _ => []
  | .LetDecl init ptrn =>
    boundJumpsOpt init ++
      Node.boundJumps ptrn
  | .StaticDecl _ type init =>
    boundJumpsOpt type ++
      boundJumpsOpt init
  | .FnDecl _ type_params fn_attrs (.mk addr filter param ret_type (some body)) =>
    boundJumpsOpt type_params ++
      boundJumpsAttrs fn_attrs ++
      FnExpr.boundJumps (.mk addr filter param ret_type (some body))
  | .FnDecl _ type_params _ (.mk _ _ param ret_type none) =>
    boundJumpsOpt type_params ++
      boundJumpsOpt param ++
      boundJumpsOpt ret_type
  | .FieldDecl type init =>
    Node.boundJumps type ++
      boundJumpsOpt init
  | .StructDecl _ type_params fields =>
    boundJumpsOpt type_params ++
      boundJumpsList fields
  | .OptionDecl _ (some param) _ =>
    Node.boundJumps param
  | .OptionDecl _ none fields =>
    boundJumpsList fields
  | .EnumDecl _ type_params options =>
    boundJumpsOpt type_params ++
      boundJumpsList options
  | .TypeDecl _ type_params aliased_type =>
    boundJumpsOpt type_params ++
      Node.boundJumps aliased_type
  | .ModDecl _ decls =>
    boundJumpsList decls
  | .ErrorDecl => []

/-- The stored targets in the type arguments of the elements of a path. -/
def boundJumpsElems : List PathElem → List Jump
  | [] => []
  | .mk _ args :: elems =>
    boundJumpsList args ++
      boundJumpsElems elems

/-- The stored targets in the parts of a function expression. -/
def FnExpr.boundJumps : FnExpr → List Jump
  | .mk _ filter param ret_type body =>
    boundJumpsOpt param ++
      boundJumpsOpt ret_type ++
      boundJumpsOpt filter ++
      boundJumpsOpt body

/-- The stored targets in the attributes of a node (the attributes of an
attribute node are not reached). -/
def boundJumpsAttrs : Option Node → List Jump
  | none => []
  | some (.mk _ form) =>
    Form.boundJumps form

/-- The stored targets in a node: in its attributes, then in its object. -/
def Node.boundJumps : Node → List Jump
  | .mk attrs form =>
    boundJumpsAttrs attrs ++
      Form.boundJumps form

/-- The stored targets in the nodes of a list. -/
def boundJumpsList : List Node → List Jump
  | [] => []
  | node :: nodes =>
    Node.boundJumps node ++
      boundJumpsList nodes

/-- The stored targets in a child that may be absent. -/
def boundJumpsOpt : Option Node → List Jump
  | none => []
  | some node =>
    Node.boundJumps node

end

mutual

/-- Second definition, following the specification (section 4.2, While/For,
Break/Continue, Return, Function literal): the targets that the `break`, `continue`
and `return` expressions reached in an object must get, `in_loop` being the innermost
loop whose body encloses the object and `in_fn` the innermost function expression,
other than the body of a `for` loop, whose body encloses it. -/
def Form.enclosingJumps : Form → Option Nat → Option Nat → List Jump
  | .Path elems _, in_loop, in_fn =>
    enclosingJumpsElems elems in_loop in_fn
  | .Filter expr, in_loop, in_fn =>
    enclosingJumpsOpt expr in_loop in_fn
  | .Attr, _, _ => []
  | .PathAttr path, in_loop, in_fn =>
    Node.enclosingJumps path in_loop in_fn
  | .NamedAttr args, in_loop, in_fn =>
    enclosingJumpsList args in_loop in_fn
  | .PrimType, _, _ => []
  | .TupleType args, in_loop, in_fn =>
    enclosingJumpsList args in_loop in_fn
  | .ArrayType elem, in_loop, in_fn =>
    Node.enclosingJumps elem in_loop in_fn
  | .FnType from_ to_, in_loop, in_fn =>
    Node.enclosingJumps from_ in_loop in_fn ++
      enclosingJumpsOpt to_ in_loop in_fn
  | .PtrType pointee, in_loop, in_fn =>
    Node.enclosingJumps pointee in_loop in_fn
  | .TypeApp path, in_loop, in_fn =>
    Node.enclosingJumps path in_loop in_fn
  | .ErrorType, _, _ => []
  | .DeclStmt decl, in_loop, in_fn =>
    Node.enclosingJumps decl in_loop in_fn
  | .ExprStmt expr, in_loop, in_fn =>
    Node.enclosingJumps expr in_loop in_fn
  | .TypedExpr expr type, in_loop, in_fn =>
    Node.enclosingJumps expr in_loop in_fn ++
      Node.enclosingJumps type in_loop in_fn
  | .PathExpr path, in_loop, in_fn =>
    Node.enclosingJumps path in_loop in_fn
  | .LiteralExpr, _, _ => []
  | .FieldExpr expr, in_loop, in_fn =>
    Node.enclosingJumps expr in_loop in_fn
  | .RecordExpr (some expr) _ fields, in_loop, in_fn =>
    Node.enclosingJumps expr in_loop in_fn ++
      enclosingJumpsList fields in_loop in_fn
  | .RecordExpr none type fields, in_loop, in_fn =>
    enclosingJumpsOpt type in_loop in_fn ++
      enclosingJumpsList fields in_loop in_fn
  | .TupleExpr args, in_loop, in_fn =>
    enclosingJumpsList args in_loop in_fn
  | .ArrayExpr elems, in_loop, in_fn =>
    enclosingJumpsList elems in_loop in_fn
  | .RepeatArrayExpr elem, in_loop, in_fn =>
    Node.enclosingJumps elem in_loop in_fn
  | .FnExpr fn, in_loop, in_fn =>
    FnExpr.enclosingJumps fn false in_loop in_fn
  | .BlockExpr stmts, in_loop, in_fn =>
    enclosingJumpsList stmts in_loop in_fn
  | .CallExpr callee arg, in_loop, in_fn =>
    Node.enclosingJumps callee in_loop in_fn ++
      Node.enclosingJumps arg in_loop in_fn
  | .UnaryExpr arg, in_loop, in_fn =>
    Node.enclosingJumps arg in_loop in_fn
  | .BinaryExpr left right, in_loop, in_fn =>
    Node.enclosingJumps left in_loop in_fn ++
      Node.enclosingJumps right in_loop in_fn
  | .ProjExpr expr, in_loop, in_fn =>
    Node.enclosingJumps expr in_loop in_fn
  | .IfExpr (some cond) _ _ if_true if_false, in_loop, in_fn =>
    Node.enclosingJumps cond in_loop in_fn ++
      Node.enclosingJumps if_true in_loop in_fn ++
      enclosingJumpsOpt if_false in_loop in_fn
  | .IfExpr none ptrn expr if_true if_false, in_loop, in_fn =>
    enclosingJumpsOpt ptrn in_loop in_fn ++
      enclosingJumpsOpt expr in_loop in_fn ++
      Node.enclosingJumps if_true in_loop in_fn ++
      enclosingJumpsOpt if_false in_loop in_fn
  | .CaseExpr ptrn expr, in_loop, in_fn =>
    Node.enclosingJumps ptrn in_loop in_fn ++
      Node.enclosingJumps expr in_loop in_fn
  | .MatchExpr arg cases, in_loop, in_fn =>
    Node.enclosingJumps arg in_loop in_fn ++
      enclosingJumpsList cases in_loop in_fn
  | .WhileExpr addr (some cond) _ _ body, in_loop, in_fn =>
    Node.enclosingJumps cond in_loop in_fn ++
      Node.enclosingJumps body (some addr) in_fn
  | .WhileExpr addr none ptrn expr body, in_loop, in_fn =>
    enclosingJumpsOpt ptrn in_loop in_fn ++
      enclosingJumpsOpt expr in_loop in_fn ++
      Node.enclosingJumps body (some addr) in_fn
  | .ForExpr addr callee loop_body_attrs loop_body arg, in_loop, in_fn =>
    Node.enclosingJumps callee in_loop in_fn ++
      enclosingJumpsAttrs loop_body_attrs (some addr) in_fn ++
      FnExpr.enclosingJumps loop_body true (some addr) in_fn ++
      Node.enclosingJumps arg in_loop in_fn
  | .BreakExpr _ _, in_loop, _ => [.loop in_loop]
  | .ContinueExpr _ _, in_loop, _ => [.loop in_loop]
  | .ReturnExpr _ _, _, in_fn => [.fn in_fn]
  | .FilterExpr filter expr, in_loop, in_fn =>
    Node.enclosingJumps filter in_loop in_fn ++
      Node.enclosingJumps expr in_loop in_fn
  | .CastExpr expr type, in_loop, in_fn =>
    Node.enclosingJumps expr in_loop in_fn ++
      Node.enclosingJumps type in_loop in_fn
  | .ImplicitCastExpr, _, _ => []
  | .AsmExpr ins outs, in_loop, in_fn =>
    enclosingJumpsList ins in_loop in_fn ++
      enclosingJumpsList outs in_loop in_fn
  | .ErrorExpr, _, _ => []
  | .TypedPtrn ptrn type, in_loop, in_fn =>
    enclosingJumpsOpt ptrn in_loop in_fn ++
      Node.enclosingJumps type in_loop in_fn
  | .IdPtrn decl sub_ptrn, in_loop, in_fn =>
    Node.enclosingJumps decl in_loop in_fn ++
      enclosingJumpsOpt sub_ptrn in_loop in_fn
  | .LiteralPtrn, _, _ => []
  | .FieldPtrn ptrn, in_loop, in_fn =>
    enclosingJumpsOpt ptrn in_loop in_fn
  | .RecordPtrn path fields, in_loop, in_fn =>
    Node.enclosingJumps path in_loop in_fn ++
      enclosingJumpsList fields in_loop in_fn
  | .CtorPtrn path arg, in_loop, in_fn =>
    Node.enclosingJumps path in_loop in_fn ++
      enclosingJumpsOpt arg in_loop in_fn
  | .TuplePtrn args, in_loop, in_fn =>
    enclosingJumpsList args in_loop in_fn
  | .ArrayPtrn elems, in_loop, in_fn =>
    enclosingJumpsList elems in_loop in_fn
  | .ErrorPtrn, _, _ => []
  | .TypeParam _, _, _ => []
  | .TypeParamList params, in_loop, in_fn =>
    enclosingJumpsList params in_loop in_fn
  | .PtrnDecl _, _, _ => []
  | .LetDecl init ptrn, in_loop, in_fn =>
    enclosingJumpsOpt init in_loop in_fn ++
      Node.enclosingJumps ptrn in_loop in_fn
  | .StaticDecl _ type init, in_loop, in_fn =>
    enclosingJumpsOpt type in_loop in_fn ++
      enclosingJumpsOpt init in_loop in_fn
  | .FnDecl _ type_params fn_attrs (.mk addr filter param ret_type (some body)), in_loop, in_fn =>
    enclosingJumpsOpt type_params in_loop in_fn ++
      enclosingJumpsAttrs fn_attrs in_loop in_fn ++
      FnExpr.enclosingJumps (.mk addr filter param ret_type (some body)) false in_loop in_fn
  | .FnDecl _ type_params _ (.mk _ _ param ret_type none), in_loop, in_fn =>
    enclosingJumpsOpt type_params in_loop in_fn ++
      enclosingJumpsOpt param in_loop in_fn ++
      enclosingJumpsOpt ret_type in_loop in_fn
  | .FieldDecl type init, in_loop, in_fn =>
    Node.enclosingJumps type in_loop in_fn ++
      enclosingJumpsOpt init in_loop in_fn
  | .StructDecl _ type_params fields, in_loop, in_fn =>
    enclosingJumpsOpt type_params in_loop in_fn ++
      enclosingJumpsList fields in_loop in_fn
  | .OptionDecl _ (some param) _, in_loop, in_fn =>
    Node.enclosingJumps param in_loop in_fn
  | .OptionDecl _ none fields, in_loop, in_fn =>
    enclosingJumpsList fields in_loop in_fn
  | .EnumDecl _ type_params options, in_loop, in_fn =>
    enclosingJumpsOpt type_params in_loop in_fn ++
      enclosingJumpsList options in_loop in_fn
  | .TypeDecl _ type_params aliased_type, in_loop, in_fn =>
    enclosingJumpsOpt type_params in_loop in_fn ++
      Node.enclosingJumps aliased_type in_loop in_fn
  | .ModDecl _ decls, in_loop, in_fn =>
    enclosingJumpsList decls in_loop in_fn
  | .ErrorDecl, _, _ => []

/-- The expected targets in the type arguments of the elements of a path. -/
def enclosingJumpsElems : List PathElem → Option Nat → Option Nat → List Jump
  | [], _, _ => []
  | .mk _ args :: elems, in_loop, in_fn =>
    enclosingJumpsList args in_loop in_fn ++
      enclosingJumpsElems elems in_loop in_fn

/-- The expected targets in a function expression: its body is enclosed by the
expression itself unless the expression is the body of a `for` loop; the parameter,
the return type and the filter are outside the body. -/
def FnExpr.enclosingJumps : FnExpr → Bool → Option Nat → Option Nat → List Jump
  | .mk addr filter param ret_type body, in_for_loop, in_loop, in_fn =>
    enclosingJumpsOpt param in_loop in_fn ++
      enclosingJumpsOpt ret_type in_loop in_fn ++
      enclosingJumpsOpt filter in_loop in_fn ++
      enclosingJumpsOpt body in_loop (if in_for_loop then in_fn else some addr)

/-- The expected targets in the attributes of a node. -/
def enclosingJumpsAttrs : Option Node → Option Nat → Option Nat → List Jump
  | none, _, _ => []
  | some (.mk _ form), in_loop, in_fn =>
    Form.enclosingJumps form in_loop in_fn

/-- The expected targets in a node. -/
def Node.enclosingJumps : Node → Option Nat → Option Nat → List Jump
  | .mk attrs form, in_loop, in_fn =>
    enclosingJumpsAttrs attrs in_loop in_fn ++
      Form.enclosingJumps form in_loop in_fn

/-- The expected targets in the nodes of a list. -/
def enclosingJumpsList : List Node → Option Nat → Option Nat → List Jump
  | [], _, _ => []
  | node :: nodes, in_loop, in_fn =>
    Node.enclosingJumps node in_loop in_fn ++
      enclosingJumpsList nodes in_loop in_fn

/-- The expected targets in a child that may be absent. -/
def enclosingJumpsOpt : Option Node → Option Nat → Option Nat → List Jump
  | none, _, _ => []
  | some node, in_loop, in_fn =>
    Node.enclosingJumps node in_loop in_fn

end

/-- Number of errors written with the format string `fmt`. -/
def countFmt (fmt : String) (ds : List Diag) : Nat :=
  ds.countP (fun d => d.severity == .error && d.fmt == fmt)

/-- The diagnostics that `st'` holds after those of `st`: what has been written on the
way from `st` to `st'`. -/
def NameBinder.newDiags (st st' : NameBinder) : List Diag :=
  st'.diags.drop st.diags.length

/-- Format string of the error of `BreakExpr::bind` and `ContinueExpr::bind`. -/
def outsideLoopFmt : String := "use of '{}' outside of a loop"

/-- Format string of the error of `ReturnExpr::bind`. -/
def outsideFnFmt : String := "use of '{}' outside of a function"

/-- What a step of the binder from `st` to `st'` does to the log: it only adds
diagnostics, the error counter grows by the number of errors added, and `loops`
(`fns`) of the errors added are uses of `break` or `continue` outside of a loop (of
`return` outside of a function). -/
def NameBinder.Logged (st st' : NameBinder) (loops fns : Nat) : Prop :=
  st'.diags = st.diags ++ st.newDiags st' ∧
  st'.errors = st.errors + countErrors (st.newDiags st') ∧
  countFmt outsideLoopFmt (st.newDiags st') = loops ∧
  countFmt outsideFnFmt (st.newDiags st') = fns

mutual

/-- The `symbol` member of every `Path` that occurs anywhere in an object: in all its
children, whether `bind` visits them or not. -/
def Form.paths : Form → List (Option Symbol)
  | .Path elems symbol => symbol :: pathsElems elems
  | .Filter expr => pathsOpt expr
  | .Attr => []
  | .PathAttr path => Node.paths path
  | .NamedAttr args => pathsList args
  | .PrimType => []
  | .TupleType args => pathsList args
  | .ArrayType elem => Node.paths elem
  | .FnType from_ to_ => Node.paths from_ ++ pathsOpt to_
  | .PtrType pointee => Node.paths pointee
  | .TypeApp path => Node.paths path
  | .ErrorType => []
  | .DeclStmt decl => Node.paths decl
  | .ExprStmt expr => Node.paths expr
  | .TypedExpr expr type => Node.paths expr ++ Node.paths type
  | .PathExpr path => Node.paths path
  | .LiteralExpr => []
  | .FieldExpr expr => Node.paths expr
  | .RecordExpr expr type fields => pathsOpt expr ++ pathsOpt type ++ pathsList fields
  | .TupleExpr args => pathsList args
  | .ArrayExpr elems => pathsList elems
  | .RepeatArrayExpr elem => Node.paths elem
  | .FnExpr fn => FnExpr.paths fn
  | .BlockExpr stmts => pathsList stmts
  | .CallExpr callee arg => Node.paths callee ++ Node.paths arg
  | .UnaryExpr arg => Node.paths arg
  | .BinaryExpr left right => Node.paths left ++ Node.paths right
  | .ProjExpr expr => Node.paths expr
  | .IfExpr cond ptrn expr if_true if_false => pathsOpt cond ++ pathsOpt ptrn ++ pathsOpt expr ++ Node.paths if_true ++ pathsOpt if_false
  | .CaseExpr ptrn expr => Node.paths ptrn ++ Node.paths expr
  | .MatchExpr arg cases => Node.paths arg ++ pathsList cases
  | .WhileExpr _ cond ptrn expr body => pathsOpt cond ++ pathsOpt ptrn ++ pathsOpt expr ++ Node.paths body
  | .ForExpr _ callee loop_body_attrs loop_body arg => Node.paths callee ++ pathsOpt loop_body_attrs ++ FnExpr.paths loop_body ++ Node.paths arg
  | .BreakExpr _ _ => []
  | .ContinueExpr _ _ => []
  | .ReturnExpr _ _ => []
  | .FilterExpr filter expr => Node.paths filter ++ Node.paths expr
  | .CastExpr expr type => Node.paths expr ++ Node.paths type
  | .ImplicitCastExpr => []
  | .AsmExpr ins outs => pathsList ins ++ pathsList outs
  | .ErrorExpr => []
  | .TypedPtrn ptrn type => pathsOpt ptrn ++ Node.paths type
  | .IdPtrn decl sub_ptrn => Node.paths decl ++ pathsOpt sub_ptrn
  | .LiteralPtrn => []
  | .FieldPtrn ptrn => pathsOpt ptrn
  | .RecordPtrn path fields => Node.paths path ++ pathsList fields
  | .CtorPtrn path arg => Node.paths path ++ pathsOpt arg
  | .TuplePtrn args => pathsList args
  | .ArrayPtrn elems => pathsList elems
  | .ErrorPtrn => []
  | .TypeParam _ => []
  | .TypeParamList params => pathsList params
  | .PtrnDecl _ => []
  | .LetDecl init ptrn => pathsOpt init ++ Node.paths ptrn
  | .StaticDecl _ type init => pathsOpt type ++ pathsOpt init
  | .FnDecl _ type_params fn_attrs fn => pathsOpt type_params ++ pathsOpt fn_attrs ++ FnExpr.paths fn
  | .FieldDecl type init => Node.paths type ++ pathsOpt init
  | .StructDecl _ type_params fields => pathsOpt type_params ++ pathsList fields
  | .OptionDecl _ param fields => pathsOpt param ++ pathsList fields
  | .EnumDecl _ type_params options => pathsOpt type_params ++ pathsList options
  | .TypeDecl _ type_params aliased_type => pathsOpt type_params ++ Node.paths aliased_type
  | .ModDecl _ decls => pathsList decls
  | .ErrorDecl => []

/-- The `symbol` members of the paths in the type arguments of the elements of a
path. -/
def pathsElems : List PathElem → List (Option Symbol)
  | [] => []
  | .mk _ args :: elems => pathsList args ++ pathsElems elems

/-- The `symbol` members of the paths in a function expression. -/
def FnExpr.paths : FnExpr → List (Option Symbol)
  | .mk _ filter param ret_type body =>
    pathsOpt filter ++ pathsOpt param ++ pathsOpt ret_type ++ pathsOpt body

/-- The `symbol` members of the paths in a node: in its attributes and in its object. -/
def Node.paths : Node → List (Option Symbol)
  | .mk attrs form => pathsOpt attrs ++ Form.paths form

/-- The `symbol` members of the paths in the nodes of a list. -/
def pathsList : List Node → List (Option Symbol)
  | [] => []
  | node :: nodes => Node.paths node ++ pathsList nodes

/-- The `symbol` members of the paths in a child that may be absent. -/
def pathsOpt : Option Node → List (Option Symbol)
  | none => []
  | some node => Node.paths node

end

/-! ## The type world, as `check.cpp` uses it

`types.h` and the library that interns the types are not among the sources. A type
is a value: structural types are interned, so that equality of pointers is equality
of values, and a nominal type is identified by its declaration. -/

/-- A `const artic::Type*`, with the constructors of the world that `check.cpp` calls.
A nominal type carries the address of its declaration; a struct or enum type also
carries its `meta`, the names of its members, which it is given when it is created.
`tuple` is the tuple of type arguments of an application and `param` the parameter
of a nominal type. -/
inductive Ty where
  | type_sint (width : Nat)
  | type_uint (width : Nat)
  | type_real (width : Nat)
  | type_bool
  | sigma (ops : List Ty)
  | variadic_unsafe (body : Ty)
  | pi (domain codomain : Ty)
  | type_ptr (pointee : Ty)
  | type_struct (decl : Nat) (meta : List String)
  | type_enum (decl : Nat) (meta : List String)
  | type_forall (decl : Nat)
  | app (callee arg : Ty)
  | tuple (ops : List Ty)
  | param (nominal : Nat)
  | type_error
  | type_no_ret

mutual

/-- Equality of two types, as a test. -/
def Ty.beq : Ty → Ty → Bool
  | .type_sint a, t => match t with | .type_sint b => a == b | _ => false
  | .type_uint a, t => match t with | .type_uint b => a == b | _ => false
  | .type_real a, t => match t with | .type_real b => a == b | _ => false
  | .type_bool, t => match t with | .type_bool => true | _ => false
  | .sigma a, t => match t with | .sigma b => Ty.beqList a b | _ => false
  | Ty.variadic_unsafe a, t => match t with | Ty.variadic_unsafe b => Ty.beq a b | _ => false
  | .pi a c, t => match t with | .pi b d => Ty.beq a b && Ty.beq c d | _ => false
  | .type_ptr a, t => match t with | .type_ptr b => Ty.beq a b | _ => false
  | .type_struct a m, t => match t with | .type_struct b n => a == b && m == n | _ => false
  | .type_enum a m, t => match t with | .type_enum b n => a == b && m == n | _ => false
  | .type_forall a, t => match t with | .type_forall b => a == b | _ => false
  | .app a c, t => match t with | .app b d => Ty.beq a b && Ty.beq c d | _ => false
  | .tuple a, t => match t with | .tuple b => Ty.beqList a b | _ => false
  | .param a, t => match t with | .param b => a == b | _ => false
  | .type_error, t => match t with | .type_error => true | _ => false
  | .type_no_ret, t => match t with | .type_no_ret => true | _ => false

/-- Equality of two lists of types, as a test. -/
def Ty.beqList : List Ty → List Ty → Bool
  | [], ts => match ts with | [] => true | _ => false
  | a :: as, ts => match ts with | b :: bs => Ty.beq a b && Ty.beqList as bs | _ => false

end

/-- The test `==` on types is `Ty.beq`. -/
instance : BEq Ty := ⟨Ty.beq⟩

mutual

/-- Modelled from the spec: the text that stands for a type in a diagnostic. The
printer of types is not among the sources; section 8 names `<error>` and `<no-ret>`. -/
def Ty.format : Ty → String
  | .type_sint w => "i" ++ toString w
  | .type_uint w => "u" ++ toString w
  | .type_real w => "f" ++ toString w
  | .type_bool => "bool"
  | .sigma ops => "(" ++ Ty.formatList ops ++ ")"
  | Ty.variadic_unsafe body => "[" ++ Ty.format body ++ "]"
  | .pi domain codomain => "fn " ++ Ty.format domain ++ " -> " ++ Ty.format codomain
  | .type_ptr pointee => "&" ++ Ty.format pointee
  | .type_struct decl _ => "struct#" ++ toString decl
  | .type_enum decl _ => "enum#" ++ toString decl
  | .type_forall decl => "forall#" ++ toString decl
  | .app callee arg => Ty.format callee ++ Ty.format arg
  | .tuple ops => "[" ++ Ty.formatList ops ++ "]"
  | .param nominal => "param#" ++ toString nominal
  | .type_error => "<error>"
  | .type_no_ret => "<no-ret>"

/-- Modelled from the spec: the texts of the types of a list, separated by commas. -/
def Ty.formatList : List Ty → String
  | [] => ""
  | [t] => Ty.format t
  | t :: ts => Ty.format t ++ ", " ++ Ty.formatList ts

end

/-- Modelled from the spec: `is_no_ret_type` of `types.h`, which is not among the
sources (section 3.4, `NoRetType`): the type is the type `no_ret`. -/
def is_no_ret_type : Ty → Bool
  | .type_no_ret => true
  | _ => false

/-- Modelled from the spec: `is_sint_type` of `types.h`, which is not among the sources
(section 4.3, `int_signed(w)`): the type is a signed integer type. -/
def is_sint_type : Ty → Bool
  | .type_sint _ => true
  | _ => false

/-- Modelled from the spec: `is_uint_type` of `types.h`, which is not among the sources
(section 4.3, `int_unsigned(w)`): the type is an unsigned integer type. -/
def is_uint_type : Ty → Bool
  | .type_uint _ => true
  | _ => false

/-- Modelled from the spec: `is_real_type` of `types.h`, which is not among the sources
(section 4.3, `real(w)`): the type is a floating-point type. -/
def is_real_type : Ty → Bool
  | .type_real _ => true
  | _ => false

/-- Modelled from the spec: `is_struct_type` of `types.h`, which is not among the
sources (section 4.3, nominal `struct(decl)`): the type is a struct type. -/
def is_struct_type : Ty → Bool
  | .type_struct _ _ => true
  | _ => false

mutual

/-- Modelled from the spec: `contains(type, sub)` of `types.h`, which is not among the
sources (section 4.3, "structural search"): `sub` is the type or occurs in one of
its operands. The operands of a nominal type are not part of the value and are not
searched. -/
def contains : Ty → Ty → Bool
  | .sigma ops, sub => Ty.sigma ops == sub || containsList ops sub
  | Ty.variadic_unsafe body, sub => Ty.variadic_unsafe body == sub || contains body sub
  | .pi domain codomain, sub =>
    Ty.pi domain codomain == sub || contains domain sub || contains codomain sub
  | .type_ptr pointee, sub => Ty.type_ptr pointee == sub || contains pointee sub
  | .app callee arg, sub => Ty.app callee arg == sub || contains callee sub || contains arg sub
  | .tuple ops, sub => Ty.tuple ops == sub || containsList ops sub
  | type, sub => type == sub

/-- Modelled from the spec: `sub` occurs in one of the types of a list. -/
def containsList : List Ty → Ty → Bool
  | [], _ => false
  | t :: ts, sub => contains t sub || containsList ts sub

end

/-- The operations on types that `check.cpp` takes from elsewhere and that are not
modelled: `join` of `types.h` (section 4.3, the least upper bound of two types, or
none), `rewrite` of the library (section 4.3, structural substitution
`rewrite(expr, from, to)`), and `kind_star`, the test `type->type() ==
world().kind_star()` on the kind that the world gives a type: it fails for a type
constructor, a nominal type that takes type arguments. -/
structure World where
  join : Ty → Ty → Option Ty
  rewrite : Ty → Ty → Ty → Ty
  kind_star : Ty → Bool

/-- Modelled from the spec: a literal, whose class is declared in a header that is not
among the sources (section 4.4, "Literals": integer, float, bool, char, string). A
floating-point value is kept as its bits. -/
inductive Literal where
  | integer (value : Nat)
  | double (bits : Nat)
  | bool (value : Bool)
  | char (value : Nat)
  | string (value : String)
  deriving DecidableEq, Repr

/-- Method `Literal::is_integer`. -/
def Literal.is_integer : Literal → Bool
  | .integer _ => true
  | _ => false

/-- Method `Literal::is_double`. -/
def Literal.is_double : Literal → Bool
  | .double _ => true
  | _ => false

/-- Method `Literal::is_bool`. -/
def Literal.is_bool : Literal → Bool
  | .bool _ => true
  | _ => false

/-- Method `Literal::is_char`. -/
def Literal.is_char : Literal → Bool
  | .char _ => true
  | _ => false

/-- Method `Literal::is_string`. -/
def Literal.is_string : Literal → Bool
  | .string _ => true
  | _ => false

/-- The loops held by the `break` and `continue` expressions of a list of targets. -/
def loopTargets : List Jump → List (Option Nat)
  | [] => []
  | .loop target :: js => target :: loopTargets js
  | .fn _ :: js => loopTargets js

/-- The functions held by the `return` expressions of a list of targets. -/
def fnTargets : List Jump → List (Option Nat)
  | [] => []
  | .fn target :: js => target :: fnTargets js
  | .loop _ :: js => fnTargets js

/-- A binder that has no frame, no current function or loop, and has reported nothing. -/
def emptyBinder : NameBinder := ⟨[], none, none, false, 0, 0, []⟩

/-- A location used in examples. -/
def exLoc : Loc := ⟨0, ⟨1, 1⟩, ⟨1, 2⟩⟩

/-- A node without attributes. -/
def Node.plain (form : Form) : Node := .mk none form

/-- The expression made of the path `name`, not bound yet. -/
def pathExpr (name : String) : Node :=
  .plain (.PathExpr (.plain (.Path [.mk ⟨name, exLoc⟩ []] none)))

/-- The module `fn @(c) f();`: a function declaration without body whose filter is the
path `c`. -/
def filterOnlyModule : Node :=
  .plain (.ModDecl ⟨0, ⟨"", exLoc⟩, exLoc, true⟩
    [.plain (.FnDecl ⟨1, ⟨"f", exLoc⟩, exLoc, true⟩ none none
      (.mk 2 (some (.plain (.Filter (some (pathExpr "c")))))
        (some (.plain (.TuplePtrn []))) none none))])

/-- The loop `while break { break }` at address 7, outside of any loop. -/
def whileBreak : Node :=
  .plain (.WhileExpr 7 (some (.plain (.BreakExpr exLoc none))) none none
    (.plain (.BlockExpr [.plain (.ExprStmt (.plain (.BreakExpr exLoc none)))])))

/-- The function `|| { return; for _ in r { return } }` at address 3, the body of the
loop being the function expression at address 5, after a `return` outside of any
function: the tuple `(return, || ...)`. -/
def returnInFor : Node :=
  .plain (.TupleExpr [
    .plain (.ReturnExpr exLoc none),
    .plain (.FnExpr (.mk 3 none (some (.plain (.TuplePtrn []))) none
      (some (.plain (.BlockExpr [
        .plain (.ExprStmt (.plain (.ReturnExpr exLoc none))),
        .plain (.ExprStmt (.plain (.ForExpr 4 (.plain .LiteralExpr) none
          (.mk 5 none (some (.plain (.TuplePtrn []))) none
            (some (.plain (.BlockExpr
              [.plain (.ExprStmt (.plain (.ReturnExpr exLoc none)))]))))
          (.plain .LiteralExpr))))])))))])

/-- Class `TypeChecker`, with what its run changes outside of it. `error_count` and
`diags` are the state of the `Logger` base: the counter and what has been written,
oldest first. `decls_` is the set of the declarations whose inference is running, by
address. `types` records the assignments to the `type` slots of the nodes, by node
address, the latest first: the slot of a node holds the first entry for its address.
`nominals` holds the operands of the nominal types of the world, by declaration.
`muts` records the assignments to the member `mut` of the paths, by path address, the
latest first. `overflow` is not a member of the class: it tells that the calls of the
checker have nested deeper than the depth to which the nodes of a program were
unfolded into objects (see `Program.obj`), so that what was computed is not what the
checker computes. -/
structure TypeChecker where
  error_count : Nat
  diags : List Diag
  decls_ : List Nat
  types : List (Nat × Ty)
  nominals : List (Nat × List Ty)
  muts : List (Nat × Bool)
  overflow : Bool

/-- Modelled from the spec: the reporting methods `error`, `warn` and `note` of
`Logger` (`log.h`, not among the sources; section 6.3 and section 7, "pass success is
`errors == 0`; warnings do not fail the pass"), called for a diagnostic of the
corresponding severity: the diagnostic is written, and counted if it is an error. -/
def TypeChecker.report (tc : TypeChecker) (d : Diag) : TypeChecker :=
  match d.severity with
  | .error => { tc with error_count := tc.error_count + 1, diags := tc.diags ++ [d] }
  | _ => { tc with diags := tc.diags ++ [d] }

/-- The module body `static y = x;`: one `StaticDecl` named by `y`, without type, whose
initializer is the path `x`. -/
def staticInit (y : NamedDecl) (x : Identifier) (symbol : Option Symbol) : Node :=
  .mk none (.StaticDecl y none
    (some (.mk none (.PathExpr (.mk none (.Path [.mk x []] symbol))))))

/-- A frame after some steps of the binder, compared with the frame `f` it was: every
name that `f` declares is still declared, by a symbol whose declarations start with
those it had. -/
def SymbolTable.Extends (f g : SymbolTable) : Prop :=
  ∀ name sym, f.find name = some sym →
    ∃ sym1 more, g.find name = some sym1 ∧ sym1.decls = sym.decls ++ more

/-- The stack of `st1` is the stack of `st` with `k` more frames pushed, the frames
of `st` having been extended only. -/
def NameBinder.Grown (st : NameBinder) (k : Nat) (st1 : NameBinder) : Prop :=
  List.Forall₂ SymbolTable.Extends st.scopes_ (st1.scopes_.drop k)

/-- The declaration that `bind_head` inserts for a declaration node, when it inserts
one: the heads of `StaticDecl`, `FnDecl`, `StructDecl`, `EnumDecl`, `TypeDecl`, and of
a `ModDecl` with a name. -/
def headOf (decl : Node) : Option DeclPtr :=
  match decl.form with
  | .StaticDecl d _ _ => some ⟨.StaticDecl, d⟩
  | .FnDecl d _ _ _ => some ⟨.FnDecl, d⟩
  | .StructDecl d _ _ => some ⟨.StructDecl, d⟩
  | .EnumDecl d _ _ => some ⟨.EnumDecl, d⟩
  | .TypeDecl d _ _ => some ⟨.TypeDecl, d⟩
  | .ModDecl d _ => if d.id.name != "" then some ⟨.ModDecl, d⟩ else none
  | _ => none

/-- In `st` the name of the declaration `p` resolves to a symbol that holds `p`. -/
def NameBinder.Resolves (st : NameBinder) (p : DeclPtr) : Prop :=
  ∃ sym, st.find_symbol p.decl.id.name = some sym ∧ p ∈ sym.decls

/-- The innermost frame of `st` declares the name of `p` by a symbol that holds `p`. -/
def NameBinder.Declares (st : NameBinder) (p : DeclPtr) : Prop :=
  ∃ f r sym, st.scopes_ = f :: r ∧ f.find p.decl.id.name = some sym ∧ p ∈ sym.decls

/-- The binder in which `BlockExpr::bind` binds the statement of index `i` of the block
`stmts`, entered with the binder `st`: the frame has been pushed, the heads have been
registered and the `i` statements before it have been bound. -/
def blockStateAt (stmts : List Node) (st : NameBinder) (i : Nat) : NameBinder :=
  (bindList (stmts.take i) (NameBinder.bind_stmt_heads stmts (st.push_scope false))).2

/-- The expression made of the path `x`, holding `symbol`. -/
def pathTo (x : Identifier) (symbol : Option Symbol) : Node :=
  .plain (.PathExpr (.plain (.Path [.mk x []] symbol)))

/-- The block `{ x; let x = x; x }`, the pattern of the `let` being the identifier
pattern of the declaration `d`. -/
def letBlock (x : Identifier) (d : NamedDecl) : Form :=
  .BlockExpr [
    .plain (.ExprStmt (pathTo x none)),
    .plain (.DeclStmt (.plain (.LetDecl (some (pathTo x none))
      (.plain (.IdPtrn (.plain (.PtrnDecl d)) none))))),
    .plain (.ExprStmt (pathTo x none))]

/-- The declaration of a function without parameters, whose body is the block made of
the path `callee`. -/
def fnCalling (addr : Nat) (name callee : String) : Node :=
  .plain (.DeclStmt (.plain (.FnDecl ⟨addr, ⟨name, exLoc⟩, exLoc, false⟩ none none
    (.mk (addr + 100) none (some (.plain (.TuplePtrn []))) none
      (some (.plain (.BlockExpr [.plain (.ExprStmt (pathExpr callee))])))))))

/-- The block `{ fn f() { g } fn g() { f } }`. -/
def mutualBlock : Node :=
  .plain (.BlockExpr [fnCalling 1 "f" "g", fnCalling 2 "g" "f"])

/-- A binder with two frames that both declare `x`: the innermost by the pattern at
address 2, the outer one by the function at address 1. -/
def shadowedBinder : NameBinder :=
  ⟨[⟨false, [("x", ⟨⟨[⟨.PtrnDecl, ⟨2, ⟨"x", exLoc⟩, exLoc, false⟩⟩]⟩, 1⟩)]⟩,
    ⟨true, [("x", ⟨⟨[⟨.FnDecl, ⟨1, ⟨"x", exLoc⟩, exLoc, true⟩⟩]⟩, 1⟩)]⟩],
    none, none, false, 0, 0, []⟩

/-- The lookup that `Path::bind` starts with, for a path whose first element is named
`id` and whose member `symbol` holds `symbol`: the new value of `symbol` and the
binder afterwards. -/
def pathLookup (id : Identifier) (symbol : Option Symbol) (st : NameBinder) :
    Option Symbol × NameBinder :=
  if NameBinder.startsWithUnderscore id.name then
    (symbol, st.error id.loc "identifiers beginning with '_' cannot be referenced" [])
  else
    match st.find_symbol id.name with
    | some s => (some s, { st with scopes_ := NameBinder.retainIn st.scopes_ id.name })
    | none =>
      let st1 := st.error id.loc "unknown identifier '{}'" [id.name]
      (none,
        match st1.find_similar_symbol id.name with
        | some similar =>
          match similar.decls with
          | decl :: _ => st1.note none "did you mean '{}'?" [decl.decl.id.name]
          | [] => st1
        | none => st1)

/-- The executions of the binder, as sequences of the steps that `bind.cpp` is made
of: `Run st frames st'` says that such a sequence leads from the binder `st` to the
binder `st'` and that `frames` are the frames it pops, each as it is when
`pop_scope` removes it, in order. The last rule is `ModDecl::bind`, which runs its
steps on a stack of its own and puts the stack of its caller back. -/
inductive NameBinder.Run : NameBinder → List SymbolTable → NameBinder → Prop where
  | refl (st : NameBinder) : Run st [] st
  | trans {a b c : NameBinder} {fs gs : List SymbolTable} :
    Run a fs b → Run b gs c → Run a (fs ++ gs) c
  | push_scope (st : NameBinder) (top_level : Bool) : Run st [] (st.push_scope top_level)
  | pop_scope (st : NameBinder) : Run st (st.scopes_.take 1) st.pop_scope
  | insert_symbol (st : NameBinder) (decl : DeclPtr) : Run st [] (st.insert_symbol decl)
  | error (st : NameBinder) (loc : Loc) (fmt : String) (args : List String) :
    Run st [] (st.error loc fmt args)
  | note (st : NameBinder) (loc : Option Loc) (fmt : String) (args : List String) :
    Run st [] (st.note loc fmt args)
  | retain (st : NameBinder) (name : String) :
    Run st [] { st with scopes_ := NameBinder.retainIn st.scopes_ name }
  | set_loop (st : NameBinder) (loop : Option Nat) : Run st [] { st with cur_loop_ := loop }
  | set_fn (st : NameBinder) (fn : Option Nat) : Run st [] { st with cur_fn_ := fn }
  | module {st s' : NameBinder} {fs : List SymbolTable} :
    Run { st with scopes_ := [] } fs s' → Run st fs { s' with scopes_ := st.scopes_ }

mutual

/-- The frames that `Node::bind` pops, for each class of `bind.cpp`: every frame as it is
when `pop_scope` removes it, in the order of the calls. The frame that `ModDecl::bind`
pushes is swapped away, not popped. -/
def Form.popped : Form → NameBinder → List SymbolTable
  | .Path [] symbol, st =>
    []
  | .Path (.mk id args :: rest) symbol, st =>
    poppedElems (.mk id args :: rest) (pathLookup id symbol st).2
  | .Filter expr, st =>
    poppedOpt expr st
  | .Attr, st =>
    []
  | .PathAttr path, st =>
    Node.popped path st
  | .NamedAttr args, st =>
    poppedList args st
  | .PrimType, st =>
    []
  | .TupleType args, st =>
    poppedList args st
  | .ArrayType elem, st =>
    Node.popped elem st
  | .FnType from_ to_, st =>
    let s1 : NameBinder := (NameBinder.bind from_ st).2
    Node.popped from_ st ++ poppedOpt to_ s1
  | .PtrType pointee, st =>
    Node.popped pointee st
  | .TypeApp path, st =>
    Node.popped path st
  | .ErrorType, st =>
    []
  | .DeclStmt decl, st =>
    Node.popped decl st
  | .ExprStmt expr, st =>
    Node.popped expr st
  | .TypedExpr expr type, st =>
    let s1 : NameBinder := (NameBinder.bind expr st).2
    Node.popped expr st ++ Node.popped type s1
  | .PathExpr path, st =>
    Node.popped path st
  | .LiteralExpr, st =>
    []
  | .FieldExpr expr, st =>
    Node.popped expr st
  | .RecordExpr (some expr) type fields, st =>
    let s1 : NameBinder := (NameBinder.bind expr st).2
    Node.popped expr st ++ poppedList fields s1
  | .RecordExpr none type fields, st =>
    let s1 : NameBinder := (bindOpt type st).2
    poppedOpt type st ++ poppedList fields s1
  | .TupleExpr args, st =>
    poppedList args st
  | .ArrayExpr elems, st =>
    poppedList elems st
  | .RepeatArrayExpr elem, st =>
    Node.popped elem st
  | .FnExpr fn, st =>
    FnExpr.popped fn false st
  | .BlockExpr stmts, st =>
    let s1 : NameBinder := st.push_scope false
    let s2 : NameBinder := NameBinder.bind_stmt_heads stmts s1
    let s3 : NameBinder := (bindList stmts s2).2
    poppedList stmts s2 ++ s3.scopes_.take 1
  | .CallExpr callee arg, st =>
    let s1 : NameBinder := (NameBinder.bind callee st).2
    Node.popped callee st ++ Node.popped arg s1
  | .UnaryExpr arg, st =>
    Node.popped arg st
  | .BinaryExpr left right, st =>
    let s1 : NameBinder := (NameBinder.bind left st).2
    Node.popped left st ++ Node.popped right s1
  | .ProjExpr expr, st =>
    Node.popped expr st
  | .IfExpr (some cond) ptrn expr if_true if_false, st =>
    let s1 : NameBinder := st.push_scope false
    let s2 : NameBinder := (NameBinder.bind cond s1).2
    let s3 : NameBinder := (NameBinder.bind if_true s2).2
    let s4 : NameBinder := s3.pop_scope
    Node.popped cond s1 ++
      Node.popped if_true s2 ++
      s3.scopes_.take 1 ++
      poppedOpt if_false s4
  | .IfExpr none ptrn expr if_true if_false, st =>
    let s1 : NameBinder := st.push_scope false
    let s2 : NameBinder := (bindOpt ptrn s1).2
    let s3 : NameBinder := (bindOpt expr s2).2
    let s4 : NameBinder := (NameBinder.bind if_true s3).2
    let s5 : NameBinder := s4.pop_scope
    poppedOpt ptrn s1 ++
      poppedOpt expr s2 ++
      Node.popped if_true s3 ++
      s4.scopes_.take 1 ++
      poppedOpt if_false s5
  | .CaseExpr ptrn expr, st =>
    let s1 : NameBinder := st.push_scope false
    let s2 : NameBinder := (NameBinder.bind ptrn s1).2
    let s3 : NameBinder := (NameBinder.bind expr s2).2
    Node.popped ptrn s1 ++ Node.popped expr s2 ++ s3.scopes_.take 1
  | .MatchExpr arg cases, st =>
    let s1 : NameBinder := (NameBinder.bind arg st).2
    Node.popped arg st ++ poppedList cases s1
  | .WhileExpr addr (some cond) ptrn expr body, st =>
    let s1 : NameBinder := st.push_scope false
    let s2 : NameBinder := (NameBinder.bind cond s1).2
    let s3 : NameBinder := s2.push_loop addr
    let s4 : NameBinder := (NameBinder.bind body s3).2
    let s5 : NameBinder := s4.pop_loop s2.cur_loop_
    Node.popped cond s1 ++ Node.popped body s3 ++ s5.scopes_.take 1
  | .WhileExpr addr none ptrn expr body, st =>
    let s1 : NameBinder := st.push_scope false
    let s2 : NameBinder := (bindOpt ptrn s1).2
    let s3 : NameBinder := (bindOpt expr s2).2
    let s4 : NameBinder := s3.push_loop addr
    let s5 : NameBinder := (NameBinder.bind body s4).2
    let s6 : NameBinder := s5.pop_loop s3.cur_loop_
    poppedOpt ptrn s1 ++ poppedOpt expr s2 ++ Node.popped body s4 ++ s6.scopes_.take 1
  | .ForExpr addr callee loop_body_attrs loop_body arg, st =>
    let s1 : NameBinder := (NameBinder.bind callee st).2
    let s2 : NameBinder := s1.push_loop addr
    let s3 : NameBinder := (bindAttrs loop_body_attrs s2).2
    let s4 : NameBinder := (FnExpr.bind loop_body true s3).2
    let s5 : NameBinder := s4.pop_loop s1.cur_loop_
    Node.popped callee st ++
      poppedAttrs loop_body_attrs s2 ++
      FnExpr.popped loop_body true s3 ++
      Node.popped arg s5
  | .BreakExpr loc loop, st =>
    []
  | .ContinueExpr loc loop, st =>
    []
  | .ReturnExpr loc fn, st =>
    []
  | .FilterExpr filter expr, st =>
    let s1 : NameBinder := (NameBinder.bind filter st).2
    Node.popped filter st ++ Node.popped expr s1
  | .CastExpr expr type, st =>
    let s1 : NameBinder := (NameBinder.bind expr st).2
    Node.popped expr st ++ Node.popped type s1
  | .ImplicitCastExpr, st =>
    []
  | .AsmExpr ins outs, st =>
    let s1 : NameBinder := (bindList ins st).2
    poppedList ins st ++ poppedList outs s1
  | .ErrorExpr, st =>
    []
  | .TypedPtrn ptrn type, st =>
    let s1 : NameBinder := (bindOpt ptrn st).2
    poppedOpt ptrn st ++ Node.popped type s1
  | .IdPtrn decl sub_ptrn, st =>
    let s1 : NameBinder := (NameBinder.bind decl st).2
    Node.popped decl st ++ poppedOpt sub_ptrn s1
  | .LiteralPtrn, st =>
    []
  | .FieldPtrn ptrn, st =>
    poppedOpt ptrn st
  | .RecordPtrn path fields, st =>
    let s1 : NameBinder := (NameBinder.bind path st).2
    Node.popped path st ++ poppedList fields s1
  | .CtorPtrn path arg, st =>
    let s1 : NameBinder := (NameBinder.bind path st).2
    Node.popped path st ++ poppedOpt arg s1
  | .TuplePtrn args, st =>
    poppedList args st
  | .ArrayPtrn elems, st =>
    poppedList elems st
  | .ErrorPtrn, st =>
    []
  | .TypeParam decl, st =>
    []
  | .TypeParamList params, st =>
    poppedList params st
  | .PtrnDecl decl, st =>
    []
  | .LetDecl init ptrn, st =>
    let s1 : NameBinder := (bindOpt init st).2
    poppedOpt init st ++ Node.popped ptrn s1
  | .StaticDecl decl type init, st =>
    let s1 : NameBinder := (bindOpt type st).2
    poppedOpt type st ++ poppedOpt init s1
  | .FnDecl decl type_params fn_attrs (.mk addr filter param ret_type (some body)), st =>
    let s1 : NameBinder := st.push_scope false
    let s2 : NameBinder := (bindOpt type_params s1).2
    let s3 : NameBinder := (bindAttrs fn_attrs s2).2
    let s4 : NameBinder := (FnExpr.bind (.mk addr filter param ret_type (some body)) false s3).2
    poppedOpt type_params s1 ++
      poppedAttrs fn_attrs s2 ++
      FnExpr.popped (.mk addr filter param ret_type (some body)) false s3 ++
      s4.scopes_.take 1
  | .FnDecl decl type_params fn_attrs (.mk addr filter param ret_type none), st =>
    let s1 : NameBinder := st.push_scope false
    let s2 : NameBinder := (bindOpt type_params s1).2
    let s3 : NameBinder := (bindOpt param s2).2
    let s4 : NameBinder := (bindOpt ret_type s3).2
    poppedOpt type_params s1 ++
      poppedOpt param s2 ++
      poppedOpt ret_type s3 ++
      s4.scopes_.take 1
  | .FieldDecl type init, st =>
    let s1 : NameBinder := (NameBinder.bind type st).2
    Node.popped type st ++ poppedOpt init s1
  | .StructDecl decl type_params fields, st =>
    let s1 : NameBinder := st.push_scope false
    let s2 : NameBinder := (bindOpt type_params s1).2
    let s3 : NameBinder := (bindList fields s2).2
    poppedOpt type_params s1 ++ poppedList fields s2 ++ s3.scopes_.take 1
  | .OptionDecl decl (some param) fields, st =>
    Node.popped param st
  | .OptionDecl decl none fields, st =>
    poppedList fields st
  | .EnumDecl decl type_params options, st =>
    let s1 : NameBinder := st.push_scope false
    let s2 : NameBinder := (bindOpt type_params s1).2
    let s3 : NameBinder := (bindList options s2).2
    poppedOpt type_params s1 ++ poppedList options s2 ++ s3.scopes_.take 1
  | .TypeDecl decl type_params aliased_type, st =>
    let s1 : NameBinder := st.push_scope false
    let s2 : NameBinder := (bindOpt type_params s1).2
    let s3 : NameBinder := (NameBinder.bind aliased_type s2).2
    poppedOpt type_params s1 ++ Node.popped aliased_type s2 ++ s3.scopes_.take 1
  | .ModDecl decl decls, st =>
    let s1 : NameBinder := { st with scopes_ := [] }
    let s2 : NameBinder := s1.push_scope false
    let s3 : NameBinder := NameBinder.bind_heads decls s2
    poppedList decls s3
  | .ErrorDecl, st =>
    []

/-- The frames popped while the type arguments of the elements of a path are bound. -/
def poppedElems : List PathElem → NameBinder → List SymbolTable
  | [], st =>
    []
  | .mk id args :: elems, st =>
    let s1 : NameBinder := (bindList args st).2
    poppedList args st ++ poppedElems elems s1

/-- The frames popped by `FnExpr::bind(NameBinder&, bool in_for_loop)`: those of its
children, then the frame of the body and the frame of the parameter. -/
def FnExpr.popped : FnExpr → Bool → NameBinder → List SymbolTable
  | .mk addr filter param ret_type body, true, st =>
    let s1 : NameBinder := st.push_scope false
    let s2 : NameBinder := (bindOpt param s1).2
    let s3 : NameBinder := (bindOpt ret_type s2).2
    let s4 : NameBinder := (bindOpt filter s3).2
    let s5 : NameBinder := s4.push_scope false
    let s6 : NameBinder := (bindOpt body s5).2
    let s7 : NameBinder := s6.pop_scope
    poppedOpt param s1 ++
      poppedOpt ret_type s2 ++
      poppedOpt filter s3 ++
      poppedOpt body s5 ++
      s6.scopes_.take 1 ++
      s7.scopes_.take 1
  | .mk addr filter param ret_type body, false, st =>
    let s1 : NameBinder := st.push_scope false
    let s2 : NameBinder := (bindOpt param s1).2
    let s3 : NameBinder := (bindOpt ret_type s2).2
    let s4 : NameBinder := (bindOpt filter s3).2
    let s5 : NameBinder := s4.push_scope false
    let s6 : NameBinder := s5.push_fn addr
    let s7 : NameBinder := (bindOpt body s6).2
    let s8 : NameBinder := s7.pop_fn s5.cur_fn_
    let s9 : NameBinder := s8.pop_scope
    poppedOpt param s1 ++
      poppedOpt ret_type s2 ++
      poppedOpt filter s3 ++
      poppedOpt body s6 ++
      s8.scopes_.take 1 ++
      s9.scopes_.take 1

/-- The frames popped while the attributes of a node are bound. -/
def poppedAttrs : Option Node → NameBinder → List SymbolTable
  | none, st =>
    []
  | some (.mk attrs form), st =>
    Form.popped form st

/-- The frames popped by `NameBinder::bind(ast::Node&)`. -/
def Node.popped : Node → NameBinder → List SymbolTable
  | .mk attrs form, st =>
    let s1 : NameBinder := (bindAttrs attrs st).2
    poppedAttrs attrs st ++ Form.popped form s1

/-- The frames popped by a loop `for (auto& x : xs) binder.bind(*x)`. -/
def poppedList : List Node → NameBinder → List SymbolTable
  | [], st =>
    []
  | node :: nodes, st =>
    let s1 : NameBinder := (NameBinder.bind node st).2
    Node.popped node st ++ poppedList nodes s1

/-- The frames popped by a statement `if (x) binder.bind(*x)`. -/
def poppedOpt : Option Node → NameBinder → List SymbolTable
  | none, st =>
    []
  | some node, st =>
    Node.popped node st

end

/-- Format string of the warning of `NameBinder::pop_scope`. -/
def unusedFmt : String := "unused identifier '{}'"

/-- Format string of the warning of `NameBinder::insert_symbol`. -/
def shadowFmt : String := "declaration shadows identifier '{}'"

/-- Number of warnings written with the format string `fmt`. -/
def countWarnFmt (fmt : String) (ds : List Diag) : Nat :=
  ds.countP (fun d => d.severity == .warn && d.fmt == fmt)

/-- An entry of a frame whose flag `top_level` is given, of which `pop_scope` has to
warn: no `Path` has been resolved to its symbol, so that the frame holds the only
reference to it; the frame is not top-level; and the first declaration of the symbol
is neither a `FieldDecl` nor an `OptionDecl`. -/
def unreferenced (top_level : Bool) (pair : String × SymbolPtr) : Bool :=
  match pair.2.sym.decls with
  | decl :: _ =>
    decide (pair.2.use_count ≤ 1) && !top_level && decl.kind != .FieldDecl &&
      decl.kind != .OptionDecl
  | [] => false

/-- The entries of a frame of which `pop_scope` has to warn, in iteration order. -/
def SymbolTable.unused (t : SymbolTable) : List (String × SymbolPtr) :=
  t.symbols.filter (unreferenced t.top_level)

/-- What `pop_scope` writes for one entry: the warning, at the first declaration of the
symbol, and the note that follows it. -/
def unusedDiags (pair : String × SymbolPtr) : List Diag :=
  [⟨.warn, pair.2.sym.decls.head?.map (fun decl => decl.decl.loc), unusedFmt, [pair.1]⟩,
    ⟨.note, none, "prefix unused identifiers with '_'", []⟩]

/-- The declaration of the variable `x` by a pattern, at address 1. -/
def declX : NamedDecl := ⟨1, ⟨"x", exLoc⟩, exLoc, false⟩

/-- The statement `let x = 1;`. -/
def letX : Node :=
  .plain (.DeclStmt (.plain (.LetDecl (some (.plain .LiteralExpr))
    (.plain (.IdPtrn (.plain (.PtrnDecl declX)) none)))))

/-- The block `{ let x = 1; }`, which never uses `x`. -/
def blockUnusedX : Node := .plain (.BlockExpr [letX])

/-- The block `{ let x = 1; x }`, which uses `x`. -/
def blockUsedX : Node :=
  .plain (.BlockExpr [letX, .plain (.ExprStmt (pathExpr "x"))])

/-- The frames of a binder hold no name that begins with `_`. -/
def NameBinder.NoAnonymous (st : NameBinder) : Prop :=
  ∀ t ∈ st.scopes_, ∀ e ∈ t.symbols, startsWithUnderscore e.1 = false

/-- A binder with two frames, the outer one declaring `x` by a pattern that is not
top-level, and the given value of the option `warn_on_shadowing`. -/
def shadowBinder (warn_on_shadowing : Bool) : NameBinder :=
  ⟨[⟨false, []⟩, ⟨false, [("x", ⟨⟨[⟨.PtrnDecl, declX⟩]⟩, 1⟩)]⟩], none, none,
    warn_on_shadowing, 0, 0, []⟩

/-- A second declaration of the name `x` by a pattern, at address 2. -/
def declX2 : NamedDecl := ⟨2, ⟨"x", exLoc⟩, exLoc, false⟩

/-! ## `check.cpp`

`check.h` and `ast.h` are not among the sources. A node is what the checker sees of
it: its address, which stands for its `type` slot, its location, and its virtual
methods `infer` and `check`, which take the checker and return the type and the
checker afterwards. The methods that `check.cpp` defines on `TypeChecker` take the
checker as their last argument. An `assert` is not part of what a function
computes. -/

/-- An `ast::Node`, as the checker uses it: `addr` is the address of the node, `loc`
its member `loc`, and `infer` and `check` are the virtual methods
`Node::infer(TypeChecker&)` and `Node::check(TypeChecker&, const Type*)` of its
class. -/
structure NodeObj where
  addr : Nat
  loc : Loc
  infer : TypeChecker → Ty × TypeChecker
  check : Ty → TypeChecker → Ty × TypeChecker

/-- A field of a record expression or pattern (`FieldExpr`, `FieldPtrn`), as
`check_fields` uses it: the node, its member `id` and the result of `is_etc()`. -/
structure FieldObj where
  node : NodeObj
  id : Identifier
  is_etc : Bool

/-- The members `meta` of a type: the names of the members of a struct or enum type,
and nothing for a type that has no `meta`. -/
def Ty.meta : Ty → List String
  | .type_struct _ meta => meta
  | .type_enum _ meta => meta
  | _ => []

/-- The call `type->as_nominal()->param()`: the parameter of a nominal type. -/
def Ty.param_of : Ty → Ty
  | .type_struct decl _ => .param decl
  | .type_enum decl _ => .param decl
  | .type_forall decl => .param decl
  | type => type

namespace TypeChecker

/-- Modelled from the spec: `Logger::error(loc, fmt, args…)` of `log.h`, which is not
among the sources (section 6.3): an error is reported. -/
def error (loc : Loc) (fmt : String) (args : List String) (tc : TypeChecker) : TypeChecker :=
  tc.report ⟨.error, some loc, fmt, args⟩

/-- Modelled from the spec: `Logger::note([loc,] fmt, args…)` of `log.h`, which is not
among the sources (section 6.3): a note is reported. -/
def note (loc : Option Loc) (fmt : String) (args : List String) (tc : TypeChecker) :
    TypeChecker :=
  tc.report ⟨.note, loc, fmt, args⟩

/-- The member `type` of the node at `addr`: the latest assignment to it, if any. -/
def type_of (addr : Nat) (tc : TypeChecker) : Option Ty :=
  (tc.types.find? (fun e => e.1 == addr)).map Prod.snd

/-- The assignment `node.type = type` for the node at `addr`. -/
def set_type (addr : Nat) (type : Ty) (tc : TypeChecker) : TypeChecker :=
  { tc with types := (addr, type) :: tc.types }

/-- The call `struct_type->op(index)` on a nominal type: the operand that the world
holds for the declaration, and the error type for an operand that is not there. -/
def op (type : Ty) (index : Nat) (tc : TypeChecker) : Ty :=
  match type with
  | .type_struct decl _ =>
    (((tc.nominals.find? (fun e => e.1 == decl)).map Prod.snd).getD []).getD index .type_error
  | .type_enum decl _ =>
    (((tc.nominals.find? (fun e => e.1 == decl)).map Prod.snd).getD []).getD index .type_error
  | _ => .type_error

/-- The loop of `TypeChecker::find_member` over the names `meta->out(i)`, from index
`i` on. -/
def find_member_from (name : String) : List String → Nat → Option Nat
  | [], _ => none
  | out :: outs, i => if name == out then some i else find_member_from name outs (i + 1)

/-- Method `TypeChecker::find_member`. -/
def find_member (type : Ty) (member : String) : Option Nat :=
  find_member_from member type.meta 0

/-- Method `TypeChecker::should_emit_error`. -/
def should_emit_error (type : Ty) : Bool :=
  !contains type .type_error

/-- Method `TypeChecker::explain_no_ret`; `type` may be null. -/
def explain_no_ret (type : Option Ty) (expected : Ty) (tc : TypeChecker) : TypeChecker :=
  if (match type with
      | some t => contains t .type_no_ret
      | none => false) || contains expected .type_no_ret then
    (tc.note none
      "the type '{}' indicates a {} or {} type, used to denote the return type of functions like '{}', '{}', or '{}'"
      [Ty.format .type_no_ret, "bottom", "no-return", "break", "continue", "return"]).note
      none
      "this error {} indicate that you forgot to add parentheses '()' in the call to one of those functions"
      ["may"]
  else tc

/-- Method `TypeChecker::expect(const Loc&, const std::string& msg, const Type* type,
const Type* expected)`. -/
def expect_msg_type (w : World) (loc : Loc) (msg : String) (type expected : Ty)
    (tc : TypeChecker) : Ty × TypeChecker :=
  match w.join type expected with
  | some best => (best, tc)
  | none =>
    (.type_error,
      if should_emit_error type && should_emit_error expected then
        (tc.error loc "expected type '{}', but got {} with type '{}'"
          [expected.format, msg, type.format]).explain_no_ret (some type) expected
      else tc)

/-- Method `TypeChecker::expect(const Loc&, const std::string& msg, const Type*
expected)`. -/
def expect_msg (loc : Loc) (msg : String) (expected : Ty) (tc : TypeChecker) :
    Ty × TypeChecker :=
  (.type_error,
    if should_emit_error expected then
      (tc.error loc "expected type '{}', but got {}" [expected.format, msg]).explain_no_ret
        none expected
    else tc)

/-- Method `TypeChecker::expect(const Loc&, const Type* type, const Type* expected)`. -/
def expect (w : World) (loc : Loc) (type expected : Ty) (tc : TypeChecker) :
    Ty × TypeChecker :=
  match w.join type expected with
  | some best => (best, tc)
  | none =>
    (.type_error,
      if should_emit_error type && should_emit_error expected then
        (tc.error loc "expected type '{}', but got type '{}'"
          [expected.format, type.format]).explain_no_ret (some type) expected
      else tc)

/-- Method `TypeChecker::struct_expected`. -/
def struct_expected (loc : Loc) (type : Ty) (tc : TypeChecker) : Ty × TypeChecker :=
  (.type_error,
    if should_emit_error type then
      tc.error loc "structure type expected, but got '{}'" [type.format]
    else tc)

/-- Method `TypeChecker::unknown_member`. -/
def unknown_member (loc : Loc) (struct_type : Ty) (field : String) (tc : TypeChecker) :
    Ty × TypeChecker :=
  (.type_error, tc.error loc "no field '{}' in '{}'" [field, struct_type.format])

/-- Method `TypeChecker::cannot_infer`. -/
def cannot_infer (loc : Loc) (msg : String) (tc : TypeChecker) : Ty × TypeChecker :=
  (.type_error, tc.error loc "cannot infer type for {}" [msg])

/-- Method `TypeChecker::check(const ast::Node&, const Type*)`. -/
def check (node : NodeObj) (type : Ty) (tc : TypeChecker) : Ty × TypeChecker :=
  let r := node.check type tc
  (r.1, r.2.set_type node.addr r.1)

/-- Method `TypeChecker::infer(const ast::Node&)`, for the node at `addr` whose virtual
`infer` is `infer`. -/
def infer_at (addr : Nat) (infer : TypeChecker → Ty × TypeChecker) (tc : TypeChecker) :
    Ty × TypeChecker :=
  match tc.type_of addr with
  | some type => (type, tc)
  | none =>
    let r := infer tc
    (r.1, r.2.set_type addr r.1)

/-- Method `TypeChecker::infer(const ast::Node&)`. -/
def infer (node : NodeObj) (tc : TypeChecker) : Ty × TypeChecker :=
  infer_at node.addr node.infer tc

/-- Method `TypeChecker::infer(const ast::CallExpr&)`, for the members `callee` and
`arg` of the call. -/
def infer_call (callee arg : NodeObj) (tc : TypeChecker) : Ty × TypeChecker :=
  let c := tc.infer callee
  match c.1 with
  | .pi domain codomain => (codomain, (c.2.check arg domain).2)
  | Ty.variadic_unsafe body =>
    let i := c.2.infer arg
    if !is_uint_type i.1 && !is_sint_type i.1 then
      (.type_error,
        if should_emit_error i.1 then
          i.2.error arg.loc "integer type expected as array index, but got '{}'" [i.1.format]
        else i.2)
    else (body, i.2)
  | callee_type =>
    (.type_error,
      if should_emit_error callee_type then
        c.2.error callee.loc
          "expected function or array type in call expression, but got '{}'"
          [callee_type.format]
      else c.2)

/-- Method `TypeChecker::infer(const Loc&, const Literal&)`. -/
def infer_literal (_loc : Loc) (lit : Literal) (tc : TypeChecker) : Ty × TypeChecker :=
  if lit.is_integer then (.type_sint 32, tc)
  else if lit.is_double then (.type_real 64, tc)
  else if lit.is_bool then (.type_bool, tc)
  else if lit.is_char then (.type_uint 8, tc)
  else if lit.is_string then (Ty.variadic_unsafe (.type_uint 8), tc)
  else (.type_error, tc)

/-- Method `TypeChecker::check(const Loc&, const Literal&, const Type*)`. -/
def check_literal (w : World) (loc : Loc) (lit : Literal) (expected : Ty)
    (tc : TypeChecker) : Ty × TypeChecker :=
  if is_no_ret_type expected then tc.infer_literal loc lit
  else if lit.is_integer then
    if !is_sint_type expected && !is_uint_type expected && !is_real_type expected then
      tc.expect_msg loc "integer literal" expected
    else (expected, tc)
  else if lit.is_double then
    if !is_real_type expected then tc.expect_msg loc "floating point literal" expected
    else (expected, tc)
  else if lit.is_bool then tc.expect_msg_type w loc "boolean literal" .type_bool expected
  else if lit.is_char then
    tc.expect_msg_type w loc "character literal" (.type_uint 8) expected
  else if lit.is_string then
    tc.expect_msg_type w loc "string literal" (Ty.variadic_unsafe (.type_uint 8)) expected
  else (expected, tc)

/-- The loop `for (i…) check(*args[i], expected->op(i))` of `check_tuple`. -/
def check_args : List NodeObj → List Ty → TypeChecker → TypeChecker
  | arg :: args, op :: ops, tc => check_args args ops (tc.check arg op).2
  | _, _, tc => tc

/-- Method `TypeChecker::check_tuple`. -/
def check_tuple (loc : Loc) (msg : String) (args : List NodeObj) (expected : Ty)
    (tc : TypeChecker) : Ty × TypeChecker :=
  match expected with
  | .sigma ops =>
    if args.length != ops.length then
      (.type_error,
        tc.error loc "expected {} argument(s) in {}, but got {}"
          [toString ops.length, msg, toString args.length])
    else (expected, check_args args ops tc)
  | _ => tc.expect_msg loc msg expected

/-- The loop `for (i…) arg_types[i] = infer(*args[i])` of `infer_tuple`. -/
def infer_args : List NodeObj → TypeChecker → List Ty × TypeChecker
  | [], tc => ([], tc)
  | arg :: args, tc =>
    let r := tc.infer arg
    let rs := infer_args args r.2
    (r.1 :: rs.1, rs.2)

/-- Method `TypeChecker::infer_tuple`. -/
def infer_tuple (args : List NodeObj) (tc : TypeChecker) : Ty × TypeChecker :=
  let r := infer_args args tc
  (.sigma r.1, r.2)

/-- The first loop of `TypeChecker::check_fields`, from the array `seen` and the
checker it has reached: the array afterwards, or nothing when the loop has left the
function with the error type. -/
def check_fields_loop (w : World) (loc : Loc) (struct_type : Ty) (app : Option Ty) :
    List FieldObj → List Bool → TypeChecker → Option (List Bool) × TypeChecker
  | [], seen, tc => (some seen, tc)
  | field :: fields, seen, tc =>
    if field.is_etc then check_fields_loop w loc struct_type app fields seen tc
    else
      match find_member struct_type field.id.name with
      | none => (none, (tc.unknown_member field.node.loc struct_type field.id.name).2)
      | some index =>
        if seen.getD index false then
          (none, tc.error loc "field '{}' specified more than once" [field.id.name])
        else
          let field_type := tc.op struct_type index
          let field_type :=
            match app with
            | some (.app _ arg) => w.rewrite field_type struct_type.param_of arg
            | _ => field_type
          check_fields_loop w loc struct_type app fields (seen.set index true)
            (tc.check field.node field_type).2

/-- The second loop of `TypeChecker::check_fields`, over the members and the array
`seen`. -/
def report_missing (loc : Loc) (msg : String) :
    List String → List Bool → TypeChecker → TypeChecker
  | name :: names, s :: seen, tc =>
    report_missing loc msg names seen
      (if !s then tc.error loc "missing field '{}' in structure {}" [name, msg] else tc)
  | _, _, tc => tc

/-- Method `TypeChecker::check_fields`. -/
def check_fields (w : World) (loc : Loc) (struct_type : Ty) (app : Option Ty)
    (fields : List FieldObj) (etc : Bool) (msg : String) (tc : TypeChecker) :
    Ty × TypeChecker :=
  let num_fields := struct_type.meta.length
  match check_fields_loop w loc struct_type app fields (List.replicate num_fields false) tc with
  | (none, tc1) => (.type_error, tc1)
  | (some seen, tc1) =>
    (app.getD struct_type,
      if !etc && !seen.all (fun b => b) then
        report_missing loc msg struct_type.meta seen tc1
      else tc1)

end TypeChecker

/-- The virtual `Node::infer` of a class that does not define it. -/
def NodeObj.default_infer (loc : Loc) (tc : TypeChecker) : Ty × TypeChecker :=
  tc.cannot_infer loc "expression"

/-- The virtual `Node::check` of a class that does not define it, for the node at
`addr` whose virtual `infer` is `infer`. -/
def NodeObj.default_check (w : World) (addr : Nat) (loc : Loc)
    (infer : TypeChecker → Ty × TypeChecker) (expected : Ty) (tc : TypeChecker) :
    Ty × TypeChecker :=
  let r := tc.infer_at addr infer
  r.2.expect w loc r.1 expected

/-- A `LiteralExpr` or a `LiteralPtrn`: `infer` and `check` call the checker on the
literal. -/
def LiteralExpr.obj (w : World) (addr : Nat) (loc : Loc) (lit : Literal) : NodeObj :=
  ⟨addr, loc, TypeChecker.infer_literal loc lit, TypeChecker.check_literal w loc lit⟩

/-- A `TupleExpr`: `TupleExpr::infer` and `TupleExpr::check`. -/
def TupleExpr.obj (addr : Nat) (loc : Loc) (args : List NodeObj) : NodeObj :=
  ⟨addr, loc, TypeChecker.infer_tuple args,
    TypeChecker.check_tuple loc "tuple expression" args⟩

/-- A `TuplePtrn`: `TuplePtrn::infer` and `TuplePtrn::check`. -/
def TuplePtrn.obj (addr : Nat) (loc : Loc) (args : List NodeObj) : NodeObj :=
  ⟨addr, loc, TypeChecker.infer_tuple args, TypeChecker.check_tuple loc "tuple pattern" args⟩

/-- A `CallExpr`: `CallExpr::infer`, and the `check` of `Node`. -/
def CallExpr.obj (w : World) (addr : Nat) (loc : Loc) (callee arg : NodeObj) : NodeObj :=
  ⟨addr, loc, TypeChecker.infer_call callee arg,
    NodeObj.default_check w addr loc (TypeChecker.infer_call callee arg)⟩

/-- A `FieldExpr` or a `FieldPtrn` that is not `...`: `check` checks the member `expr`
(`ptrn`), and `infer` is that of `Node`. -/
def FieldExpr.obj (addr : Nat) (loc : Loc) (id : Identifier) (expr : NodeObj) : FieldObj :=
  ⟨⟨addr, loc, NodeObj.default_infer loc, TypeChecker.check expr⟩, id, false⟩

/-- The test `type->isa<thorin::App>()`: the type when it is an application. -/
def Ty.isa_app : Ty → Option Ty
  | .app callee arg => some (.app callee arg)
  | _ => none

/-- The call `app->callee()` on an application, and the type itself otherwise. -/
def Ty.callee_of : Ty → Ty
  | .app callee _ => callee
  | type => type

/-- Method `StructExpr::infer`, for the members `expr` and `fields`. -/
def StructExpr.infer (w : World) (loc : Loc) (expr : NodeObj) (fields : List FieldObj)
    (tc : TypeChecker) : Ty × TypeChecker :=
  let e := tc.infer expr
  let app := e.1.isa_app
  let expr_type := e.1.callee_of
  if !is_struct_type expr_type then e.2.struct_expected loc expr_type
  else e.2.check_fields w loc expr_type app fields false "expression"

/-- Modelled from the spec: `StructPtrn::has_etc` of `ast.h`, which is not among the
sources (section 4.4, "unless `..` is used"): one of the fields is `...`. -/
def has_etc (fields : List FieldObj) : Bool :=
  fields.any (fun field => field.is_etc)

/-- Method `StructPtrn::infer`, for the member `fields` and the node of the member
`path`. -/
def StructPtrn.infer (w : World) (loc : Loc) (path : NodeObj) (fields : List FieldObj)
    (tc : TypeChecker) : Ty × TypeChecker :=
  let p := tc.infer path
  let app := p.1.isa_app
  let path_type := p.1.callee_of
  if !is_struct_type path_type then p.2.struct_expected loc path_type
  else p.2.check_fields w loc path_type app fields (has_etc fields) "pattern"

/-- Modelled from the spec: `join` of `types.h`, which is not among the sources
(section 4.3): identical types join to themselves, anything joined with `no_ret`
yields the other, otherwise there is no join. The types of this development have no
literal-agnostic number type, so the rule for those has no case here. -/
def joinSpec (a b : Ty) : Option Ty :=
  if a == b then some a
  else if is_no_ret_type a then some b
  else if is_no_ret_type b then some a
  else none

/-- A world for examples: `joinSpec`, a `rewrite` that substitutes nothing, and no type
constructor. -/
def exWorld : World := ⟨joinSpec, fun type _ _ => type, fun _ => true⟩

/-- A checker that has reported nothing and has visited no node. -/
def emptyChecker : TypeChecker := ⟨0, [], [], [], [], [], false⟩

/-- What a call of the checker that rejects something against the type `expected`
returns, from the checker `tc`: the error type, and a checker to which only
diagnostics have been added, one error among them unless `expected` contains the
error type, and none then. -/
def TypeChecker.Rejects (tc : TypeChecker) (expected : Ty) (r : Ty × TypeChecker) : Prop :=
  r.1 = .type_error ∧
  ∃ new, r.2 = { tc with
      error_count := tc.error_count + (if contains expected .type_error then 0 else 1)
      diags := tc.diags ++ new } ∧
    countErrors new = (if contains expected .type_error then 0 else 1)

/-- The literal `1`, at address `addr`. -/
def litOne (addr : Nat) : NodeObj := LiteralExpr.obj exWorld addr exLoc (.integer 1)

/-- The literal `true`, at address `addr`. -/
def litTrue (addr : Nat) : NodeObj := LiteralExpr.obj exWorld addr exLoc (.bool true)

/-- A node at address `addr` whose type slot already holds `type`: both its methods
return `type` and report nothing. -/
def typedNode (addr : Nat) (type : Ty) : NodeObj :=
  ⟨addr, exLoc, fun tc => (type, tc), fun _ tc => (type, tc)⟩

/-- The member that each field of a record names, in order, the fields `...` left
out: the index that `find_member` returns for the name of the field, or nothing. -/
def namedMembers (struct_type : Ty) (fields : List FieldObj) : List (Option Nat) :=
  (fields.filter (fun field => !field.is_etc)).map
    (fun field => TypeChecker.find_member struct_type field.id.name)

/-- The members of a struct type that no field of a record names, by index, in
order. -/
def missingMembers (struct_type : Ty) (fields : List FieldObj) : List Nat :=
  (List.range struct_type.meta.length).filter
    (fun i => !(namedMembers struct_type fields).contains (some i))

/-- The error that `check_fields` reports for the member of index `i` when no field
names it. -/
def missingDiag (loc : Loc) (msg : String) (struct_type : Ty) (i : Nat) : Diag :=
  ⟨.error, some loc, "missing field '{}' in structure {}", [struct_type.meta.getD i "", msg]⟩

/-- No field of a record is unknown or duplicated: every field that is not `...` names
a member of the struct type, and no two of them name the same member. -/
def FieldsOk (struct_type : Ty) (fields : List FieldObj) : Prop :=
  none ∉ namedMembers struct_type fields ∧ (namedMembers struct_type fields).Nodup

/-- Whether no field is unknown or duplicated can be computed. -/
instance (struct_type : Ty) (fields : List FieldObj) :
    Decidable (FieldsOk struct_type fields) := by
  unfold FieldsOk
  exact inferInstance

/-- The type against which `check_fields` checks a field that names the member of index
`index`: the operand of the struct type, rewritten when the struct type is applied. -/
def TypeChecker.field_type (w : World) (struct_type : Ty) (app : Option Ty) (index : Nat)
    (tc : TypeChecker) : Ty :=
  match app with
  | some (.app _ arg) => w.rewrite (tc.op struct_type index) struct_type.param_of arg
  | _ => tc.op struct_type index

/-- The checker after the fields of a record that are not `...` have been checked in
order, each against the type of the member that it names. -/
def TypeChecker.check_each (w : World) (struct_type : Ty) (app : Option Ty)
    (fields : List FieldObj) (tc : TypeChecker) : TypeChecker :=
  (fields.filter (fun field => !field.is_etc)).foldl
    (fun tc field =>
      (tc.check field.node
        (tc.field_type w struct_type app
          ((TypeChecker.find_member struct_type field.id.name).getD 0))).2)
    tc

/-- The struct type of `struct S { x, y }`, declared at address 7. -/
def structS : Ty := .type_struct 7 ["x", "y"]

/-- The field `name = 1` of a record expression, at address `addr`. -/
def fieldOne (addr : Nat) (name : String) : FieldObj :=
  FieldExpr.obj addr exLoc ⟨name, exLoc⟩ (LiteralExpr.obj exWorld (addr + 100) exLoc (.integer 1))

/-- The entry `...` of a record pattern, at address `addr`. It has no sub-pattern, and
`check_fields` never calls its `check`, which here returns the expected type. -/
def fieldEtc (addr : Nat) : FieldObj :=
  ⟨⟨addr, exLoc, NodeObj.default_infer exLoc, fun expected tc => (expected, tc)⟩,
    ⟨"", exLoc⟩, true⟩

/-- A checker that has reported nothing, in a world where the members `x` and `y` of
`structS` have the type `i32`. -/
def checkerS : TypeChecker :=
  ⟨0, [], [], [], [(7, [.type_sint 32, .type_sint 32])], [], false⟩

/-! ## `check.cpp`: paths, expressions, statements and declarations

The unit type is `world().sigma()`, the tuple type without components. -/

/-- Constructor `Loc(const Loc& first, const Loc& last)` of `loc.h`. -/
def Loc.concat (first last : Loc) : Loc := ⟨first.file, first.begin_, last.end_⟩

/-- A declaration, as `Path::infer` and `check_mut` use the first declaration of a
symbol: the node, and the result of `isa<PtrnDecl>()`, which is the member `mut` of
the declaration when it is a `PtrnDecl` and nothing for another class. -/
structure DeclObj where
  node : NodeObj
  ptrn_mut : Option Bool

/-- Struct `Path::Elem`: its location, its identifier and its type arguments. -/
structure PathElemObj where
  loc : Loc
  id : Identifier
  args : List NodeObj

/-- An `ast::Path`, as the checker uses it: its address, its location, the
declarations `symbol->decls` when `symbol` is set, and its elements. -/
structure PathObj where
  addr : Nat
  loc : Loc
  symbol : Option (List DeclObj)
  elems : List PathElemObj

/-- What `check_mut` reads of an expression through `isa`: a `PathExpr` with its path,
a `ProjExpr` with its member `expr`, a `CallExpr` with the address of its member
`callee` and the callee, or an expression of another class. -/
inductive Shape where
  | PathExpr (path : PathObj)
  | ProjExpr (expr : Shape)
  | CallExpr (callee_addr : Nat) (callee : Shape)
  | other

/-- An expression whose class matters to the checker: the node and what `isa` shows
of it. -/
structure ExprObj where
  node : NodeObj
  shape : Shape

/-- The members of an `ast::FnExpr` that `FnExpr::infer`, `FnExpr::check` and
`FnDecl::infer` use. -/
structure FnExprObj where
  addr : Nat
  loc : Loc
  param : NodeObj
  ret_type : Option NodeObj
  body : Option NodeObj

/-- The member `fn` of a `ReturnExpr`, a pointer to the enclosing `FnExpr`, as
`ReturnExpr::infer` uses it: the address of the function, whose `type` slot it reads,
its location, and the address of its member `ret_type` when it has one. -/
structure FnRef where
  addr : Nat
  loc : Loc
  ret_type : Option Nat

/-- An arm `case_` of a `MatchExpr`: its members `ptrn` and `expr`. -/
structure CaseObj where
  ptrn : NodeObj
  expr : NodeObj

namespace TypeChecker

/-- Method `TypeChecker::unreachable_code`. -/
def unreachable_code (before first last : Loc) (tc : TypeChecker) : Ty × TypeChecker :=
  (.type_error,
    (tc.error (Loc.concat first last) "unreachable code" []).note (some before)
      "after this statement" [])

/-- Method `TypeChecker::enter_decl`, for the declaration at address `decl` whose
location is `loc`. The set `decls_` is kept as a list without repetition. -/
def enter_decl (decl : Nat) (loc : Loc) (tc : TypeChecker) : Bool × TypeChecker :=
  if tc.decls_.contains decl then
    (false, tc.error loc "cannot infer type for recursive declaration" [])
  else (true, { tc with decls_ := decl :: tc.decls_ })

/-- Method `TypeChecker::exit_decl`. -/
def exit_decl (decl : Nat) (tc : TypeChecker) : TypeChecker :=
  { tc with decls_ := tc.decls_.erase decl }

/-- The member `mut` of the path at `path`: the latest assignment to it. The member is
declared in `ast.h`, which is not among the sources; a path that has not been
assigned is not mutable. -/
def mut_of (path : Nat) (tc : TypeChecker) : Bool :=
  ((tc.muts.find? (fun e => e.1 == path)).map Prod.snd).getD false

/-- The assignment `mut = m` of `Path::infer`, for the path at `path`. -/
def set_mut (path : Nat) (m : Bool) (tc : TypeChecker) : TypeChecker :=
  { tc with muts := (path, m) :: tc.muts }

/-- The operands that the world holds for the nominal type of the declaration
`decl`. -/
def ops_of (decl : Nat) (tc : TypeChecker) : List Ty :=
  ((tc.nominals.find? (fun e => e.1 == decl)).map Prod.snd).getD []

/-- The list `ops` with `type` at `index`, the places before it that the list does not
have being filled with the error type. -/
def set_at : List Ty → Nat → Ty → List Ty
  | [], 0, type => [type]
  | [], index + 1, type => .type_error :: set_at [] index type
  | _ :: ops, 0, type => type :: ops
  | op :: ops, index + 1, type => op :: set_at ops index type

/-- The call `nominal->set(index, type)` on the nominal type of the declaration
`decl`. -/
def set_op (decl : Nat) (index : Nat) (type : Ty) (tc : TypeChecker) : TypeChecker :=
  { tc with nominals := (decl, set_at (tc.ops_of decl) index type) :: tc.nominals }

/-- The call `type->as<thorin::Pi>()->codomain()`: the codomain of a function type,
which for the nominal type of a `forall` is its operand 1. -/
def codomain_of (type : Ty) (tc : TypeChecker) : Ty :=
  match type with
  | .pi _ codomain => codomain
  | .type_forall decl => (tc.ops_of decl).getD 1 .type_error
  | _ => .type_error

/-- The loop of `TypeChecker::check_mut`, from the node `cur`: nothing when the loop
returns `true`, and otherwise the location of the declaration `decl` with which the
loop is left, if it has found one. A callee whose `type` slot is empty is not of an
array type. -/
def check_mut_loop : Shape → TypeChecker → Option (Option Loc)
  | .PathExpr path, tc =>
    if tc.mut_of path.addr then none
    else
      match path.symbol with
      | some (decl :: _) => some (some decl.node.loc)
      | _ => some none
  | .ProjExpr expr, tc => check_mut_loop expr tc
  | .CallExpr callee_addr callee, tc =>
    match tc.type_of callee_addr with
    | some (Ty.variadic_unsafe _) => check_mut_loop callee tc
    | _ => some none
  | .other, _ => some none

/-- Method `TypeChecker::check_mut`. -/
def check_mut (node : ExprObj) (tc : TypeChecker) : Bool × TypeChecker :=
  match check_mut_loop node.shape tc with
  | none => (true, tc)
  | some decl =>
    let tc1 := tc.error node.node.loc "assignment to a non-mutable expression" []
    (false,
      match decl with
      | some decl_loc =>
        tc1.note (some decl_loc)
          "this error {} be solved by adding the '{}' qualifier to this symbol"
          ["may", "mut"]
      | none => tc1)

end TypeChecker

/-- A node of a class that defines `infer` and takes `check` from `Node`. -/
def NodeObj.of_infer (w : World) (addr : Nat) (loc : Loc)
    (infer : TypeChecker → Ty × TypeChecker) : NodeObj :=
  ⟨addr, loc, infer, NodeObj.default_check w addr loc infer⟩

/-- Modelled from the spec: the test `thorin::isa<Tag::EnumType>(type)` of `types.h`,
which is not among the sources (section 4.3, nominal `enum(decl)`; section 4.4,
"only enum-typed heads are currently supported ... rewritten if applied"): the type
is an enum type or the application of one, which `Path::infer` then takes apart. -/
def is_enum_type : Ty → Bool
  | .type_enum _ _ => true
  | .app (.type_enum _ _) _ => true
  | _ => false

/-- The test `type->isa_nominal<thorin::Pi>()`: the type is the nominal function type
that `type_forall` makes for a declaration with type parameters. -/
def Ty.isa_nominal_pi : Ty → Bool
  | .type_forall _ => true
  | _ => false

/-- The call `app->arg()` on an application. -/
def Ty.arg_of : Ty → Ty
  | .app _ arg => arg
  | type => type

/-- The part "apply type arguments (if any)" of the loop of `Path::infer`, for the
element `elem` and the type reached so far: the type and the checker with which the
loop goes on, or the checker with which `Path::infer` returns the error type. -/
def Path.apply_args (w : World) (elem : PathElemObj) (type : Ty) (tc : TypeChecker) :
    Except TypeChecker (Ty × TypeChecker) :=
  let is_poly_ctor := !w.kind_star type
  let is_poly_fn := type.isa_nominal_pi
  if is_poly_ctor || is_poly_fn then
    if !elem.args.isEmpty then
      let type_args := tc.infer_args elem.args
      .ok
        (if is_poly_ctor then .app type (.tuple type_args.1)
          else w.rewrite (type_args.2.codomain_of type) type.param_of (.tuple type_args.1),
          type_args.2)
    else .error (tc.error elem.loc "missing type arguments" [])
  else if !elem.args.isEmpty then
    .error (tc.error elem.loc "type arguments are not allowed here" [])
  else .ok (type, tc)

/-- The part "perform a lookup inside the current object" of the loop of
`Path::infer`, for an element `elem` that is not the last, `member` being the name of
the element after it: the type and the checker with which the loop goes on, or the
checker with which `Path::infer` returns the error type. -/
def Path.lookup (w : World) (elem : PathElemObj) (member : String) (type : Ty)
    (tc : TypeChecker) : Except TypeChecker (Ty × TypeChecker) :=
  if is_enum_type type then
    let app := type.isa_app
    let enum_type := type.callee_of
    match TypeChecker.find_member enum_type member with
    | none => .error (tc.unknown_member elem.loc enum_type member).2
    | some index =>
      .ok
        (match app with
          | some a => w.rewrite (tc.op enum_type index) enum_type.param_of a.arg_of
          | none => tc.op enum_type index,
          tc)
  else .error (tc.error elem.loc "operator '::' not allowed on type '{}'" [type.format])

/-- The loop of `Path::infer` over the elements of the path, from the element `elem`
on, `rest` being the elements after it and `type` the type reached so far. -/
def Path.infer_elems (w : World) :
    List PathElemObj → Ty → TypeChecker → Ty × TypeChecker
  | [], type, tc => (type, tc)
  | elem :: rest, type, tc =>
    match Path.apply_args w elem type tc with
    | .error tc1 => (.type_error, tc1)
    | .ok applied =>
      match rest with
      | [] => applied
      | next :: _ =>
        match Path.lookup w elem next.id.name applied.1 applied.2 with
        | .error tc2 => (.type_error, tc2)
        | .ok found => Path.infer_elems w rest found.1 found.2

/-- Method `Path::infer`. -/
def Path.infer (w : World) (path : PathObj) (tc : TypeChecker) : Ty × TypeChecker :=
  match path.symbol with
  | some (decl :: _) =>
    let type := tc.infer decl.node
    Path.infer_elems w path.elems type.1
      (match decl.ptrn_mut with
        | some m => type.2.set_mut path.addr m
        | none => type.2)
  | _ => (.type_error, tc)

/-- An `ast::Path`: `Path::infer`, and the `check` of `Node`. -/
def Path.obj (w : World) (path : PathObj) : NodeObj :=
  NodeObj.of_infer w path.addr path.loc (Path.infer w path)

/-- The eleven tags of `PrimType` that name a type, and `Error` for the others. -/
inductive PrimType.Tag where
  | Bool | I8 | I16 | I32 | I64 | U8 | U16 | U32 | U64 | F32 | F64 | Error
  deriving DecidableEq, Repr

/-- Method `PrimType::infer`. -/
def PrimType.infer (tag : PrimType.Tag) (tc : TypeChecker) : Ty × TypeChecker :=
  match tag with
  | .Bool => (.type_bool, tc)
  | .I8 => (.type_sint 8, tc)
  | .I16 => (.type_sint 16, tc)
  | .I32 => (.type_sint 32, tc)
  | .I64 => (.type_sint 64, tc)
  | .U8 => (.type_uint 8, tc)
  | .U16 => (.type_uint 16, tc)
  | .U32 => (.type_uint 32, tc)
  | .U64 => (.type_uint 64, tc)
  | .F32 => (.type_real 32, tc)
  | .F64 => (.type_real 64, tc)
  | .Error => (.type_error, tc)

/-- A `PrimType`. -/
def PrimType.obj (w : World) (addr : Nat) (loc : Loc) (tag : PrimType.Tag) : NodeObj :=
  NodeObj.of_infer w addr loc (PrimType.infer tag)

/-- A `TypeApp`: `TypeApp::infer` infers the path. -/
def TypeApp.obj (w : World) (addr : Nat) (loc : Loc) (path : PathObj) : NodeObj :=
  NodeObj.of_infer w addr loc (TypeChecker.infer (Path.obj w path))

/-- A `PathExpr`: `PathExpr::infer` infers the path. -/
def PathExpr.obj (w : World) (addr : Nat) (loc : Loc) (path : PathObj) : ExprObj :=
  ⟨NodeObj.of_infer w addr loc (TypeChecker.infer (Path.obj w path)), .PathExpr path⟩

/-- An expression of a class that `check_mut` does not look into. -/
def ExprObj.other (node : NodeObj) : ExprObj := ⟨node, .other⟩

/-- A `DeclStmt` or an `ExprStmt`: `infer` and `check` are passed on to the
declaration or the expression, through the checker. -/
def Stmt.obj (addr : Nat) (loc : Loc) (inner : NodeObj) : NodeObj :=
  ⟨addr, loc, TypeChecker.infer inner, TypeChecker.check inner⟩

/-- A `PtrnDecl`: `PtrnDecl::check` returns the expected type, and `infer` is that of
`Node`. -/
def PtrnDecl.obj (addr : Nat) (loc : Loc) : NodeObj :=
  ⟨addr, loc, NodeObj.default_infer loc, fun expected tc => (expected, tc)⟩

/-- An `IdPtrn`: `IdPtrn::infer` and `IdPtrn::check` are passed on to the declaration
`decl`, through the checker. -/
def IdPtrn.obj (addr : Nat) (loc : Loc) (decl : NodeObj) : NodeObj :=
  ⟨addr, loc, TypeChecker.infer decl, TypeChecker.check decl⟩

/-- Method `TypedPtrn::infer`, which is also `TypedExpr::infer`: the member `ptrn`
(`expr`) is checked against the type inferred for the member `type`. -/
def TypedPtrn.infer (ptrn type : NodeObj) (tc : TypeChecker) : Ty × TypeChecker :=
  let t := tc.infer type
  t.2.check ptrn t.1

/-- A `TypedPtrn` or a `TypedExpr`. -/
def TypedPtrn.obj (w : World) (addr : Nat) (loc : Loc) (ptrn type : NodeObj) : NodeObj :=
  NodeObj.of_infer w addr loc (TypedPtrn.infer ptrn type)

/-- Method `LetDecl::infer`. -/
def LetDecl.infer (ptrn : NodeObj) (init : Option NodeObj) (tc : TypeChecker) :
    Ty × TypeChecker :=
  match init with
  | some init =>
    let i := tc.infer init
    (.sigma [], (i.2.check ptrn i.1).2)
  | none => (.sigma [], (tc.infer ptrn).2)

/-- A `LetDecl`. -/
def LetDecl.obj (w : World) (addr : Nat) (loc : Loc) (ptrn : NodeObj)
    (init : Option NodeObj) : NodeObj :=
  NodeObj.of_infer w addr loc (LetDecl.infer ptrn init)

/-- Method `IfExpr::infer`. -/
def IfExpr.infer (cond if_true : NodeObj) (if_false : Option NodeObj) (tc : TypeChecker) :
    Ty × TypeChecker :=
  let c := tc.check cond .type_bool
  match if_false with
  | some if_false =>
    let true_type := c.2.infer if_true
    true_type.2.check if_false true_type.1
  | none => c.2.check if_true (.sigma [])

/-- Method `IfExpr::check`. -/
def IfExpr.check (cond if_true : NodeObj) (if_false : Option NodeObj) (expected : Ty)
    (tc : TypeChecker) : Ty × TypeChecker :=
  let c := tc.check cond .type_bool
  let true_type := c.2.check if_true expected
  match if_false with
  | some if_false => true_type.2.check if_false true_type.1
  | none => true_type

/-- An `IfExpr`. -/
def IfExpr.obj (addr : Nat) (loc : Loc) (cond if_true : NodeObj)
    (if_false : Option NodeObj) : NodeObj :=
  ⟨addr, loc, IfExpr.infer cond if_true if_false, IfExpr.check cond if_true if_false⟩

/-- The loop of `MatchExpr::check` over the arms, `type` being null at first when
there is no expected type. -/
def MatchExpr.check_cases (arg_type : Ty) :
    List CaseObj → Option Ty → TypeChecker → Option Ty × TypeChecker
  | [], type, tc => (type, tc)
  | case_ :: cases, type, tc =>
    let p := tc.check case_.ptrn arg_type
    let t :=
      match type with
      | some type => p.2.check case_.expr type
      | none => p.2.infer case_.expr
    MatchExpr.check_cases arg_type cases (some t.1) t.2

/-- Method `MatchExpr::check`, the expected type being null when `MatchExpr::infer`
calls it. -/
def MatchExpr.check (loc : Loc) (arg : NodeObj) (cases : List CaseObj)
    (expected : Option Ty) (tc : TypeChecker) : Ty × TypeChecker :=
  let arg_type := tc.infer arg
  match MatchExpr.check_cases arg_type.1 cases expected arg_type.2 with
  | (some type, tc1) => (type, tc1)
  | (none, tc1) => tc1.cannot_infer loc "match expression"

/-- Method `MatchExpr::infer`. -/
def MatchExpr.infer (loc : Loc) (arg : NodeObj) (cases : List CaseObj) (tc : TypeChecker) :
    Ty × TypeChecker :=
  MatchExpr.check loc arg cases none tc

/-- A `MatchExpr`. -/
def MatchExpr.obj (addr : Nat) (loc : Loc) (arg : NodeObj) (cases : List CaseObj) :
    NodeObj :=
  ⟨addr, loc, MatchExpr.infer loc arg cases,
    fun expected => MatchExpr.check loc arg cases (some expected)⟩

/-- Method `WhileExpr::infer`. -/
def WhileExpr.infer (cond body : NodeObj) (tc : TypeChecker) : Ty × TypeChecker :=
  let c := tc.check cond .type_bool
  let b := c.2.infer body
  (.sigma [], b.2)

/-- A `WhileExpr`. -/
def WhileExpr.obj (w : World) (addr : Nat) (loc : Loc) (cond body : NodeObj) : NodeObj :=
  NodeObj.of_infer w addr loc (WhileExpr.infer cond body)

/-- Method `BreakExpr::infer`, which is also `ContinueExpr::infer`. -/
def BreakExpr.infer (tc : TypeChecker) : Ty × TypeChecker :=
  (.pi (.sigma []) .type_no_ret, tc)

/-- A `BreakExpr` or a `ContinueExpr`. -/
def BreakExpr.obj (w : World) (addr : Nat) (loc : Loc) : NodeObj :=
  NodeObj.of_infer w addr loc BreakExpr.infer

/-- The type `arg_type` that `ReturnExpr::infer` finds for the function `fn`, if
any: the codomain of the type of the function when its slot holds a function type,
and otherwise what the slot of its return type annotation holds. -/
def ReturnExpr.arg_type (fn : Option FnRef) (tc : TypeChecker) : Option Ty :=
  match fn with
  | some fn =>
    match tc.type_of fn.addr with
    | some (.pi _ codomain) => some codomain
    | _ =>
      match fn.ret_type with
      | some ret_type => tc.type_of ret_type
      | none => none
  | none => none

/-- Method `ReturnExpr::infer`. -/
def ReturnExpr.infer (loc : Loc) (fn : Option FnRef) (tc : TypeChecker) : Ty × TypeChecker :=
  match ReturnExpr.arg_type fn tc with
  | some arg_type => (.pi arg_type .type_no_ret, tc)
  | none =>
    let tc1 := tc.error loc "cannot infer the type of '{}'" ["return"]
    (.type_error,
      match fn with
      | some fn => tc1.note (some fn.loc) "try annotating the return type of this function" []
      | none => tc1)

/-- A `ReturnExpr`. -/
def ReturnExpr.obj (w : World) (addr : Nat) (loc : Loc) (fn : Option FnRef) : NodeObj :=
  NodeObj.of_infer w addr loc (ReturnExpr.infer loc fn)

/-- Method `UnaryExpr::infer`, `is_inc` and `is_dec` being the results of the methods
of these names, which `ast.h` defines on the tag of the expression. -/
def UnaryExpr.infer (arg : ExprObj) (is_inc is_dec : Bool) (tc : TypeChecker) :
    Ty × TypeChecker :=
  let arg_type := tc.infer arg.node
  if is_inc || is_dec then (arg_type.1, (arg_type.2.check_mut arg).2)
  else arg_type

/-- A `UnaryExpr`. -/
def UnaryExpr.obj (w : World) (addr : Nat) (loc : Loc) (arg : ExprObj)
    (is_inc is_dec : Bool) : NodeObj :=
  NodeObj.of_infer w addr loc (UnaryExpr.infer arg is_inc is_dec)

/-- Method `BinaryExpr::infer`, `has_eq` and `has_cmp` being the results of the methods
of these names, which `ast.h` defines on the tag of the expression. -/
def BinaryExpr.infer (left : ExprObj) (right : NodeObj) (has_eq has_cmp : Bool)
    (tc : TypeChecker) : Ty × TypeChecker :=
  let left_type := tc.infer left.node
  let right_type := left_type.2.check right left_type.1
  if has_eq then (.sigma [], (right_type.2.check_mut left).2)
  else (if has_cmp then .type_bool else right_type.1, right_type.2)

/-- A `BinaryExpr`. -/
def BinaryExpr.obj (w : World) (addr : Nat) (loc : Loc) (left : ExprObj) (right : NodeObj)
    (has_eq has_cmp : Bool) : NodeObj :=
  NodeObj.of_infer w addr loc (BinaryExpr.infer left right has_eq has_cmp)

/-- Method `ProjExpr::infer`, for the members `expr` and `field`. -/
def ProjExpr.infer (w : World) (loc : Loc) (expr : NodeObj) (field : Identifier)
    (tc : TypeChecker) : Ty × TypeChecker :=
  let e := tc.infer expr
  let app := e.1.isa_app
  let expr_type := e.1.callee_of
  if !is_struct_type expr_type then e.2.struct_expected loc expr_type
  else
    match TypeChecker.find_member expr_type field.name with
    | some index =>
      (match app with
        | some a => w.rewrite (e.2.op expr_type index) expr_type.param_of a.arg_of
        | none => e.2.op expr_type index,
        e.2)
    | none => e.2.unknown_member loc expr_type field.name

/-- A `ProjExpr`. -/
def ProjExpr.obj (w : World) (addr : Nat) (loc : Loc) (expr : ExprObj)
    (field : Identifier) : ExprObj :=
  ⟨NodeObj.of_infer w addr loc (ProjExpr.infer w loc expr.node field), .ProjExpr expr.shape⟩

/-- A `CallExpr`, as an expression that `check_mut` looks into. -/
def CallExpr.expr (w : World) (addr : Nat) (loc : Loc) (callee : ExprObj) (arg : NodeObj) :
    ExprObj :=
  ⟨CallExpr.obj w addr loc callee.node arg, .CallExpr callee.node.addr callee.shape⟩

/-- The loop of `BlockExpr::infer` and `BlockExpr::check` over the statements but the
last, `last` being the location of the last statement of the block: the checker
afterwards, and whether the loop has left the function through `unreachable_code`. -/
def BlockExpr.infer_stmts (last : Loc) : List NodeObj → TypeChecker → Bool × TypeChecker
  | [], tc => (false, tc)
  | [_], tc => (false, tc)
  | stmt :: next :: stmts, tc =>
    let stmt_type := tc.infer stmt
    if is_no_ret_type stmt_type.1 then
      (true, (stmt_type.2.unreachable_code stmt.loc next.loc last).2)
    else BlockExpr.infer_stmts last (next :: stmts) stmt_type.2

/-- Method `BlockExpr::infer`. -/
def BlockExpr.infer (stmts : List NodeObj) (last_semi : Bool) (tc : TypeChecker) :
    Ty × TypeChecker :=
  match stmts.getLast? with
  | none => (.sigma [], tc)
  | some back =>
    match BlockExpr.infer_stmts back.loc stmts tc with
    | (true, tc1) => (.type_error, tc1)
    | (false, tc1) =>
      let last_type := tc1.infer back
      (if last_semi then .sigma [] else last_type.1, last_type.2)

/-- Method `BlockExpr::check`. -/
def BlockExpr.check (w : World) (loc : Loc) (stmts : List NodeObj) (last_semi : Bool)
    (expected : Ty) (tc : TypeChecker) : Ty × TypeChecker :=
  match stmts.getLast? with
  | none => tc.expect_msg_type w loc "block expression" (.sigma []) expected
  | some back =>
    match BlockExpr.infer_stmts back.loc stmts tc with
    | (true, tc1) => (.type_error, tc1)
    | (false, tc1) =>
      if last_semi then
        let last_type := tc1.check back (.sigma [])
        last_type.2.expect_msg_type w loc "block expression" last_type.1 expected
      else tc1.check back expected

/-- A `BlockExpr`. -/
def BlockExpr.obj (w : World) (addr : Nat) (loc : Loc) (stmts : List NodeObj)
    (last_semi : Bool) : NodeObj :=
  ⟨addr, loc, BlockExpr.infer stmts last_semi, BlockExpr.check w loc stmts last_semi⟩

/-- Method `FnExpr::infer`. A function that has a return type and no body makes the
method go through the null `body`; the model gives it the error type there. -/
def FnExpr.infer (fn : FnExprObj) (tc : TypeChecker) : Ty × TypeChecker :=
  match fn.ret_type with
  | some ret_type =>
    let body_type := tc.infer ret_type
    let param_type := body_type.2.infer fn.param
    match fn.body with
    | some body =>
      let b := param_type.2.check body body_type.1
      (.pi param_type.1 b.1, b.2)
    | none => (.type_error, param_type.2)
  | none =>
    match fn.body with
    | some body =>
      let param_type := tc.infer fn.param
      let b := param_type.2.infer body
      (.pi param_type.1 b.1, b.2)
    | none => tc.cannot_infer fn.loc "function"

/-- Method `FnExpr::check`. A function without body makes the method go through the
null `body`; the model gives it the error type there. -/
def FnExpr.check (fn : FnExprObj) (expected : Ty) (tc : TypeChecker) : Ty × TypeChecker :=
  match expected with
  | .pi domain codomain =>
    let param_type := tc.check fn.param domain
    match fn.body with
    | some body =>
      let body_type := param_type.2.check body codomain
      (.pi param_type.1 body_type.1, body_type.2)
    | none => (.type_error, param_type.2)
  | _ => tc.expect_msg fn.loc "anonymous function" expected

/-- A `FnExpr`. -/
def FnExpr.obj (fn : FnExprObj) : NodeObj :=
  ⟨fn.addr, fn.loc, FnExpr.infer fn, FnExpr.check fn⟩

/-- Method `FnDecl::infer`, for the declaration at address `this`. Of the two
arguments of `pi`, which the language lets the compiler evaluate in either order, the
parameter is inferred first. -/
def FnDecl.infer (this : Nat) (loc : Loc) (type_params : Option NodeObj) (fn : FnExprObj)
    (tc : TypeChecker) : Ty × TypeChecker :=
  let forall_ : Option Ty := type_params.map (fun _ => Ty.type_forall this)
  let tc1 :=
    match type_params with
    | some type_params => (tc.check type_params (Ty.param this)).2
    | none => tc
  let tc2 :=
    match fn.ret_type with
    | some ret_type =>
      let param_type := tc1.infer fn.param
      let ret := param_type.2.infer ret_type
      let fn_type := Ty.pi param_type.1 ret.1
      match forall_ with
      | some forall_ => (ret.2.set_op this 1 fn_type).set_type this forall_
      | none => ret.2.set_type this fn_type
    | none => tc1
  match tc2.enter_decl this loc with
  | (false, tc3) => (.type_error, tc3)
  | (true, tc3) =>
    let fn_type := tc3.infer (FnExpr.obj fn)
    let tc4 :=
      match forall_ with
      | some _ => fn_type.2.set_op this 1 fn_type.1
      | none => fn_type.2
    (forall_.getD fn_type.1, tc4.exit_decl this)

/-- A `FnDecl`: `FnDecl::check` ignores the expected type and infers. -/
def FnDecl.obj (this : Nat) (loc : Loc) (type_params : Option NodeObj) (fn : FnExprObj) :
    NodeObj :=
  ⟨this, loc, FnDecl.infer this loc type_params fn,
    fun _ => FnDecl.infer this loc type_params fn⟩

/-! ### Nodes for examples -/

/-- A location for examples: the columns `col` to `col + 1` of the first row. -/
def locAt (col : Int) : Loc := ⟨0, ⟨1, col⟩, ⟨1, col + 1⟩⟩

/-- The statement `n` made of an integer literal, at address `addr` (the literal is at
`addr + 100`) and column `addr`. -/
def stmtLit (addr : Nat) (n : Nat) : NodeObj :=
  Stmt.obj addr (locAt addr) (LiteralExpr.obj exWorld (addr + 100) (locAt addr) (.integer n))

/-- The statement `true`, at address `addr` (the literal is at `addr + 100`) and column
`addr`. -/
def stmtTrue (addr : Nat) : NodeObj :=
  Stmt.obj addr (locAt addr) (LiteralExpr.obj exWorld (addr + 100) (locAt addr) (.bool true))

/-- The expression `break()`, at address `addr` (its parts are at `addr + 200` and
`addr + 300`): a call whose type is `no_ret`. -/
def callBreak (addr : Nat) : NodeObj :=
  CallExpr.obj exWorld addr (locAt addr) (BreakExpr.obj exWorld (addr + 200) (locAt addr))
    (TupleExpr.obj (addr + 300) (locAt addr) [])

/-- The statement `break()`, at address `addr` (the call is at `addr + 100`) and column
`addr`. -/
def stmtBreak (addr : Nat) : NodeObj :=
  Stmt.obj addr (locAt addr) (callBreak (addr + 100))

/-! ## Programs

The nodes of a program refer to each other, a path to the declarations of its symbol
and these to their bodies, so that a recursive function is a cycle. A program is kept
as a table of its nodes by address, and the object of a node is unfolded from the
table to a given depth of nesting. -/

/-- An element of a path, in a program: its type arguments are addresses. -/
structure PathElemAst where
  loc : Loc
  id : Identifier
  args : List Nat

/-- An `ast::Path`, in a program: the declarations of its symbol are addresses. -/
structure PathAst where
  addr : Nat
  loc : Loc
  symbol : Option (List Nat)
  elems : List PathElemAst

/-- An `ast::FnExpr`, in a program: its members are addresses. -/
structure FnExprAst where
  addr : Nat
  loc : Loc
  param : Nat
  ret_type : Option Nat
  body : Option Nat

/-- A node of a program, of one of the classes that the examples of recursive
declarations are made of. The members that are nodes are given by address. `Stmt` is
a `DeclStmt` or an `ExprStmt`. -/
inductive Ast where
  | PrimType (tag : PrimType.Tag)
  | TypeApp (path : PathAst)
  | PathExpr (path : PathAst)
  | LiteralExpr (lit : Literal)
  | TupleExpr (args : List Nat)
  | TuplePtrn (args : List Nat)
  | Stmt (inner : Nat)
  | BlockExpr (stmts : List Nat) (last_semi : Bool)
  | CallExpr (callee arg : Nat)
  | ReturnExpr (fn : Option FnRef)
  | FnExpr (fn : FnExprAst)
  | FnDecl (type_params : Option Nat) (fn : FnExprAst)

/-- A program: its nodes, each with its address and its location. -/
abbrev Program := List (Nat × Loc × Ast)

/-- The object of a node that the calls of the checker get to when they have nested as
deep as the objects were unfolded: both its methods record the overflow. -/
def NodeObj.overflow (addr : Nat) (loc : Loc) : NodeObj :=
  ⟨addr, loc, fun tc => (.type_error, { tc with overflow := true }),
    fun _ tc => (.type_error, { tc with overflow := true })⟩

/-- The path of a program as the checker uses it, `child` giving the objects of the
nodes. The declarations of the classes of `Ast` are not `PtrnDecl`s. -/
def Program.path (child : Nat → NodeObj) (path : PathAst) : PathObj :=
  ⟨path.addr, path.loc,
    path.symbol.map (fun decls => decls.map (fun decl => ⟨child decl, none⟩)),
    path.elems.map (fun elem => ⟨elem.loc, elem.id, elem.args.map child⟩)⟩

/-- The members of a function of a program, `child` giving the objects of the
nodes. -/
def Program.fn (child : Nat → NodeObj) (fn : FnExprAst) : FnExprObj :=
  ⟨fn.addr, fn.loc, child fn.param, fn.ret_type.map child, fn.body.map child⟩

/-- The object of the node `node` of a program, at `addr` and `loc`, `child` giving the
objects of the nodes that are its members. -/
def Program.node (w : World) (child : Nat → NodeObj) (addr : Nat) (loc : Loc) :
    Ast → NodeObj
  | .PrimType tag => PrimType.obj w addr loc tag
  | .TypeApp path => TypeApp.obj w addr loc (Program.path child path)
  | .PathExpr path => (PathExpr.obj w addr loc (Program.path child path)).node
  | .LiteralExpr lit => LiteralExpr.obj w addr loc lit
  | .TupleExpr args => TupleExpr.obj addr loc (args.map child)
  | .TuplePtrn args => TuplePtrn.obj addr loc (args.map child)
  | .Stmt inner => Stmt.obj addr loc (child inner)
  | .BlockExpr stmts last_semi => BlockExpr.obj w addr loc (stmts.map child) last_semi
  | .CallExpr callee arg => CallExpr.obj w addr loc (child callee) (child arg)
  | .ReturnExpr fn => ReturnExpr.obj w addr loc fn
  | .FnExpr fn => FnExpr.obj (Program.fn child fn)
  | .FnDecl type_params fn =>
    FnDecl.obj addr loc (type_params.map child) (Program.fn child fn)

/-- The object of the node at `addr` of a program, unfolded to the depth `depth`: the
objects of its members are unfolded to the depth before, and at depth 0 the object
records the overflow. An address at which the program has no node stands for a node
that has the error type. -/
def Program.obj (w : World) (prog : Program) : Nat → Nat → NodeObj
  | 0, addr => NodeObj.overflow addr (((prog.lookup addr).map (fun entry => entry.1)).getD exLoc)
  | depth + 1, addr =>
    match prog.lookup addr with
    | some (loc, node) => Program.node w (fun a => Program.obj w prog depth a) addr loc node
    | none => typedNode addr .type_error

/-- The program `fn f() -> f { }`: the declaration is at address 0, its function at 1,
the parameter `()` at 2, the return type `f` at 3, whose path, at 4, has the
declaration for symbol, and the body at 5. -/
def fnSelfAnnotated : Program :=
  [(0, locAt 0, .FnDecl none ⟨1, locAt 1, 2, some 3, some 5⟩),
    (2, locAt 2, .TuplePtrn []),
    (3, locAt 3, .TypeApp ⟨4, locAt 4, some [0], [⟨locAt 4, ⟨"f", locAt 4⟩, []⟩]⟩),
    (5, locAt 5, .BlockExpr [] false)]

/-- The programs `fn f() { f() }`, and `fn f() -> i32 { f() }` when `annotated` is
set: the declaration is at address 0, its function at 1, the parameter `()` at 2, the
return type at 3, the body at 5, the statement `f()` at 6, the call at 7, its callee
`f` at 8, whose path, at 9, has the declaration for symbol, and the argument `()` at
10. -/
def fnSelfCall (annotated : Bool) : Program :=
  [(0, locAt 0, .FnDecl none ⟨1, locAt 1, 2, if annotated then some 3 else none, some 5⟩),
    (2, locAt 2, .TuplePtrn []),
    (3, locAt 3, .PrimType .I32),
    (5, locAt 5, .BlockExpr [6] false),
    (6, locAt 6, .Stmt 7),
    (7, locAt 7, .CallExpr 8 10),
    (8, locAt 8, .PathExpr ⟨9, locAt 9, some [0], [⟨locAt 9, ⟨"f", locAt 9⟩, []⟩]⟩),
    (10, locAt 10, .TupleExpr [])]

/-- A method under which a recorded overflow stays recorded. -/
def KeepsOverflow (f : TypeChecker → Ty × TypeChecker) : Prop :=
  ∀ tc, tc.overflow = true → (f tc).2.overflow = true

/-- A node under both methods of which a recorded overflow stays recorded. -/
def NodeObj.Sticky (node : NodeObj) : Prop :=
  KeepsOverflow node.infer ∧ ∀ expected, KeepsOverflow (node.check expected)

/-- The checker with which `FnDecl::infer` calls `enter_decl`: the type parameters
have been checked, and the type made of the annotations has been installed when the
function has a return type. -/
def FnDecl.prepare (this : Nat) (type_params : Option NodeObj) (fn : FnExprObj)
    (tc : TypeChecker) : TypeChecker :=
  let forall_ : Option Ty := type_params.map (fun _ => Ty.type_forall this)
  let tc1 :=
    match type_params with
    | some type_params => (tc.check type_params (Ty.param this)).2
    | none => tc
  match fn.ret_type with
  | some ret_type =>
    let param_type := tc1.infer fn.param
    let ret := param_type.2.infer ret_type
    let fn_type := Ty.pi param_type.1 ret.1
    match forall_ with
    | some forall_ => (ret.2.set_op this 1 fn_type).set_type this forall_
    | none => ret.2.set_type this fn_type
  | none => tc1

/-- A node whose methods leave the set of the declarations in progress as they find
it. -/
def NodeObj.KeepsDecls (node : NodeObj) : Prop :=
  (∀ tc, (node.infer tc).2.decls_ = tc.decls_) ∧
  ∀ expected tc, (node.check expected tc).2.decls_ = tc.decls_

/-- The block `{ 3 }`, at address `addr` (its statement is at `addr + 1`). -/
def blockThree (addr : Nat) : NodeObj :=
  BlockExpr.obj exWorld addr (locAt addr) [stmtLit (addr + 1) 3] false

/-- The declaration of the parameter `c`, at address 10. -/
def declC : NodeObj := PtrnDecl.obj 10 (locAt 10)

/-- The expression `c`, a path to the parameter `c`, at address 15 (the path is at
address 14). -/
def exprC : ExprObj :=
  PathExpr.obj exWorld 15 (locAt 15)
    ⟨14, locAt 14, some [⟨declC, some false⟩], [⟨locAt 14, ⟨"c", locAt 14⟩, []⟩]⟩

/-- The expression `if c { 3 }`, at address 18. -/
def ifNoElse : NodeObj := IfExpr.obj 18 (locAt 18) exprC.node (blockThree 16) none

/-- The function `fn f(c: bool) -> i32 { if c { 3 } }`, at address 23. -/
def fnIfNoElse : NodeObj :=
  FnDecl.obj 23 (locAt 23) none
    ⟨21, locAt 21,
      TypedPtrn.obj exWorld 12 (locAt 12) (IdPtrn.obj 11 (locAt 11) declC)
        (PrimType.obj exWorld 13 (locAt 13) .Bool),
      some (PrimType.obj exWorld 22 (locAt 22) .I32),
      some (BlockExpr.obj exWorld 19 (locAt 19) [Stmt.obj 20 (locAt 20) ifNoElse] false)⟩

/-- The function `fn f(c: bool) { if c { 3 } }`, at address 23: the same without
return type. -/
def fnIfNoElseInfer : NodeObj :=
  FnDecl.obj 23 (locAt 23) none
    ⟨21, locAt 21,
      TypedPtrn.obj exWorld 12 (locAt 12) (IdPtrn.obj 11 (locAt 11) declC)
        (PrimType.obj exWorld 13 (locAt 13) .Bool),
      none,
      some (BlockExpr.obj exWorld 19 (locAt 19) [Stmt.obj 20 (locAt 20) ifNoElse] false)⟩

/-- The loop `while true { 3 }`, at address 5. -/
def whileThree : NodeObj := WhileExpr.obj exWorld 5 (locAt 5) (litTrue 1) (blockThree 2)

/-- The arms of a match, gone through from the type obtained so far: the pattern of
each arm is checked against the type of the scrutinee and its expression against the
type obtained so far, and the result of that check is the type obtained for the next
arm. -/
def MatchExpr.arms (arg_type : Ty) : List CaseObj → Ty → TypeChecker → Ty × TypeChecker
  | [], type, tc => (type, tc)
  | case_ :: cases, type, tc =>
    let t := (tc.check case_.ptrn arg_type).2.check case_.expr type
    MatchExpr.arms arg_type cases t.1 t.2

/-- The arms of a match when the expression of every arm is checked against the
expected type itself, as section 4.4 can be read ("a common type that ... is the
expected type"): the pattern of each arm is checked against the type of the scrutinee
and the expression of every arm against `expected`. -/
def MatchExpr.arms_against (arg_type expected : Ty) : List CaseObj → TypeChecker → TypeChecker
  | [], tc => tc
  | case_ :: cases, tc =>
    MatchExpr.arms_against arg_type expected cases
      ((tc.check case_.ptrn arg_type).2.check case_.expr expected).2

/-- The arm `n => true`, at the addresses `addr` and `addr + 1`. -/
def armTrue (addr : Nat) (n : Nat) : CaseObj :=
  ⟨LiteralExpr.obj exWorld addr (locAt addr) (.integer n), litTrue (addr + 1)⟩

/-- The arm `n => m`, at the addresses `addr` and `addr + 1`. -/
def armLit (addr : Nat) (n m : Nat) : CaseObj :=
  ⟨LiteralExpr.obj exWorld addr (locAt addr) (.integer n),
    LiteralExpr.obj exWorld (addr + 1) (locAt (addr + 1)) (.integer m)⟩

/-- The body `{ return(3) }` of the function at address 21, whose return type, if any,
is at address 22. -/
def bodyReturn (annotated : Bool) : NodeObj :=
  BlockExpr.obj exWorld 19 (locAt 19)
    [Stmt.obj 20 (locAt 20)
      (CallExpr.obj exWorld 18 (locAt 18)
        (ReturnExpr.obj exWorld 17 (locAt 17)
          (some ⟨21, locAt 21, if annotated then some 22 else none⟩))
        (LiteralExpr.obj exWorld 16 (locAt 16) (.integer 3)))]
    false

/-- The functions `fn f() -> i32 { return(3) }`, when `annotated` is set, and
`fn f() { return(3) }`, when it is not, at address 23. -/
def fnReturn (annotated : Bool) : NodeObj :=
  FnDecl.obj 23 (locAt 23) none
    ⟨21, locAt 21, TuplePtrn.obj 12 (locAt 12) [],
      if annotated then some (PrimType.obj exWorld 22 (locAt 22) .I32) else none,
      some (bodyReturn annotated)⟩

/-- The expression at which the loop of `check_mut` stops: what is left of an
expression when every enclosing field projection and every call whose callee has an
array type are removed. -/
def Shape.root : Shape → TypeChecker → Shape
  | .PathExpr path, _ => .PathExpr path
  | .ProjExpr expr, tc => expr.root tc
  | .CallExpr callee_addr callee, tc =>
    match tc.type_of callee_addr with
    | some (Ty.variadic_unsafe _) => callee.root tc
    | _ => .CallExpr callee_addr callee
  | .other, _ => .other

/-- The first declaration of the symbol of the path expression at which the loop of
`check_mut` stops, if it stops at a path expression that has a resolved symbol. -/
def Shape.root_decl (shape : Shape) (tc : TypeChecker) : Option DeclObj :=
  match shape.root tc with
  | .PathExpr path =>
    match path.symbol with
    | some (decl :: _) => some decl
    | _ => none
  | _ => none

/-- Whether the loop of `check_mut` stops at a path expression whose member `mut` is
set. -/
def Shape.root_mut (shape : Shape) (tc : TypeChecker) : Bool :=
  match shape.root tc with
  | .PathExpr path => tc.mut_of path.addr
  | _ => false

/-- The declaration of the variable `x`, at address 30. -/
def ptrnDeclX : NodeObj := PtrnDecl.obj 30 (locAt 30)

/-- The expression `x`, a path to the variable `x` declared `mut` or not, at address
36 (the path is at address 35). -/
def exprX (is_mut : Bool) : ExprObj :=
  PathExpr.obj exWorld 36 (locAt 36)
    ⟨35, locAt 35, some [⟨ptrnDeclX, some is_mut⟩], [⟨locAt 35, ⟨"x", locAt 35⟩, []⟩]⟩

/-- The blocks `{ let mut x = 1; x = 2 }`, when `is_mut` is set, and
`{ let x = 1; x = 2 }`, when it is not, at address 40; the assignment is at address
37. -/
def blockAssign (is_mut : Bool) : NodeObj :=
  BlockExpr.obj exWorld 40 (locAt 40)
    [Stmt.obj 34 (locAt 34)
      (LetDecl.obj exWorld 32 (locAt 32) (IdPtrn.obj 31 (locAt 31) ptrnDeclX)
        (some (LiteralExpr.obj exWorld 33 (locAt 33) (.integer 1)))),
      Stmt.obj 39 (locAt 39)
        (BinaryExpr.obj exWorld 37 (locAt 37) (exprX is_mut)
          (LiteralExpr.obj exWorld 38 (locAt 38) (.integer 2)) true false)]
    false

/-- The blocks `{ let mut x = 1; x++ }`, when `is_mut` is set, and
`{ let x = 1; x++ }`, when it is not, at address 40; the increment is at address
37. -/
def blockInc (is_mut : Bool) : NodeObj :=
  BlockExpr.obj exWorld 40 (locAt 40)
    [Stmt.obj 34 (locAt 34)
      (LetDecl.obj exWorld 32 (locAt 32) (IdPtrn.obj 31 (locAt 31) ptrnDeclX)
        (some (LiteralExpr.obj exWorld 33 (locAt 33) (.integer 1)))),
      Stmt.obj 39 (locAt 39) (UnaryExpr.obj exWorld 37 (locAt 37) (exprX is_mut) true false)]
    false

/-- The iteration number `i` of the loop of `Path::infer`, when the loop gets there:
the elements from the one that the iteration is about on, the type reached so far,
and the checker. -/
def Path.reach (w : World) :
    Nat → List PathElemObj → Ty → TypeChecker → Option (List PathElemObj × Ty × TypeChecker)
  | 0, elems, type, tc => some (elems, type, tc)
  | i + 1, elem :: next :: rest, type, tc =>
    match Path.apply_args w elem type tc with
    | .error _ => none
    | .ok applied =>
      match Path.lookup w elem next.id.name applied.1 applied.2 with
      | .error _ => none
      | .ok found => Path.reach w i (next :: rest) found.1 found.2
  | _ + 1, _, _, _ => none

/-- A world for examples in which the struct type of the declaration at address 7 is a
type constructor. -/
def polyWorld : World :=
  ⟨joinSpec, fun type _ _ => type, fun type => !(type == Ty.type_struct 7 ["x"])⟩

/-- A path of one element, at address 60, to the declaration `decl`, with the type
arguments `args`. -/
def onePath (decl : NodeObj) (args : List NodeObj) : PathObj :=
  ⟨60, locAt 60, some [⟨decl, none⟩], [⟨locAt 61, ⟨"S", locAt 61⟩, args⟩]⟩

/-! ## `emit.cpp`: the emitter

thorin, the library of the intermediate representation, is not among the sources, and
neither are `emit.h` and `ast.h`. A `const thorin::Def*` that may be null is an
`Option Def`. A method of the emitter returns nothing (`none`) where the C++ code
goes through a null pointer or casts a definition to a class it does not have; a
failed `assert` stops nothing, as in a release build. The debug information that
the code attaches to definitions is left out. -/

/-- Modelled from the spec: the types of thorin that the emitter makes or reads
(section 4.5): a type that the checker has made, the type of the memory token, the
bottom type, tuple types and function types. -/
inductive IrTy where
  | of (type : Ty)
  | type_mem
  | bot
  | sigma (ops : List IrTy)
  | pi (domain codomain : IrTy)

/-- Modelled from the spec: `World::cn`, the type of a continuation over `ops`, a
function whose result type is bottom (section 4.5, `cn(mem, domain, cn(mem,
codomain))`; glossary, "bottom"). -/
def IrTy.cn (ops : List IrTy) : IrTy := .pi (.sigma ops) .bot

/-- Modelled from the spec: `World::type_bb`, the type of a basic block, with a
parameter of the type `type` if one is given (section 4.5: "every basic block is an IR
lambda whose first parameter is a memory token"; "`j` has a parameter of the
if-expression's type"). -/
def IrTy.type_bb : Option Ty → IrTy
  | none => .cn [.type_mem]
  | some type => .cn [.type_mem, .of type]

/-- Modelled from the spec: the test `isa<thorin::Bot>()` on a type; `no_ret` is the
bottom type (glossary, "`no_ret` / bottom"). -/
def IrTy.isa_bot : IrTy → Bool
  | .bot => true
  | .of .type_no_ret => true
  | _ => false

/-- The components of a type: the operands of a tuple type, and the type itself
otherwise. -/
def IrTy.ops : IrTy → List IrTy
  | .sigma ops => ops
  | .of (.sigma ops) => ops.map .of
  | type => [type]

/-- The component `index` of a type. -/
def IrTy.proj (type : IrTy) (index : Nat) : IrTy :=
  type.ops.getD index (.of .type_error)

/-- The call `domain()` on a function type. -/
def IrTy.domain : IrTy → IrTy
  | .pi domain _ => domain
  | .of (.pi domain _) => .of domain
  | _ => .of .type_error

/-- The call `codomain()` on a function type. -/
def IrTy.codomain : IrTy → IrTy
  | .pi _ codomain => codomain
  | .of (.pi _ codomain) => .of codomain
  | _ => .of .type_error

/-- Modelled from the spec: the type of `cps2ds(f)` for `f` of the type `type`
(section 4.5, "expose as direct-style via a `cps2ds` wrapper"): the function from the
memory token and the argument to the memory token and the result. -/
def IrTy.cps2ds : IrTy → IrTy
  | .pi (.sigma [mem, domain, .pi (.sigma [mem1, codomain]) .bot]) .bot =>
    .pi (.sigma [mem, domain]) (.sigma [mem1, codomain])
  | type => type

/-- Modelled from the spec: the type of `ds2cps(f)` for `f` of the type `type`, the
converse of `IrTy.cps2ds`. -/
def IrTy.ds2cps : IrTy → IrTy
  | .pi (.sigma [mem, domain]) (.sigma [mem1, codomain]) =>
    .cn [mem, domain, .cn [mem1, codomain]]
  | type => type

/-- Modelled from the spec: the definitions (`thorin::Def`) that the emitter makes
(section 4.5; section 6, "lambda/app/tuple/extract/branch constructors, primitive
literals, `cps2ds`/`ds2cps` wrappers"). A lambda is nominal: `lam index` is the lambda
that the world made as its `index`-th one, and `param lam index` is its parameter
`index`. `branch cond t f mem` is what `Lam::branch` writes. -/
inductive Def where
  | lam (index : Nat)
  | param (lam index : Nat)
  | app (callee : Def) (args : List Def)
  | branch (cond t f mem : Def)
  | tuple (ops : List Def)
  | extract (agg : Def) (index : Nat)
  | lit_true
  | lit_false
  | lit (type : Ty) (value : Literal)
  | cps2ds (cps : Def)
  | ds2cps (ds : Def)
  | bot (type : Ty)

/-- Class `Emitter`: the current block `bb_` and the memory token `mem_`; the world,
which is the types of the lambdas made so far (`lams`, by index), the bodies written
into lambdas (`bodies`, the latest first: the lambda and the body it receives) and the
lambdas made external (`exported`); the assignments to the `def` slots of the nodes (`defs`, the
latest first: the address of the node and the value); and the assignments to the
members `continue_` and `break_` of the loops (`loops`, the latest first). -/
structure Emitter where
  bb_ : Option Nat
  mem_ : Option Def
  lams : List IrTy
  bodies : List (Nat × Def)
  exported : List Nat
  defs : List (Nat × Option Def)
  loops : List (Nat × Def × Def)

/-- An `ast::Node`, as the emitter uses it: the address of the node and the virtual
`Node::emit(Emitter&)` of its class. -/
structure EmitObj where
  addr : Nat
  emit : Emitter → Option (Option Def × Emitter)

/-- An `ast::Ptrn`, as the emitter uses it: the address of the pattern and the virtual
`Ptrn::emit(Emitter&, const thorin::Def*)` of its class. -/
structure EmitPtrn where
  addr : Nat
  emit : Option Def → Emitter → Option Emitter

/-- An `ast::Decl`, as the emitter uses it: the node and the virtual
`Decl::emit_head(Emitter&)` of its class. -/
structure EmitDecl where
  node : EmitObj
  emit_head : Emitter → Option (Option Def × Emitter)

/-- An `ast::Stmt`, as `BlockExpr::emit` uses it: the node, and the declaration
`decl_stmt->decl` when `isa<DeclStmt>()` succeeds. -/
structure EmitStmt where
  node : EmitObj
  decl : Option EmitDecl

namespace Emitter

/-- Constructor `Emitter::Emitter`, on a world without lambdas. -/
def init : Emitter := ⟨none, none, [], [], [], [], []⟩

/-- The member `def` of the node at `addr`: the latest assignment to it, and null for
a slot that has not been assigned. -/
def def_of (addr : Nat) (em : Emitter) : Option Def :=
  ((em.defs.find? (fun e => e.1 == addr)).map Prod.snd).join

/-- The assignment `node.def = value` for the node at `addr`. -/
def set_def (addr : Nat) (value : Option Def) (em : Emitter) : Emitter :=
  { em with defs := (addr, value) :: em.defs }

/-- The number of assignments to the member `def` of the node at `addr`. -/
def def_writes (addr : Nat) (em : Emitter) : Nat :=
  (em.defs.filter (fun e => e.1 == addr)).length

/-- The members `continue_` and `break_` of the loop at `loop`, if they have been
assigned. -/
def loop_of (loop : Nat) (em : Emitter) : Option (Def × Def) :=
  (em.loops.find? (fun e => e.1 == loop)).map Prod.snd

/-- The assignments `continue_ = c; break_ = b` of the loop at `loop`. -/
def set_loop (loop : Nat) (c b : Def) (em : Emitter) : Emitter :=
  { em with loops := (loop, c, b) :: em.loops }

/-- Modelled from the spec: `World::lam(type, dbg)`, which makes a new lambda of the
type `type` without a body (section 4.5, "allocate three basic blocks"). -/
def lam (type : IrTy) (em : Emitter) : Nat × Emitter :=
  (em.lams.length, { em with lams := em.lams ++ [type] })

/-- The type of the lambda `lam`. -/
def lam_type (lam : Nat) (em : Emitter) : IrTy :=
  em.lams.getD lam (.of .type_error)

/-- Modelled from the spec: `Lam::num_params`, the number of components of the domain
of the lambda. -/
def num_params (lam : Nat) (em : Emitter) : Nat :=
  (em.lam_type lam).domain.ops.length

/-- Modelled from the spec: `Lam::ret_param`, the last parameter of the lambda
(glossary: "whose last parameter ... is a return continuation"). -/
def ret_param (lam : Nat) (em : Emitter) : Def :=
  .param lam (em.num_params lam - 1)

/-- Modelled from the spec: the calls `Lam::set(filter, body)`, `Lam::app(callee,
args)` and `Lam::branch(cond, t, f, mem)`, which write the body of the lambda `lam`
(section 4.5, "writes its branch/app"). The filter is left out. -/
def set_body (lam : Nat) (body : Def) (em : Emitter) : Emitter :=
  { em with bodies := (lam, body) :: em.bodies }

/-- The number of bodies that the lambda `lam` has received. -/
def body_writes (lam : Nat) (em : Emitter) : Nat :=
  (em.bodies.filter (fun e => e.1 == lam)).length

end Emitter

mutual

/-- Modelled from the spec: the type of a definition, in a world whose lambdas have
the types `lams` (section 4.5): an application has the codomain of the type of its
callee, so that the application of a continuation has the bottom type. -/
def Def.type (lams : List IrTy) : Def → IrTy
  | .lam index => lams.getD index (.of .type_error)
  | .param l index => (lams.getD l (.of .type_error)).domain.proj index
  | .app callee _ => (Def.type lams callee).codomain
  | .branch _ _ _ _ => .bot
  | .tuple ops => .sigma (Def.types lams ops)
  | .extract agg index => (Def.type lams agg).proj index
  | .lit_true => .of .type_bool
  | .lit_false => .of .type_bool
  | .lit t _ => .of t
  | .cps2ds cps => (Def.type lams cps).cps2ds
  | .ds2cps ds => (Def.type lams ds).ds2cps
  | .bot t => .of t

/-- The types of a list of definitions. -/
def Def.types (lams : List IrTy) : List Def → List IrTy
  | [] => []
  | d :: ds => Def.type lams d :: Def.types lams ds

end

namespace Emitter

/-- Method `Emitter::emit_head`. -/
def emit_head (decl : EmitDecl) (em : Emitter) : Option (Option Def × Emitter) :=
  match decl.emit_head em with
  | some r => some (r.1, r.2.set_def decl.node.addr r.1)
  | none => none

/-- Method `Emitter::emit(const ast::Node&)`. -/
def emit (node : EmitObj) (em : Emitter) : Option (Option Def × Emitter) :=
  match node.emit em with
  | some r => some (r.1, r.2.set_def node.addr r.1)
  | none => none

/-- Method `Emitter::emit(const ast::Ptrn&, const thorin::Def*)`. -/
def emit_ptrn (ptrn : EmitPtrn) (value : Option Def) (em : Emitter) : Option Emitter :=
  match ptrn.emit value em with
  | some em1 => some (em1.set_def ptrn.addr value)
  | none => none

/-- Method `Emitter::emit_lam`, for the function type `pi`: `pi->domain(1)` and
`pi->codomain(1)` are the domain and the codomain of the function type, next to the
memory token (section 4.5, "`cn(mem, domain, cn(mem, codomain))`"). A type that is
not a function type is cast by `as<thorin::Pi>()` in the callers. -/
def emit_lam (pi : Ty) (em : Emitter) : Option (Nat × Emitter) :=
  match pi with
  | .pi domain codomain =>
    some (em.lam (.cn [.type_mem, .of domain, .cn [.type_mem, .of codomain]]))
  | _ => none

/-- Method `Emitter::enter`. -/
def enter (bb : Nat) (em : Emitter) : Option Def × Emitter :=
  (if em.num_params bb > 1 then some (.param bb 1) else none,
    { em with bb_ := some bb, mem_ := some (.param bb 0) })

/-- Method `Emitter::jump`, `arg` being null when the caller gives none. The
application is made of `mem_`, which the code does not test. -/
def jump (callee : Nat) (arg : Option Def) (em : Emitter) : Option (Option Def × Emitter) :=
  let written : Option Emitter :=
    match em.bb_ with
    | some bb =>
      match em.mem_ with
      | some mem =>
        some
          (em.set_body bb
            (match arg with
              | some arg => .app (.lam callee) [mem, arg]
              | none => .app (.lam callee) [mem]))
      | none => none
    | none => some em
  match written with
  | some em1 =>
    some
      (if em1.num_params callee > 1 then some (.param callee 1) else none,
        { em1 with bb_ := some callee, mem_ := some (.param callee 0) })
  | none => none

/-- Method `Emitter::call`. The application is made of `mem_`, and a continuation is
written into `bb_`; the code tests neither, but for the `assert`. -/
def call (callee arg : Def) (em : Emitter) : Option (Def × Emitter) :=
  match em.mem_ with
  | some mem =>
    let res := Def.app callee [mem, arg]
    if (res.type em.lams).isa_bot then
      match em.bb_ with
      | some bb => some (res, { em.set_body bb res with mem_ := none, bb_ := none })
      | none => none
    else some (.extract res 1, { em with mem_ := some (.extract res 0) })
  | none => none

end Emitter

/-- Method `Node::emit`, for the classes that have none of their own: it returns null
after its `assert`. -/
def EmitObj.default_emit (em : Emitter) : Option (Option Def × Emitter) := some (none, em)

/-- Method `Ptrn::emit`, for the classes that have none of their own: it does nothing
after its `assert`. -/
def EmitPtrn.default_emit (_value : Option Def) (em : Emitter) : Option Emitter := some em

/-- Method `Path::emit`, `decl` being the address of `symbol->decls.front()` when
there is one. -/
def Path.emit (decl : Option Nat) (em : Emitter) : Option (Option Def × Emitter) :=
  match decl with
  | some decl => some (em.def_of decl, em)
  | none => none

/-- An `ast::Path`, for the emitter. -/
def Path.code (addr : Nat) (decl : Option Nat) : EmitObj := ⟨addr, Path.emit decl⟩

/-- A `DeclStmt`, an `ExprStmt`, a `TypedExpr`, a `PathExpr` or a `FnDecl`: `emit`
passes the call on to the member `inner` (`decl`, `expr`, `path`, `fn`), through the
emitter. -/
def Stmt.code (addr : Nat) (inner : EmitObj) : EmitObj := ⟨addr, Emitter.emit inner⟩

/-- Modelled from the spec: `is_bool_type` of `types.h`, which is not among the sources
(section 4.3): the type is the type of the booleans. -/
def is_bool_type : Ty → Bool
  | .type_bool => true
  | _ => false

/-- Modelled from the spec: `thorin::get_width` of a floating-point type. -/
def get_width : Ty → Nat
  | .type_real width => width
  | _ => 0

/-- Method `LiteralExpr::emit`, `type` being the member `type` of the expression. The
conversion of the value of a floating-point literal to the width of the type is not
part of the model. -/
def LiteralExpr.emit (type : Ty) (lit : Literal) (em : Emitter) :
    Option (Option Def × Emitter) :=
  if is_bool_type type then
    match lit with
    | .bool true => some (some .lit_true, em)
    | _ => some (some .lit_false, em)
  else if is_sint_type type then some (none, em)
  else if is_uint_type type then some (none, em)
  else if is_real_type type && (get_width type == 32 || get_width type == 64) then
    some (some (.lit type lit), em)
  else some (none, em)

/-- A `LiteralExpr`, for the emitter. -/
def LiteralExpr.code (addr : Nat) (type : Ty) (lit : Literal) : EmitObj :=
  ⟨addr, LiteralExpr.emit type lit⟩

/-- The first statement of `FnExpr::emit`, for the function at address `this` whose
member `type` is `type`: the lambda of the function, which is the one that the member
`def` holds if it is set, and a new one otherwise. -/
def FnExpr.lam_of (this : Nat) (type : Ty) (em : Emitter) : Option (Nat × Emitter) :=
  match em.def_of this with
  | some (.cps2ds (.lam lam)) => some (lam, em)
  | some _ => none
  | none => em.emit_lam type

/-- The statement `if (param) ...` of `FnExpr::emit`, for the lambda `lam`. -/
def FnExpr.emit_param (param : Option EmitPtrn) (lam : Nat) (em : Emitter) : Option Emitter :=
  match param with
  | some param => em.emit_ptrn param (some (.param lam 1))
  | none => some em

/-- The statement `if (body) ...` of `FnExpr::emit`, for the lambda `lam`: the body
is emitted, and the application of the return continuation of `lam` to the memory
token and the result is written into the current block. -/
def FnExpr.emit_body (body : Option EmitObj) (lam : Nat) (em : Emitter) : Option Emitter :=
  match body with
  | some body =>
    match em.emit body with
    | some (some res, em1) =>
      match em1.bb_, em1.mem_ with
      | some bb, some mem => some (em1.set_body bb (.app (em1.ret_param lam) [mem, res]))
      | _, _ => none
    | _ => none
  | none => some em

/-- Method `FnExpr::emit`, for the function at address `this` whose member `type` is
`type`. -/
def FnExpr.emit (this : Nat) (type : Ty) (param : Option EmitPtrn) (body : Option EmitObj)
    (em : Emitter) : Option (Option Def × Emitter) :=
  match FnExpr.lam_of this type em with
  | some (lam, em0) =>
    let old_bb := em0.bb_
    match FnExpr.emit_param param lam (em0.enter lam).2 with
    | some em1 =>
      match FnExpr.emit_body body lam em1 with
      | some em2 =>
        some
          (some (.cps2ds (.lam lam)),
            match old_bb with
            | some old_bb => (em2.enter old_bb).2
            | none => em2)
      | none => none
    | none => none
  | none => none

/-- A `FnExpr`, for the emitter. -/
def FnExpr.code (this : Nat) (type : Ty) (param : Option EmitPtrn) (body : Option EmitObj) :
    EmitObj :=
  ⟨this, FnExpr.emit this type param body⟩

/-- The loop of `TupleExpr::emit` over the arguments. -/
def TupleExpr.emit_args : List EmitObj → Emitter → Option (List Def × Emitter)
  | [], em => some ([], em)
  | arg :: args, em =>
    match em.emit arg with
    | some (some d, em1) =>
      match TupleExpr.emit_args args em1 with
      | some (ds, em2) => some (d :: ds, em2)
      | none => none
    | _ => none

/-- Method `TupleExpr::emit`. -/
def TupleExpr.emit (args : List EmitObj) (em : Emitter) : Option (Option Def × Emitter) :=
  match TupleExpr.emit_args args em with
  | some (defs, em1) => some (some (.tuple defs), em1)
  | none => none

/-- A `TupleExpr`, for the emitter. -/
def TupleExpr.code (addr : Nat) (args : List EmitObj) : EmitObj :=
  ⟨addr, TupleExpr.emit args⟩

/-- The first loop of `BlockExpr::emit`, which calls `emit_head` on the declaration of
every `DeclStmt`. -/
def BlockExpr.emit_heads : List EmitStmt → Emitter → Option Emitter
  | [], em => some em
  | stmt :: stmts, em =>
    match stmt.decl with
    | some decl =>
      match em.emit_head decl with
      | some r => BlockExpr.emit_heads stmts r.2
      | none => none
    | none => BlockExpr.emit_heads stmts em

/-- The second loop of `BlockExpr::emit`, `last` being null at first. -/
def BlockExpr.emit_stmts : List EmitStmt → Option Def → Emitter → Option (Option Def × Emitter)
  | [], last, em => some (last, em)
  | stmt :: stmts, _, em =>
    match em.emit stmt.node with
    | some r => BlockExpr.emit_stmts stmts r.1 r.2
    | none => none

/-- Method `BlockExpr::emit`. -/
def BlockExpr.emit (stmts : List EmitStmt) (last_semi : Bool) (em : Emitter) :
    Option (Option Def × Emitter) :=
  match BlockExpr.emit_heads stmts em with
  | some em1 =>
    match BlockExpr.emit_stmts stmts none em1 with
    | some (last, em2) =>
      some (if last.isNone || last_semi then some (.tuple []) else last, em2)
    | none => none
  | none => none

/-- A `BlockExpr`, for the emitter. -/
def BlockExpr.code (addr : Nat) (stmts : List EmitStmt) (last_semi : Bool) : EmitObj :=
  ⟨addr, BlockExpr.emit stmts last_semi⟩

/-- Method `CallExpr::emit`. Of the two arguments of `call`, which the language lets
the compiler evaluate in either order, the callee is emitted first. -/
def CallExpr.emit (callee arg : EmitObj) (em : Emitter) : Option (Option Def × Emitter) :=
  match em.emit callee with
  | some (some c, em1) =>
    match em1.emit arg with
    | some (some a, em2) =>
      match em2.call c a with
      | some r => some (some r.1, r.2)
      | none => none
    | _ => none
  | _ => none

/-- A `CallExpr`, for the emitter. -/
def CallExpr.code (addr : Nat) (callee arg : EmitObj) : EmitObj :=
  ⟨addr, CallExpr.emit callee arg⟩

/-- Method `IfExpr::emit`, `type` being the member `type` of the expression. -/
def IfExpr.emit (type : Ty) (cond if_true : EmitObj) (if_false : Option EmitObj)
    (em : Emitter) : Option (Option Def × Emitter) :=
  let t := em.lam (.type_bb none)
  let f := t.2.lam (.type_bb none)
  let j := f.2.lam (.type_bb (some type))
  match j.2.emit cond with
  | some (some c, em1) =>
    match em1.bb_, em1.mem_ with
    | some bb, some mem =>
      let em2 := ((em1.set_body bb (.branch c (.lam t.1) (.lam f.1) mem)).enter t.1).2
      match em2.emit if_true with
      | some v =>
        match v.2.jump j.1 v.1 with
        | some j1 =>
          let em3 := (j1.2.enter f.1).2
          let joined : Option (Option Def × Emitter) :=
            match if_false with
            | some if_false =>
              match em3.emit if_false with
              | some w => w.2.jump j.1 w.1
              | none => none
            | none => em3.jump j.1 (some (.tuple []))
          match joined with
          | some j2 => some (j2.2.enter j.1)
          | none => none
        | none => none
      | none => none
    | _, _ => none
  | _ => none

/-- An `IfExpr`, for the emitter. -/
def IfExpr.code (addr : Nat) (type : Ty) (cond if_true : EmitObj)
    (if_false : Option EmitObj) : EmitObj :=
  ⟨addr, IfExpr.emit type cond if_true if_false⟩

/-- Method `WhileExpr::emit`, for the loop at address `this`. The two calls of `jump`
give no argument. -/
def WhileExpr.emit (this : Nat) (cond body : EmitObj) (em : Emitter) :
    Option (Option Def × Emitter) :=
  let hd := em.lam (.type_bb none)
  let bd := hd.2.lam (.type_bb none)
  let brk := bd.2.lam (.type_bb none)
  match (brk.2.set_loop this (.lam hd.1) (.lam brk.1)).jump hd.1 none with
  | some j =>
    match j.2.emit cond with
    | some (some c, em1) =>
      match em1.mem_ with
      | some mem =>
        let em2 := ((em1.set_body hd.1 (.branch c (.lam bd.1) (.lam brk.1) mem)).enter bd.1).2
        match em2.emit body with
        | some b =>
          match b.2.jump hd.1 none with
          | some j1 => some (j1.2.enter brk.1)
          | none => none
        | none => none
      | none => none
    | _ => none
  | none => none

/-- A `WhileExpr`, for the emitter. -/
def WhileExpr.code (this : Nat) (cond body : EmitObj) : EmitObj :=
  ⟨this, WhileExpr.emit this cond body⟩

/-- Method `ForExpr::emit`, for the loop at address `this`: `iter` is
`call()->callee->as<CallExpr>()->callee`, `lambda_type` and `lambda_body` are the
members `type` and `body` of `call()->callee->as<CallExpr>()->arg->as<FnExpr>()`,
`range` is `call()->arg` and `callee_type` is the member `type` of `call()->callee`,
whose `codomain(1)` is the codomain of the function type. -/
def ForExpr.emit (this : Nat) (iter : EmitObj) (lambda_type : Ty) (lambda_body : EmitObj)
    (range : EmitObj) (callee_type : Ty) (em : Emitter) : Option (Option Def × Emitter) :=
  match em.emit_lam lambda_type, callee_type with
  | some (bd, em0), .pi _ codomain =>
    let cnt := em0.ret_param bd
    let brk := em0.lam (.type_bb (some codomain))
    match brk.2.emit iter with
    | some (some iter_def, em1) =>
      match em1.call iter_def (.cps2ds (.lam bd)) with
      | some (inner, em2) =>
        match em2.emit range with
        | some (some range_def, em3) =>
          match em3.bb_, em3.mem_ with
          | some bb, some mem =>
            let em4 :=
              (((em3.set_body bb (.app (.ds2cps inner) [mem, range_def, .lam brk.1])).set_loop
                this cnt (.lam brk.1)).enter bd).2
            match em4.emit lambda_body with
            | some (res, em5) =>
              match em5.bb_ with
              | some _ =>
                match res with
                | some res =>
                  match em5.call cnt res with
                  | some r => some (r.2.enter brk.1)
                  | none => none
                | none => none
              | none => some (em5.enter brk.1)
            | none => none
          | _, _ => none
        | _ => none
      | none => none
    | _ => none
  | _, _ => none

/-- A `ForExpr`, for the emitter. -/
def ForExpr.code (this : Nat) (iter : EmitObj) (lambda_type : Ty) (lambda_body : EmitObj)
    (range : EmitObj) (callee_type : Ty) : EmitObj :=
  ⟨this, ForExpr.emit this iter lambda_type lambda_body range callee_type⟩

/-- Method `BreakExpr::emit`, `loop` being the member `loop`: the member `break_` of
the loop, which is null before the loop is emitted. -/
def BreakExpr.emit (loop : Option Nat) (em : Emitter) : Option (Option Def × Emitter) :=
  match loop with
  | some loop => some ((em.loop_of loop).map (fun cb => cb.2), em)
  | none => none

/-- A `BreakExpr`, for the emitter. -/
def BreakExpr.code (addr : Nat) (loop : Option Nat) : EmitObj := ⟨addr, BreakExpr.emit loop⟩

/-- Method `ContinueExpr::emit`, `loop` being the member `loop`. -/
def ContinueExpr.emit (loop : Option Nat) (em : Emitter) : Option (Option Def × Emitter) :=
  match loop with
  | some loop => some ((em.loop_of loop).map (fun cb => cb.1), em)
  | none => none

/-- A `ContinueExpr`, for the emitter. -/
def ContinueExpr.code (addr : Nat) (loop : Option Nat) : EmitObj :=
  ⟨addr, ContinueExpr.emit loop⟩

/-- Method `ReturnExpr::emit`, `fn` being the address of the function that the member
`fn` points to. -/
def ReturnExpr.emit (fn : Option Nat) (em : Emitter) : Option (Option Def × Emitter) :=
  match fn with
  | some fn =>
    match em.def_of fn with
    | some (.cps2ds (.lam lam)) => some (some (em.ret_param lam), em)
    | _ => none
  | none => none

/-- A `ReturnExpr`, for the emitter. -/
def ReturnExpr.code (addr : Nat) (fn : Option Nat) : EmitObj := ⟨addr, ReturnExpr.emit fn⟩

/-- Method `LetDecl::emit`, `ptrn_type` being the member `type` of the pattern. -/
def LetDecl.emit (ptrn : EmitPtrn) (ptrn_type : Ty) (init : Option EmitObj) (em : Emitter) :
    Option (Option Def × Emitter) :=
  let value : Option (Option Def × Emitter) :=
    match init with
    | some init => em.emit init
    | none => some (some (.bot ptrn_type), em)
  match value with
  | some v =>
    match v.2.emit_ptrn ptrn v.1 with
    | some em1 => some (some (.tuple []), em1)
    | none => none
  | none => none

/-- A `LetDecl`, for the emitter: `emit_head` is that of `Decl`, which `emit.cpp` does
not define; it does nothing here. -/
def LetDecl.code (addr : Nat) (ptrn : EmitPtrn) (ptrn_type : Ty) (init : Option EmitObj) :
    EmitDecl :=
  ⟨⟨addr, LetDecl.emit ptrn ptrn_type init⟩, EmitObj.default_emit⟩

/-- Method `FnDecl::emit_head`, `fn` being the address of the member `fn` and
`fn_type` its member `type`. -/
def FnDecl.emit_head (fn : Nat) (fn_type : Ty) (em : Emitter) :
    Option (Option Def × Emitter) :=
  match em.emit_lam fn_type with
  | some (lam, em1) =>
    some
      (some (.cps2ds (.lam lam)),
        { em1 with exported := lam :: em1.exported }.set_def fn (some (.cps2ds (.lam lam))))
  | none => none

/-- A `FnDecl`, for the emitter: `FnDecl::emit` emits the member `fn`. -/
def FnDecl.code (addr : Nat) (fn : EmitObj) (fn_type : Ty) : EmitDecl :=
  ⟨Stmt.code addr fn, FnDecl.emit_head fn.addr fn_type⟩

/-- A `StructDecl` or an `EnumDecl`, for the emitter: `emit_head` and `emit` return
null. -/
def StructDecl.code (addr : Nat) : EmitDecl :=
  ⟨⟨addr, EmitObj.default_emit⟩, EmitObj.default_emit⟩

/-- The first loop of `ModDecl::emit`. -/
def ModDecl.emit_heads : List EmitDecl → Emitter → Option Emitter
  | [], em => some em
  | decl :: decls, em =>
    match em.emit_head decl with
    | some r => ModDecl.emit_heads decls r.2
    | none => none

/-- The second loop of `ModDecl::emit`. -/
def ModDecl.emit_decls : List EmitDecl → Emitter → Option Emitter
  | [], em => some em
  | decl :: decls, em =>
    match em.emit decl.node with
    | some r => ModDecl.emit_decls decls r.2
    | none => none

/-- Method `ModDecl::emit`. -/
def ModDecl.emit (decls : List EmitDecl) (em : Emitter) : Option (Option Def × Emitter) :=
  match ModDecl.emit_heads decls em with
  | some em1 =>
    match ModDecl.emit_decls decls em1 with
    | some em2 => some (none, em2)
    | none => none
  | none => none

/-- Method `Emitter::run`, without the dump of the world. -/
def Emitter.run (decls : List EmitDecl) (em : Emitter) : Option Emitter :=
  (ModDecl.emit decls em).map Prod.snd

/-- A `TypedPtrn`, for the emitter: `TypedPtrn::emit` passes the value on to the member
`ptrn`, through the emitter. -/
def TypedPtrn.code (addr : Nat) (ptrn : EmitPtrn) : EmitPtrn :=
  ⟨addr, Emitter.emit_ptrn ptrn⟩

/-- An `IdPtrn`, for the emitter: `IdPtrn::emit` assigns the value to the member `def`
of the declaration at `decl`. -/
def IdPtrn.code (addr : Nat) (decl : Nat) : EmitPtrn :=
  ⟨addr, fun value em => some (em.set_def decl value)⟩

/-- The loop of `TuplePtrn::emit`, from the index `index` on. -/
def TuplePtrn.emit_args (value : Def) : List EmitPtrn → Nat → Emitter → Option Emitter
  | [], _, em => some em
  | arg :: args, index, em =>
    match em.emit_ptrn arg (some (.extract value index)) with
    | some em1 => TuplePtrn.emit_args value args (index + 1) em1
    | none => none

/-- Method `TuplePtrn::emit`. A pattern without elements does not use the value. -/
def TuplePtrn.emit (args : List EmitPtrn) (value : Option Def) (em : Emitter) :
    Option Emitter :=
  match args, value with
  | [], _ => some em
  | _, some value => TuplePtrn.emit_args value args 0 em
  | _, none => none

/-- A `TuplePtrn`, for the emitter. -/
def TuplePtrn.code (addr : Nat) (args : List EmitPtrn) : EmitPtrn :=
  ⟨addr, TuplePtrn.emit args⟩

/-! ### Programs for the emitter -/

/-- A statement that is the expression `expr`. -/
def exprStmt (addr : Nat) (expr : EmitObj) : EmitStmt := ⟨Stmt.code addr expr, none⟩

/-- The function type `fn () -> bool`. -/
def fnUnitBool : Ty := .pi (.sigma []) .type_bool

/-- The program `fn f() -> bool { return(true) }`, for the emitter: the declaration
is at 0, its function at 1, the parameter `()` at 2, the body at 3 and the call at 5. -/
def fnReturnCall : List EmitDecl :=
  [FnDecl.code 0
    (FnExpr.code 1 fnUnitBool (some (TuplePtrn.code 2 []))
      (some (BlockExpr.code 3
        [exprStmt 4
          (CallExpr.code 5 (ReturnExpr.code 6 (some 1))
            (LiteralExpr.code 7 .type_bool (.bool true)))]
        false)))
    fnUnitBool]

/-- The program `fn f() -> bool { true }`, for the emitter. -/
def fnTrue : List EmitDecl :=
  [FnDecl.code 0
    (FnExpr.code 1 fnUnitBool (some (TuplePtrn.code 2 []))
      (some (BlockExpr.code 3 [exprStmt 4 (LiteralExpr.code 7 .type_bool (.bool true))] false)))
    fnUnitBool]

/-- The expression that is a path to the declaration at `decl`. -/
def pathExprTo (addr : Nat) (decl : Nat) : EmitObj :=
  Stmt.code addr (Path.code (addr + 1) (some decl))

/-- The pattern `x: bool`, for the declaration of `x` at `decl`. -/
def typedId (addr : Nat) (decl : Nat) : EmitPtrn :=
  TypedPtrn.code addr (IdPtrn.code (addr + 1) decl)

/-- The function type `fn bool -> bool`. -/
def fnBoolBool : Ty := .pi .type_bool .type_bool

/-- The call `g(true)`, for the declaration of `g` at 10. -/
def callG (addr : Nat) : EmitObj :=
  CallExpr.code addr (pathExprTo (addr + 1) 10) (LiteralExpr.code (addr + 3) .type_bool (.bool true))

/-- The function literal `|y: bool| y`, at 31. -/
def fnLiteral : EmitObj :=
  FnExpr.code 31 fnBoolBool (some (typedId 32 34)) (some (pathExprTo 35 34))

/-- The program `fn g(x: bool) -> bool { x } fn f() -> bool { g(true); |y: bool| y;
g(true) }`, for the emitter: `g` is at 10 and gets the lambda 0, `f` is at 20 and
gets the lambda 1, and the function literal gets the lambda 2. -/
def fnTwoCalls : List EmitDecl :=
  [FnDecl.code 10
    (FnExpr.code 11 fnBoolBool (some (typedId 12 14))
      (some (BlockExpr.code 15 [exprStmt 16 (pathExprTo 17 14)] false)))
    fnBoolBool,
   FnDecl.code 20
    (FnExpr.code 21 fnUnitBool (some (TuplePtrn.code 22 []))
      (some (BlockExpr.code 23
        [exprStmt 24 (callG 25), exprStmt 30 fnLiteral, exprStmt 40 (callG 41)] false)))
    fnUnitBool]

/-- A block that holds one boolean literal. -/
def blockLit (addr : Nat) (value : Bool) : EmitObj :=
  BlockExpr.code addr [exprStmt (addr + 1) (LiteralExpr.code (addr + 2) .type_bool (.bool value))]
    false

/-- The expression `if a { true } else { false }`, for the declaration of `a` at 4. -/
def ifCond : EmitObj :=
  IfExpr.code 8 .type_bool (pathExprTo 9 4) (blockLit 11 true) (some (blockLit 14 false))

/-- The program `fn f(a: bool) { while if a { true } else { false } { } }`, for the
emitter: `f` gets the lambda 0, the loop the lambdas 1 (`while_head`), 2
(`while_body`) and 3 (`while_break`), and the condition the lambdas 4 (`if_true`), 5
(`if_false`) and 6 (`if_join`). -/
def fnWhileIf : List EmitDecl :=
  [FnDecl.code 0
    (FnExpr.code 1 (.pi .type_bool (.sigma [])) (some (typedId 2 4))
      (some (BlockExpr.code 5
        [exprStmt 6 (WhileExpr.code 7 ifCond (BlockExpr.code 17 [] false))] false)))
    (.pi .type_bool (.sigma []))]

/-- The program `fn f(a: bool) { while a { } }`, with the same addresses. -/
def fnWhile : List EmitDecl :=
  [FnDecl.code 0
    (FnExpr.code 1 (.pi .type_bool (.sigma [])) (some (typedId 2 4))
      (some (BlockExpr.code 5
        [exprStmt 6 (WhileExpr.code 7 (pathExprTo 9 4) (BlockExpr.code 17 [] false))] false)))
    (.pi .type_bool (.sigma []))]

/-- The emitter in a block without value parameter, the lambda 0, which it has
entered. -/
def inBlock : Emitter := ((Emitter.init.lam (.type_bb none)).2.enter 0).2

/-- The emitter of `inBlock` after it has made the function `g` of the type `fn bool
-> bool`, the lambda 1, and a block with a parameter of the type `bool`, the lambda
2. -/
def inBlockWithFn : Emitter :=
  match inBlock.emit_lam fnBoolBool with
  | some r => (r.2.lam (.type_bb (some .type_bool))).2
  | none => inBlock

/-- The emitter in the body of `f` of `fnTwoCalls`, the lambda 1, after the statement
`g(true);`. -/
def afterFirstCall : Option Emitter :=
  match ModDecl.emit_heads fnTwoCalls Emitter.init with
  | some em => (Emitter.emit (callG 25) (em.enter 1).2).map Prod.snd
  | none => none

/-- The block `{ return(true) }` of the function at 1. -/
def blockReturnCall : EmitObj :=
  BlockExpr.code 3
    [exprStmt 4
      (CallExpr.code 5 (ReturnExpr.code 6 (some 1)) (LiteralExpr.code 7 .type_bool (.bool true)))]
    false

/-- The type `fn (fn bool -> ()) -> fn bool -> bool` of an iterator. -/
def iterType : Ty := .pi (.pi .type_bool (.sigma [])) fnBoolBool

/-- The program `fn f(iter: ...) -> bool { for i in iter(true) { return(true) } }`, for
the emitter: the loop `(iter(|i| { return(true) }))(true)` is at 7. -/
def fnForReturn : List EmitDecl :=
  [FnDecl.code 0
    (FnExpr.code 1 (.pi iterType .type_bool) (some (typedId 20 22))
      (some (BlockExpr.code 23
        [exprStmt 24
          (ForExpr.code 7 (pathExprTo 8 22) (.pi .type_bool (.sigma [])) blockReturnCall
            (LiteralExpr.code 10 .type_bool (.bool true)) fnBoolBool)]
        false)))
    (.pi iterType .type_bool)]

/-- The emitter of `fnWhileIf` at the head of the loop, the lambda 1, before the
condition is emitted. -/
def atWhileHead : Option Emitter :=
  match ModDecl.emit_heads fnWhileIf Emitter.init with
  | some em =>
    match (em.enter 0).2.emit_ptrn (typedId 2 4) (some (.param 0 1)) with
    | some em1 =>
      let hd := em1.lam (.type_bb none)
      let bd := hd.2.lam (.type_bb none)
      let brk := bd.2.lam (.type_bb none)
      (brk.2.jump hd.1 none).map Prod.snd
    | none => none
  | none => none

/-! ### More nodes for examples -/

/-- The values assigned to the member `type` of the node at `addr`, the latest
first. -/
def TypeChecker.type_writes (addr : Nat) (tc : TypeChecker) : List Ty :=
  (tc.types.filter (fun e => e.1 == addr)).map Prod.snd

/-- The values assigned to the member `def` of the node at `addr`, the latest
first. -/
def Emitter.def_values (addr : Nat) (em : Emitter) : List (Option Def) :=
  (em.defs.filter (fun e => e.1 == addr)).map Prod.snd

/-- The function `fn f() -> i32 { true }`, at address 23 (its function is at 21). -/
def fnWrongBody : NodeObj :=
  FnDecl.obj 23 (locAt 23) none
    ⟨21, locAt 21, TuplePtrn.obj 12 (locAt 12) [],
      some (PrimType.obj exWorld 22 (locAt 22) .I32),
      some (BlockExpr.obj exWorld 19 (locAt 19) [stmtTrue 20] false)⟩

/-- The block `{ 1; }`, at address 2 (its statement is at 1). -/
def blockOneSemi : NodeObj := BlockExpr.obj exWorld 2 (locAt 2) [stmtLit 1 1] true

/-- The block `{ 1 }`, at address 2 (its statement is at 1). -/
def blockOne : NodeObj := BlockExpr.obj exWorld 2 (locAt 2) [stmtLit 1 1] false

/-- The path `x::y`, at address 2, for a variable `x` whose declaration, at address
1, has the error type. -/
def pathOfError : PathObj :=
  ⟨2, locAt 2, some [⟨typedNode 1 .type_error, none⟩],
    [⟨locAt 2, ⟨"x", locAt 2⟩, []⟩, ⟨locAt 3, ⟨"y", locAt 3⟩, []⟩]⟩

/-- Method `ModDecl::infer`, for the declarations `decls` of the module: the checker
afterwards (the method returns null). -/
def ModDecl.infer (decls : List NodeObj) (tc : TypeChecker) : TypeChecker :=
  decls.foldl (fun tc decl => (tc.infer decl).2) tc

/-- Method `TypeChecker::run`, on the module whose declarations are `decls`: the flag
it returns and the checker afterwards. -/
def TypeChecker.run (decls : List NodeObj) (tc : TypeChecker) : Bool × TypeChecker :=
  let tc1 := ModDecl.infer decls tc
  (tc1.error_count == 0, tc1)

/-- Whether one of the nodes has been given a type that is or contains the error
type. -/
def TypeChecker.has_error_type (tc : TypeChecker) : Bool :=
  tc.types.any (fun e => contains e.2 .type_error)

/-- The function `fn f() { let x = 1; x = 2 }`, at address 53 (its function is at
51, its parameter at 52 and its body at 40). -/
def fnAssign : NodeObj :=
  FnDecl.obj 53 (locAt 53) none
    ⟨51, locAt 51, TuplePtrn.obj 52 (locAt 52) [], none, some (blockAssign false)⟩

/-- The function `fn f() { y }`, at address 53, in which the binder has found no
declaration of `y` (the expression is at 41 and its path at 42). -/
def fnUnbound : NodeObj :=
  FnDecl.obj 53 (locAt 53) none
    ⟨51, locAt 51, TuplePtrn.obj 52 (locAt 52) [], none,
      some (BlockExpr.obj exWorld 40 (locAt 40)
        [Stmt.obj 39 (locAt 39)
          (PathExpr.obj exWorld 41 (locAt 41)
            ⟨42, locAt 42, none, [⟨locAt 42, ⟨"y", locAt 42⟩, []⟩]⟩).node]
        false)⟩

/-- The record expression `S { x = 1 }`, at address 9, for `struct S { x, y }`, whose
declaration is at 7 (the path `S` is at 8). -/
def recordMissing : NodeObj :=
  NodeObj.of_infer exWorld 9 (locAt 9)
    (StructExpr.infer exWorld (locAt 9) (typedNode 8 structS) [fieldOne 1 "x"])

/-! ## The names of the frames -/

/-- The names that a frame declares, in the order of the map. -/
def SymbolTable.names (t : SymbolTable) : List String := t.symbols.map Prod.fst

/-- The names that the frames of the stack declare, the innermost frame first. -/
def NameBinder.names (st : NameBinder) : List (List String) :=
  st.scopes_.map SymbolTable.names

/-- The stack of `st1` is the stack of `st` with `k` more frames pushed, where every
frame of `st` but the innermost declares the names that it declared, and the
innermost frame of `st` too when `closed` is set. -/
def NameBinder.Kept (st : NameBinder) (k : Nat) (closed : Bool) (st1 : NameBinder) : Prop :=
  k ≤ st1.names.length ∧ (st1.names.drop k).length = st.names.length ∧
  (st1.names.drop k).tail = st.names.tail ∧ (closed = true → st1.names.drop k = st.names)

mutual

/-- Modelled from the spec: the classes that `ast.h`, which is not among the sources,
gives the members of the nodes (section 9, "a tagged sum per AST family (`Decl`,
`Expr`, `Type`, `Ptrn`)"). The object is of the class of an expression, a type, a
path, a filter or an attribute, and so is, in turn, every member that `bind` binds
outside of the scopes that the object pushes: a statement, a pattern or a
declaration is found only inside a block, a function, an arm of a `match`, the
condition of an `if` or of a `while`, or the body of a loop. -/
def Form.exprlike : Form → Bool
  | .Path [] _ => true
  | .Path (.mk id args :: rest) _ => exprlikeElems (.mk id args :: rest)
  | .Filter expr => exprlikeOpt expr
  | .Attr => true
  | .PathAttr path => Node.exprlike path
  | .NamedAttr args => exprlikeList args
  | .PrimType => true
  | .TupleType args => exprlikeList args
  | .ArrayType elem => Node.exprlike elem
  | .FnType from_ to_ => Node.exprlike from_ && exprlikeOpt to_
  | .PtrType pointee => Node.exprlike pointee
  | .TypeApp path => Node.exprlike path
  | .ErrorType => true
  | .DeclStmt _ => false
  | .ExprStmt _ => false
  | .TypedExpr expr type => Node.exprlike expr && Node.exprlike type
  | .PathExpr path => Node.exprlike path
  | .LiteralExpr => true
  | .FieldExpr expr => Node.exprlike expr
  | .RecordExpr (some expr) _ fields => Node.exprlike expr && exprlikeList fields
  | .RecordExpr none type fields => exprlikeOpt type && exprlikeList fields
  | .TupleExpr args => exprlikeList args
  | .ArrayExpr elems => exprlikeList elems
  | .RepeatArrayExpr elem => Node.exprlike elem
  | .FnExpr _ => true
  | .BlockExpr _ => true
  | .CallExpr callee arg => Node.exprlike callee && Node.exprlike arg
  | .UnaryExpr arg => Node.exprlike arg
  | .BinaryExpr left right => Node.exprlike left && Node.exprlike right
  | .ProjExpr expr => Node.exprlike expr
  | .IfExpr (some _) _ _ _ if_false => exprlikeOpt if_false
  | .IfExpr none _ _ _ if_false => exprlikeOpt if_false
  | .CaseExpr _ _ => true
  | .MatchExpr arg cases => Node.exprlike arg && exprlikeList cases
  | .WhileExpr _ (some _) _ _ _ => true
  | .WhileExpr _ none _ _ _ => true
  | .ForExpr _ callee loop_body_attrs _ arg => Node.exprlike callee && exprlikeAttrs loop_body_attrs &&
      Node.exprlike arg
  | .BreakExpr _ _ => true
  | .ContinueExpr _ _ => true
  | .ReturnExpr _ _ => true
  | .FilterExpr filter expr => Node.exprlike filter && Node.exprlike expr
  | .CastExpr expr type => Node.exprlike expr && Node.exprlike type
  | .ImplicitCastExpr => true
  | .AsmExpr ins outs => exprlikeList ins && exprlikeList outs
  | .ErrorExpr => true
  | .TypedPtrn _ _ => false
  | .IdPtrn _ _ => false
  | .LiteralPtrn => false
  | .FieldPtrn _ => false
  | .RecordPtrn _ _ => false
  | .CtorPtrn _ _ => false
  | .TuplePtrn _ => false
  | .ArrayPtrn _ => false
  | .ErrorPtrn => false
  | .TypeParam _ => false
  | .TypeParamList _ => false
  | .PtrnDecl _ => false
  | .LetDecl _ _ => false
  | .StaticDecl _ _ _ => false
  | .FnDecl _ _ _ (.mk _ _ _ _ (some _)) => false
  | .FnDecl _ _ _ (.mk _ _ _ _ none) => false
  | .FieldDecl _ _ => false
  | .StructDecl _ _ _ => false
  | .OptionDecl _ (some _) _ => false
  | .OptionDecl _ none _ => false
  | .EnumDecl _ _ _ => false
  | .TypeDecl _ _ _ => false
  | .ModDecl _ _ => false
  | .ErrorDecl => false

/-- The type arguments of the elements of a path are types. -/
def exprlikeElems : List PathElem → Bool
  | [] => true
  | .mk _ args :: elems => exprlikeList args && exprlikeElems elems

/-- The attributes of a node, if any, are attributes. -/
def exprlikeAttrs : Option Node → Bool
  | none => true
  | some (.mk _ form) => Form.exprlike form

/-- The node is an expression, a type, a path, a filter or an attribute, with its
attributes. -/
def Node.exprlike : Node → Bool
  | .mk attrs form => exprlikeAttrs attrs && Form.exprlike form

/-- Every node of a list is an expression, a type, a path, a filter or an
attribute. -/
def exprlikeList : List Node → Bool
  | [] => true
  | node :: nodes => Node.exprlike node && exprlikeList nodes

/-- A child that may be absent is, when present, an expression, a type, a path, a
filter or an attribute. -/
def exprlikeOpt : Option Node → Bool
  | none => true
  | some node => Node.exprlike node

end

/-- The declaration of the variable `x`, at address 1. -/
def declOfX : NamedDecl := ⟨1, ⟨"x", exLoc⟩, exLoc, false⟩

/-- The declaration `let x = 1`. -/
def letDeclX : Node :=
  .plain (.LetDecl (some (.plain .LiteralExpr))
    (.plain (.IdPtrn (.plain (.PtrnDecl declOfX)) none)))

/-- The block `{ let x = 1; x }`. -/
def blockLetX : Node :=
  .plain (.BlockExpr [.plain (.DeclStmt letDeclX), .plain (.ExprStmt (pathExpr "x"))])

/-- A binder whose stack is one frame that declares `y`. -/
def binderWithY : NameBinder :=
  ⟨[⟨false, [("y", ⟨⟨[⟨.PtrnDecl, ⟨2, ⟨"y", exLoc⟩, exLoc, false⟩⟩]⟩, 2⟩)]⟩], none, none, false,
    0, 0, []⟩

/-! ### The other classes of `check.cpp` -/

/-- A node of a class for which `check.cpp` defines neither `infer` nor `check`: both
are those of `Node`. -/
def NodeObj.base (w : World) (addr : Nat) (loc : Loc) : NodeObj :=
  NodeObj.of_infer w addr loc (NodeObj.default_infer loc)

/-- A `TupleType`: `TupleType::infer`, and the `check` of `Node`. -/
def TupleType.obj (w : World) (addr : Nat) (loc : Loc) (args : List NodeObj) : NodeObj :=
  NodeObj.of_infer w addr loc (TypeChecker.infer_tuple args)

/-- Method `ArrayType::infer`. -/
def ArrayType.infer (elem : NodeObj) (tc : TypeChecker) : Ty × TypeChecker :=
  let e := tc.infer elem
  (Ty.variadic_unsafe e.1, e.2)

/-- An `ArrayType`: `ArrayType::infer`, and the `check` of `Node`. -/
def ArrayType.obj (w : World) (addr : Nat) (loc : Loc) (elem : NodeObj) : NodeObj :=
  NodeObj.of_infer w addr loc (ArrayType.infer elem)

/-- Method `FnType::infer`. Of the two arguments of `pi`, which the language lets the
compiler evaluate in either order, `from` is inferred first. -/
def FnType.infer (from_ to_ : NodeObj) (tc : TypeChecker) : Ty × TypeChecker :=
  let f := tc.infer from_
  let t := f.2.infer to_
  (.pi f.1 t.1, t.2)

/-- A `FnType`: `FnType::infer`, and the `check` of `Node`. -/
def FnType.obj (w : World) (addr : Nat) (loc : Loc) (from_ to_ : NodeObj) : NodeObj :=
  NodeObj.of_infer w addr loc (FnType.infer from_ to_)

/-- Method `PtrType::infer`. -/
def PtrType.infer (pointee : NodeObj) (tc : TypeChecker) : Ty × TypeChecker :=
  let p := tc.infer pointee
  (.type_ptr p.1, p.2)

/-- A `PtrType`: `PtrType::infer`, and the `check` of `Node`. -/
def PtrType.obj (w : World) (addr : Nat) (loc : Loc) (pointee : NodeObj) : NodeObj :=
  NodeObj.of_infer w addr loc (PtrType.infer pointee)

/-- A `StructExpr`: `StructExpr::infer`, and the `check` of `Node`. -/
def StructExpr.obj (w : World) (addr : Nat) (loc : Loc) (expr : NodeObj)
    (fields : List FieldObj) : NodeObj :=
  NodeObj.of_infer w addr loc (StructExpr.infer w loc expr fields)

/-- A `StructPtrn`: `StructPtrn::infer`, and the `check` of `Node`. -/
def StructPtrn.obj (w : World) (addr : Nat) (loc : Loc) (path : NodeObj)
    (fields : List FieldObj) : NodeObj :=
  NodeObj.of_infer w addr loc (StructPtrn.infer w loc path fields)

/-- A loop `for (…) checker.check(*elem, elem_type)` of `ArrayExpr::infer` and
`ArrayExpr::check`. -/
def ArrayExpr.check_elems (elem_type : Ty) : List NodeObj → TypeChecker → TypeChecker
  | [], tc => tc
  | elem :: elems, tc => ArrayExpr.check_elems elem_type elems (tc.check elem elem_type).2

/-- Method `ArrayExpr::infer`. -/
def ArrayExpr.infer (loc : Loc) (elems : List NodeObj) (tc : TypeChecker) :
    Ty × TypeChecker :=
  match elems with
  | [] => tc.cannot_infer loc "array expression"
  | front :: rest =>
    let elem_type := tc.infer front
    (Ty.variadic_unsafe elem_type.1, ArrayExpr.check_elems elem_type.1 rest elem_type.2)

/-- Method `ArrayExpr::check`. -/
def ArrayExpr.check (loc : Loc) (elems : List NodeObj) (expected : Ty) (tc : TypeChecker) :
    Ty × TypeChecker :=
  match expected with
  | Ty.variadic_unsafe elem_type =>
    (Ty.variadic_unsafe elem_type, ArrayExpr.check_elems elem_type elems tc)
  | _ => tc.expect_msg loc "array expression" expected

/-- An `ArrayExpr`. -/
def ArrayExpr.obj (addr : Nat) (loc : Loc) (elems : List NodeObj) : NodeObj :=
  ⟨addr, loc, ArrayExpr.infer loc elems, ArrayExpr.check loc elems⟩

/-- A `ForExpr`: `ForExpr::infer` calls the checker on the call `body->as<CallExpr>()`,
whose members are `callee` and `arg`, and `check` is that of `Node`. -/
def ForExpr.obj (w : World) (addr : Nat) (loc : Loc) (callee arg : NodeObj) : NodeObj :=
  NodeObj.of_infer w addr loc (TypeChecker.infer_call callee arg)

/-- A `TypeParam` or an `OptionDecl`: `check` returns the expected type, and `infer` is
that of `Node`. -/
def TypeParam.obj (addr : Nat) (loc : Loc) : NodeObj :=
  ⟨addr, loc, NodeObj.default_infer loc, fun expected tc => (expected, tc)⟩

/-- The loop of `TypeParamList::check` over the parameters, from the index `i`;
`extract` is `world().extract(expected, i, …)`, an operation of the library, which is
not among the sources. -/
def TypeParamList.check_params (extract : Ty → Nat → Ty) (expected : Ty) :
    List NodeObj → Nat → TypeChecker → TypeChecker
  | [], _, tc => tc
  | param :: params, i, tc =>
    TypeParamList.check_params extract expected params (i + 1)
      (tc.check param (extract expected i)).2

/-- Method `TypeParamList::check`. -/
def TypeParamList.check (extract : Ty → Nat → Ty) (params : List NodeObj) (expected : Ty)
    (tc : TypeChecker) : Ty × TypeChecker :=
  match params with
  | [param] => (expected, (tc.check param expected).2)
  | _ => (expected, TypeParamList.check_params extract expected params 0 tc)

/-- A `TypeParamList`: `TypeParamList::check`, and the `infer` of `Node`. -/
def TypeParamList.obj (extract : Ty → Nat → Ty) (addr : Nat) (loc : Loc)
    (params : List NodeObj) : NodeObj :=
  ⟨addr, loc, NodeObj.default_infer loc, TypeParamList.check extract params⟩

/-- A `FieldDecl`: `FieldDecl::infer` infers the member `type`, and `check` is that of
`Node`. -/
def FieldDecl.obj (w : World) (addr : Nat) (loc : Loc) (type : NodeObj) : NodeObj :=
  NodeObj.of_infer w addr loc (TypeChecker.infer type)

/-- The loop of `StructDecl::infer` over the fields, from the index `i`. -/
def StructDecl.infer_fields (this : Nat) : List NodeObj → Nat → TypeChecker → TypeChecker
  | [], _, tc => tc
  | field :: fields, i, tc =>
    let field_type := tc.infer field
    StructDecl.infer_fields this fields (i + 1) (field_type.2.set_op this i field_type.1)

/-- Method `StructDecl::infer`, for the declaration at address `this` whose fields have
the names `meta`. The type parameters are checked by
`TypeChecker::check(const ast::TypeParamList&, Type* parent)`, against the parameter
of the struct type. -/
def StructDecl.infer (this : Nat) (meta : List String) (type_params : Option NodeObj)
    (fields : List NodeObj) (tc : TypeChecker) : Ty × TypeChecker :=
  let struct_type := Ty.type_struct this meta
  let tc1 :=
    match type_params with
    | some type_params => (tc.check type_params (Ty.param this)).2
    | none => tc
  (struct_type, StructDecl.infer_fields this fields 0 (tc1.set_type this struct_type))

/-- A `StructDecl`: `StructDecl::infer`, and the `check` of `Node`. -/
def StructDecl.obj (w : World) (this : Nat) (loc : Loc) (meta : List String)
    (type_params : Option NodeObj) (fields : List NodeObj) : NodeObj :=
  NodeObj.of_infer w this loc (StructDecl.infer this meta type_params fields)

/-- An `OptionDecl`, as `EnumDecl::infer` uses it: the node and the member `param`. -/
structure OptionObj where
  node : NodeObj
  param : Option NodeObj

/-- The loop of `EnumDecl::infer` over the options, from the index `i`.
`type_params->type` is what the `type` slot of the type parameters holds. -/
def EnumDecl.infer_options (this : Nat) (enum_type : Ty) (type_params : Option NodeObj) :
    List OptionObj → Nat → TypeChecker → TypeChecker
  | [], _, tc => tc
  | opt :: options, i, tc =>
    let applied_type :=
      match type_params with
      | some type_params => Ty.app enum_type ((tc.type_of type_params.addr).getD .type_error)
      | none => enum_type
    let option_type :=
      match opt.param with
      | some param =>
        let param_type := tc.infer param
        (Ty.pi param_type.1 applied_type, param_type.2)
      | none => (applied_type, tc)
    let checked := option_type.2.check opt.node option_type.1
    EnumDecl.infer_options this enum_type type_params options (i + 1)
      (checked.2.set_op this i checked.1)

/-- Method `EnumDecl::infer`, for the declaration at address `this` whose options have
the names `meta`. -/
def EnumDecl.infer (this : Nat) (meta : List String) (type_params : Option NodeObj)
    (options : List OptionObj) (tc : TypeChecker) : Ty × TypeChecker :=
  let enum_type := Ty.type_enum this meta
  let tc1 :=
    match type_params with
    | some type_params => (tc.check type_params (Ty.param this)).2
    | none => tc
  (enum_type, EnumDecl.infer_options this enum_type type_params options 0
    (tc1.set_type this enum_type))

/-- An `EnumDecl`: `EnumDecl::infer`, and the `check` of `Node`. -/
def EnumDecl.obj (w : World) (this : Nat) (loc : Loc) (meta : List String)
    (type_params : Option NodeObj) (options : List OptionObj) : NodeObj :=
  NodeObj.of_infer w this loc (EnumDecl.infer this meta type_params options)

/-- A `ModDecl` that is a declaration of a module: `ModDecl::infer` infers the
declarations and returns null; a node of this development has no null type, and the
error type stands for it. `check` is that of `Node`. -/
def ModDecl.obj (w : World) (addr : Nat) (loc : Loc) (decls : List NodeObj) : NodeObj :=
  NodeObj.of_infer w addr loc (fun tc => (.type_error, ModDecl.infer decls tc))

/-! ### What the checker does to the log -/

/-- The diagnostics that `tc1` holds after those of `tc`: what has been reported on the
way from `tc` to `tc1`. -/
def TypeChecker.newDiags (tc tc1 : TypeChecker) : List Diag :=
  tc1.diags.drop tc.diags.length

/-- The checker `tc` has been reached from a checker whose counter was `count` and
whose log was `diags` by reporting only: its log is `diags` followed by what has been
reported since, and its counter is `count` plus the number of errors among that. -/
def TypeChecker.Since (count : Nat) (diags : List Diag) (tc : TypeChecker) : Prop :=
  ∃ new, tc.diags = diags ++ new ∧ tc.error_count = count + countErrors new

/-- Both methods of the node change the counter and the log by reporting only. -/
def NodeObj.Logs (node : NodeObj) : Prop :=
  ∀ (count : Nat) (diags : List Diag) (tc : TypeChecker), tc.Since count diags →
    (node.infer tc).2.Since count diags ∧
      ∀ expected, (node.check expected tc).2.Since count diags

/-- The objects of the nodes of a tree: the objects of the classes of `check.cpp`,
made of such objects. `typedNode` stands for a node whose type is known, and
`NodeObj.overflow` for one that the unfolding of a program has not reached. The
members that a method does not call through the checker (the shape of an expression
that `check_mut` walks, the function that a `ReturnExpr` refers to, the node of a
field `...`, which `check_fields` passes over) are any. -/
inductive NodeObj.Made (w : World) : NodeObj → Prop where
  | base (addr : Nat) (loc : Loc) : Made w (NodeObj.base w addr loc)
  | typed (addr : Nat) (type : Ty) : Made w (typedNode addr type)
  | overflow (addr : Nat) (loc : Loc) : Made w (NodeObj.overflow addr loc)
  | Path (path : PathObj)
      (hs : ∀ decls, path.symbol = some decls → ∀ d ∈ decls, Made w d.node)
      (he : ∀ elem ∈ path.elems, ∀ a ∈ elem.args, Made w a) : Made w (Path.obj w path)
  | PrimType (addr : Nat) (loc : Loc) (tag : PrimType.Tag) :
      Made w (PrimType.obj w addr loc tag)
  | TupleType (addr : Nat) (loc : Loc) (args : List NodeObj) (ha : ∀ a ∈ args, Made w a) :
      Made w (TupleType.obj w addr loc args)
  | ArrayType (addr : Nat) (loc : Loc) (elem : NodeObj) (he : Made w elem) :
      Made w (ArrayType.obj w addr loc elem)
  | FnType (addr : Nat) (loc : Loc) (from_ to_ : NodeObj) (hf : Made w from_)
      (ht : Made w to_) : Made w (FnType.obj w addr loc from_ to_)
  | PtrType (addr : Nat) (loc : Loc) (pointee : NodeObj) (hp : Made w pointee) :
      Made w (PtrType.obj w addr loc pointee)
  | TypeApp (addr : Nat) (loc : Loc) (path : PathObj) (hp : Made w (Path.obj w path)) :
      Made w (TypeApp.obj w addr loc path)
  | Stmt (addr : Nat) (loc : Loc) (inner : NodeObj) (hi : Made w inner) :
      Made w (Stmt.obj addr loc inner)
  | TypedExpr (addr : Nat) (loc : Loc) (expr type : NodeObj) (he : Made w expr)
      (ht : Made w type) : Made w (TypedPtrn.obj w addr loc expr type)
  | PathExpr (addr : Nat) (loc : Loc) (path : PathObj) (hp : Made w (Path.obj w path)) :
      Made w (PathExpr.obj w addr loc path).node
  | LiteralExpr (addr : Nat) (loc : Loc) (lit : Literal) :
      Made w (LiteralExpr.obj w addr loc lit)
  | FieldExpr (addr : Nat) (loc : Loc) (id : Identifier) (expr : NodeObj)
      (he : Made w expr) : Made w (FieldExpr.obj addr loc id expr).node
  | StructExpr (addr : Nat) (loc : Loc) (expr : NodeObj) (fields : List FieldObj)
      (he : Made w expr) (hf : ∀ f ∈ fields, f.is_etc = false → Made w f.node) :
      Made w (StructExpr.obj w addr loc expr fields)
  | TupleExpr (addr : Nat) (loc : Loc) (args : List NodeObj) (ha : ∀ a ∈ args, Made w a) :
      Made w (TupleExpr.obj addr loc args)
  | ArrayExpr (addr : Nat) (loc : Loc) (elems : List NodeObj)
      (he : ∀ e ∈ elems, Made w e) : Made w (ArrayExpr.obj addr loc elems)
  | FnExpr (fn : FnExprObj) (hp : Made w fn.param)
      (hr : ∀ r, fn.ret_type = some r → Made w r) (hb : ∀ b, fn.body = some b → Made w b) :
      Made w (FnExpr.obj fn)
  | BlockExpr (addr : Nat) (loc : Loc) (stmts : List NodeObj) (last_semi : Bool)
      (hs : ∀ s ∈ stmts, Made w s) : Made w (BlockExpr.obj w addr loc stmts last_semi)
  | CallExpr (addr : Nat) (loc : Loc) (callee arg : NodeObj) (hc : Made w callee)
      (ha : Made w arg) : Made w (CallExpr.obj w addr loc callee arg)
  | ProjExpr (addr : Nat) (loc : Loc) (expr : ExprObj) (field : Identifier)
      (he : Made w expr.node) : Made w (ProjExpr.obj w addr loc expr field).node
  | IfExpr (addr : Nat) (loc : Loc) (cond if_true : NodeObj) (if_false : Option NodeObj)
      (hc : Made w cond) (ht : Made w if_true) (hf : ∀ f, if_false = some f → Made w f) :
      Made w (IfExpr.obj addr loc cond if_true if_false)
  | MatchExpr (addr : Nat) (loc : Loc) (arg : NodeObj) (cases : List CaseObj)
      (ha : Made w arg) (hp : ∀ c ∈ cases, Made w c.ptrn)
      (he : ∀ c ∈ cases, Made w c.expr) :
      Made w (MatchExpr.obj addr loc arg cases)
  | WhileExpr (addr : Nat) (loc : Loc) (cond body : NodeObj) (hc : Made w cond)
      (hb : Made w body) : Made w (WhileExpr.obj w addr loc cond body)
  | ForExpr (addr : Nat) (loc : Loc) (callee arg : NodeObj) (hc : Made w callee)
      (ha : Made w arg) : Made w (ForExpr.obj w addr loc callee arg)
  | BreakExpr (addr : Nat) (loc : Loc) : Made w (BreakExpr.obj w addr loc)
  | ReturnExpr (addr : Nat) (loc : Loc) (fn : Option FnRef) :
      Made w (ReturnExpr.obj w addr loc fn)
  | UnaryExpr (addr : Nat) (loc : Loc) (arg : ExprObj) (is_inc is_dec : Bool)
      (ha : Made w arg.node) : Made w (UnaryExpr.obj w addr loc arg is_inc is_dec)
  | BinaryExpr (addr : Nat) (loc : Loc) (left : ExprObj) (right : NodeObj)
      (has_eq has_cmp : Bool) (hl : Made w left.node) (hr : Made w right) :
      Made w (BinaryExpr.obj w addr loc left right has_eq has_cmp)
  | TypeParam (addr : Nat) (loc : Loc) : Made w (TypeParam.obj addr loc)
  | TypeParamList (extract : Ty → Nat → Ty) (addr : Nat) (loc : Loc)
      (params : List NodeObj) (hp : ∀ p ∈ params, Made w p) :
      Made w (TypeParamList.obj extract addr loc params)
  | PtrnDecl (addr : Nat) (loc : Loc) : Made w (PtrnDecl.obj addr loc)
  | LetDecl (addr : Nat) (loc : Loc) (ptrn : NodeObj) (init : Option NodeObj)
      (hp : Made w ptrn) (hi : ∀ i, init = some i → Made w i) :
      Made w (LetDecl.obj w addr loc ptrn init)
  | FnDecl (this : Nat) (loc : Loc) (type_params : Option NodeObj) (fn : FnExprObj)
      (ht : ∀ t, type_params = some t → Made w t) (hp : Made w fn.param)
      (hr : ∀ r, fn.ret_type = some r → Made w r) (hb : ∀ b, fn.body = some b → Made w b) :
      Made w (FnDecl.obj this loc type_params fn)
  | FieldDecl (addr : Nat) (loc : Loc) (type : NodeObj) (ht : Made w type) :
      Made w (FieldDecl.obj w addr loc type)
  | StructDecl (this : Nat) (loc : Loc) (meta : List String) (type_params : Option NodeObj)
      (fields : List NodeObj) (ht : ∀ t, type_params = some t → Made w t)
      (hf : ∀ f ∈ fields, Made w f) : Made w (StructDecl.obj w this loc meta type_params fields)
  | EnumDecl (this : Nat) (loc : Loc) (meta : List String) (type_params : Option NodeObj)
      (options : List OptionObj) (ht : ∀ t, type_params = some t → Made w t)
      (ho : ∀ o ∈ options, Made w o.node)
      (hp : ∀ o ∈ options, ∀ p, o.param = some p → Made w p) :
      Made w (EnumDecl.obj w this loc meta type_params options)
  | ModDecl (addr : Nat) (loc : Loc) (decls : List NodeObj) (hd : ∀ d ∈ decls, Made w d) :
      Made w (ModDecl.obj w addr loc decls)
  | IdPtrn (addr : Nat) (loc : Loc) (decl : NodeObj) (hd : Made w decl) :
      Made w (IdPtrn.obj addr loc decl)
  | StructPtrn (addr : Nat) (loc : Loc) (path : NodeObj) (fields : List FieldObj)
      (hp : Made w path) (hf : ∀ f ∈ fields, f.is_etc = false → Made w f.node) :
      Made w (StructPtrn.obj w addr loc path fields)
  | TuplePtrn (addr : Nat) (loc : Loc) (args : List NodeObj) (ha : ∀ a ∈ args, Made w a) :
      Made w (TuplePtrn.obj addr loc args)

/-! ### Further examples -/

/-- The type `name`, as a type argument: a `TypeApp` whose path is the identifier
`name`, without type arguments of its own. -/
def typeNamed (name : String) : Node :=
  .plain (.TypeApp (.plain (.Path [.mk ⟨name, exLoc⟩ []] none)))

/-- The path `x[y]`, as the parser builds it: one element named `x` with the type
argument `y`. -/
def pathWithArg (x y : String) : Form :=
  .Path [.mk ⟨x, exLoc⟩ [typeNamed y]] none

mutual

/-- The declarations that a pattern introduces: the `PtrnDecl`s of the identifier
patterns that the pattern is made of, through its typed, field, record, constructor,
tuple and array patterns. An object that is not a pattern introduces none. -/
def Form.ptrnDecls : Form → List NamedDecl
  | .TypedPtrn ptrn _ => ptrnDeclsOpt ptrn
  | .IdPtrn decl sub_ptrn => Node.ptrnDecls decl ++ ptrnDeclsOpt sub_ptrn
  | .FieldPtrn ptrn => ptrnDeclsOpt ptrn
  | .RecordPtrn _ fields => ptrnDeclsList fields
  | .CtorPtrn _ arg => ptrnDeclsOpt arg
  | .TuplePtrn args => ptrnDeclsList args
  | .ArrayPtrn elems => ptrnDeclsList elems
  | .PtrnDecl decl => [decl]
  | _ => []

/-- The declarations that the pattern at a node introduces. -/
def Node.ptrnDecls : Node → List NamedDecl
  | .mk _ form => Form.ptrnDecls form

/-- The declarations that the patterns of a list introduce. -/
def ptrnDeclsList : List Node → List NamedDecl
  | [] => []
  | node :: nodes => Node.ptrnDecls node ++ ptrnDeclsList nodes

/-- The declarations that a pattern that may be absent introduces. -/
def ptrnDeclsOpt : Option Node → List NamedDecl
  | none => []
  | some node => Node.ptrnDecls node

end

/-- The statement `let ptrn = init;` (`let ptrn;` without `init`), the statement
carrying the attributes `attrs` and the declaration the attributes `decl_attrs`. -/
def letStmt (attrs decl_attrs : Option Node) (init : Option Node) (ptrn : Node) : Node :=
  .mk attrs (.DeclStmt (.mk decl_attrs (.LetDecl init ptrn)))

/-- The block `{ let x: x = 1; }`: the pattern of the `let` is the identifier pattern
of `declX` with the type `x`. -/
def blockLetTypedX : Node :=
  .plain (.BlockExpr [letStmt none none (some (.plain .LiteralExpr))
    (.plain (.TypedPtrn (some (.plain (.IdPtrn (.plain (.PtrnDecl declX)) none)))
      (typeNamed "x")))])

/-- The block `{ 1; 2; }`, at address 3. -/
def blockTwoSemi : NodeObj := BlockExpr.obj exWorld 3 (locAt 3) [stmtLit 1 1, stmtLit 2 2] true

/-- The function `fn f() -> () { 1; }` when `annotated` is set, and `fn f() { 1; }`
otherwise, at address 9: the block is `blockOneSemi`. -/
def fnOneSemi (annotated : Bool) : NodeObj :=
  FnDecl.obj 9 (locAt 9) none
    ⟨8, locAt 8, TuplePtrn.obj 7 (locAt 7) [],
      if annotated then some (TupleType.obj exWorld 6 (locAt 6) []) else none,
      some blockOneSemi⟩

/-- The function `fn f(c: bool) { if c { 1; } else { 2; } }`, at address 23: the
branches are at the addresses 40 and 50, their statements at 41 and 51. -/
def fnIfSemi : NodeObj :=
  FnDecl.obj 23 (locAt 23) none
    ⟨21, locAt 21,
      TypedPtrn.obj exWorld 12 (locAt 12) (IdPtrn.obj 11 (locAt 11) declC)
        (PrimType.obj exWorld 13 (locAt 13) .Bool),
      none,
      some (BlockExpr.obj exWorld 19 (locAt 19)
        [Stmt.obj 20 (locAt 20)
          (IfExpr.obj 18 (locAt 18) exprC.node
            (BlockExpr.obj exWorld 40 (locAt 40) [stmtLit 41 1] true)
            (some (BlockExpr.obj exWorld 50 (locAt 50) [stmtLit 51 2] true)))] false)⟩

/-- The function literal `|| -> i32 { return(3) }`, at address 31: its return type is
at address 33 and the `return` at address 37. -/
def lambdaReturn : NodeObj :=
  FnExpr.obj
    ⟨31, locAt 31, TuplePtrn.obj 32 (locAt 32) [],
      some (PrimType.obj exWorld 33 (locAt 33) .I32),
      some (BlockExpr.obj exWorld 34 (locAt 34)
        [Stmt.obj 35 (locAt 35)
          (CallExpr.obj exWorld 36 (locAt 36)
            (ReturnExpr.obj exWorld 37 (locAt 37) (some ⟨31, locAt 31, some 33⟩))
            (LiteralExpr.obj exWorld 38 (locAt 38) (.integer 3)))]
        false)⟩

/-- The function `fn f() -> fn () -> i32 { || -> i32 { return(3) } }` when `annotated`
is set, whose body is checked against the return type, and
`fn f() { || -> i32 { return(3) } }` otherwise, whose body is inferred, at
address 23. -/
def fnLambdaReturn (annotated : Bool) : NodeObj :=
  FnDecl.obj 23 (locAt 23) none
    ⟨21, locAt 21, TuplePtrn.obj 12 (locAt 12) [],
      if annotated then
        some (FnType.obj exWorld 22 (locAt 22) (TupleType.obj exWorld 24 (locAt 24) [])
          (PrimType.obj exWorld 25 (locAt 25) .I32))
      else none,
      some (BlockExpr.obj exWorld 19 (locAt 19) [Stmt.obj 20 (locAt 20) lambdaReturn] false)⟩

/-! # Properties of the binder -/

open NameBinder

theorem lookup_appendDecls_self (name : String) (decls : List DeclPtr)
    (es : List (String × SymbolPtr)) :
    (((es.find? (fun e => e.1 == name)).map Prod.snd).map
        (fun p => ({ p with sym := ⟨p.sym.decls ++ decls⟩ } : SymbolPtr))) =
      ((appendDecls name decls es).find? (fun e => e.1 == name)).map Prod.snd := by
  induction es with
  | nil => simp [appendDecls]
  | cons e es ih =>
    by_cases h : e.1 = name
    · simp [appendDecls, h, List.find?_cons]
    · simp [appendDecls, h, List.find?_cons, ih]

theorem lookup_appendDecls_other (name other : String) (decls : List DeclPtr)
    (es : List (String × SymbolPtr)) (h : other ≠ name) :
    (appendDecls name decls es).find? (fun e => e.1 == other) =
      es.find? (fun e => e.1 == other) := by
  induction es with
  | nil => simp [appendDecls]
  | cons e es ih =>
    by_cases h1 : e.1 = name
    · have h2 : ¬ name = other := fun h3 => h h3.symm
      simp [appendDecls, h1, List.find?_cons, h2]
    · by_cases h2 : e.1 = other
      · rw [appendDecls, if_neg (by simpa using h1)]
        simp [List.find?_cons, h2]
      · rw [appendDecls, if_neg (by simpa using h1)]
        simp [List.find?_cons, h2, ih]

theorem SymbolTable.lookup_insert_self (t : SymbolTable) (name : String) (symbol : Symbol) :
    (t.insert name symbol).2.lookup name =
      match t.lookup name with
      | some p => some { p with sym := ⟨p.sym.decls ++ symbol.decls⟩ }
      | none => some ⟨symbol, 1⟩ := by
  cases h : t.lookup name with
  | none =>
    simp only [SymbolTable.insert, h]
    simp only [SymbolTable.lookup] at h ⊢
    simp only [Option.map_eq_none'] at h
    simp [List.find?_append, h]
  | some p =>
    simp only [SymbolTable.insert, h]
    simp only [SymbolTable.lookup] at h ⊢
    rw [← lookup_appendDecls_self, h]
    rfl

theorem SymbolTable.lookup_insert_other (t : SymbolTable) (name other : String)
    (symbol : Symbol) (h : other ≠ name) :
    (t.insert name symbol).2.lookup other = t.lookup other := by
  cases h1 : t.lookup name with
  | none =>
    simp only [SymbolTable.insert, h1]
    simp only [SymbolTable.lookup]
    have h2 : ¬ name = other := fun h3 => h h3.symm
    simp [List.find?_append, h2]
  | some p =>
    simp only [SymbolTable.insert, h1]
    simp only [SymbolTable.lookup]
    rw [lookup_appendDecls_other _ _ _ _ h]

theorem SymbolTable.insert_fst (t : SymbolTable) (name : String) (symbol : Symbol) :
    (t.insert name symbol).1 = (t.lookup name).isNone := by
  cases h1 : t.lookup name <;> simp [SymbolTable.insert, h1]

theorem SymbolTable.insert_top_level (t : SymbolTable) (name : String) (symbol : Symbol) :
    (t.insert name symbol).2.top_level = t.top_level := by
  cases h1 : t.lookup name <;> simp [SymbolTable.insert, h1]

/-- C3: `SymbolTable::insert(name, symbol)` returns true exactly when the frame had no
entry for `name`, and the frame then maps `name` to the inserted symbol; otherwise it
returns false and the entry of `name` keeps its declarations, first one included, with
the declarations of the inserted symbol appended at the end. The entry of every other
name, and the `top_level` flag, are unchanged. -/
theorem SymbolTable.insert_spec (t : SymbolTable) (name : String) (symbol : Symbol) :
    ((t.insert name symbol).1 = true ↔ t.find name = none) ∧
    (t.find name = none → (t.insert name symbol).2.find name = some symbol) ∧
    (∀ old, t.find name = some old →
      (t.insert name symbol).1 = false ∧
      (t.insert name symbol).2.find name = some ⟨old.decls ++ symbol.decls⟩ ∧
      ∀ first, old.decls.head? = some first →
        ∀ now, (t.insert name symbol).2.find name = some now →
          now.decls.head? = some first ∧ now.decls.drop old.decls.length = symbol.decls) ∧
    (∀ other, other ≠ name → (t.insert name symbol).2.lookup other = t.lookup other) ∧
    (t.insert name symbol).2.top_level = t.top_level := by
  refine ⟨?_, ?_, ?_, fun other h => SymbolTable.lookup_insert_other t name other symbol h,
    SymbolTable.insert_top_level t name symbol⟩
  · rw [SymbolTable.insert_fst]
    cases h : t.lookup name <;> simp [SymbolTable.find, h]
  · intro h
    have h1 : t.lookup name = none := by
      cases h2 : t.lookup name <;> simp_all [SymbolTable.find]
    simp [SymbolTable.find, SymbolTable.lookup_insert_self, h1]
  · intro old h
    obtain ⟨p, hp, hold⟩ : ∃ p, t.lookup name = some p ∧ p.sym = old := by
      cases h2 : t.lookup name <;> simp_all [SymbolTable.find]
    have hfind : (t.insert name symbol).2.find name = some ⟨old.decls ++ symbol.decls⟩ := by
      simp [SymbolTable.find, SymbolTable.lookup_insert_self, hp, hold]
    refine ⟨by simp [SymbolTable.insert_fst, hp], hfind, ?_⟩
    intro first hfirst now hnow
    rw [hfind] at hnow
    cases hnow
    cases hd : old.decls with
    | nil => simp [hd] at hfirst
    | cons d ds => simp_all

theorem NameBinder.findIn_eq_none {fs : List SymbolTable} {name : String} :
    findIn fs name = none ↔ ∀ f ∈ fs, f.find name = none := by
  induction fs with
  | nil => simp [findIn]
  | cons t ts ih =>
    cases h : t.find name with
    | none => simp [findIn, h, ih]
    | some s => simp [findIn, h]

theorem NameBinder.findIn_eq_some {fs : List SymbolTable} {name : String} {s : Symbol} :
    findIn fs name = some s ↔
      ∃ pre t post, fs = pre ++ t :: post ∧ (∀ f ∈ pre, f.find name = none) ∧
        t.find name = some s := by
  induction fs with
  | nil => simp [findIn]
  | cons t ts ih =>
    cases h : t.find name with
    | some s1 =>
      simp only [findIn, h]
      constructor
      · intro h1
        exact ⟨[], t, ts, rfl, by simp, by rw [h, h1]⟩
      · rintro ⟨pre, t1, post, h1, h2, h3⟩
        cases pre with
        | nil =>
          simp only [List.nil_append, List.cons.injEq] at h1
          rw [← h1.1, h] at h3
          exact h3
        | cons p ps =>
          simp only [List.cons_append, List.cons.injEq] at h1
          have := h2 p (by simp)
          rw [← h1.1, h] at this
          cases this
    | none =>
      simp only [findIn, h, ih]
      constructor
      · rintro ⟨pre, t1, post, h1, h2, h3⟩
        refine ⟨t :: pre, t1, post, by simp [h1], ?_, h3⟩
        intro f hf
        rcases List.mem_cons.1 hf with rfl | hf
        · exact h
        · exact h2 f hf
      · rintro ⟨pre, t1, post, h1, h2, h3⟩
        cases pre with
        | nil =>
          simp only [List.nil_append, List.cons.injEq] at h1
          rw [← h1.1, h] at h3
          cases h3
        | cons p ps =>
          simp only [List.cons_append, List.cons.injEq] at h1
          exact ⟨ps, t1, post, h1.2, fun f hf => h2 f (by simp [hf]), h3⟩

theorem bindElems_no_args (elems : List PathElem) (st : NameBinder)
    (h : ∀ e ∈ elems, e.args = []) : bindElems elems st = (elems, st) := by
  induction elems generalizing st with
  | nil => simp [bindElems]
  | cons e es ih =>
    cases e with
    | mk id args =>
      have h1 : args = [] := h (.mk id args) (by simp)
      subst h1
      have h2 := ih st (fun e he => h e (by simp [he]))
      simp [bindElems, bindList, h2]

theorem NameBinder.notePrevious_eq (decl : NamedDecl) (others : List DeclPtr)
    (st : NameBinder) :
    notePrevious decl others st =
      { st with diags := st.diags ++ previousNotes decl others } := by
  induction others generalizing st with
  | nil => simp [notePrevious, previousNotes]
  | cons o os ih =>
    by_cases h : o.decl.addr = decl.addr
    · simp [notePrevious, previousNotes, h, ih]
    · simp [notePrevious, previousNotes, h, ih, NameBinder.note]

theorem previousNotes_append_self (decl : DeclPtr) (others : List DeclPtr) :
    previousNotes decl.decl (others ++ [decl]) = previousNotes decl.decl others := by
  simp [previousNotes, List.filter_append]

theorem countAlreadyDeclared_previousNotes (name : String) (decl : NamedDecl)
    (others : List DeclPtr) : countAlreadyDeclared name (previousNotes decl others) = 0 := by
  simp [countAlreadyDeclared, previousNotes, List.countP_eq_zero]

theorem SymbolTable.find_insert_self (t : SymbolTable) (name : String) (symbol : Symbol) :
    (t.insert name symbol).2.find name =
      match t.find name with
      | some old => some ⟨old.decls ++ symbol.decls⟩
      | none => some symbol := by
  simp only [SymbolTable.find, SymbolTable.lookup_insert_self]
  cases t.lookup name <;> rfl

theorem SymbolTable.find_insert_other (t : SymbolTable) (name other : String)
    (symbol : Symbol) (h : other ≠ name) :
    (t.insert name symbol).2.find other = t.find other := by
  simp only [SymbolTable.find, SymbolTable.lookup_insert_other _ _ _ _ h]

theorem SymbolTable.insert_fst_find (t : SymbolTable) (name : String) (symbol : Symbol) :
    (t.insert name symbol).1 = (t.find name).isNone := by
  rw [SymbolTable.insert_fst]
  cases h : t.lookup name <;> simp [SymbolTable.find, h]

theorem NameBinder.insert_symbol_underscore (st : NameBinder) (decl : DeclPtr)
    (h : startsWithUnderscore decl.decl.id.name = true) : st.insert_symbol decl = st := by
  simp [insert_symbol, h]

theorem NameBinder.insert_symbol_redeclared (st : NameBinder) (decl : DeclPtr)
    (back : SymbolTable) (rest : List SymbolTable) (old : Symbol)
    (h1 : st.scopes_ = back :: rest)
    (h2 : startsWithUnderscore decl.decl.id.name = false)
    (h3 : back.find decl.decl.id.name = some old) :
    st.insert_symbol decl =
      { st with
        scopes_ := (back.insert decl.decl.id.name (Symbol.ofDecl decl)).2 :: rest
        errors := st.errors + 1
        diags := st.diags ++
          (⟨.error, some decl.decl.loc, "identifier '{}' already declared",
              [decl.decl.id.name]⟩ :: previousNotes decl.decl old.decls) } := by
  have h4 : (back.insert decl.decl.id.name (Symbol.ofDecl decl)).1 = false := by
    simp [SymbolTable.insert_fst_find, h3]
  have h5 : (back.insert decl.decl.id.name (Symbol.ofDecl decl)).2.find decl.decl.id.name =
      some ⟨old.decls ++ [decl]⟩ := by
    simp [SymbolTable.find_insert_self, h3, Symbol.ofDecl]
  simp only [insert_symbol, h1, h2, h4]
  simp [find_symbol, findIn, NameBinder.error, h5, notePrevious_eq,
    previousNotes_append_self]

theorem NameBinder.insert_symbol_fresh (st : NameBinder) (decl : DeclPtr)
    (back : SymbolTable) (rest : List SymbolTable)
    (h1 : st.scopes_ = back :: rest)
    (h2 : startsWithUnderscore decl.decl.id.name = false)
    (h3 : back.find decl.decl.id.name = none) :
    ∃ new, (∀ d ∈ new, d.severity ≠ .error) ∧
      st.insert_symbol decl =
        { st with
          scopes_ := (back.insert decl.decl.id.name (Symbol.ofDecl decl)).2 :: rest
          warns := st.warns + new.length / 2
          diags := st.diags ++ new } := by
  have h4 : (back.insert decl.decl.id.name (Symbol.ofDecl decl)).1 = true := by
    simp [SymbolTable.insert_fst_find, h3]
  simp only [insert_symbol, h1, h2, h4]
  generalize st.find_symbol decl.decl.id.name = shadow
  cases shadow with
  | none => exact ⟨[], by simp, by simp⟩
  | some shadow =>
    obtain ⟨l⟩ := shadow
    cases l with
    | nil => exact ⟨[], by simp, by simp⟩
    | cons first more =>
      by_cases h5 : (st.warn_on_shadowing && decl.kind == .PtrnDecl &&
          !first.decl.is_top_level) = true
      · refine ⟨[⟨.warn, some decl.decl.loc, "declaration shadows identifier '{}'",
            [decl.decl.id.name]⟩,
          ⟨.note, some first.decl.loc, "previously declared here", []⟩], by simp, ?_⟩
        simp [h5, NameBinder.warn, NameBinder.note]
      · refine ⟨[], by simp, ?_⟩
        simp [h5]

theorem countAlreadyDeclared_append (name : String) (a b : List Diag) :
    countAlreadyDeclared name (a ++ b) =
      countAlreadyDeclared name a + countAlreadyDeclared name b := by
  simp [countAlreadyDeclared]

theorem countAlreadyDeclared_no_error (name : String) (new : List Diag)
    (h : ∀ d ∈ new, d.severity ≠ .error) : countAlreadyDeclared name new = 0 := by
  simp only [countAlreadyDeclared, List.countP_eq_zero]
  intro d hd
  simp [h d hd]

theorem RedeclInv.step {outer : List SymbolTable} {st : NameBinder}
    (h : RedeclInv outer st) (decl : DeclPtr) : RedeclInv outer (st.insert_symbol decl) := by
  obtain ⟨frame, h1, h2, h3⟩ := h
  cases hu : startsWithUnderscore decl.decl.id.name with
  | true =>
    rw [insert_symbol_underscore _ _ hu]
    exact ⟨frame, h1, h2, h3⟩
  | false =>
    cases hf : frame.find decl.decl.id.name with
    | none =>
      obtain ⟨new, hnew, heq⟩ := insert_symbol_fresh st decl frame outer h1 hu hf
      rw [heq]
      refine ⟨_, rfl, ?_, ?_⟩
      · intro name sym hs
        simp only [countAlreadyDeclared_append, countAlreadyDeclared_no_error _ _ hnew,
          Nat.add_zero]
        by_cases hn : name = decl.decl.id.name
        · subst hn
          rw [SymbolTable.find_insert_self, hf] at hs
          cases hs
          simp [Symbol.ofDecl, h3 _ hf]
        · rw [SymbolTable.find_insert_other _ _ _ _ hn] at hs
          exact h2 name sym hs
      · intro name hs
        simp only [countAlreadyDeclared_append, countAlreadyDeclared_no_error _ _ hnew,
          Nat.add_zero]
        by_cases hn : name = decl.decl.id.name
        · subst hn
          rw [SymbolTable.find_insert_self, hf] at hs
          cases hs
        · rw [SymbolTable.find_insert_other _ _ _ _ hn] at hs
          exact h3 name hs
    | some old =>
      rw [insert_symbol_redeclared st decl frame outer old h1 hu hf]
      have hcount : ∀ name, countAlreadyDeclared name
          (st.diags ++ (⟨.error, some decl.decl.loc, "identifier '{}' already declared",
              [decl.decl.id.name]⟩ :: previousNotes decl.decl old.decls)) =
          countAlreadyDeclared name st.diags + if name = decl.decl.id.name then 1 else 0 := by
        intro name
        rw [countAlreadyDeclared_append]
        congr 1
        have : (⟨.error, some decl.decl.loc, "identifier '{}' already declared",
              [decl.decl.id.name]⟩ :: previousNotes decl.decl old.decls : List Diag) =
            [⟨.error, some decl.decl.loc, "identifier '{}' already declared",
              [decl.decl.id.name]⟩] ++ previousNotes decl.decl old.decls := rfl
        rw [this, countAlreadyDeclared_append, countAlreadyDeclared_previousNotes]
        by_cases hn : name = decl.decl.id.name
        · simp [countAlreadyDeclared, hn]
        · have hn2 : ¬ decl.decl.id.name = name := fun h => hn h.symm
          simp [countAlreadyDeclared, hn, hn2]
      refine ⟨_, rfl, ?_, ?_⟩
      · intro name sym hs
        simp only [hcount]
        by_cases hn : name = decl.decl.id.name
        · subst hn
          rw [SymbolTable.find_insert_self, hf] at hs
          cases hs
          have := h2 _ _ hf
          simp [Symbol.ofDecl]
          omega
        · rw [SymbolTable.find_insert_other _ _ _ _ hn] at hs
          simpa [hn] using h2 name sym hs
      · intro name hs
        simp only [hcount]
        by_cases hn : name = decl.decl.id.name
        · subst hn
          rw [SymbolTable.find_insert_self, hf] at hs
          cases hs
        · rw [SymbolTable.find_insert_other _ _ _ _ hn] at hs
          simpa [hn] using h3 name hs

theorem RedeclInv.steps {outer : List SymbolTable} (decls : List DeclPtr) {st : NameBinder}
    (h : RedeclInv outer st) : RedeclInv outer (decls.foldl insert_symbol st) := by
  induction decls generalizing st with
  | nil => exact h
  | cons d ds ih => exact ih (h.step d)

/-- C4: starting from a binder whose innermost frame is empty and that has reported
nothing, after any sequence of `insert_symbol` calls every symbol of the innermost
frame has at least one declaration, and the number of `already declared` errors
written for its name is the number of its declarations minus one (none for a name
the frame does not hold); the outer frames are untouched. Each redeclaration (the
innermost frame already holds the name) counts exactly one error and writes that
error followed by one `previously declared here` note for each earlier declaration
other than the new declaration itself, hence one per earlier declaration when the
new declaration is not among them. -/
theorem insert_symbol_redeclarations :
    (∀ (top_level : Bool) (outer : List SymbolTable) (cur_fn cur_loop : Option Nat)
        (warn_on_shadowing : Bool) (decls : List DeclPtr),
      ∃ frame,
        (decls.foldl insert_symbol
          ⟨⟨top_level, []⟩ :: outer, cur_fn, cur_loop, warn_on_shadowing, 0, 0, []⟩).scopes_ =
            frame :: outer ∧
        (∀ name sym, frame.find name = some sym →
          1 ≤ sym.decls.length ∧
          countAlreadyDeclared name (decls.foldl insert_symbol
            ⟨⟨top_level, []⟩ :: outer, cur_fn, cur_loop, warn_on_shadowing, 0, 0, []⟩).diags =
              sym.decls.length - 1) ∧
        (∀ name, frame.find name = none →
          countAlreadyDeclared name (decls.foldl insert_symbol
            ⟨⟨top_level, []⟩ :: outer, cur_fn, cur_loop, warn_on_shadowing, 0, 0, []⟩).diags =
              0)) ∧
    (∀ (st : NameBinder) (decl : DeclPtr) (back : SymbolTable) (rest : List SymbolTable)
        (old : Symbol),
      st.scopes_ = back :: rest → startsWithUnderscore decl.decl.id.name = false →
      back.find decl.decl.id.name = some old →
        (st.insert_symbol decl).errors = st.errors + 1 ∧
        (st.insert_symbol decl).diags = st.diags ++
          (⟨.error, some decl.decl.loc, "identifier '{}' already declared",
              [decl.decl.id.name]⟩ :: previousNotes decl.decl old.decls) ∧
        ((∀ o ∈ old.decls, o.decl.addr ≠ decl.decl.addr) →
          previousNotes decl.decl old.decls =
            old.decls.map
              (fun o => ⟨.note, some o.decl.loc, "previously declared here", []⟩))) := by
  constructor
  · intro top_level outer cur_fn cur_loop warn_on_shadowing decls
    exact RedeclInv.steps decls
      ⟨⟨top_level, []⟩, rfl, by simp [SymbolTable.find, SymbolTable.lookup],
        by simp [countAlreadyDeclared]⟩
  · intro st decl back rest old h1 h2 h3
    rw [insert_symbol_redeclared st decl back rest old h1 h2 h3]
    refine ⟨rfl, rfl, ?_⟩
    intro h4
    simp only [previousNotes]
    congr 1
    simpa [List.filter_eq_self] using h4

@[simp] theorem NameBinder.ctx_notePrevious (decl : NamedDecl) (others : List DeclPtr)
    (st : NameBinder) : (notePrevious decl others st).ctx = st.ctx := by
  rw [notePrevious_eq]
  rfl

@[simp] theorem NameBinder.ctx_insert_symbol (st : NameBinder) (decl : DeclPtr) :
    (st.insert_symbol decl).ctx = st.ctx := by
  unfold insert_symbol
  simp only []
  split
  · rfl
  · split
    · rfl
    · split
      · split <;> simp [NameBinder.ctx, NameBinder.error, notePrevious_eq]
      · split
        · split
          · split <;> simp [NameBinder.ctx, NameBinder.warn, NameBinder.note]
          · rfl
        · rfl

@[simp] theorem NameBinder.ctx_warnUnused (top_level : Bool) (pairs : List (String × SymbolPtr))
    (st : NameBinder) : (warnUnused top_level pairs st).ctx = st.ctx := by
  induction pairs generalizing st with
  | nil => rfl
  | cons p ps ih =>
    rw [warnUnused, ih]
    split
    · split <;> simp [NameBinder.ctx, NameBinder.warn, NameBinder.note]
    · rfl

@[simp] theorem NameBinder.ctx_pop_scope (st : NameBinder) : st.pop_scope.ctx = st.ctx := by
  unfold pop_scope
  split
  · rfl
  · show (warnUnused _ _ st).ctx = st.ctx
    simp

@[simp] theorem NameBinder.ctx_push_scope (st : NameBinder) (top_level : Bool) :
    (st.push_scope top_level).ctx = st.ctx := rfl

@[simp] theorem NameBinder.ctx_error (st : NameBinder) (loc : Loc) (fmt : String)
    (args : List String) : (st.error loc fmt args).ctx = st.ctx := rfl

@[simp] theorem NameBinder.ctx_note (st : NameBinder) (loc : Option Loc) (fmt : String)
    (args : List String) : (st.note loc fmt args).ctx = st.ctx := rfl

@[simp] theorem NameBinder.ctx_with_scopes (st : NameBinder) (scopes : List SymbolTable) :
    ({ st with scopes_ := scopes } : NameBinder).ctx = st.ctx := rfl

@[simp] theorem NameBinder.ctx_push_loop (st : NameBinder) (loop : Nat) :
    (st.push_loop loop).ctx = (st.cur_fn_, some loop, st.warn_on_shadowing) := rfl

@[simp] theorem NameBinder.ctx_pop_loop (st : NameBinder) (old : Option Nat) :
    (st.pop_loop old).ctx = (st.cur_fn_, old, st.warn_on_shadowing) := rfl

@[simp] theorem NameBinder.ctx_push_fn (st : NameBinder) (fn : Nat) :
    (st.push_fn fn).ctx = (some fn, st.cur_loop_, st.warn_on_shadowing) := rfl

@[simp] theorem NameBinder.ctx_pop_fn (st : NameBinder) (old : Option Nat) :
    (st.pop_fn old).ctx = (old, st.cur_loop_, st.warn_on_shadowing) := rfl

@[simp] theorem NameBinder.ctx_bind_head (decl : Node) (st : NameBinder) :
    (bind_head decl st).ctx = st.ctx := by
  unfold bind_head
  split <;> try simp
  split <;> simp

@[simp] theorem NameBinder.ctx_bind_heads (decls : List Node) (st : NameBinder) :
    (bind_heads decls st).ctx = st.ctx := by
  induction decls generalizing st with
  | nil => rfl
  | cons d ds ih => rw [bind_heads, ih, ctx_bind_head]

@[simp] theorem NameBinder.ctx_bind_stmt_heads (stmts : List Node) (st : NameBinder) :
    (bind_stmt_heads stmts st).ctx = st.ctx := by
  induction stmts generalizing st with
  | nil => rfl
  | cons d ds ih =>
    rw [bind_stmt_heads, ih]
    split <;> simp

@[simp] theorem NameBinder.cur_fn__insert_symbol (st : NameBinder) (decl : DeclPtr) :
    (st.insert_symbol decl).cur_fn_ = st.cur_fn_ :=
  congrArg (Prod.fst) (ctx_insert_symbol st decl)

@[simp] theorem NameBinder.cur_loop__insert_symbol (st : NameBinder) (decl : DeclPtr) :
    (st.insert_symbol decl).cur_loop_ = st.cur_loop_ :=
  congrArg (fun c => c.2.1) (ctx_insert_symbol st decl)

@[simp] theorem NameBinder.warn_on_shadowing_insert_symbol (st : NameBinder) (decl : DeclPtr) :
    (st.insert_symbol decl).warn_on_shadowing = st.warn_on_shadowing :=
  congrArg (fun c => c.2.2) (ctx_insert_symbol st decl)

@[simp] theorem NameBinder.cur_fn__pop_scope (st : NameBinder) :
    (st.pop_scope).cur_fn_ = st.cur_fn_ :=
  congrArg (Prod.fst) (ctx_pop_scope st)

@[simp] theorem NameBinder.cur_loop__pop_scope (st : NameBinder) :
    (st.pop_scope).cur_loop_ = st.cur_loop_ :=
  congrArg (fun c => c.2.1) (ctx_pop_scope st)

@[simp] theorem NameBinder.warn_on_shadowing_pop_scope (st : NameBinder) :
    (st.pop_scope).warn_on_shadowing = st.warn_on_shadowing :=
  congrArg (fun c => c.2.2) (ctx_pop_scope st)

@[simp] theorem NameBinder.cur_fn__bind_head (decl : Node) (st : NameBinder) :
    (bind_head decl st).cur_fn_ = st.cur_fn_ :=
  congrArg (Prod.fst) (ctx_bind_head decl st)

@[simp] theorem NameBinder.cur_loop__bind_head (decl : Node) (st : NameBinder) :
    (bind_head decl st).cur_loop_ = st.cur_loop_ :=
  congrArg (fun c => c.2.1) (ctx_bind_head decl st)

@[simp] theorem NameBinder.warn_on_shadowing_bind_head (decl : Node) (st : NameBinder) :
    (bind_head decl st).warn_on_shadowing = st.warn_on_shadowing :=
  congrArg (fun c => c.2.2) (ctx_bind_head decl st)

@[simp] theorem NameBinder.cur_fn__bind_heads (decls : List Node) (st : NameBinder) :
    (bind_heads decls st).cur_fn_ = st.cur_fn_ :=
  congrArg (Prod.fst) (ctx_bind_heads decls st)

@[simp] theorem NameBinder.cur_loop__bind_heads (decls : List Node) (st : NameBinder) :
    (bind_heads decls st).cur_loop_ = st.cur_loop_ :=
  congrArg (fun c => c.2.1) (ctx_bind_heads decls st)

@[simp] theorem NameBinder.warn_on_shadowing_bind_heads (decls : List Node) (st : NameBinder) :
    (bind_heads decls st).warn_on_shadowing = st.warn_on_shadowing :=
  congrArg (fun c => c.2.2) (ctx_bind_heads decls st)

@[simp] theorem NameBinder.cur_fn__bind_stmt_heads (stmts : List Node) (st : NameBinder) :
    (bind_stmt_heads stmts st).cur_fn_ = st.cur_fn_ :=
  congrArg (Prod.fst) (ctx_bind_stmt_heads stmts st)

@[simp] theorem NameBinder.cur_loop__bind_stmt_heads (stmts : List Node) (st : NameBinder) :
    (bind_stmt_heads stmts st).cur_loop_ = st.cur_loop_ :=
  congrArg (fun c => c.2.1) (ctx_bind_stmt_heads stmts st)

@[simp] theorem NameBinder.warn_on_shadowing_bind_stmt_heads (stmts : List Node) (st : NameBinder) :
    (bind_stmt_heads stmts st).warn_on_shadowing = st.warn_on_shadowing :=
  congrArg (fun c => c.2.2) (ctx_bind_stmt_heads stmts st)

mutual

theorem Form.bindForm_ctx : ∀ (x : Form) (st : NameBinder),
    (Form.bind x st).2.cur_fn_ = st.cur_fn_ ∧ (Form.bind x st).2.cur_loop_ = st.cur_loop_ ∧
    (Form.bind x st).2.warn_on_shadowing = st.warn_on_shadowing
  | .Path [] symbol, st => by
    simp [Form.bind, NameBinder.push_scope, NameBinder.push_loop, NameBinder.pop_loop]
  | .Path (.mk id args :: rest) symbol, st => by
    simp only [Form.bind, bindElems_ctx (.mk id args :: rest)]
    split
    · exact ⟨rfl, rfl, rfl⟩
    · split
      · exact ⟨rfl, rfl, rfl⟩
      · split
        · split <;> exact ⟨rfl, rfl, rfl⟩
        · exact ⟨rfl, rfl, rfl⟩
  | .Filter expr, st => by
    simp [Form.bind, bindOpt_ctx expr, NameBinder.push_scope, NameBinder.push_loop, NameBinder.pop_loop]
  | .Attr, st => by
    simp [Form.bind, NameBinder.push_scope, NameBinder.push_loop, NameBinder.pop_loop]
  | .PathAttr path, st => by
    simp [Form.bind, NameBinder.bind_ctx path, NameBinder.push_scope, NameBinder.push_loop, NameBinder.pop_loop]
  | .NamedAttr args, st => by
    simp [Form.bind, bindList_ctx args, NameBinder.push_scope, NameBinder.push_loop, NameBinder.pop_loop]
  | .PrimType, st => by
    simp [Form.bind, NameBinder.push_scope, NameBinder.push_loop, NameBinder.pop_loop]
  | .TupleType args, st => by
    simp [Form.bind, bindList_ctx args, NameBinder.push_scope, NameBinder.push_loop, NameBinder.pop_loop]
  | .ArrayType elem, st => by
    simp [Form.bind, NameBinder.bind_ctx elem, NameBinder.push_scope, NameBinder.push_loop, NameBinder.pop_loop]
  | .FnType from_ to_, st => by
    simp [Form.bind, NameBinder.bind_ctx from_, bindOpt_ctx to_, NameBinder.push_scope, NameBinder.push_loop, NameBinder.pop_loop]
  | .PtrType pointee, st => by
    simp [Form.bind, NameBinder.bind_ctx pointee, NameBinder.push_scope, NameBinder.push_loop, NameBinder.pop_loop]
  | .TypeApp path, st => by
    simp [Form.bind, NameBinder.bind_ctx path, NameBinder.push_scope, NameBinder.push_loop, NameBinder.pop_loop]
  | .ErrorType, st => by
    simp [Form.bind, NameBinder.push_scope, NameBinder.push_loop, NameBinder.pop_loop]
  | .DeclStmt decl, st => by
    simp [Form.bind, NameBinder.bind_ctx decl, NameBinder.push_scope, NameBinder.push_loop, NameBinder.pop_loop]
  | .ExprStmt expr, st => by
    simp [Form.bind, NameBinder.bind_ctx expr, NameBinder.push_scope, NameBinder.push_loop, NameBinder.pop_loop]
  | .TypedExpr expr type, st => by
    simp [Form.bind, NameBinder.bind_ctx expr, NameBinder.bind_ctx type, NameBinder.push_scope, NameBinder.push_loop, NameBinder.pop_loop]
  | .PathExpr path, st => by
    simp [Form.bind, NameBinder.bind_ctx path, NameBinder.push_scope, NameBinder.push_loop, NameBinder.pop_loop]
  | .LiteralExpr, st => by
    simp [Form.bind, NameBinder.push_scope, NameBinder.push_loop, NameBinder.pop_loop]
  | .FieldExpr expr, st => by
    simp [Form.bind, NameBinder.bind_ctx expr, NameBinder.push_scope, NameBinder.push_loop, NameBinder.pop_loop]
  | .RecordExpr (some expr) type fields, st => by
    simp [Form.bind, NameBinder.bind_ctx expr, bindList_ctx fields, NameBinder.push_scope, NameBinder.push_loop, NameBinder.pop_loop]
  | .RecordExpr none type fields, st => by
    simp [Form.bind, bindOpt_ctx type, bindList_ctx fields, NameBinder.push_scope, NameBinder.push_loop, NameBinder.pop_loop]
  | .TupleExpr args, st => by
    simp [Form.bind, bindList_ctx args, NameBinder.push_scope, NameBinder.push_loop, NameBinder.pop_loop]
  | .ArrayExpr elems, st => by
    simp [Form.bind, bindList_ctx elems, NameBinder.push_scope, NameBinder.push_loop, NameBinder.pop_loop]
  | .RepeatArrayExpr elem, st => by
    simp [Form.bind, NameBinder.bind_ctx elem, NameBinder.push_scope, NameBinder.push_loop, NameBinder.pop_loop]
  | .FnExpr fn, st => by
    simp [Form.bind, FnExpr.bindFn_ctx fn, NameBinder.push_scope, NameBinder.push_loop, NameBinder.pop_loop]
  | .BlockExpr stmts, st => by
    simp [Form.bind, bindList_ctx stmts, NameBinder.push_scope, NameBinder.push_loop, NameBinder.pop_loop]
  | .CallExpr callee arg, st => by
    simp [Form.bind, NameBinder.bind_ctx callee, NameBinder.bind_ctx arg, NameBinder.push_scope, NameBinder.push_loop, NameBinder.pop_loop]
  | .UnaryExpr arg, st => by
    simp [Form.bind, NameBinder.bind_ctx arg, NameBinder.push_scope, NameBinder.push_loop, NameBinder.pop_loop]
  | .BinaryExpr left right, st => by
    simp [Form.bind, NameBinder.bind_ctx left, NameBinder.bind_ctx right, NameBinder.push_scope, NameBinder.push_loop, NameBinder.pop_loop]
  | .ProjExpr expr, st => by
    simp [Form.bind, NameBinder.bind_ctx expr, NameBinder.push_scope, NameBinder.push_loop, NameBinder.pop_loop]
  | .IfExpr (some cond) ptrn expr if_true if_false, st => by
    simp [Form.bind, NameBinder.bind_ctx cond, NameBinder.bind_ctx if_true, bindOpt_ctx if_false, NameBinder.push_scope, NameBinder.push_loop, NameBinder.pop_loop]
  | .IfExpr none ptrn expr if_true if_false, st => by
    simp [Form.bind, bindOpt_ctx ptrn, bindOpt_ctx expr, NameBinder.bind_ctx if_true, bindOpt_ctx if_false, NameBinder.push_scope, NameBinder.push_loop, NameBinder.pop_loop]
  | .CaseExpr ptrn expr, st => by
    simp [Form.bind, NameBinder.bind_ctx ptrn, NameBinder.bind_ctx expr, NameBinder.push_scope, NameBinder.push_loop, NameBinder.pop_loop]
  | .MatchExpr arg cases, st => by
    simp [Form.bind, NameBinder.bind_ctx arg, bindList_ctx cases, NameBinder.push_scope, NameBinder.push_loop, NameBinder.pop_loop]
  | .WhileExpr addr (some cond) ptrn expr body, st => by
    simp [Form.bind, NameBinder.bind_ctx cond, NameBinder.bind_ctx body, NameBinder.push_scope, NameBinder.push_loop, NameBinder.pop_loop]
  | .WhileExpr addr none ptrn expr body, st => by
    simp [Form.bind, bindOpt_ctx ptrn, bindOpt_ctx expr, NameBinder.bind_ctx body, NameBinder.push_scope, NameBinder.push_loop, NameBinder.pop_loop]
  | .ForExpr addr callee loop_body_attrs loop_body arg, st => by
    simp [Form.bind, NameBinder.bind_ctx callee, bindAttrs_ctx loop_body_attrs, FnExpr.bindFn_ctx loop_body, NameBinder.bind_ctx arg, NameBinder.push_scope, NameBinder.push_loop, NameBinder.pop_loop]
  | .BreakExpr loc loop, st => by
    simp only [Form.bind]
    split <;> exact ⟨rfl, rfl, rfl⟩
  | .ContinueExpr loc loop, st => by
    simp only [Form.bind]
    split <;> exact ⟨rfl, rfl, rfl⟩
  | .ReturnExpr loc fn, st => by
    simp only [Form.bind]
    split <;> exact ⟨rfl, rfl, rfl⟩
  | .FilterExpr filter expr, st => by
    simp [Form.bind, NameBinder.bind_ctx filter, NameBinder.bind_ctx expr, NameBinder.push_scope, NameBinder.push_loop, NameBinder.pop_loop]
  | .CastExpr expr type, st => by
    simp [Form.bind, NameBinder.bind_ctx expr, NameBinder.bind_ctx type, NameBinder.push_scope, NameBinder.push_loop, NameBinder.pop_loop]
  | .ImplicitCastExpr, st => by
    simp [Form.bind, NameBinder.push_scope, NameBinder.push_loop, NameBinder.pop_loop]
  | .AsmExpr ins outs, st => by
    simp [Form.bind, bindList_ctx ins, bindList_ctx outs, NameBinder.push_scope, NameBinder.push_loop, NameBinder.pop_loop]
  | .ErrorExpr, st => by
    simp [Form.bind, NameBinder.push_scope, NameBinder.push_loop, NameBinder.pop_loop]
  | .TypedPtrn ptrn type, st => by
    simp [Form.bind, bindOpt_ctx ptrn, NameBinder.bind_ctx type, NameBinder.push_scope, NameBinder.push_loop, NameBinder.pop_loop]
  | .IdPtrn decl sub_ptrn, st => by
    simp [Form.bind, NameBinder.bind_ctx decl, bindOpt_ctx sub_ptrn, NameBinder.push_scope, NameBinder.push_loop, NameBinder.pop_loop]
  | .LiteralPtrn, st => by
    simp [Form.bind, NameBinder.push_scope, NameBinder.push_loop, NameBinder.pop_loop]
  | .FieldPtrn ptrn, st => by
    simp [Form.bind, bindOpt_ctx ptrn, NameBinder.push_scope, NameBinder.push_loop, NameBinder.pop_loop]
  | .RecordPtrn path fields, st => by
    simp [Form.bind, NameBinder.bind_ctx path, bindList_ctx fields, NameBinder.push_scope, NameBinder.push_loop, NameBinder.pop_loop]
  | .CtorPtrn path arg, st => by
    simp [Form.bind, NameBinder.bind_ctx path, bindOpt_ctx arg, NameBinder.push_scope, NameBinder.push_loop, NameBinder.pop_loop]
  | .TuplePtrn args, st => by
    simp [Form.bind, bindList_ctx args, NameBinder.push_scope, NameBinder.push_loop, NameBinder.pop_loop]
  | .ArrayPtrn elems, st => by
    simp [Form.bind, bindList_ctx elems, NameBinder.push_scope, NameBinder.push_loop, NameBinder.pop_loop]
  | .ErrorPtrn, st => by
    simp [Form.bind, NameBinder.push_scope, NameBinder.push_loop, NameBinder.pop_loop]
  | .TypeParam decl, st => by
    simp [Form.bind, NameBinder.push_scope, NameBinder.push_loop, NameBinder.pop_loop]
  | .TypeParamList params, st => by
    simp [Form.bind, bindList_ctx params, NameBinder.push_scope, NameBinder.push_loop, NameBinder.pop_loop]
  | .PtrnDecl decl, st => by
    simp [Form.bind, NameBinder.push_scope, NameBinder.push_loop, NameBinder.pop_loop]
  | .LetDecl init ptrn, st => by
    simp [Form.bind, bindOpt_ctx init, NameBinder.bind_ctx ptrn, NameBinder.push_scope, NameBinder.push_loop, NameBinder.pop_loop]
  | .StaticDecl decl type init, st => by
    simp [Form.bind, bindOpt_ctx type, bindOpt_ctx init, NameBinder.push_scope, NameBinder.push_loop, NameBinder.pop_loop]
  | .FnDecl decl type_params fn_attrs (.mk addr filter param ret_type (some body)), st => by
    simp [Form.bind, bindOpt_ctx type_params, bindAttrs_ctx fn_attrs, FnExpr.bindFn_ctx (.mk addr filter param ret_type (some body)), NameBinder.push_scope, NameBinder.push_loop, NameBinder.pop_loop]
  | .FnDecl decl type_params fn_attrs (.mk addr filter param ret_type none), st => by
    simp [Form.bind, bindOpt_ctx type_params, bindOpt_ctx param, bindOpt_ctx ret_type, NameBinder.push_scope, NameBinder.push_loop, NameBinder.pop_loop]
  | .FieldDecl type init, st => by
    simp [Form.bind, NameBinder.bind_ctx type, bindOpt_ctx init, NameBinder.push_scope, NameBinder.push_loop, NameBinder.pop_loop]
  | .StructDecl decl type_params fields, st => by
    simp [Form.bind, bindOpt_ctx type_params, bindList_ctx fields, NameBinder.push_scope, NameBinder.push_loop, NameBinder.pop_loop]
  | .OptionDecl decl (some param) fields, st => by
    simp [Form.bind, NameBinder.bind_ctx param, NameBinder.push_scope, NameBinder.push_loop, NameBinder.pop_loop]
  | .OptionDecl decl none fields, st => by
    simp [Form.bind, bindList_ctx fields, NameBinder.push_scope, NameBinder.push_loop, NameBinder.pop_loop]
  | .EnumDecl decl type_params options, st => by
    simp [Form.bind, bindOpt_ctx type_params, bindList_ctx options, NameBinder.push_scope, NameBinder.push_loop, NameBinder.pop_loop]
  | .TypeDecl decl type_params aliased_type, st => by
    simp [Form.bind, bindOpt_ctx type_params, NameBinder.bind_ctx aliased_type, NameBinder.push_scope, NameBinder.push_loop, NameBinder.pop_loop]
  | .ModDecl decl decls, st => by
    simp [Form.bind, bindList_ctx decls, NameBinder.push_scope, NameBinder.push_loop, NameBinder.pop_loop]
  | .ErrorDecl, st => by
    simp [Form.bind, NameBinder.push_scope, NameBinder.push_loop, NameBinder.pop_loop]

theorem bindElems_ctx : ∀ (x : List PathElem) (st : NameBinder),
    (bindElems x st).2.cur_fn_ = st.cur_fn_ ∧ (bindElems x st).2.cur_loop_ = st.cur_loop_ ∧
    (bindElems x st).2.warn_on_shadowing = st.warn_on_shadowing
  | [], st => by
    simp [bindElems, NameBinder.push_scope, NameBinder.push_loop, NameBinder.pop_loop]
  | .mk id args :: elems, st => by
    simp [bindElems, bindList_ctx args, bindElems_ctx elems, NameBinder.push_scope, NameBinder.push_loop, NameBinder.pop_loop]

theorem FnExpr.bindFn_ctx : ∀ (x : FnExpr) (in_for_loop : Bool) (st : NameBinder),
    (FnExpr.bind x in_for_loop st).2.cur_fn_ = st.cur_fn_ ∧ (FnExpr.bind x in_for_loop st).2.cur_loop_ = st.cur_loop_ ∧
    (FnExpr.bind x in_for_loop st).2.warn_on_shadowing = st.warn_on_shadowing
  | .mk addr filter param ret_type body, in_for_loop, st => by
    cases in_for_loop <;> simp [FnExpr.bind, bindOpt_ctx param, bindOpt_ctx ret_type, bindOpt_ctx filter, bindOpt_ctx body, NameBinder.push_fn, NameBinder.pop_fn, NameBinder.push_scope]

theorem bindAttrs_ctx : ∀ (x : Option Node) (st : NameBinder),
    (bindAttrs x st).2.cur_fn_ = st.cur_fn_ ∧ (bindAttrs x st).2.cur_loop_ = st.cur_loop_ ∧
    (bindAttrs x st).2.warn_on_shadowing = st.warn_on_shadowing
  | none, st => by
    simp [bindAttrs, NameBinder.push_scope, NameBinder.push_loop, NameBinder.pop_loop]
  | some (.mk attrs form), st => by
    simp [bindAttrs, Form.bindForm_ctx form, NameBinder.push_scope, NameBinder.push_loop, NameBinder.pop_loop]

theorem NameBinder.bind_ctx : ∀ (x : Node) (st : NameBinder),
    (NameBinder.bind x st).2.cur_fn_ = st.cur_fn_ ∧ (NameBinder.bind x st).2.cur_loop_ = st.cur_loop_ ∧
    (NameBinder.bind x st).2.warn_on_shadowing = st.warn_on_shadowing
  | .mk attrs form, st => by
    simp [NameBinder.bind, bindAttrs_ctx attrs, Form.bindForm_ctx form, NameBinder.push_scope, NameBinder.push_loop, NameBinder.pop_loop]

theorem bindList_ctx : ∀ (x : List Node) (st : NameBinder),
    (bindList x st).2.cur_fn_ = st.cur_fn_ ∧ (bindList x st).2.cur_loop_ = st.cur_loop_ ∧
    (bindList x st).2.warn_on_shadowing = st.warn_on_shadowing
  | [], st => by
    simp [bindList, NameBinder.push_scope, NameBinder.push_loop, NameBinder.pop_loop]
  | node :: nodes, st => by
    simp [bindList, NameBinder.bind_ctx node, bindList_ctx nodes, NameBinder.push_scope, NameBinder.push_loop, NameBinder.pop_loop]

theorem bindOpt_ctx : ∀ (x : Option Node) (st : NameBinder),
    (bindOpt x st).2.cur_fn_ = st.cur_fn_ ∧ (bindOpt x st).2.cur_loop_ = st.cur_loop_ ∧
    (bindOpt x st).2.warn_on_shadowing = st.warn_on_shadowing
  | none, st => by
    simp [bindOpt, NameBinder.push_scope, NameBinder.push_loop, NameBinder.pop_loop]
  | some node, st => by
    simp [bindOpt, NameBinder.bind_ctx node, NameBinder.push_scope, NameBinder.push_loop, NameBinder.pop_loop]

end

mutual

theorem Form.bindForm_jumps : ∀ (x : Form) (st : NameBinder),
    Form.boundJumps (Form.bind x st).1 = Form.enclosingJumps x st.cur_loop_ st.cur_fn_
  | .Path [] symbol, st => by
    simp [Form.bind, Form.boundJumps, Form.enclosingJumps, boundJumpsElems, enclosingJumpsElems]
  | .Path (.mk id args :: rest) symbol, st => by
    simp [Form.bind, Form.boundJumps, Form.enclosingJumps, bindElems_jumps (.mk id args :: rest)]
    split
    · rfl
    · split
      · rfl
      · split
        · split <;> rfl
        · rfl
  | .Filter expr, st => by
    simp [Form.bind, Form.boundJumps, Form.enclosingJumps, bindOpt_jumps expr, bindOpt_ctx expr, NameBinder.push_scope, NameBinder.push_loop, NameBinder.pop_loop, NameBinder.push_fn, NameBinder.pop_fn]
  | .Attr, st => by
    simp [Form.bind, Form.boundJumps, Form.enclosingJumps, NameBinder.push_scope, NameBinder.push_loop, NameBinder.pop_loop, NameBinder.push_fn, NameBinder.pop_fn]
  | .PathAttr path, st => by
    simp [Form.bind, Form.boundJumps, Form.enclosingJumps, NameBinder.bind_jumps path, NameBinder.bind_ctx path, NameBinder.push_scope, NameBinder.push_loop, NameBinder.pop_loop, NameBinder.push_fn, NameBinder.pop_fn]
  | .NamedAttr args, st => by
    simp [Form.bind, Form.boundJumps, Form.enclosingJumps, bindList_jumps args, bindList_ctx args, NameBinder.push_scope, NameBinder.push_loop, NameBinder.pop_loop, NameBinder.push_fn, NameBinder.pop_fn]
  | .PrimType, st => by
    simp [Form.bind, Form.boundJumps, Form.enclosingJumps, NameBinder.push_scope, NameBinder.push_loop, NameBinder.pop_loop, NameBinder.push_fn, NameBinder.pop_fn]
  | .TupleType args, st => by
    simp [Form.bind, Form.boundJumps, Form.enclosingJumps, bindList_jumps args, bindList_ctx args, NameBinder.push_scope, NameBinder.push_loop, NameBinder.pop_loop, NameBinder.push_fn, NameBinder.pop_fn]
  | .ArrayType elem, st => by
    simp [Form.bind, Form.boundJumps, Form.enclosingJumps, NameBinder.bind_jumps elem, NameBinder.bind_ctx elem, NameBinder.push_scope, NameBinder.push_loop, NameBinder.pop_loop, NameBinder.push_fn, NameBinder.pop_fn]
  | .FnType from_ to_, st => by
    simp [Form.bind, Form.boundJumps, Form.enclosingJumps, NameBinder.bind_jumps from_, NameBinder.bind_ctx from_, bindOpt_jumps to_, bindOpt_ctx to_, NameBinder.push_scope, NameBinder.push_loop, NameBinder.pop_loop, NameBinder.push_fn, NameBinder.pop_fn]
  | .PtrType pointee, st => by
    simp [Form.bind, Form.boundJumps, Form.enclosingJumps, NameBinder.bind_jumps pointee, NameBinder.bind_ctx pointee, NameBinder.push_scope, NameBinder.push_loop, NameBinder.pop_loop, NameBinder.push_fn, NameBinder.pop_fn]
  | .TypeApp path, st => by
    simp [Form.bind, Form.boundJumps, Form.enclosingJumps, NameBinder.bind_jumps path, NameBinder.bind_ctx path, NameBinder.push_scope, NameBinder.push_loop, NameBinder.pop_loop, NameBinder.push_fn, NameBinder.pop_fn]
  | .ErrorType, st => by
    simp [Form.bind, Form.boundJumps, Form.enclosingJumps, NameBinder.push_scope, NameBinder.push_loop, NameBinder.pop_loop, NameBinder.push_fn, NameBinder.pop_fn]
  | .DeclStmt decl, st => by
    simp [Form.bind, Form.boundJumps, Form.enclosingJumps, NameBinder.bind_jumps decl, NameBinder.bind_ctx decl, NameBinder.push_scope, NameBinder.push_loop, NameBinder.pop_loop, NameBinder.push_fn, NameBinder.pop_fn]
  | .ExprStmt expr, st => by
    simp [Form.bind, Form.boundJumps, Form.enclosingJumps, NameBinder.bind_jumps expr, NameBinder.bind_ctx expr, NameBinder.push_scope, NameBinder.push_loop, NameBinder.pop_loop, NameBinder.push_fn, NameBinder.pop_fn]
  | .TypedExpr expr type, st => by
    simp [Form.bind, Form.boundJumps, Form.enclosingJumps, NameBinder.bind_jumps expr, NameBinder.bind_ctx expr, NameBinder.bind_jumps type, NameBinder.bind_ctx type, NameBinder.push_scope, NameBinder.push_loop, NameBinder.pop_loop, NameBinder.push_fn, NameBinder.pop_fn]
  | .PathExpr path, st => by
    simp [Form.bind, Form.boundJumps, Form.enclosingJumps, NameBinder.bind_jumps path, NameBinder.bind_ctx path, NameBinder.push_scope, NameBinder.push_loop, NameBinder.pop_loop, NameBinder.push_fn, NameBinder.pop_fn]
  | .LiteralExpr, st => by
    simp [Form.bind, Form.boundJumps, Form.enclosingJumps, NameBinder.push_scope, NameBinder.push_loop, NameBinder.pop_loop, NameBinder.push_fn, NameBinder.pop_fn]
  | .FieldExpr expr, st => by
    simp [Form.bind, Form.boundJumps, Form.enclosingJumps, NameBinder.bind_jumps expr, NameBinder.bind_ctx expr, NameBinder.push_scope, NameBinder.push_loop, NameBinder.pop_loop, NameBinder.push_fn, NameBinder.pop_fn]
  | .RecordExpr (some expr) type fields, st => by
    simp [Form.bind, Form.boundJumps, Form.enclosingJumps, NameBinder.bind_jumps expr, NameBinder.bind_ctx expr, bindList_jumps fields, bindList_ctx fields, NameBinder.push_scope, NameBinder.push_loop, NameBinder.pop_loop, NameBinder.push_fn, NameBinder.pop_fn]
  | .RecordExpr none type fields, st => by
    simp [Form.bind, Form.boundJumps, Form.enclosingJumps, bindOpt_jumps type, bindOpt_ctx type, bindList_jumps fields, bindList_ctx fields, NameBinder.push_scope, NameBinder.push_loop, NameBinder.pop_loop, NameBinder.push_fn, NameBinder.pop_fn]
  | .TupleExpr args, st => by
    simp [Form.bind, Form.boundJumps, Form.enclosingJumps, bindList_jumps args, bindList_ctx args, NameBinder.push_scope, NameBinder.push_loop, NameBinder.pop_loop, NameBinder.push_fn, NameBinder.pop_fn]
  | .ArrayExpr elems, st => by
    simp [Form.bind, Form.boundJumps, Form.enclosingJumps, bindList_jumps elems, bindList_ctx elems, NameBinder.push_scope, NameBinder.push_loop, NameBinder.pop_loop, NameBinder.push_fn, NameBinder.pop_fn]
  | .RepeatArrayExpr elem, st => by
    simp [Form.bind, Form.boundJumps, Form.enclosingJumps, NameBinder.bind_jumps elem, NameBinder.bind_ctx elem, NameBinder.push_scope, NameBinder.push_loop, NameBinder.pop_loop, NameBinder.push_fn, NameBinder.pop_fn]
  | .FnExpr fn, st => by
    simp [Form.bind, Form.boundJumps, Form.enclosingJumps, FnExpr.bindFn_jumps fn, FnExpr.bindFn_ctx fn, NameBinder.push_scope, NameBinder.push_loop, NameBinder.pop_loop, NameBinder.push_fn, NameBinder.pop_fn]
  | .BlockExpr stmts, st => by
    simp [Form.bind, Form.boundJumps, Form.enclosingJumps, bindList_jumps stmts, bindList_ctx stmts, NameBinder.push_scope, NameBinder.push_loop, NameBinder.pop_loop, NameBinder.push_fn, NameBinder.pop_fn]
  | .CallExpr callee arg, st => by
    simp [Form.bind, Form.boundJumps, Form.enclosingJumps, NameBinder.bind_jumps callee, NameBinder.bind_ctx callee, NameBinder.bind_jumps arg, NameBinder.bind_ctx arg, NameBinder.push_scope, NameBinder.push_loop, NameBinder.pop_loop, NameBinder.push_fn, NameBinder.pop_fn]
  | .UnaryExpr arg, st => by
    simp [Form.bind, Form.boundJumps, Form.enclosingJumps, NameBinder.bind_jumps arg, NameBinder.bind_ctx arg, NameBinder.push_scope, NameBinder.push_loop, NameBinder.pop_loop, NameBinder.push_fn, NameBinder.pop_fn]
  | .BinaryExpr left right, st => by
    simp [Form.bind, Form.boundJumps, Form.enclosingJumps, NameBinder.bind_jumps left, NameBinder.bind_ctx left, NameBinder.bind_jumps right, NameBinder.bind_ctx right, NameBinder.push_scope, NameBinder.push_loop, NameBinder.pop_loop, NameBinder.push_fn, NameBinder.pop_fn]
  | .ProjExpr expr, st => by
    simp [Form.bind, Form.boundJumps, Form.enclosingJumps, NameBinder.bind_jumps expr, NameBinder.bind_ctx expr, NameBinder.push_scope, NameBinder.push_loop, NameBinder.pop_loop, NameBinder.push_fn, NameBinder.pop_fn]
  | .IfExpr (some cond) ptrn expr if_true if_false, st => by
    simp [Form.bind, Form.boundJumps, Form.enclosingJumps, NameBinder.bind_jumps cond, NameBinder.bind_ctx cond, NameBinder.bind_jumps if_true, NameBinder.bind_ctx if_true, bindOpt_jumps if_false, bindOpt_ctx if_false, NameBinder.push_scope, NameBinder.push_loop, NameBinder.pop_loop, NameBinder.push_fn, NameBinder.pop_fn]
  | .IfExpr none ptrn expr if_true if_false, st => by
    simp [Form.bind, Form.boundJumps, Form.enclosingJumps, bindOpt_jumps ptrn, bindOpt_ctx ptrn, bindOpt_jumps expr, bindOpt_ctx expr, NameBinder.bind_jumps if_true, NameBinder.bind_ctx if_true, bindOpt_jumps if_false, bindOpt_ctx if_false, NameBinder.push_scope, NameBinder.push_loop, NameBinder.pop_loop, NameBinder.push_fn, NameBinder.pop_fn]
  | .CaseExpr ptrn expr, st => by
    simp [Form.bind, Form.boundJumps, Form.enclosingJumps, NameBinder.bind_jumps ptrn, NameBinder.bind_ctx ptrn, NameBinder.bind_jumps expr, NameBinder.bind_ctx expr, NameBinder.push_scope, NameBinder.push_loop, NameBinder.pop_loop, NameBinder.push_fn, NameBinder.pop_fn]
  | .MatchExpr arg cases, st => by
    simp [Form.bind, Form.boundJumps, Form.enclosingJumps, NameBinder.bind_jumps arg, NameBinder.bind_ctx arg, bindList_jumps cases, bindList_ctx cases, NameBinder.push_scope, NameBinder.push_loop, NameBinder.pop_loop, NameBinder.push_fn, NameBinder.pop_fn]
  | .WhileExpr addr (some cond) ptrn expr body, st => by
    simp [Form.bind, Form.boundJumps, Form.enclosingJumps, NameBinder.bind_jumps cond, NameBinder.bind_ctx cond, NameBinder.bind_jumps body, NameBinder.bind_ctx body, NameBinder.push_scope, NameBinder.push_loop, NameBinder.pop_loop, NameBinder.push_fn, NameBinder.pop_fn]
  | .WhileExpr addr none ptrn expr body, st => by
    simp [Form.bind, Form.boundJumps, Form.enclosingJumps, bindOpt_jumps ptrn, bindOpt_ctx ptrn, bindOpt_jumps expr, bindOpt_ctx expr, NameBinder.bind_jumps body, NameBinder.bind_ctx body, NameBinder.push_scope, NameBinder.push_loop, NameBinder.pop_loop, NameBinder.push_fn, NameBinder.pop_fn]
  | .ForExpr addr callee loop_body_attrs loop_body arg, st => by
    simp [Form.bind, Form.boundJumps, Form.enclosingJumps, NameBinder.bind_jumps callee, NameBinder.bind_ctx callee, bindAttrs_jumps loop_body_attrs, bindAttrs_ctx loop_body_attrs, FnExpr.bindFn_jumps loop_body, FnExpr.bindFn_ctx loop_body, NameBinder.bind_jumps arg, NameBinder.bind_ctx arg, NameBinder.push_scope, NameBinder.push_loop, NameBinder.pop_loop, NameBinder.push_fn, NameBinder.pop_fn]
  | .BreakExpr loc loop, st => by
    simp [Form.bind, Form.boundJumps, Form.enclosingJumps, NameBinder.push_scope, NameBinder.push_loop, NameBinder.pop_loop, NameBinder.push_fn, NameBinder.pop_fn]
  | .ContinueExpr loc loop, st => by
    simp [Form.bind, Form.boundJumps, Form.enclosingJumps, NameBinder.push_scope, NameBinder.push_loop, NameBinder.pop_loop, NameBinder.push_fn, NameBinder.pop_fn]
  | .ReturnExpr loc fn, st => by
    simp [Form.bind, Form.boundJumps, Form.enclosingJumps, NameBinder.push_scope, NameBinder.push_loop, NameBinder.pop_loop, NameBinder.push_fn, NameBinder.pop_fn]
  | .FilterExpr filter expr, st => by
    simp [Form.bind, Form.boundJumps, Form.enclosingJumps, NameBinder.bind_jumps filter, NameBinder.bind_ctx filter, NameBinder.bind_jumps expr, NameBinder.bind_ctx expr, NameBinder.push_scope, NameBinder.push_loop, NameBinder.pop_loop, NameBinder.push_fn, NameBinder.pop_fn]
  | .CastExpr expr type, st => by
    simp [Form.bind, Form.boundJumps, Form.enclosingJumps, NameBinder.bind_jumps expr, NameBinder.bind_ctx expr, NameBinder.bind_jumps type, NameBinder.bind_ctx type, NameBinder.push_scope, NameBinder.push_loop, NameBinder.pop_loop, NameBinder.push_fn, NameBinder.pop_fn]
  | .ImplicitCastExpr, st => by
    simp [Form.bind, Form.boundJumps, Form.enclosingJumps, NameBinder.push_scope, NameBinder.push_loop, NameBinder.pop_loop, NameBinder.push_fn, NameBinder.pop_fn]
  | .AsmExpr ins outs, st => by
    simp [Form.bind, Form.boundJumps, Form.enclosingJumps, bindList_jumps ins, bindList_ctx ins, bindList_jumps outs, bindList_ctx outs, NameBinder.push_scope, NameBinder.push_loop, NameBinder.pop_loop, NameBinder.push_fn, NameBinder.pop_fn]
  | .ErrorExpr, st => by
    simp [Form.bind, Form.boundJumps, Form.enclosingJumps, NameBinder.push_scope, NameBinder.push_loop, NameBinder.pop_loop, NameBinder.push_fn, NameBinder.pop_fn]
  | .TypedPtrn ptrn type, st => by
    simp [Form.bind, Form.boundJumps, Form.enclosingJumps, bindOpt_jumps ptrn, bindOpt_ctx ptrn, NameBinder.bind_jumps type, NameBinder.bind_ctx type, NameBinder.push_scope, NameBinder.push_loop, NameBinder.pop_loop, NameBinder.push_fn, NameBinder.pop_fn]
  | .IdPtrn decl sub_ptrn, st => by
    simp [Form.bind, Form.boundJumps, Form.enclosingJumps, NameBinder.bind_jumps decl, NameBinder.bind_ctx decl, bindOpt_jumps sub_ptrn, bindOpt_ctx sub_ptrn, NameBinder.push_scope, NameBinder.push_loop, NameBinder.pop_loop, NameBinder.push_fn, NameBinder.pop_fn]
  | .LiteralPtrn, st => by
    simp [Form.bind, Form.boundJumps, Form.enclosingJumps, NameBinder.push_scope, NameBinder.push_loop, NameBinder.pop_loop, NameBinder.push_fn, NameBinder.pop_fn]
  | .FieldPtrn ptrn, st => by
    simp [Form.bind, Form.boundJumps, Form.enclosingJumps, bindOpt_jumps ptrn, bindOpt_ctx ptrn, NameBinder.push_scope, NameBinder.push_loop, NameBinder.pop_loop, NameBinder.push_fn, NameBinder.pop_fn]
  | .RecordPtrn path fields, st => by
    simp [Form.bind, Form.boundJumps, Form.enclosingJumps, NameBinder.bind_jumps path, NameBinder.bind_ctx path, bindList_jumps fields, bindList_ctx fields, NameBinder.push_scope, NameBinder.push_loop, NameBinder.pop_loop, NameBinder.push_fn, NameBinder.pop_fn]
  | .CtorPtrn path arg, st => by
    simp [Form.bind, Form.boundJumps, Form.enclosingJumps, NameBinder.bind_jumps path, NameBinder.bind_ctx path, bindOpt_jumps arg, bindOpt_ctx arg, NameBinder.push_scope, NameBinder.push_loop, NameBinder.pop_loop, NameBinder.push_fn, NameBinder.pop_fn]
  | .TuplePtrn args, st => by
    simp [Form.bind, Form.boundJumps, Form.enclosingJumps, bindList_jumps args, bindList_ctx args, NameBinder.push_scope, NameBinder.push_loop, NameBinder.pop_loop, NameBinder.push_fn, NameBinder.pop_fn]
  | .ArrayPtrn elems, st => by
    simp [Form.bind, Form.boundJumps, Form.enclosingJumps, bindList_jumps elems, bindList_ctx elems, NameBinder.push_scope, NameBinder.push_loop, NameBinder.pop_loop, NameBinder.push_fn, NameBinder.pop_fn]
  | .ErrorPtrn, st => by
    simp [Form.bind, Form.boundJumps, Form.enclosingJumps, NameBinder.push_scope, NameBinder.push_loop, NameBinder.pop_loop, NameBinder.push_fn, NameBinder.pop_fn]
  | .TypeParam decl, st => by
    simp [Form.bind, Form.boundJumps, Form.enclosingJumps, NameBinder.push_scope, NameBinder.push_loop, NameBinder.pop_loop, NameBinder.push_fn, NameBinder.pop_fn]
  | .TypeParamList params, st => by
    simp [Form.bind, Form.boundJumps, Form.enclosingJumps, bindList_jumps params, bindList_ctx params, NameBinder.push_scope, NameBinder.push_loop, NameBinder.pop_loop, NameBinder.push_fn, NameBinder.pop_fn]
  | .PtrnDecl decl, st => by
    simp [Form.bind, Form.boundJumps, Form.enclosingJumps, NameBinder.push_scope, NameBinder.push_loop, NameBinder.pop_loop, NameBinder.push_fn, NameBinder.pop_fn]
  | .LetDecl init ptrn, st => by
    simp [Form.bind, Form.boundJumps, Form.enclosingJumps, bindOpt_jumps init, bindOpt_ctx init, NameBinder.bind_jumps ptrn, NameBinder.bind_ctx ptrn, NameBinder.push_scope, NameBinder.push_loop, NameBinder.pop_loop, NameBinder.push_fn, NameBinder.pop_fn]
  | .StaticDecl decl type init, st => by
    simp [Form.bind, Form.boundJumps, Form.enclosingJumps, bindOpt_jumps type, bindOpt_ctx type, bindOpt_jumps init, bindOpt_ctx init, NameBinder.push_scope, NameBinder.push_loop, NameBinder.pop_loop, NameBinder.push_fn, NameBinder.pop_fn]
  | .FnDecl decl type_params fn_attrs (.mk addr filter param ret_type (some body)), st => by
    simp [Form.bind, Form.boundJumps, Form.enclosingJumps, FnExpr.bind, FnExpr.boundJumps, FnExpr.enclosingJumps, bindOpt, boundJumpsOpt, enclosingJumpsOpt, bindOpt_jumps type_params, bindOpt_ctx type_params, bindAttrs_jumps fn_attrs, bindAttrs_ctx fn_attrs, bindOpt_jumps param, bindOpt_ctx param, bindOpt_jumps ret_type, bindOpt_ctx ret_type, bindOpt_jumps filter, bindOpt_ctx filter, NameBinder.bind_jumps body, NameBinder.bind_ctx body, NameBinder.push_scope, NameBinder.push_loop, NameBinder.pop_loop, NameBinder.push_fn, NameBinder.pop_fn]
  | .FnDecl decl type_params fn_attrs (.mk addr filter param ret_type none), st => by
    simp [Form.bind, Form.boundJumps, Form.enclosingJumps, bindOpt_jumps type_params, bindOpt_ctx type_params, bindOpt_jumps param, bindOpt_ctx param, bindOpt_jumps ret_type, bindOpt_ctx ret_type, NameBinder.push_scope, NameBinder.push_loop, NameBinder.pop_loop, NameBinder.push_fn, NameBinder.pop_fn]
  | .FieldDecl type init, st => by
    simp [Form.bind, Form.boundJumps, Form.enclosingJumps, NameBinder.bind_jumps type, NameBinder.bind_ctx type, bindOpt_jumps init, bindOpt_ctx init, NameBinder.push_scope, NameBinder.push_loop, NameBinder.pop_loop, NameBinder.push_fn, NameBinder.pop_fn]
  | .StructDecl decl type_params fields, st => by
    simp [Form.bind, Form.boundJumps, Form.enclosingJumps, bindOpt_jumps type_params, bindOpt_ctx type_params, bindList_jumps fields, bindList_ctx fields, NameBinder.push_scope, NameBinder.push_loop, NameBinder.pop_loop, NameBinder.push_fn, NameBinder.pop_fn]
  | .OptionDecl decl (some param) fields, st => by
    simp [Form.bind, Form.boundJumps, Form.enclosingJumps, NameBinder.bind_jumps param, NameBinder.bind_ctx param, NameBinder.push_scope, NameBinder.push_loop, NameBinder.pop_loop, NameBinder.push_fn, NameBinder.pop_fn]
  | .OptionDecl decl none fields, st => by
    simp [Form.bind, Form.boundJumps, Form.enclosingJumps, bindList_jumps fields, bindList_ctx fields, NameBinder.push_scope, NameBinder.push_loop, NameBinder.pop_loop, NameBinder.push_fn, NameBinder.pop_fn]
  | .EnumDecl decl type_params options, st => by
    simp [Form.bind, Form.boundJumps, Form.enclosingJumps, bindOpt_jumps type_params, bindOpt_ctx type_params, bindList_jumps options, bindList_ctx options, NameBinder.push_scope, NameBinder.push_loop, NameBinder.pop_loop, NameBinder.push_fn, NameBinder.pop_fn]
  | .TypeDecl decl type_params aliased_type, st => by
    simp [Form.bind, Form.boundJumps, Form.enclosingJumps, bindOpt_jumps type_params, bindOpt_ctx type_params, NameBinder.bind_jumps aliased_type, NameBinder.bind_ctx aliased_type, NameBinder.push_scope, NameBinder.push_loop, NameBinder.pop_loop, NameBinder.push_fn, NameBinder.pop_fn]
  | .ModDecl decl decls, st => by
    simp [Form.bind, Form.boundJumps, Form.enclosingJumps, bindList_jumps decls, bindList_ctx decls, NameBinder.push_scope, NameBinder.push_loop, NameBinder.pop_loop, NameBinder.push_fn, NameBinder.pop_fn]
  | .ErrorDecl, st => by
    simp [Form.bind, Form.boundJumps, Form.enclosingJumps, NameBinder.push_scope, NameBinder.push_loop, NameBinder.pop_loop, NameBinder.push_fn, NameBinder.pop_fn]

theorem bindElems_jumps : ∀ (x : List PathElem) (st : NameBinder),
    boundJumpsElems (bindElems x st).1 = enclosingJumpsElems x st.cur_loop_ st.cur_fn_
  | [], st => by
    simp [bindElems, boundJumpsElems, enclosingJumpsElems, NameBinder.push_scope, NameBinder.push_loop, NameBinder.pop_loop, NameBinder.push_fn, NameBinder.pop_fn]
  | .mk id args :: elems, st => by
    simp [bindElems, boundJumpsElems, enclosingJumpsElems, bindList_jumps args, bindList_ctx args, bindElems_jumps elems, bindElems_ctx elems, NameBinder.push_scope, NameBinder.push_loop, NameBinder.pop_loop, NameBinder.push_fn, NameBinder.pop_fn]

theorem FnExpr.bindFn_jumps : ∀ (x : FnExpr) (in_for_loop : Bool) (st : NameBinder),
    FnExpr.boundJumps (FnExpr.bind x in_for_loop st).1 =
      FnExpr.enclosingJumps x in_for_loop st.cur_loop_ st.cur_fn_
  | .mk addr filter param ret_type body, in_for_loop, st => by
    cases in_for_loop <;> simp [FnExpr.bind, FnExpr.boundJumps, FnExpr.enclosingJumps, bindOpt_jumps param, bindOpt_ctx param, bindOpt_jumps ret_type, bindOpt_ctx ret_type, bindOpt_jumps filter, bindOpt_ctx filter, bindOpt_jumps body, bindOpt_ctx body, NameBinder.push_scope, NameBinder.push_loop, NameBinder.pop_loop, NameBinder.push_fn, NameBinder.pop_fn]

theorem bindAttrs_jumps : ∀ (x : Option Node) (st : NameBinder),
    boundJumpsAttrs (bindAttrs x st).1 = enclosingJumpsAttrs x st.cur_loop_ st.cur_fn_
  | none, st => by
    simp [bindAttrs, boundJumpsAttrs, enclosingJumpsAttrs, NameBinder.push_scope, NameBinder.push_loop, NameBinder.pop_loop, NameBinder.push_fn, NameBinder.pop_fn]
  | some (.mk attrs form), st => by
    simp [bindAttrs, boundJumpsAttrs, enclosingJumpsAttrs, Form.bindForm_jumps form, Form.bindForm_ctx form, NameBinder.push_scope, NameBinder.push_loop, NameBinder.pop_loop, NameBinder.push_fn, NameBinder.pop_fn]

theorem NameBinder.bind_jumps : ∀ (x : Node) (st : NameBinder),
    Node.boundJumps (NameBinder.bind x st).1 = Node.enclosingJumps x st.cur_loop_ st.cur_fn_
  | .mk attrs form, st => by
    simp [NameBinder.bind, Node.boundJumps, Node.enclosingJumps, bindAttrs_jumps attrs, bindAttrs_ctx attrs, Form.bindForm_jumps form, Form.bindForm_ctx form, NameBinder.push_scope, NameBinder.push_loop, NameBinder.pop_loop, NameBinder.push_fn, NameBinder.pop_fn]

theorem bindList_jumps : ∀ (x : List Node) (st : NameBinder),
    boundJumpsList (bindList x st).1 = enclosingJumpsList x st.cur_loop_ st.cur_fn_
  | [], st => by
    simp [bindList, boundJumpsList, enclosingJumpsList, NameBinder.push_scope, NameBinder.push_loop, NameBinder.pop_loop, NameBinder.push_fn, NameBinder.pop_fn]
  | node :: nodes, st => by
    simp [bindList, boundJumpsList, enclosingJumpsList, NameBinder.bind_jumps node, NameBinder.bind_ctx node, bindList_jumps nodes, bindList_ctx nodes, NameBinder.push_scope, NameBinder.push_loop, NameBinder.pop_loop, NameBinder.push_fn, NameBinder.pop_fn]

theorem bindOpt_jumps : ∀ (x : Option Node) (st : NameBinder),
    boundJumpsOpt (bindOpt x st).1 = enclosingJumpsOpt x st.cur_loop_ st.cur_fn_
  | none, st => by
    simp [bindOpt, boundJumpsOpt, enclosingJumpsOpt, NameBinder.push_scope, NameBinder.push_loop, NameBinder.pop_loop, NameBinder.push_fn, NameBinder.pop_fn]
  | some node, st => by
    simp [bindOpt, boundJumpsOpt, enclosingJumpsOpt, NameBinder.bind_jumps node, NameBinder.bind_ctx node, NameBinder.push_scope, NameBinder.push_loop, NameBinder.pop_loop, NameBinder.push_fn, NameBinder.pop_fn]

end

theorem NameBinder.newDiags_of_append {st st' : NameBinder} {new : List Diag}
    (h : st'.diags = st.diags ++ new) : st.newDiags st' = new := by
  simp [newDiags, h]

theorem NameBinder.Logged.of_append {st st' : NameBinder} (new : List Diag)
    (h1 : st'.diags = st.diags ++ new) (h2 : st'.errors = st.errors + countErrors new) :
    st.Logged st' (countFmt outsideLoopFmt new) (countFmt outsideFnFmt new) := by
  have h := newDiags_of_append h1
  exact ⟨by rw [h, h1], by rw [h, h2], by rw [h], by rw [h]⟩

theorem NameBinder.Logged.refl (st : NameBinder) : st.Logged st 0 0 :=
  Logged.of_append [] (by simp) (by simp [countErrors])

theorem NameBinder.Logged.trans {a b c : NameBinder} {l1 f1 l2 f2 : Nat}
    (h1 : a.Logged b l1 f1) (h2 : b.Logged c l2 f2) : a.Logged c (l1 + l2) (f1 + f2) := by
  obtain ⟨p1, e1, cl1, cf1⟩ := h1
  obtain ⟨p2, e2, cl2, cf2⟩ := h2
  have h : c.diags = a.diags ++ (a.newDiags b ++ b.newDiags c) := by
    rw [p2, p1, List.append_assoc]
  have hn := newDiags_of_append h
  refine ⟨by rw [hn, h], ?_, ?_, ?_⟩
  · rw [hn, e2, e1]
    simp [countErrors, Nat.add_assoc]
  · rw [hn, ← cl1, ← cl2]
    simp [countFmt]
  · rw [hn, ← cf1, ← cf2]
    simp [countFmt]

theorem NameBinder.Logged.cast {a b : NameBinder} {l f l1 f1 : Nat}
    (h : a.Logged b l f) (hl : l = l1) (hf : f = f1) : a.Logged b l1 f1 := by
  subst hl
  subst hf
  exact h

/-- A step that touches neither the counter of errors nor the log. -/
theorem NameBinder.Logged.of_eq {st st' : NameBinder} (h1 : st'.diags = st.diags)
    (h2 : st'.errors = st.errors) : st.Logged st' 0 0 :=
  Logged.of_append [] (by simp [h1]) (by simp [h2, countErrors])

theorem NameBinder.Logged.error (st : NameBinder) (loc : Loc) (fmt : String)
    (args : List String) :
    st.Logged (st.error loc fmt args) (if fmt = outsideLoopFmt then 1 else 0)
      (if fmt = outsideFnFmt then 1 else 0) := by
  refine (Logged.of_append [⟨.error, some loc, fmt, args⟩] rfl
    (by simp [NameBinder.error, countErrors])).cast ?_ ?_
  · by_cases h : fmt = outsideLoopFmt <;> simp [countFmt, h]
  · by_cases h : fmt = outsideFnFmt <;> simp [countFmt, h]

theorem NameBinder.Logged.warn (st : NameBinder) (loc : Loc) (fmt : String)
    (args : List String) : st.Logged (st.warn loc fmt args) 0 0 :=
  Logged.of_append [⟨.warn, some loc, fmt, args⟩] rfl
    (by simp [NameBinder.warn, countErrors])

theorem NameBinder.Logged.note (st : NameBinder) (loc : Option Loc) (fmt : String)
    (args : List String) : st.Logged (st.note loc fmt args) 0 0 :=
  Logged.of_append [⟨.note, loc, fmt, args⟩] rfl
    (by simp [NameBinder.note, countErrors])

theorem NameBinder.Logged.notePrevious (decl : NamedDecl) (others : List DeclPtr)
    (st : NameBinder) : st.Logged (notePrevious decl others st) 0 0 := by
  rw [notePrevious_eq]
  refine (Logged.of_append (previousNotes decl others) rfl ?_).cast ?_ ?_
  · simp [countErrors, previousNotes, List.countP_eq_zero]
  · simp [countFmt, previousNotes, List.countP_eq_zero]
  · simp [countFmt, previousNotes, List.countP_eq_zero]

theorem NameBinder.Logged.insert_symbol (st : NameBinder) (decl : DeclPtr) :
    st.Logged (st.insert_symbol decl) 0 0 := by
  cases hu : startsWithUnderscore decl.decl.id.name with
  | true =>
    rw [insert_symbol_underscore _ _ hu]
    exact Logged.refl st
  | false =>
    cases hs : st.scopes_ with
    | nil =>
      have : st.insert_symbol decl = st := by simp [NameBinder.insert_symbol, hu, hs]
      rw [this]
      exact Logged.refl st
    | cons back rest =>
      cases hf : back.find decl.decl.id.name with
      | none =>
        obtain ⟨new, hnew, heq⟩ := insert_symbol_fresh st decl back rest hs hu hf
        rw [heq]
        have h0 : countErrors new = 0 := by
          simp only [countErrors, List.countP_eq_zero]
          intro d hd
          simp [hnew d hd]
        refine (Logged.of_append new rfl (by simp [h0])).cast ?_ ?_
        · simp only [countFmt, List.countP_eq_zero]
          intro d hd
          simp [hnew d hd]
        · simp only [countFmt, List.countP_eq_zero]
          intro d hd
          simp [hnew d hd]
      | some old =>
        rw [insert_symbol_redeclared st decl back rest old hs hu hf]
        have hp : countErrors (previousNotes decl.decl old.decls) = 0 := by
          simp [countErrors, previousNotes, List.countP_eq_zero]
        refine (Logged.of_append _ rfl ?_).cast ?_ ?_
        · simp [countErrors, previousNotes, List.countP_cons]
        · simp [countFmt, previousNotes, List.countP_cons, List.countP_eq_zero,
            outsideLoopFmt]
        · simp [countFmt, previousNotes, List.countP_cons, List.countP_eq_zero,
            outsideFnFmt]

theorem NameBinder.Logged.warnUnused (top_level : Bool) (pairs : List (String × SymbolPtr))
    (st : NameBinder) : st.Logged (warnUnused top_level pairs st) 0 0 := by
  induction pairs generalizing st with
  | nil => exact Logged.refl st
  | cons p ps ih =>
    rw [NameBinder.warnUnused]
    refine (Logged.trans ?_ (ih _)).cast rfl rfl
    split
    · split
      · exact ((Logged.warn _ _ _ _).trans (Logged.note _ _ _ _)).cast rfl rfl
      · exact Logged.refl st
    · exact Logged.refl st

theorem NameBinder.Logged.with_scopes {a b : NameBinder} {l f : Nat} (h : a.Logged b l f)
    (s1 s2 : List SymbolTable) :
    NameBinder.Logged { a with scopes_ := s1 } { b with scopes_ := s2 } l f := h

theorem NameBinder.Logged.pop_scope (st : NameBinder) : st.Logged st.pop_scope 0 0 := by
  unfold NameBinder.pop_scope
  split
  · exact Logged.refl st
  · exact (Logged.warnUnused _ _ st).with_scopes st.scopes_ _

theorem NameBinder.Logged.bind_head (decl : Node) (st : NameBinder) :
    st.Logged (bind_head decl st) 0 0 := by
  unfold NameBinder.bind_head
  split
  any_goals exact Logged.insert_symbol _ _
  · split
    · exact Logged.insert_symbol _ _
    · exact Logged.refl st
  · exact Logged.refl st

theorem NameBinder.Logged.bind_heads (decls : List Node) (st : NameBinder) :
    st.Logged (bind_heads decls st) 0 0 := by
  induction decls generalizing st with
  | nil => exact Logged.refl st
  | cons d ds ih => exact ((Logged.bind_head d st).trans (ih _)).cast rfl rfl

theorem NameBinder.Logged.bind_stmt_heads (stmts : List Node) (st : NameBinder) :
    st.Logged (bind_stmt_heads stmts st) 0 0 := by
  induction stmts generalizing st with
  | nil => exact Logged.refl st
  | cons d ds ih =>
    rw [NameBinder.bind_stmt_heads]
    refine (Logged.trans ?_ (ih _)).cast rfl rfl
    split
    · exact Logged.bind_head _ _
    · exact Logged.refl st

theorem NameBinder.Logged.push_scope (st : NameBinder) (top_level : Bool) :
    st.Logged (st.push_scope top_level) 0 0 := Logged.of_eq rfl rfl

theorem NameBinder.Logged.push_loop (st : NameBinder) (loop : Nat) :
    st.Logged (st.push_loop loop) 0 0 := Logged.of_eq rfl rfl

theorem NameBinder.Logged.pop_loop (st : NameBinder) (old : Option Nat) :
    st.Logged (st.pop_loop old) 0 0 := Logged.of_eq rfl rfl

theorem NameBinder.Logged.push_fn (st : NameBinder) (fn : Nat) :
    st.Logged (st.push_fn fn) 0 0 := Logged.of_eq rfl rfl

theorem NameBinder.Logged.pop_fn (st : NameBinder) (old : Option Nat) :
    st.Logged (st.pop_fn old) 0 0 := Logged.of_eq rfl rfl

theorem NameBinder.Logged.set_scopes (st : NameBinder) (scopes : List SymbolTable) :
    st.Logged { st with scopes_ := scopes } 0 0 := Logged.of_eq rfl rfl

mutual

theorem Form.bindForm_logged : ∀ (x : Form) (st : NameBinder),
    st.Logged (Form.bind x st).2
      ((Form.enclosingJumps x st.cur_loop_ st.cur_fn_).count (.loop none))
      ((Form.enclosingJumps x st.cur_loop_ st.cur_fn_).count (.fn none))
  | .Path [] symbol, st => by
    simp only [Form.bind]
    refine Logged.cast (Logged.refl st) ?_ ?_
    · simp [Form.enclosingJumps, NameBinder.push_scope, NameBinder.push_loop, NameBinder.pop_loop, NameBinder.push_fn, NameBinder.pop_fn, List.count_append, Nat.add_assoc, enclosingJumpsElems]
    · simp [Form.enclosingJumps, NameBinder.push_scope, NameBinder.push_loop, NameBinder.pop_loop, NameBinder.push_fn, NameBinder.pop_fn, List.count_append, Nat.add_assoc, enclosingJumpsElems]
  | .Path (.mk id args :: rest) symbol, st => by
    have h : ∀ st1 : NameBinder, st.Logged st1 0 0 → st1.cur_loop_ = st.cur_loop_ →
        st1.cur_fn_ = st.cur_fn_ →
        st.Logged (bindElems (.mk id args :: rest) st1).2
          ((Form.enclosingJumps (.Path (.mk id args :: rest) symbol) st.cur_loop_
            st.cur_fn_).count (.loop none))
          ((Form.enclosingJumps (.Path (.mk id args :: rest) symbol) st.cur_loop_
            st.cur_fn_).count (.fn none)) := by
      intro st1 h1 h2 h3
      refine (h1.trans (bindElems_logged (.mk id args :: rest) st1)).cast ?_ ?_
      · simp [Form.enclosingJumps, h2, h3]
      · simp [Form.enclosingJumps, h2, h3]
    simp only [Form.bind]
    split
    · exact h _ ((Logged.error _ _ _ _).cast (by decide) (by decide)) rfl rfl
    · split
      · exact h _ (Logged.set_scopes _ _) rfl rfl
      · split
        · split
          · exact h _ (((Logged.error _ _ _ _).trans (Logged.note _ _ _ _)).cast
              (by decide) (by decide)) rfl rfl
          · exact h _ ((Logged.error _ _ _ _).cast (by decide) (by decide)) rfl rfl
        · exact h _ ((Logged.error _ _ _ _).cast (by decide) (by decide)) rfl rfl
  | .Filter expr, st => by
    simp only [Form.bind]
    refine Logged.cast ((Logged.refl st).trans (bindOpt_logged expr _)) ?_ ?_
    · simp [Form.enclosingJumps, bindOpt_ctx expr, NameBinder.push_scope, NameBinder.push_loop, NameBinder.pop_loop, NameBinder.push_fn, NameBinder.pop_fn, List.count_append, Nat.add_assoc, enclosingJumpsElems]
    · simp [Form.enclosingJumps, bindOpt_ctx expr, NameBinder.push_scope, NameBinder.push_loop, NameBinder.pop_loop, NameBinder.push_fn, NameBinder.pop_fn, List.count_append, Nat.add_assoc, enclosingJumpsElems]
  | .Attr, st => by
    simp only [Form.bind]
    refine Logged.cast (Logged.refl st) ?_ ?_
    · simp [Form.enclosingJumps, NameBinder.push_scope, NameBinder.push_loop, NameBinder.pop_loop, NameBinder.push_fn, NameBinder.pop_fn, List.count_append, Nat.add_assoc, enclosingJumpsElems]
    · simp [Form.enclosingJumps, NameBinder.push_scope, NameBinder.push_loop, NameBinder.pop_loop, NameBinder.push_fn, NameBinder.pop_fn, List.count_append, Nat.add_assoc, enclosingJumpsElems]
  | .PathAttr path, st => by
    simp only [Form.bind]
    refine Logged.cast ((Logged.refl st).trans (NameBinder.bind_logged path _)) ?_ ?_
    · simp [Form.enclosingJumps, NameBinder.bind_ctx path, NameBinder.push_scope, NameBinder.push_loop, NameBinder.pop_loop, NameBinder.push_fn, NameBinder.pop_fn, List.count_append, Nat.add_assoc, enclosingJumpsElems]
    · simp [Form.enclosingJumps, NameBinder.bind_ctx path, NameBinder.push_scope, NameBinder.push_loop, NameBinder.pop_loop, NameBinder.push_fn, NameBinder.pop_fn, List.count_append, Nat.add_assoc, enclosingJumpsElems]
  | .NamedAttr args, st => by
    simp only [Form.bind]
    refine Logged.cast ((Logged.refl st).trans (bindList_logged args _)) ?_ ?_
    · simp [Form.enclosingJumps, bindList_ctx args, NameBinder.push_scope, NameBinder.push_loop, NameBinder.pop_loop, NameBinder.push_fn, NameBinder.pop_fn, List.count_append, Nat.add_assoc, enclosingJumpsElems]
    · simp [Form.enclosingJumps, bindList_ctx args, NameBinder.push_scope, NameBinder.push_loop, NameBinder.pop_loop, NameBinder.push_fn, NameBinder.pop_fn, List.count_append, Nat.add_assoc, enclosingJumpsElems]
  | .PrimType, st => by
    simp only [Form.bind]
    refine Logged.cast (Logged.refl st) ?_ ?_
    · simp [Form.enclosingJumps, NameBinder.push_scope, NameBinder.push_loop, NameBinder.pop_loop, NameBinder.push_fn, NameBinder.pop_fn, List.count_append, Nat.add_assoc, enclosingJumpsElems]
    · simp [Form.enclosingJumps, NameBinder.push_scope, NameBinder.push_loop, NameBinder.pop_loop, NameBinder.push_fn, NameBinder.pop_fn, List.count_append, Nat.add_assoc, enclosingJumpsElems]
  | .TupleType args, st => by
    simp only [Form.bind]
    refine Logged.cast ((Logged.refl st).trans (bindList_logged args _)) ?_ ?_
    · simp [Form.enclosingJumps, bindList_ctx args, NameBinder.push_scope, NameBinder.push_loop, NameBinder.pop_loop, NameBinder.push_fn, NameBinder.pop_fn, List.count_append, Nat.add_assoc, enclosingJumpsElems]
    · simp [Form.enclosingJumps, bindList_ctx args, NameBinder.push_scope, NameBinder.push_loop, NameBinder.pop_loop, NameBinder.push_fn, NameBinder.pop_fn, List.count_append, Nat.add_assoc, enclosingJumpsElems]
  | .ArrayType elem, st => by
    simp only [Form.bind]
    refine Logged.cast ((Logged.refl st).trans (NameBinder.bind_logged elem _)) ?_ ?_
    · simp [Form.enclosingJumps, NameBinder.bind_ctx elem, NameBinder.push_scope, NameBinder.push_loop, NameBinder.pop_loop, NameBinder.push_fn, NameBinder.pop_fn, List.count_append, Nat.add_assoc, enclosingJumpsElems]
    · simp [Form.enclosingJumps, NameBinder.bind_ctx elem, NameBinder.push_scope, NameBinder.push_loop, NameBinder.pop_loop, NameBinder.push_fn, NameBinder.pop_fn, List.count_append, Nat.add_assoc, enclosingJumpsElems]
  | .FnType from_ to_, st => by
    simp only [Form.bind]
    refine Logged.cast (((Logged.refl st).trans (NameBinder.bind_logged from_ _)).trans (bindOpt_logged to_ _)) ?_ ?_
    · simp [Form.enclosingJumps, NameBinder.bind_ctx from_, bindOpt_ctx to_, NameBinder.push_scope, NameBinder.push_loop, NameBinder.pop_loop, NameBinder.push_fn, NameBinder.pop_fn, List.count_append, Nat.add_assoc, enclosingJumpsElems]
    · simp [Form.enclosingJumps, NameBinder.bind_ctx from_, bindOpt_ctx to_, NameBinder.push_scope, NameBinder.push_loop, NameBinder.pop_loop, NameBinder.push_fn, NameBinder.pop_fn, List.count_append, Nat.add_assoc, enclosingJumpsElems]
  | .PtrType pointee, st => by
    simp only [Form.bind]
    refine Logged.cast ((Logged.refl st).trans (NameBinder.bind_logged pointee _)) ?_ ?_
    · simp [Form.enclosingJumps, NameBinder.bind_ctx pointee, NameBinder.push_scope, NameBinder.push_loop, NameBinder.pop_loop, NameBinder.push_fn, NameBinder.pop_fn, List.count_append, Nat.add_assoc, enclosingJumpsElems]
    · simp [Form.enclosingJumps, NameBinder.bind_ctx pointee, NameBinder.push_scope, NameBinder.push_loop, NameBinder.pop_loop, NameBinder.push_fn, NameBinder.pop_fn, List.count_append, Nat.add_assoc, enclosingJumpsElems]
  | .TypeApp path, st => by
    simp only [Form.bind]
    refine Logged.cast ((Logged.refl st).trans (NameBinder.bind_logged path _)) ?_ ?_
    · simp [Form.enclosingJumps, NameBinder.bind_ctx path, NameBinder.push_scope, NameBinder.push_loop, NameBinder.pop_loop, NameBinder.push_fn, NameBinder.pop_fn, List.count_append, Nat.add_assoc, enclosingJumpsElems]
    · simp [Form.enclosingJumps, NameBinder.bind_ctx path, NameBinder.push_scope, NameBinder.push_loop, NameBinder.pop_loop, NameBinder.push_fn, NameBinder.pop_fn, List.count_append, Nat.add_assoc, enclosingJumpsElems]
  | .ErrorType, st => by
    simp only [Form.bind]
    refine Logged.cast (Logged.refl st) ?_ ?_
    · simp [Form.enclosingJumps, NameBinder.push_scope, NameBinder.push_loop, NameBinder.pop_loop, NameBinder.push_fn, NameBinder.pop_fn, List.count_append, Nat.add_assoc, enclosingJumpsElems]
    · simp [Form.enclosingJumps, NameBinder.push_scope, NameBinder.push_loop, NameBinder.pop_loop, NameBinder.push_fn, NameBinder.pop_fn, List.count_append, Nat.add_assoc, enclosingJumpsElems]
  | .DeclStmt decl, st => by
    simp only [Form.bind]
    refine Logged.cast ((Logged.refl st).trans (NameBinder.bind_logged decl _)) ?_ ?_
    · simp [Form.enclosingJumps, NameBinder.bind_ctx decl, NameBinder.push_scope, NameBinder.push_loop, NameBinder.pop_loop, NameBinder.push_fn, NameBinder.pop_fn, List.count_append, Nat.add_assoc, enclosingJumpsElems]
    · simp [Form.enclosingJumps, NameBinder.bind_ctx decl, NameBinder.push_scope, NameBinder.push_loop, NameBinder.pop_loop, NameBinder.push_fn, NameBinder.pop_fn, List.count_append, Nat.add_assoc, enclosingJumpsElems]
  | .ExprStmt expr, st => by
    simp only [Form.bind]
    refine Logged.cast ((Logged.refl st).trans (NameBinder.bind_logged expr _)) ?_ ?_
    · simp [Form.enclosingJumps, NameBinder.bind_ctx expr, NameBinder.push_scope, NameBinder.push_loop, NameBinder.pop_loop, NameBinder.push_fn, NameBinder.pop_fn, List.count_append, Nat.add_assoc, enclosingJumpsElems]
    · simp [Form.enclosingJumps, NameBinder.bind_ctx expr, NameBinder.push_scope, NameBinder.push_loop, NameBinder.pop_loop, NameBinder.push_fn, NameBinder.pop_fn, List.count_append, Nat.add_assoc, enclosingJumpsElems]
  | .TypedExpr expr type, st => by
    simp only [Form.bind]
    refine Logged.cast (((Logged.refl st).trans (NameBinder.bind_logged expr _)).trans (NameBinder.bind_logged type _)) ?_ ?_
    · simp [Form.enclosingJumps, NameBinder.bind_ctx expr, NameBinder.bind_ctx type, NameBinder.push_scope, NameBinder.push_loop, NameBinder.pop_loop, NameBinder.push_fn, NameBinder.pop_fn, List.count_append, Nat.add_assoc, enclosingJumpsElems]
    · simp [Form.enclosingJumps, NameBinder.bind_ctx expr, NameBinder.bind_ctx type, NameBinder.push_scope, NameBinder.push_loop, NameBinder.pop_loop, NameBinder.push_fn, NameBinder.pop_fn, List.count_append, Nat.add_assoc, enclosingJumpsElems]
  | .PathExpr path, st => by
    simp only [Form.bind]
    refine Logged.cast ((Logged.refl st).trans (NameBinder.bind_logged path _)) ?_ ?_
    · simp [Form.enclosingJumps, NameBinder.bind_ctx path, NameBinder.push_scope, NameBinder.push_loop, NameBinder.pop_loop, NameBinder.push_fn, NameBinder.pop_fn, List.count_append, Nat.add_assoc, enclosingJumpsElems]
    · simp [Form.enclosingJumps, NameBinder.bind_ctx path, NameBinder.push_scope, NameBinder.push_loop, NameBinder.pop_loop, NameBinder.push_fn, NameBinder.pop_fn, List.count_append, Nat.add_assoc, enclosingJumpsElems]
  | .LiteralExpr, st => by
    simp only [Form.bind]
    refine Logged.cast (Logged.refl st) ?_ ?_
    · simp [Form.enclosingJumps, NameBinder.push_scope, NameBinder.push_loop, NameBinder.pop_loop, NameBinder.push_fn, NameBinder.pop_fn, List.count_append, Nat.add_assoc, enclosingJumpsElems]
    · simp [Form.enclosingJumps, NameBinder.push_scope, NameBinder.push_loop, NameBinder.pop_loop, NameBinder.push_fn, NameBinder.pop_fn, List.count_append, Nat.add_assoc, enclosingJumpsElems]
  | .FieldExpr expr, st => by
    simp only [Form.bind]
    refine Logged.cast ((Logged.refl st).trans (NameBinder.bind_logged expr _)) ?_ ?_
    · simp [Form.enclosingJumps, NameBinder.bind_ctx expr, NameBinder.push_scope, NameBinder.push_loop, NameBinder.pop_loop, NameBinder.push_fn, NameBinder.pop_fn, List.count_append, Nat.add_assoc, enclosingJumpsElems]
    · simp [Form.enclosingJumps, NameBinder.bind_ctx expr, NameBinder.push_scope, NameBinder.push_loop, NameBinder.pop_loop, NameBinder.push_fn, NameBinder.pop_fn, List.count_append, Nat.add_assoc, enclosingJumpsElems]
  | .RecordExpr (some expr) type fields, st => by
    simp only [Form.bind]
    refine Logged.cast (((Logged.refl st).trans (NameBinder.bind_logged expr _)).trans (bindList_logged fields _)) ?_ ?_
    · simp [Form.enclosingJumps, NameBinder.bind_ctx expr, bindList_ctx fields, NameBinder.push_scope, NameBinder.push_loop, NameBinder.pop_loop, NameBinder.push_fn, NameBinder.pop_fn, List.count_append, Nat.add_assoc, enclosingJumpsElems]
    · simp [Form.enclosingJumps, NameBinder.bind_ctx expr, bindList_ctx fields, NameBinder.push_scope, NameBinder.push_loop, NameBinder.pop_loop, NameBinder.push_fn, NameBinder.pop_fn, List.count_append, Nat.add_assoc, enclosingJumpsElems]
  | .RecordExpr none type fields, st => by
    simp only [Form.bind]
    refine Logged.cast (((Logged.refl st).trans (bindOpt_logged type _)).trans (bindList_logged fields _)) ?_ ?_
    · simp [Form.enclosingJumps, bindOpt_ctx type, bindList_ctx fields, NameBinder.push_scope, NameBinder.push_loop, NameBinder.pop_loop, NameBinder.push_fn, NameBinder.pop_fn, List.count_append, Nat.add_assoc, enclosingJumpsElems]
    · simp [Form.enclosingJumps, bindOpt_ctx type, bindList_ctx fields, NameBinder.push_scope, NameBinder.push_loop, NameBinder.pop_loop, NameBinder.push_fn, NameBinder.pop_fn, List.count_append, Nat.add_assoc, enclosingJumpsElems]
  | .TupleExpr args, st => by
    simp only [Form.bind]
    refine Logged.cast ((Logged.refl st).trans (bindList_logged args _)) ?_ ?_
    · simp [Form.enclosingJumps, bindList_ctx args, NameBinder.push_scope, NameBinder.push_loop, NameBinder.pop_loop, NameBinder.push_fn, NameBinder.pop_fn, List.count_append, Nat.add_assoc, enclosingJumpsElems]
    · simp [Form.enclosingJumps, bindList_ctx args, NameBinder.push_scope, NameBinder.push_loop, NameBinder.pop_loop, NameBinder.push_fn, NameBinder.pop_fn, List.count_append, Nat.add_assoc, enclosingJumpsElems]
  | .ArrayExpr elems, st => by
    simp only [Form.bind]
    refine Logged.cast ((Logged.refl st).trans (bindList_logged elems _)) ?_ ?_
    · simp [Form.enclosingJumps, bindList_ctx elems, NameBinder.push_scope, NameBinder.push_loop, NameBinder.pop_loop, NameBinder.push_fn, NameBinder.pop_fn, List.count_append, Nat.add_assoc, enclosingJumpsElems]
    · simp [Form.enclosingJumps, bindList_ctx elems, NameBinder.push_scope, NameBinder.push_loop, NameBinder.pop_loop, NameBinder.push_fn, NameBinder.pop_fn, List.count_append, Nat.add_assoc, enclosingJumpsElems]
  | .RepeatArrayExpr elem, st => by
    simp only [Form.bind]
    refine Logged.cast ((Logged.refl st).trans (NameBinder.bind_logged elem _)) ?_ ?_
    · simp [Form.enclosingJumps, NameBinder.bind_ctx elem, NameBinder.push_scope, NameBinder.push_loop, NameBinder.pop_loop, NameBinder.push_fn, NameBinder.pop_fn, List.count_append, Nat.add_assoc, enclosingJumpsElems]
    · simp [Form.enclosingJumps, NameBinder.bind_ctx elem, NameBinder.push_scope, NameBinder.push_loop, NameBinder.pop_loop, NameBinder.push_fn, NameBinder.pop_fn, List.count_append, Nat.add_assoc, enclosingJumpsElems]
  | .FnExpr fn, st => by
    simp only [Form.bind]
    refine Logged.cast ((Logged.refl st).trans (FnExpr.bindFn_logged fn false _)) ?_ ?_
    · simp [Form.enclosingJumps, FnExpr.bindFn_ctx fn, NameBinder.push_scope, NameBinder.push_loop, NameBinder.pop_loop, NameBinder.push_fn, NameBinder.pop_fn, List.count_append, Nat.add_assoc, enclosingJumpsElems]
    · simp [Form.enclosingJumps, FnExpr.bindFn_ctx fn, NameBinder.push_scope, NameBinder.push_loop, NameBinder.pop_loop, NameBinder.push_fn, NameBinder.pop_fn, List.count_append, Nat.add_assoc, enclosingJumpsElems]
  | .BlockExpr stmts, st => by
    simp only [Form.bind]
    refine Logged.cast (((((Logged.refl st).trans (Logged.push_scope _ false)).trans (Logged.bind_stmt_heads stmts _)).trans (bindList_logged stmts _)).trans (Logged.pop_scope _)) ?_ ?_
    · simp [Form.enclosingJumps, bindList_ctx stmts, NameBinder.push_scope, NameBinder.push_loop, NameBinder.pop_loop, NameBinder.push_fn, NameBinder.pop_fn, List.count_append, Nat.add_assoc, enclosingJumpsElems]
    · simp [Form.enclosingJumps, bindList_ctx stmts, NameBinder.push_scope, NameBinder.push_loop, NameBinder.pop_loop, NameBinder.push_fn, NameBinder.pop_fn, List.count_append, Nat.add_assoc, enclosingJumpsElems]
  | .CallExpr callee arg, st => by
    simp only [Form.bind]
    refine Logged.cast (((Logged.refl st).trans (NameBinder.bind_logged callee _)).trans (NameBinder.bind_logged arg _)) ?_ ?_
    · simp [Form.enclosingJumps, NameBinder.bind_ctx callee, NameBinder.bind_ctx arg, NameBinder.push_scope, NameBinder.push_loop, NameBinder.pop_loop, NameBinder.push_fn, NameBinder.pop_fn, List.count_append, Nat.add_assoc, enclosingJumpsElems]
    · simp [Form.enclosingJumps, NameBinder.bind_ctx callee, NameBinder.bind_ctx arg, NameBinder.push_scope, NameBinder.push_loop, NameBinder.pop_loop, NameBinder.push_fn, NameBinder.pop_fn, List.count_append, Nat.add_assoc, enclosingJumpsElems]
  | .UnaryExpr arg, st => by
    simp only [Form.bind]
    refine Logged.cast ((Logged.refl st).trans (NameBinder.bind_logged arg _)) ?_ ?_
    · simp [Form.enclosingJumps, NameBinder.bind_ctx arg, NameBinder.push_scope, NameBinder.push_loop, NameBinder.pop_loop, NameBinder.push_fn, NameBinder.pop_fn, List.count_append, Nat.add_assoc, enclosingJumpsElems]
    · simp [Form.enclosingJumps, NameBinder.bind_ctx arg, NameBinder.push_scope, NameBinder.push_loop, NameBinder.pop_loop, NameBinder.push_fn, NameBinder.pop_fn, List.count_append, Nat.add_assoc, enclosingJumpsElems]
  | .BinaryExpr left right, st => by
    simp only [Form.bind]
    refine Logged.cast (((Logged.refl st).trans (NameBinder.bind_logged left _)).trans (NameBinder.bind_logged right _)) ?_ ?_
    · simp [Form.enclosingJumps, NameBinder.bind_ctx left, NameBinder.bind_ctx right, NameBinder.push_scope, NameBinder.push_loop, NameBinder.pop_loop, NameBinder.push_fn, NameBinder.pop_fn, List.count_append, Nat.add_assoc, enclosingJumpsElems]
    · simp [Form.enclosingJumps, NameBinder.bind_ctx left, NameBinder.bind_ctx right, NameBinder.push_scope, NameBinder.push_loop, NameBinder.pop_loop, NameBinder.push_fn, NameBinder.pop_fn, List.count_append, Nat.add_assoc, enclosingJumpsElems]
  | .ProjExpr expr, st => by
    simp only [Form.bind]
    refine Logged.cast ((Logged.refl st).trans (NameBinder.bind_logged expr _)) ?_ ?_
    · simp [Form.enclosingJumps, NameBinder.bind_ctx expr, NameBinder.push_scope, NameBinder.push_loop, NameBinder.pop_loop, NameBinder.push_fn, NameBinder.pop_fn, List.count_append, Nat.add_assoc, enclosingJumpsElems]
    · simp [Form.enclosingJumps, NameBinder.bind_ctx expr, NameBinder.push_scope, NameBinder.push_loop, NameBinder.pop_loop, NameBinder.push_fn, NameBinder.pop_fn, List.count_append, Nat.add_assoc, enclosingJumpsElems]
  | .IfExpr (some cond) ptrn expr if_true if_false, st => by
    simp only [Form.bind]
    refine Logged.cast ((((((Logged.refl st).trans (Logged.push_scope _ false)).trans (NameBinder.bind_logged cond _)).trans (NameBinder.bind_logged if_true _)).trans (Logged.pop_scope _)).trans (bindOpt_logged if_false _)) ?_ ?_
    · simp [Form.enclosingJumps, NameBinder.bind_ctx cond, NameBinder.bind_ctx if_true, bindOpt_ctx if_false, NameBinder.push_scope, NameBinder.push_loop, NameBinder.pop_loop, NameBinder.push_fn, NameBinder.pop_fn, List.count_append, Nat.add_assoc, enclosingJumpsElems]
    · simp [Form.enclosingJumps, NameBinder.bind_ctx cond, NameBinder.bind_ctx if_true, bindOpt_ctx if_false, NameBinder.push_scope, NameBinder.push_loop, NameBinder.pop_loop, NameBinder.push_fn, NameBinder.pop_fn, List.count_append, Nat.add_assoc, enclosingJumpsElems]
  | .IfExpr none ptrn expr if_true if_false, st => by
    simp only [Form.bind]
    refine Logged.cast (((((((Logged.refl st).trans (Logged.push_scope _ false)).trans (bindOpt_logged ptrn _)).trans (bindOpt_logged expr _)).trans (NameBinder.bind_logged if_true _)).trans (Logged.pop_scope _)).trans (bindOpt_logged if_false _)) ?_ ?_
    · simp [Form.enclosingJumps, bindOpt_ctx ptrn, bindOpt_ctx expr, NameBinder.bind_ctx if_true, bindOpt_ctx if_false, NameBinder.push_scope, NameBinder.push_loop, NameBinder.pop_loop, NameBinder.push_fn, NameBinder.pop_fn, List.count_append, Nat.add_assoc, enclosingJumpsElems]
    · simp [Form.enclosingJumps, bindOpt_ctx ptrn, bindOpt_ctx expr, NameBinder.bind_ctx if_true, bindOpt_ctx if_false, NameBinder.push_scope, NameBinder.push_loop, NameBinder.pop_loop, NameBinder.push_fn, NameBinder.pop_fn, List.count_append, Nat.add_assoc, enclosingJumpsElems]
  | .CaseExpr ptrn expr, st => by
    simp only [Form.bind]
    refine Logged.cast (((((Logged.refl st).trans (Logged.push_scope _ false)).trans (NameBinder.bind_logged ptrn _)).trans (NameBinder.bind_logged expr _)).trans (Logged.pop_scope _)) ?_ ?_
    · simp [Form.enclosingJumps, NameBinder.bind_ctx ptrn, NameBinder.bind_ctx expr, NameBinder.push_scope, NameBinder.push_loop, NameBinder.pop_loop, NameBinder.push_fn, NameBinder.pop_fn, List.count_append, Nat.add_assoc, enclosingJumpsElems]
    · simp [Form.enclosingJumps, NameBinder.bind_ctx ptrn, NameBinder.bind_ctx expr, NameBinder.push_scope, NameBinder.push_loop, NameBinder.pop_loop, NameBinder.push_fn, NameBinder.pop_fn, List.count_append, Nat.add_assoc, enclosingJumpsElems]
  | .MatchExpr arg cases, st => by
    simp only [Form.bind]
    refine Logged.cast (((Logged.refl st).trans (NameBinder.bind_logged arg _)).trans (bindList_logged cases _)) ?_ ?_
    · simp [Form.enclosingJumps, NameBinder.bind_ctx arg, bindList_ctx cases, NameBinder.push_scope, NameBinder.push_loop, NameBinder.pop_loop, NameBinder.push_fn, NameBinder.pop_fn, List.count_append, Nat.add_assoc, enclosingJumpsElems]
    · simp [Form.enclosingJumps, NameBinder.bind_ctx arg, bindList_ctx cases, NameBinder.push_scope, NameBinder.push_loop, NameBinder.pop_loop, NameBinder.push_fn, NameBinder.pop_fn, List.count_append, Nat.add_assoc, enclosingJumpsElems]
  | .WhileExpr addr (some cond) ptrn expr body, st => by
    simp only [Form.bind]
    refine Logged.cast (((((((Logged.refl st).trans (Logged.push_scope _ false)).trans (NameBinder.bind_logged cond _)).trans (Logged.push_loop _ addr)).trans (NameBinder.bind_logged body _)).trans (Logged.pop_loop _ _)).trans (Logged.pop_scope _)) ?_ ?_
    · simp [Form.enclosingJumps, NameBinder.bind_ctx cond, NameBinder.bind_ctx body, NameBinder.push_scope, NameBinder.push_loop, NameBinder.pop_loop, NameBinder.push_fn, NameBinder.pop_fn, List.count_append, Nat.add_assoc, enclosingJumpsElems]
    · simp [Form.enclosingJumps, NameBinder.bind_ctx cond, NameBinder.bind_ctx body, NameBinder.push_scope, NameBinder.push_loop, NameBinder.pop_loop, NameBinder.push_fn, NameBinder.pop_fn, List.count_append, Nat.add_assoc, enclosingJumpsElems]
  | .WhileExpr addr none ptrn expr body, st => by
    simp only [Form.bind]
    refine Logged.cast ((((((((Logged.refl st).trans (Logged.push_scope _ false)).trans (bindOpt_logged ptrn _)).trans (bindOpt_logged expr _)).trans (Logged.push_loop _ addr)).trans (NameBinder.bind_logged body _)).trans (Logged.pop_loop _ _)).trans (Logged.pop_scope _)) ?_ ?_
    · simp [Form.enclosingJumps, bindOpt_ctx ptrn, bindOpt_ctx expr, NameBinder.bind_ctx body, NameBinder.push_scope, NameBinder.push_loop, NameBinder.pop_loop, NameBinder.push_fn, NameBinder.pop_fn, List.count_append, Nat.add_assoc, enclosingJumpsElems]
    · simp [Form.enclosingJumps, bindOpt_ctx ptrn, bindOpt_ctx expr, NameBinder.bind_ctx body, NameBinder.push_scope, NameBinder.push_loop, NameBinder.pop_loop, NameBinder.push_fn, NameBinder.pop_fn, List.count_append, Nat.add_assoc, enclosingJumpsElems]
  | .ForExpr addr callee loop_body_attrs loop_body arg, st => by
    simp only [Form.bind]
    refine Logged.cast (((((((Logged.refl st).trans (NameBinder.bind_logged callee _)).trans (Logged.push_loop _ addr)).trans (bindAttrs_logged loop_body_attrs _)).trans (FnExpr.bindFn_logged loop_body true _)).trans (Logged.pop_loop _ _)).trans (NameBinder.bind_logged arg _)) ?_ ?_
    · simp [Form.enclosingJumps, NameBinder.bind_ctx callee, bindAttrs_ctx loop_body_attrs, FnExpr.bindFn_ctx loop_body, NameBinder.bind_ctx arg, NameBinder.push_scope, NameBinder.push_loop, NameBinder.pop_loop, NameBinder.push_fn, NameBinder.pop_fn, List.count_append, Nat.add_assoc, enclosingJumpsElems]
    · simp [Form.enclosingJumps, NameBinder.bind_ctx callee, bindAttrs_ctx loop_body_attrs, FnExpr.bindFn_ctx loop_body, NameBinder.bind_ctx arg, NameBinder.push_scope, NameBinder.push_loop, NameBinder.pop_loop, NameBinder.push_fn, NameBinder.pop_fn, List.count_append, Nat.add_assoc, enclosingJumpsElems]
  | .BreakExpr loc loop, st => by
    simp only [Form.bind, Form.enclosingJumps]
    cases h : st.cur_loop_ with
    | none => exact (Logged.error _ _ _ _).cast (by decide) (by decide)
    | some l => exact (Logged.refl st).cast (by simp) (by simp)
  | .ContinueExpr loc loop, st => by
    simp only [Form.bind, Form.enclosingJumps]
    cases h : st.cur_loop_ with
    | none => exact (Logged.error _ _ _ _).cast (by decide) (by decide)
    | some l => exact (Logged.refl st).cast (by simp) (by simp)
  | .ReturnExpr loc fn, st => by
    simp only [Form.bind, Form.enclosingJumps]
    cases h : st.cur_fn_ with
    | none => exact (Logged.error _ _ _ _).cast (by decide) (by decide)
    | some l => exact (Logged.refl st).cast (by simp) (by simp)
  | .FilterExpr filter expr, st => by
    simp only [Form.bind]
    refine Logged.cast (((Logged.refl st).trans (NameBinder.bind_logged filter _)).trans (NameBinder.bind_logged expr _)) ?_ ?_
    · simp [Form.enclosingJumps, NameBinder.bind_ctx filter, NameBinder.bind_ctx expr, NameBinder.push_scope, NameBinder.push_loop, NameBinder.pop_loop, NameBinder.push_fn, NameBinder.pop_fn, List.count_append, Nat.add_assoc, enclosingJumpsElems]
    · simp [Form.enclosingJumps, NameBinder.bind_ctx filter, NameBinder.bind_ctx expr, NameBinder.push_scope, NameBinder.push_loop, NameBinder.pop_loop, NameBinder.push_fn, NameBinder.pop_fn, List.count_append, Nat.add_assoc, enclosingJumpsElems]
  | .CastExpr expr type, st => by
    simp only [Form.bind]
    refine Logged.cast (((Logged.refl st).trans (NameBinder.bind_logged expr _)).trans (NameBinder.bind_logged type _)) ?_ ?_
    · simp [Form.enclosingJumps, NameBinder.bind_ctx expr, NameBinder.bind_ctx type, NameBinder.push_scope, NameBinder.push_loop, NameBinder.pop_loop, NameBinder.push_fn, NameBinder.pop_fn, List.count_append, Nat.add_assoc, enclosingJumpsElems]
    · simp [Form.enclosingJumps, NameBinder.bind_ctx expr, NameBinder.bind_ctx type, NameBinder.push_scope, NameBinder.push_loop, NameBinder.pop_loop, NameBinder.push_fn, NameBinder.pop_fn, List.count_append, Nat.add_assoc, enclosingJumpsElems]
  | .ImplicitCastExpr, st => by
    simp only [Form.bind]
    refine Logged.cast (Logged.refl st) ?_ ?_
    · simp [Form.enclosingJumps, NameBinder.push_scope, NameBinder.push_loop, NameBinder.pop_loop, NameBinder.push_fn, NameBinder.pop_fn, List.count_append, Nat.add_assoc, enclosingJumpsElems]
    · simp [Form.enclosingJumps, NameBinder.push_scope, NameBinder.push_loop, NameBinder.pop_loop, NameBinder.push_fn, NameBinder.pop_fn, List.count_append, Nat.add_assoc, enclosingJumpsElems]
  | .AsmExpr ins outs, st => by
    simp only [Form.bind]
    refine Logged.cast (((Logged.refl st).trans (bindList_logged ins _)).trans (bindList_logged outs _)) ?_ ?_
    · simp [Form.enclosingJumps, bindList_ctx ins, bindList_ctx outs, NameBinder.push_scope, NameBinder.push_loop, NameBinder.pop_loop, NameBinder.push_fn, NameBinder.pop_fn, List.count_append, Nat.add_assoc, enclosingJumpsElems]
    · simp [Form.enclosingJumps, bindList_ctx ins, bindList_ctx outs, NameBinder.push_scope, NameBinder.push_loop, NameBinder.pop_loop, NameBinder.push_fn, NameBinder.pop_fn, List.count_append, Nat.add_assoc, enclosingJumpsElems]
  | .ErrorExpr, st => by
    simp only [Form.bind]
    refine Logged.cast (Logged.refl st) ?_ ?_
    · simp [Form.enclosingJumps, NameBinder.push_scope, NameBinder.push_loop, NameBinder.pop_loop, NameBinder.push_fn, NameBinder.pop_fn, List.count_append, Nat.add_assoc, enclosingJumpsElems]
    · simp [Form.enclosingJumps, NameBinder.push_scope, NameBinder.push_loop, NameBinder.pop_loop, NameBinder.push_fn, NameBinder.pop_fn, List.count_append, Nat.add_assoc, enclosingJumpsElems]
  | .TypedPtrn ptrn type, st => by
    simp only [Form.bind]
    refine Logged.cast (((Logged.refl st).trans (bindOpt_logged ptrn _)).trans (NameBinder.bind_logged type _)) ?_ ?_
    · simp [Form.enclosingJumps, bindOpt_ctx ptrn, NameBinder.bind_ctx type, NameBinder.push_scope, NameBinder.push_loop, NameBinder.pop_loop, NameBinder.push_fn, NameBinder.pop_fn, List.count_append, Nat.add_assoc, enclosingJumpsElems]
    · simp [Form.enclosingJumps, bindOpt_ctx ptrn, NameBinder.bind_ctx type, NameBinder.push_scope, NameBinder.push_loop, NameBinder.pop_loop, NameBinder.push_fn, NameBinder.pop_fn, List.count_append, Nat.add_assoc, enclosingJumpsElems]
  | .IdPtrn decl sub_ptrn, st => by
    simp only [Form.bind]
    refine Logged.cast (((Logged.refl st).trans (NameBinder.bind_logged decl _)).trans (bindOpt_logged sub_ptrn _)) ?_ ?_
    · simp [Form.enclosingJumps, NameBinder.bind_ctx decl, bindOpt_ctx sub_ptrn, NameBinder.push_scope, NameBinder.push_loop, NameBinder.pop_loop, NameBinder.push_fn, NameBinder.pop_fn, List.count_append, Nat.add_assoc, enclosingJumpsElems]
    · simp [Form.enclosingJumps, NameBinder.bind_ctx decl, bindOpt_ctx sub_ptrn, NameBinder.push_scope, NameBinder.push_loop, NameBinder.pop_loop, NameBinder.push_fn, NameBinder.pop_fn, List.count_append, Nat.add_assoc, enclosingJumpsElems]
  | .LiteralPtrn, st => by
    simp only [Form.bind]
    refine Logged.cast (Logged.refl st) ?_ ?_
    · simp [Form.enclosingJumps, NameBinder.push_scope, NameBinder.push_loop, NameBinder.pop_loop, NameBinder.push_fn, NameBinder.pop_fn, List.count_append, Nat.add_assoc, enclosingJumpsElems]
    · simp [Form.enclosingJumps, NameBinder.push_scope, NameBinder.push_loop, NameBinder.pop_loop, NameBinder.push_fn, NameBinder.pop_fn, List.count_append, Nat.add_assoc, enclosingJumpsElems]
  | .FieldPtrn ptrn, st => by
    simp only [Form.bind]
    refine Logged.cast ((Logged.refl st).trans (bindOpt_logged ptrn _)) ?_ ?_
    · simp [Form.enclosingJumps, bindOpt_ctx ptrn, NameBinder.push_scope, NameBinder.push_loop, NameBinder.pop_loop, NameBinder.push_fn, NameBinder.pop_fn, List.count_append, Nat.add_assoc, enclosingJumpsElems]
    · simp [Form.enclosingJumps, bindOpt_ctx ptrn, NameBinder.push_scope, NameBinder.push_loop, NameBinder.pop_loop, NameBinder.push_fn, NameBinder.pop_fn, List.count_append, Nat.add_assoc, enclosingJumpsElems]
  | .RecordPtrn path fields, st => by
    simp only [Form.bind]
    refine Logged.cast (((Logged.refl st).trans (NameBinder.bind_logged path _)).trans (bindList_logged fields _)) ?_ ?_
    · simp [Form.enclosingJumps, NameBinder.bind_ctx path, bindList_ctx fields, NameBinder.push_scope, NameBinder.push_loop, NameBinder.pop_loop, NameBinder.push_fn, NameBinder.pop_fn, List.count_append, Nat.add_assoc, enclosingJumpsElems]
    · simp [Form.enclosingJumps, NameBinder.bind_ctx path, bindList_ctx fields, NameBinder.push_scope, NameBinder.push_loop, NameBinder.pop_loop, NameBinder.push_fn, NameBinder.pop_fn, List.count_append, Nat.add_assoc, enclosingJumpsElems]
  | .CtorPtrn path arg, st => by
    simp only [Form.bind]
    refine Logged.cast (((Logged.refl st).trans (NameBinder.bind_logged path _)).trans (bindOpt_logged arg _)) ?_ ?_
    · simp [Form.enclosingJumps, NameBinder.bind_ctx path, bindOpt_ctx arg, NameBinder.push_scope, NameBinder.push_loop, NameBinder.pop_loop, NameBinder.push_fn, NameBinder.pop_fn, List.count_append, Nat.add_assoc, enclosingJumpsElems]
    · simp [Form.enclosingJumps, NameBinder.bind_ctx path, bindOpt_ctx arg, NameBinder.push_scope, NameBinder.push_loop, NameBinder.pop_loop, NameBinder.push_fn, NameBinder.pop_fn, List.count_append, Nat.add_assoc, enclosingJumpsElems]
  | .TuplePtrn args, st => by
    simp only [Form.bind]
    refine Logged.cast ((Logged.refl st).trans (bindList_logged args _)) ?_ ?_
    · simp [Form.enclosingJumps, bindList_ctx args, NameBinder.push_scope, NameBinder.push_loop, NameBinder.pop_loop, NameBinder.push_fn, NameBinder.pop_fn, List.count_append, Nat.add_assoc, enclosingJumpsElems]
    · simp [Form.enclosingJumps, bindList_ctx args, NameBinder.push_scope, NameBinder.push_loop, NameBinder.pop_loop, NameBinder.push_fn, NameBinder.pop_fn, List.count_append, Nat.add_assoc, enclosingJumpsElems]
  | .ArrayPtrn elems, st => by
    simp only [Form.bind]
    refine Logged.cast ((Logged.refl st).trans (bindList_logged elems _)) ?_ ?_
    · simp [Form.enclosingJumps, bindList_ctx elems, NameBinder.push_scope, NameBinder.push_loop, NameBinder.pop_loop, NameBinder.push_fn, NameBinder.pop_fn, List.count_append, Nat.add_assoc, enclosingJumpsElems]
    · simp [Form.enclosingJumps, bindList_ctx elems, NameBinder.push_scope, NameBinder.push_loop, NameBinder.pop_loop, NameBinder.push_fn, NameBinder.pop_fn, List.count_append, Nat.add_assoc, enclosingJumpsElems]
  | .ErrorPtrn, st => by
    simp only [Form.bind]
    refine Logged.cast (Logged.refl st) ?_ ?_
    · simp [Form.enclosingJumps, NameBinder.push_scope, NameBinder.push_loop, NameBinder.pop_loop, NameBinder.push_fn, NameBinder.pop_fn, List.count_append, Nat.add_assoc, enclosingJumpsElems]
    · simp [Form.enclosingJumps, NameBinder.push_scope, NameBinder.push_loop, NameBinder.pop_loop, NameBinder.push_fn, NameBinder.pop_fn, List.count_append, Nat.add_assoc, enclosingJumpsElems]
  | .TypeParam decl, st => by
    simp only [Form.bind]
    refine Logged.cast ((Logged.refl st).trans (Logged.insert_symbol _ ⟨.TypeParam, decl⟩)) ?_ ?_
    · simp [Form.enclosingJumps, NameBinder.push_scope, NameBinder.push_loop, NameBinder.pop_loop, NameBinder.push_fn, NameBinder.pop_fn, List.count_append, Nat.add_assoc, enclosingJumpsElems]
    · simp [Form.enclosingJumps, NameBinder.push_scope, NameBinder.push_loop, NameBinder.pop_loop, NameBinder.push_fn, NameBinder.pop_fn, List.count_append, Nat.add_assoc, enclosingJumpsElems]
  | .TypeParamList params, st => by
    simp only [Form.bind]
    refine Logged.cast ((Logged.refl st).trans (bindList_logged params _)) ?_ ?_
    · simp [Form.enclosingJumps, bindList_ctx params, NameBinder.push_scope, NameBinder.push_loop, NameBinder.pop_loop, NameBinder.push_fn, NameBinder.pop_fn, List.count_append, Nat.add_assoc, enclosingJumpsElems]
    · simp [Form.enclosingJumps, bindList_ctx params, NameBinder.push_scope, NameBinder.push_loop, NameBinder.pop_loop, NameBinder.push_fn, NameBinder.pop_fn, List.count_append, Nat.add_assoc, enclosingJumpsElems]
  | .PtrnDecl decl, st => by
    simp only [Form.bind]
    refine Logged.cast ((Logged.refl st).trans (Logged.insert_symbol _ ⟨.PtrnDecl, decl⟩)) ?_ ?_
    · simp [Form.enclosingJumps, NameBinder.push_scope, NameBinder.push_loop, NameBinder.pop_loop, NameBinder.push_fn, NameBinder.pop_fn, List.count_append, Nat.add_assoc, enclosingJumpsElems]
    · simp [Form.enclosingJumps, NameBinder.push_scope, NameBinder.push_loop, NameBinder.pop_loop, NameBinder.push_fn, NameBinder.pop_fn, List.count_append, Nat.add_assoc, enclosingJumpsElems]
  | .LetDecl init ptrn, st => by
    simp only [Form.bind]
    refine Logged.cast (((Logged.refl st).trans (bindOpt_logged init _)).trans (NameBinder.bind_logged ptrn _)) ?_ ?_
    · simp [Form.enclosingJumps, bindOpt_ctx init, NameBinder.bind_ctx ptrn, NameBinder.push_scope, NameBinder.push_loop, NameBinder.pop_loop, NameBinder.push_fn, NameBinder.pop_fn, List.count_append, Nat.add_assoc, enclosingJumpsElems]
    · simp [Form.enclosingJumps, bindOpt_ctx init, NameBinder.bind_ctx ptrn, NameBinder.push_scope, NameBinder.push_loop, NameBinder.pop_loop, NameBinder.push_fn, NameBinder.pop_fn, List.count_append, Nat.add_assoc, enclosingJumpsElems]
  | .StaticDecl decl type init, st => by
    simp only [Form.bind]
    refine Logged.cast (((Logged.refl st).trans (bindOpt_logged type _)).trans (bindOpt_logged init _)) ?_ ?_
    · simp [Form.enclosingJumps, bindOpt_ctx type, bindOpt_ctx init, NameBinder.push_scope, NameBinder.push_loop, NameBinder.pop_loop, NameBinder.push_fn, NameBinder.pop_fn, List.count_append, Nat.add_assoc, enclosingJumpsElems]
    · simp [Form.enclosingJumps, bindOpt_ctx type, bindOpt_ctx init, NameBinder.push_scope, NameBinder.push_loop, NameBinder.pop_loop, NameBinder.push_fn, NameBinder.pop_fn, List.count_append, Nat.add_assoc, enclosingJumpsElems]
  | .FnDecl decl type_params fn_attrs (.mk addr filter param ret_type (some body)), st => by
    simp only [Form.bind]
    refine Logged.cast ((((((Logged.refl st).trans (Logged.push_scope _ false)).trans (bindOpt_logged type_params _)).trans (bindAttrs_logged fn_attrs _)).trans (FnExpr.bindFn_logged (.mk addr filter param ret_type (some body)) false _)).trans (Logged.pop_scope _)) ?_ ?_
    · simp [Form.enclosingJumps, bindOpt_ctx type_params, bindAttrs_ctx fn_attrs, FnExpr.bindFn_ctx (.mk addr filter param ret_type (some body)), NameBinder.push_scope, NameBinder.push_loop, NameBinder.pop_loop, NameBinder.push_fn, NameBinder.pop_fn, List.count_append, Nat.add_assoc, enclosingJumpsElems]
    · simp [Form.enclosingJumps, bindOpt_ctx type_params, bindAttrs_ctx fn_attrs, FnExpr.bindFn_ctx (.mk addr filter param ret_type (some body)), NameBinder.push_scope, NameBinder.push_loop, NameBinder.pop_loop, NameBinder.push_fn, NameBinder.pop_fn, List.count_append, Nat.add_assoc, enclosingJumpsElems]
  | .FnDecl decl type_params fn_attrs (.mk addr filter param ret_type none), st => by
    simp only [Form.bind]
    refine Logged.cast ((((((Logged.refl st).trans (Logged.push_scope _ false)).trans (bindOpt_logged type_params _)).trans (bindOpt_logged param _)).trans (bindOpt_logged ret_type _)).trans (Logged.pop_scope _)) ?_ ?_
    · simp [Form.enclosingJumps, bindOpt_ctx type_params, bindOpt_ctx param, bindOpt_ctx ret_type, NameBinder.push_scope, NameBinder.push_loop, NameBinder.pop_loop, NameBinder.push_fn, NameBinder.pop_fn, List.count_append, Nat.add_assoc, enclosingJumpsElems]
    · simp [Form.enclosingJumps, bindOpt_ctx type_params, bindOpt_ctx param, bindOpt_ctx ret_type, NameBinder.push_scope, NameBinder.push_loop, NameBinder.pop_loop, NameBinder.push_fn, NameBinder.pop_fn, List.count_append, Nat.add_assoc, enclosingJumpsElems]
  | .FieldDecl type init, st => by
    simp only [Form.bind]
    refine Logged.cast (((Logged.refl st).trans (NameBinder.bind_logged type _)).trans (bindOpt_logged init _)) ?_ ?_
    · simp [Form.enclosingJumps, NameBinder.bind_ctx type, bindOpt_ctx init, NameBinder.push_scope, NameBinder.push_loop, NameBinder.pop_loop, NameBinder.push_fn, NameBinder.pop_fn, List.count_append, Nat.add_assoc, enclosingJumpsElems]
    · simp [Form.enclosingJumps, NameBinder.bind_ctx type, bindOpt_ctx init, NameBinder.push_scope, NameBinder.push_loop, NameBinder.pop_loop, NameBinder.push_fn, NameBinder.pop_fn, List.count_append, Nat.add_assoc, enclosingJumpsElems]
  | .StructDecl decl type_params fields, st => by
    simp only [Form.bind]
    refine Logged.cast (((((Logged.refl st).trans (Logged.push_scope _ false)).trans (bindOpt_logged type_params _)).trans (bindList_logged fields _)).trans (Logged.pop_scope _)) ?_ ?_
    · simp [Form.enclosingJumps, bindOpt_ctx type_params, bindList_ctx fields, NameBinder.push_scope, NameBinder.push_loop, NameBinder.pop_loop, NameBinder.push_fn, NameBinder.pop_fn, List.count_append, Nat.add_assoc, enclosingJumpsElems]
    · simp [Form.enclosingJumps, bindOpt_ctx type_params, bindList_ctx fields, NameBinder.push_scope, NameBinder.push_loop, NameBinder.pop_loop, NameBinder.push_fn, NameBinder.pop_fn, List.count_append, Nat.add_assoc, enclosingJumpsElems]
  | .OptionDecl decl (some param) fields, st => by
    simp only [Form.bind]
    refine Logged.cast (((Logged.refl st).trans (NameBinder.bind_logged param _)).trans (Logged.insert_symbol _ ⟨.OptionDecl, decl⟩)) ?_ ?_
    · simp [Form.enclosingJumps, NameBinder.bind_ctx param, NameBinder.push_scope, NameBinder.push_loop, NameBinder.pop_loop, NameBinder.push_fn, NameBinder.pop_fn, List.count_append, Nat.add_assoc, enclosingJumpsElems]
    · simp [Form.enclosingJumps, NameBinder.bind_ctx param, NameBinder.push_scope, NameBinder.push_loop, NameBinder.pop_loop, NameBinder.push_fn, NameBinder.pop_fn, List.count_append, Nat.add_assoc, enclosingJumpsElems]
  | .OptionDecl decl none fields, st => by
    simp only [Form.bind]
    refine Logged.cast (((Logged.refl st).trans (bindList_logged fields _)).trans (Logged.insert_symbol _ ⟨.OptionDecl, decl⟩)) ?_ ?_
    · simp [Form.enclosingJumps, bindList_ctx fields, NameBinder.push_scope, NameBinder.push_loop, NameBinder.pop_loop, NameBinder.push_fn, NameBinder.pop_fn, List.count_append, Nat.add_assoc, enclosingJumpsElems]
    · simp [Form.enclosingJumps, bindList_ctx fields, NameBinder.push_scope, NameBinder.push_loop, NameBinder.pop_loop, NameBinder.push_fn, NameBinder.pop_fn, List.count_append, Nat.add_assoc, enclosingJumpsElems]
  | .EnumDecl decl type_params options, st => by
    simp only [Form.bind]
    refine Logged.cast (((((Logged.refl st).trans (Logged.push_scope _ false)).trans (bindOpt_logged type_params _)).trans (bindList_logged options _)).trans (Logged.pop_scope _)) ?_ ?_
    · simp [Form.enclosingJumps, bindOpt_ctx type_params, bindList_ctx options, NameBinder.push_scope, NameBinder.push_loop, NameBinder.pop_loop, NameBinder.push_fn, NameBinder.pop_fn, List.count_append, Nat.add_assoc, enclosingJumpsElems]
    · simp [Form.enclosingJumps, bindOpt_ctx type_params, bindList_ctx options, NameBinder.push_scope, NameBinder.push_loop, NameBinder.pop_loop, NameBinder.push_fn, NameBinder.pop_fn, List.count_append, Nat.add_assoc, enclosingJumpsElems]
  | .TypeDecl decl type_params aliased_type, st => by
    simp only [Form.bind]
    refine Logged.cast (((((Logged.refl st).trans (Logged.push_scope _ false)).trans (bindOpt_logged type_params _)).trans (NameBinder.bind_logged aliased_type _)).trans (Logged.pop_scope _)) ?_ ?_
    · simp [Form.enclosingJumps, bindOpt_ctx type_params, NameBinder.bind_ctx aliased_type, NameBinder.push_scope, NameBinder.push_loop, NameBinder.pop_loop, NameBinder.push_fn, NameBinder.pop_fn, List.count_append, Nat.add_assoc, enclosingJumpsElems]
    · simp [Form.enclosingJumps, bindOpt_ctx type_params, NameBinder.bind_ctx aliased_type, NameBinder.push_scope, NameBinder.push_loop, NameBinder.pop_loop, NameBinder.push_fn, NameBinder.pop_fn, List.count_append, Nat.add_assoc, enclosingJumpsElems]
  | .ModDecl decl decls, st => by
    simp only [Form.bind]
    refine Logged.cast ((((((Logged.refl st).trans (Logged.set_scopes _ [])).trans (Logged.push_scope _ false)).trans (Logged.bind_heads decls _)).trans (bindList_logged decls _)).trans (Logged.set_scopes _ st.scopes_)) ?_ ?_
    · simp [Form.enclosingJumps, bindList_ctx decls, NameBinder.push_scope, NameBinder.push_loop, NameBinder.pop_loop, NameBinder.push_fn, NameBinder.pop_fn, List.count_append, Nat.add_assoc, enclosingJumpsElems]
    · simp [Form.enclosingJumps, bindList_ctx decls, NameBinder.push_scope, NameBinder.push_loop, NameBinder.pop_loop, NameBinder.push_fn, NameBinder.pop_fn, List.count_append, Nat.add_assoc, enclosingJumpsElems]
  | .ErrorDecl, st => by
    simp only [Form.bind]
    refine Logged.cast (Logged.refl st) ?_ ?_
    · simp [Form.enclosingJumps, NameBinder.push_scope, NameBinder.push_loop, NameBinder.pop_loop, NameBinder.push_fn, NameBinder.pop_fn, List.count_append, Nat.add_assoc, enclosingJumpsElems]
    · simp [Form.enclosingJumps, NameBinder.push_scope, NameBinder.push_loop, NameBinder.pop_loop, NameBinder.push_fn, NameBinder.pop_fn, List.count_append, Nat.add_assoc, enclosingJumpsElems]

theorem bindElems_logged : ∀ (x : List PathElem) (st : NameBinder),
    st.Logged (bindElems x st).2
      ((enclosingJumpsElems x st.cur_loop_ st.cur_fn_).count (.loop none))
      ((enclosingJumpsElems x st.cur_loop_ st.cur_fn_).count (.fn none))
  | [], st => by
    simp only [bindElems]
    refine Logged.cast (Logged.refl st) ?_ ?_
    · simp [enclosingJumpsElems, NameBinder.push_scope, NameBinder.push_loop, NameBinder.pop_loop, NameBinder.push_fn, NameBinder.pop_fn, List.count_append, Nat.add_assoc, enclosingJumpsElems]
    · simp [enclosingJumpsElems, NameBinder.push_scope, NameBinder.push_loop, NameBinder.pop_loop, NameBinder.push_fn, NameBinder.pop_fn, List.count_append, Nat.add_assoc, enclosingJumpsElems]
  | .mk id args :: elems, st => by
    simp only [bindElems]
    refine Logged.cast (((Logged.refl st).trans (bindList_logged args _)).trans (bindElems_logged elems _)) ?_ ?_
    · simp [enclosingJumpsElems, bindList_ctx args, bindElems_ctx elems, NameBinder.push_scope, NameBinder.push_loop, NameBinder.pop_loop, NameBinder.push_fn, NameBinder.pop_fn, List.count_append, Nat.add_assoc, enclosingJumpsElems]
    · simp [enclosingJumpsElems, bindList_ctx args, bindElems_ctx elems, NameBinder.push_scope, NameBinder.push_loop, NameBinder.pop_loop, NameBinder.push_fn, NameBinder.pop_fn, List.count_append, Nat.add_assoc, enclosingJumpsElems]

theorem FnExpr.bindFn_logged : ∀ (x : FnExpr) (in_for_loop : Bool) (st : NameBinder),
    st.Logged (FnExpr.bind x in_for_loop st).2
      ((FnExpr.enclosingJumps x in_for_loop st.cur_loop_ st.cur_fn_).count (.loop none))
      ((FnExpr.enclosingJumps x in_for_loop st.cur_loop_ st.cur_fn_).count (.fn none))
  | .mk addr filter param ret_type body, true, st => by
    simp only [FnExpr.bind]
    refine Logged.cast (((((((((Logged.refl st).trans (Logged.push_scope _ false)).trans (bindOpt_logged param _)).trans (bindOpt_logged ret_type _)).trans (bindOpt_logged filter _)).trans (Logged.push_scope _ false)).trans (bindOpt_logged body _)).trans (Logged.pop_scope _)).trans (Logged.pop_scope _)) ?_ ?_
    · simp [FnExpr.enclosingJumps, bindOpt_ctx param, bindOpt_ctx ret_type, bindOpt_ctx filter, bindOpt_ctx body, NameBinder.push_scope, NameBinder.push_loop, NameBinder.pop_loop, NameBinder.push_fn, NameBinder.pop_fn, List.count_append, Nat.add_assoc, enclosingJumpsElems]
    · simp [FnExpr.enclosingJumps, bindOpt_ctx param, bindOpt_ctx ret_type, bindOpt_ctx filter, bindOpt_ctx body, NameBinder.push_scope, NameBinder.push_loop, NameBinder.pop_loop, NameBinder.push_fn, NameBinder.pop_fn, List.count_append, Nat.add_assoc, enclosingJumpsElems]
  | .mk addr filter param ret_type body, false, st => by
    simp only [FnExpr.bind]
    refine Logged.cast (((((((((((Logged.refl st).trans (Logged.push_scope _ false)).trans (bindOpt_logged param _)).trans (bindOpt_logged ret_type _)).trans (bindOpt_logged filter _)).trans (Logged.push_scope _ false)).trans (Logged.push_fn _ addr)).trans (bindOpt_logged body _)).trans (Logged.pop_fn _ _)).trans (Logged.pop_scope _)).trans (Logged.pop_scope _)) ?_ ?_
    · simp [FnExpr.enclosingJumps, bindOpt_ctx param, bindOpt_ctx ret_type, bindOpt_ctx filter, bindOpt_ctx body, NameBinder.push_scope, NameBinder.push_loop, NameBinder.pop_loop, NameBinder.push_fn, NameBinder.pop_fn, List.count_append, Nat.add_assoc, enclosingJumpsElems]
    · simp [FnExpr.enclosingJumps, bindOpt_ctx param, bindOpt_ctx ret_type, bindOpt_ctx filter, bindOpt_ctx body, NameBinder.push_scope, NameBinder.push_loop, NameBinder.pop_loop, NameBinder.push_fn, NameBinder.pop_fn, List.count_append, Nat.add_assoc, enclosingJumpsElems]

theorem bindAttrs_logged : ∀ (x : Option Node) (st : NameBinder),
    st.Logged (bindAttrs x st).2
      ((enclosingJumpsAttrs x st.cur_loop_ st.cur_fn_).count (.loop none))
      ((enclosingJumpsAttrs x st.cur_loop_ st.cur_fn_).count (.fn none))
  | none, st => by
    simp only [bindAttrs]
    refine Logged.cast (Logged.refl st) ?_ ?_
    · simp [enclosingJumpsAttrs, NameBinder.push_scope, NameBinder.push_loop, NameBinder.pop_loop, NameBinder.push_fn, NameBinder.pop_fn, List.count_append, Nat.add_assoc, enclosingJumpsElems]
    · simp [enclosingJumpsAttrs, NameBinder.push_scope, NameBinder.push_loop, NameBinder.pop_loop, NameBinder.push_fn, NameBinder.pop_fn, List.count_append, Nat.add_assoc, enclosingJumpsElems]
  | some (.mk attrs form), st => by
    simp only [bindAttrs]
    refine Logged.cast ((Logged.refl st).trans (Form.bindForm_logged form _)) ?_ ?_
    · simp [enclosingJumpsAttrs, Form.bindForm_ctx form, NameBinder.push_scope, NameBinder.push_loop, NameBinder.pop_loop, NameBinder.push_fn, NameBinder.pop_fn, List.count_append, Nat.add_assoc, enclosingJumpsElems]
    · simp [enclosingJumpsAttrs, Form.bindForm_ctx form, NameBinder.push_scope, NameBinder.push_loop, NameBinder.pop_loop, NameBinder.push_fn, NameBinder.pop_fn, List.count_append, Nat.add_assoc, enclosingJumpsElems]

theorem NameBinder.bind_logged : ∀ (x : Node) (st : NameBinder),
    st.Logged (NameBinder.bind x st).2
      ((Node.enclosingJumps x st.cur_loop_ st.cur_fn_).count (.loop none))
      ((Node.enclosingJumps x st.cur_loop_ st.cur_fn_).count (.fn none))
  | .mk attrs form, st => by
    simp only [NameBinder.bind]
    refine Logged.cast (((Logged.refl st).trans (bindAttrs_logged attrs _)).trans (Form.bindForm_logged form _)) ?_ ?_
    · simp [Node.enclosingJumps, bindAttrs_ctx attrs, Form.bindForm_ctx form, NameBinder.push_scope, NameBinder.push_loop, NameBinder.pop_loop, NameBinder.push_fn, NameBinder.pop_fn, List.count_append, Nat.add_assoc, enclosingJumpsElems]
    · simp [Node.enclosingJumps, bindAttrs_ctx attrs, Form.bindForm_ctx form, NameBinder.push_scope, NameBinder.push_loop, NameBinder.pop_loop, NameBinder.push_fn, NameBinder.pop_fn, List.count_append, Nat.add_assoc, enclosingJumpsElems]

theorem bindList_logged : ∀ (x : List Node) (st : NameBinder),
    st.Logged (bindList x st).2
      ((enclosingJumpsList x st.cur_loop_ st.cur_fn_).count (.loop none))
      ((enclosingJumpsList x st.cur_loop_ st.cur_fn_).count (.fn none))
  | [], st => by
    simp only [bindList]
    refine Logged.cast (Logged.refl st) ?_ ?_
    · simp [enclosingJumpsList, NameBinder.push_scope, NameBinder.push_loop, NameBinder.pop_loop, NameBinder.push_fn, NameBinder.pop_fn, List.count_append, Nat.add_assoc, enclosingJumpsElems]
    · simp [enclosingJumpsList, NameBinder.push_scope, NameBinder.push_loop, NameBinder.pop_loop, NameBinder.push_fn, NameBinder.pop_fn, List.count_append, Nat.add_assoc, enclosingJumpsElems]
  | node :: nodes, st => by
    simp only [bindList]
    refine Logged.cast (((Logged.refl st).trans (NameBinder.bind_logged node _)).trans (bindList_logged nodes _)) ?_ ?_
    · simp [enclosingJumpsList, NameBinder.bind_ctx node, bindList_ctx nodes, NameBinder.push_scope, NameBinder.push_loop, NameBinder.pop_loop, NameBinder.push_fn, NameBinder.pop_fn, List.count_append, Nat.add_assoc, enclosingJumpsElems]
    · simp [enclosingJumpsList, NameBinder.bind_ctx node, bindList_ctx nodes, NameBinder.push_scope, NameBinder.push_loop, NameBinder.pop_loop, NameBinder.push_fn, NameBinder.pop_fn, List.count_append, Nat.add_assoc, enclosingJumpsElems]

theorem bindOpt_logged : ∀ (x : Option Node) (st : NameBinder),
    st.Logged (bindOpt x st).2
      ((enclosingJumpsOpt x st.cur_loop_ st.cur_fn_).count (.loop none))
      ((enclosingJumpsOpt x st.cur_loop_ st.cur_fn_).count (.fn none))
  | none, st => by
    simp only [bindOpt]
    refine Logged.cast (Logged.refl st) ?_ ?_
    · simp [enclosingJumpsOpt, NameBinder.push_scope, NameBinder.push_loop, NameBinder.pop_loop, NameBinder.push_fn, NameBinder.pop_fn, List.count_append, Nat.add_assoc, enclosingJumpsElems]
    · simp [enclosingJumpsOpt, NameBinder.push_scope, NameBinder.push_loop, NameBinder.pop_loop, NameBinder.push_fn, NameBinder.pop_fn, List.count_append, Nat.add_assoc, enclosingJumpsElems]
  | some node, st => by
    simp only [bindOpt]
    refine Logged.cast ((Logged.refl st).trans (NameBinder.bind_logged node _)) ?_ ?_
    · simp [enclosingJumpsOpt, NameBinder.bind_ctx node, NameBinder.push_scope, NameBinder.push_loop, NameBinder.pop_loop, NameBinder.push_fn, NameBinder.pop_fn, List.count_append, Nat.add_assoc, enclosingJumpsElems]
    · simp [enclosingJumpsOpt, NameBinder.bind_ctx node, NameBinder.push_scope, NameBinder.push_loop, NameBinder.pop_loop, NameBinder.push_fn, NameBinder.pop_fn, List.count_append, Nat.add_assoc, enclosingJumpsElems]

end

theorem SymbolTable.find_empty (top_level : Bool) (name : String) :
    (⟨top_level, []⟩ : SymbolTable).find name = none := rfl

theorem NameBinder.find_symbol_insert_other (st : NameBinder) (top_level : Bool)
    (decl : DeclPtr) (name : String) (h : decl.decl.id.name ≠ name)
    (hs : st.scopes_ = [⟨top_level, []⟩]) :
    (st.insert_symbol decl).find_symbol name = none := by
  cases hu : startsWithUnderscore decl.decl.id.name with
  | true =>
    rw [insert_symbol_underscore _ _ hu]
    simp [find_symbol, hs, findIn, SymbolTable.find_empty]
  | false =>
    obtain ⟨new, _, heq⟩ := insert_symbol_fresh st decl ⟨top_level, []⟩ [] hs hu rfl
    rw [heq]
    simp only [find_symbol, findIn]
    rw [SymbolTable.find_insert_other _ _ _ _ (fun h1 => h h1.symm)]
    rfl

theorem NameBinder.insert_symbol_errors_empty (st : NameBinder) (top_level : Bool)
    (decl : DeclPtr) (hs : st.scopes_ = [⟨top_level, []⟩]) :
    (st.insert_symbol decl).errors = st.errors := by
  cases hu : startsWithUnderscore decl.decl.id.name with
  | true => rw [insert_symbol_underscore _ _ hu]
  | false =>
    obtain ⟨new, _, heq⟩ := insert_symbol_fresh st decl ⟨top_level, []⟩ [] hs hu rfl
    rw [heq]

theorem bind_staticInit_unknown (y : NamedDecl) (x : Identifier) (symbol : Option Symbol)
    (st : NameBinder) (hx : startsWithUnderscore x.name = false)
    (hf : st.find_symbol x.name = none) :
    Node.paths (NameBinder.bind (staticInit y x symbol) st).1 = [none] ∧
    (NameBinder.bind (staticInit y x symbol) st).2.errors = st.errors + 1 ∧
    (⟨.error, some x.loc, "unknown identifier '{}'", [x.name]⟩ : Diag) ∈
      (NameBinder.bind (staticInit y x symbol) st).2.diags := by
  simp only [staticInit, NameBinder.bind, bindAttrs, Form.bind, bindOpt, bindElems, bindList,
    hx, hf, Node.paths, Form.paths, pathsOpt, pathsElems, pathsList, List.append_nil,
    List.nil_append]
  generalize (st.error x.loc "unknown identifier '{}'" [x.name]).find_similar_symbol x.name
    = sim
  cases sim with
  | none => simp [NameBinder.error]
  | some similar =>
    obtain ⟨l⟩ := similar
    cases l with
    | nil => simp [NameBinder.error]
    | cons d ds => simp [NameBinder.error, NameBinder.note]

/-- C10: `ModDecl::bind` binds the declarations of the module over a stack that holds
one new frame only, whatever the stack of the binder is: the result is the one obtained
from a binder without any frame, except that the binder's own stack is put back
unchanged (same frames, same entries, same use counts). In particular the path `x`
in the module `static y = x;`, `x` not beginning with `_` and `y` being another name,
is not resolved even if frames of the binder declare `x`: its symbol is null and
one `unknown identifier` error is reported. -/
theorem ModDecl_bind_isolated (decl : NamedDecl) (decls : List Node) (st : NameBinder) :
    (Form.bind (.ModDecl decl decls) st).2.scopes_ = st.scopes_ ∧
    Form.bind (.ModDecl decl decls) st =
      ((Form.bind (.ModDecl decl decls) { st with scopes_ := [] }).1,
        { (Form.bind (.ModDecl decl decls) { st with scopes_ := [] }).2 with
          scopes_ := st.scopes_ }) ∧
    (∀ (y : NamedDecl) (x : Identifier) (symbol : Option Symbol),
      startsWithUnderscore x.name = false → y.id.name ≠ x.name →
        Form.paths (Form.bind (.ModDecl decl [staticInit y x symbol]) st).1 = [none] ∧
        (Form.bind (.ModDecl decl [staticInit y x symbol]) st).2.errors = st.errors + 1 ∧
        (⟨.error, some x.loc, "unknown identifier '{}'", [x.name]⟩ : Diag) ∈
          (Form.bind (.ModDecl decl [staticInit y x symbol]) st).2.diags) := by
  refine ⟨by simp only [Form.bind], by simp only [Form.bind], ?_⟩
  intro y x symbol hx hy
  have hfind : (bind_heads [staticInit y x symbol]
      (({ st with scopes_ := [] } : NameBinder).push_scope false)).find_symbol x.name = none := by
    simp only [bind_heads, bind_head, staticInit, Node.form]
    exact find_symbol_insert_other _ false _ _ hy rfl
  have herr : (bind_heads [staticInit y x symbol]
      (({ st with scopes_ := [] } : NameBinder).push_scope false)).errors = st.errors := by
    simp only [bind_heads, bind_head, staticInit, Node.form]
    exact insert_symbol_errors_empty _ false _ rfl
  obtain ⟨h1, h2, h3⟩ := bind_staticInit_unknown y x symbol _ hx hfind
  simp only [Form.bind, bindList, Form.paths, pathsList, List.append_nil]
  exact ⟨h1, by rw [h2, herr], h3⟩

theorem countErrors_eq_zero {ds : List Diag} :
    countErrors ds = 0 ↔ ∀ d ∈ ds, d.severity ≠ .error := by
  simp [countErrors, List.countP_eq_zero]

theorem TypeChecker.foldl_report (pass : List Diag) (tc : TypeChecker) :
    (pass.foldl TypeChecker.report tc).error_count = tc.error_count + countErrors pass := by
  induction pass generalizing tc with
  | nil => simp [countErrors]
  | cons d ds ih =>
    rw [List.foldl_cons, ih]
    cases h : d.severity <;>
      simp [TypeChecker.report, h, countErrors, List.countP_cons, Nat.add_assoc, Nat.add_comm]

/-- C5 at the module `fn @(c) f();`: `NameBinder::run` returns true, and the path `c`
of the filter still has a null symbol, because `FnDecl::bind` binds only the parameter
and the return type of a function without body. -/
theorem run_true_unbound_filter_path :
    (NameBinder.run emptyBinder filterOnlyModule).2.2 = true ∧
    Node.paths (NameBinder.run emptyBinder filterOnlyModule).1 = [none] := by
  decide

theorem count_loop_none (js : List Jump) :
    js.count (.loop none) = (loopTargets js).count none := by
  induction js with
  | nil => rfl
  | cons j js ih =>
    cases j with
    | loop t => cases t <;> simp [loopTargets, List.count_cons, ih]
    | fn t => simp [loopTargets, List.count_cons, ih]

theorem count_fn_none (js : List Jump) :
    js.count (.fn none) = (fnTargets js).count none := by
  induction js with
  | nil => rfl
  | cons j js ih =>
    cases j with
    | fn t => cases t <;> simp [fnTargets, List.count_cons, ih]
    | loop t => simp [fnTargets, List.count_cons, ih]

/-- C7: binding any node stores in each `break` and `continue` that is reached the
innermost `while` or `for` loop whose body encloses it, null when there is none (the
list of stored loops is the list computed by `enclosingJumps`); the number of
`outside of a loop` errors written is the number of those null references; and the
current loop of the binder is afterwards what it was before. For `enclosingJumps`,
the condition of a `while` and the callee and range of a `for` are outside of the
body of that loop. A `break` or `continue` itself stores the current loop of the
binder and reports one error exactly when that is null. -/
theorem break_continue_bind (x : Node) (st : NameBinder) :
    loopTargets (Node.boundJumps (NameBinder.bind x st).1) =
      loopTargets (Node.enclosingJumps x st.cur_loop_ st.cur_fn_) ∧
    countFmt outsideLoopFmt (st.newDiags (NameBinder.bind x st).2) =
      (loopTargets (Node.enclosingJumps x st.cur_loop_ st.cur_fn_)).count none ∧
    (NameBinder.bind x st).2.cur_loop_ = st.cur_loop_ ∧
    (∀ (loc : Loc) (loop : Option Nat) (s : NameBinder),
      Form.bind (.BreakExpr loc loop) s =
        (.BreakExpr loc s.cur_loop_,
          if s.cur_loop_.isNone then s.error loc outsideLoopFmt ["break"] else s) ∧
      Form.bind (.ContinueExpr loc loop) s =
        (.ContinueExpr loc s.cur_loop_,
          if s.cur_loop_.isNone then s.error loc outsideLoopFmt ["continue"] else s)) ∧
    (∀ (addr : Nat) (cond body : Node) (in_loop in_fn : Option Nat),
      Form.enclosingJumps (.WhileExpr addr (some cond) none none body) in_loop in_fn =
        Node.enclosingJumps cond in_loop in_fn ++ Node.enclosingJumps body (some addr) in_fn) ∧
    (∀ (addr : Nat) (callee arg : Node) (loop_body_attrs : Option Node) (loop_body : FnExpr)
        (in_loop in_fn : Option Nat),
      Form.enclosingJumps (.ForExpr addr callee loop_body_attrs loop_body arg) in_loop in_fn =
        Node.enclosingJumps callee in_loop in_fn ++
          enclosingJumpsAttrs loop_body_attrs (some addr) in_fn ++
          FnExpr.enclosingJumps loop_body true (some addr) in_fn ++
          Node.enclosingJumps arg in_loop in_fn) := by
  refine ⟨by rw [NameBinder.bind_jumps], ?_, (NameBinder.bind_ctx x st).2.1, ?_, ?_, ?_⟩
  · rw [(NameBinder.bind_logged x st).2.2.1, count_loop_none]
  · intro loc loop s
    exact ⟨rfl, rfl⟩
  · intro addr cond body in_loop in_fn
    simp only [Form.enclosingJumps]
  · intro addr callee arg loop_body_attrs loop_body in_loop in_fn
    simp only [Form.enclosingJumps]

theorem break_continue_bind_witness :
    loopTargets (Node.boundJumps (NameBinder.bind whileBreak emptyBinder).1) =
      [none, some 7] ∧
    countFmt outsideLoopFmt (emptyBinder.newDiags (NameBinder.bind whileBreak emptyBinder).2) =
      1 :=
  ⟨(break_continue_bind whileBreak emptyBinder).1.trans (by decide),
    (break_continue_bind whileBreak emptyBinder).2.1.trans (by decide)⟩

/-- C8: binding any node stores in each `return` that is reached the innermost function
expression whose body encloses it, the body of a `for` loop not counting as a
function, null when there is none (the list of stored functions is the list computed
by `enclosingJumps`); the number of `outside of a function` errors written is the
number of those null references; and the current function of the binder is afterwards
what it was before. For `enclosingJumps`, the body of a function expression is
enclosed by that expression unless the expression is the body of a `for` loop, in
which case the body is enclosed by the function around the loop. A `return` itself
stores the current function of the binder and reports one error exactly when that
is null. -/
theorem return_bind (x : Node) (st : NameBinder) :
    fnTargets (Node.boundJumps (NameBinder.bind x st).1) =
      fnTargets (Node.enclosingJumps x st.cur_loop_ st.cur_fn_) ∧
    countFmt outsideFnFmt (st.newDiags (NameBinder.bind x st).2) =
      (fnTargets (Node.enclosingJumps x st.cur_loop_ st.cur_fn_)).count none ∧
    (NameBinder.bind x st).2.cur_fn_ = st.cur_fn_ ∧
    (∀ (loc : Loc) (fn : Option Nat) (s : NameBinder),
      Form.bind (.ReturnExpr loc fn) s =
        (.ReturnExpr loc s.cur_fn_,
          if s.cur_fn_.isNone then s.error loc outsideFnFmt ["return"] else s)) ∧
    (∀ (addr : Nat) (filter param ret_type body : Option Node) (in_loop in_fn : Option Nat),
      FnExpr.enclosingJumps (.mk addr filter param ret_type body) false in_loop in_fn =
        enclosingJumpsOpt param in_loop in_fn ++ enclosingJumpsOpt ret_type in_loop in_fn ++
          enclosingJumpsOpt filter in_loop in_fn ++
          enclosingJumpsOpt body in_loop (some addr) ∧
      FnExpr.enclosingJumps (.mk addr filter param ret_type body) true in_loop in_fn =
        enclosingJumpsOpt param in_loop in_fn ++ enclosingJumpsOpt ret_type in_loop in_fn ++
          enclosingJumpsOpt filter in_loop in_fn ++
          enclosingJumpsOpt body in_loop in_fn) := by
  refine ⟨by rw [NameBinder.bind_jumps], ?_, (NameBinder.bind_ctx x st).1, ?_, ?_⟩
  · rw [(NameBinder.bind_logged x st).2.2.2, count_fn_none]
  · intro loc fn s
    rfl
  · intro addr filter param ret_type body in_loop in_fn
    constructor <;> simp [FnExpr.enclosingJumps]

theorem return_bind_witness :
    fnTargets (Node.boundJumps (NameBinder.bind returnInFor emptyBinder).1) =
      [none, some 3, some 3] ∧
    countFmt outsideFnFmt (emptyBinder.newDiags (NameBinder.bind returnInFor emptyBinder).2) =
      1 :=
  ⟨(return_bind returnInFor emptyBinder).1.trans (by decide),
    (return_bind returnInFor emptyBinder).2.1.trans (by decide)⟩

theorem SymbolTable.Extends.ext_refl (f : SymbolTable) : f.Extends f :=
  fun _ sym h => ⟨sym, [], h, by simp⟩

theorem SymbolTable.Extends.ext_trans {f g h : SymbolTable} (h1 : f.Extends g)
    (h2 : g.Extends h) : f.Extends h := by
  intro name sym hs
  obtain ⟨s1, m1, hs1, e1⟩ := h1 name sym hs
  obtain ⟨s2, m2, hs2, e2⟩ := h2 name s1 hs1
  exact ⟨s2, m1 ++ m2, hs2, by rw [e2, e1, List.append_assoc]⟩

theorem SymbolTable.Extends.insert (t : SymbolTable) (name : String) (symbol : Symbol) :
    t.Extends (t.insert name symbol).2 := by
  intro other sym hs
  by_cases h : other = name
  · subst h
    refine ⟨_, symbol.decls, ?_, rfl⟩
    rw [SymbolTable.find_insert_self, hs]
  · exact ⟨sym, [], by rw [SymbolTable.find_insert_other _ _ _ _ h, hs], by simp⟩

theorem lookup_retainEntry (name other : String) (es : List (String × SymbolPtr)) :
    ((retainEntry name es).find? (fun e => e.1 == other)).map (fun e => e.2.sym) =
      (es.find? (fun e => e.1 == other)).map (fun e => e.2.sym) := by
  induction es with
  | nil => rfl
  | cons e es ih =>
    by_cases h1 : e.1 = name
    · rw [retainEntry, if_pos (by simpa using h1)]
      by_cases h2 : e.1 = other
      · simp [List.find?_cons, h2]
      · simp [List.find?_cons, h2]
    · rw [retainEntry, if_neg (by simpa using h1)]
      by_cases h2 : e.1 = other
      · simp [List.find?_cons, h2]
      · simp [List.find?_cons, h2, ih]

theorem SymbolTable.find_retain (t : SymbolTable) (name other : String) :
    ({ t with symbols := retainEntry name t.symbols } : SymbolTable).find other =
      t.find other := by
  simp only [SymbolTable.find, SymbolTable.lookup, Option.map_map]
  exact lookup_retainEntry name other t.symbols

theorem SymbolTable.Extends.retain (t : SymbolTable) (name : String) :
    t.Extends { t with symbols := retainEntry name t.symbols } :=
  fun other sym hs => ⟨sym, [], by rw [SymbolTable.find_retain, hs], by simp⟩

theorem forall₂_extends_refl (s : List SymbolTable) :
    List.Forall₂ SymbolTable.Extends s s := by
  induction s with
  | nil => exact List.Forall₂.nil
  | cons f fs ih => exact List.Forall₂.cons (SymbolTable.Extends.ext_refl f) ih

theorem forall₂_extends_trans {a b c : List SymbolTable}
    (h1 : List.Forall₂ SymbolTable.Extends a b) (h2 : List.Forall₂ SymbolTable.Extends b c) :
    List.Forall₂ SymbolTable.Extends a c := by
  induction h1 generalizing c with
  | nil => cases h2; exact List.Forall₂.nil
  | cons hx _ ih =>
    cases h2 with
    | cons hy hys => exact List.Forall₂.cons (hx.ext_trans hy) (ih hys)

theorem forall₂_extends_drop {b c : List SymbolTable}
    (h : List.Forall₂ SymbolTable.Extends b c) (k : Nat) :
    List.Forall₂ SymbolTable.Extends (b.drop k) (c.drop k) := by
  induction h generalizing k with
  | nil => simp
  | cons hx hxs ih =>
    cases k with
    | zero => exact List.Forall₂.cons hx hxs
    | succ k => simpa using ih k

theorem forall₂_extends_retainIn (s : List SymbolTable) (name : String) :
    List.Forall₂ SymbolTable.Extends s (retainIn s name) := by
  induction s with
  | nil => exact List.Forall₂.nil
  | cons f fs ih =>
    rw [retainIn]
    split
    · exact List.Forall₂.cons (SymbolTable.Extends.retain f name) (forall₂_extends_refl fs)
    · exact List.Forall₂.cons (SymbolTable.Extends.ext_refl f) ih

theorem NameBinder.Grown.grow_refl (st : NameBinder) : st.Grown 0 st :=
  forall₂_extends_refl st.scopes_

theorem NameBinder.Grown.grow_of_eq {a b : NameBinder} (h : b.scopes_ = a.scopes_) :
    a.Grown 0 b := by
  unfold NameBinder.Grown
  rw [h]
  exact forall₂_extends_refl a.scopes_

theorem NameBinder.Grown.same {a b : NameBinder} {k : Nat} (h : a.Grown k b)
    (c : NameBinder) (hc : c.scopes_ = b.scopes_) : a.Grown k c := by
  unfold NameBinder.Grown
  rw [hc]
  exact h

theorem NameBinder.Grown.grow_step {a b c : NameBinder} {k : Nat} (h1 : a.Grown k b)
    (h2 : b.Grown 0 c) : a.Grown k c :=
  forall₂_extends_trans h1 (forall₂_extends_drop h2 k)

theorem NameBinder.Grown.push {a b : NameBinder} {k : Nat} (h : a.Grown k b)
    (top_level : Bool) : a.Grown (k + 1) (b.push_scope top_level) := h

theorem NameBinder.scopes_warnUnused (top_level : Bool) (pairs : List (String × SymbolPtr))
    (st : NameBinder) : (warnUnused top_level pairs st).scopes_ = st.scopes_ := by
  induction pairs generalizing st with
  | nil => rfl
  | cons p ps ih =>
    rw [warnUnused, ih]
    split
    · split <;> rfl
    · rfl

theorem NameBinder.scopes_pop_scope (st : NameBinder) :
    st.pop_scope.scopes_ = st.scopes_.tail := by
  unfold pop_scope
  split
  · next h => rw [h]; rfl
  · next h => rw [h]; rfl

theorem NameBinder.Grown.pop {a b : NameBinder} {k : Nat} (h : a.Grown (k + 1) b) :
    a.Grown k b.pop_scope := by
  unfold NameBinder.Grown at h ⊢
  rw [scopes_pop_scope, List.drop_tail]
  exact h

theorem NameBinder.Grown.grow_push_loop {a b : NameBinder} {k : Nat} (h : a.Grown k b)
    (loop : Nat) : a.Grown k (b.push_loop loop) := h

theorem NameBinder.Grown.grow_pop_loop {a b : NameBinder} {k : Nat} (h : a.Grown k b)
    (old : Option Nat) : a.Grown k (b.pop_loop old) := h

theorem NameBinder.Grown.grow_push_fn {a b : NameBinder} {k : Nat} (h : a.Grown k b)
    (fn : Nat) : a.Grown k (b.push_fn fn) := h

theorem NameBinder.Grown.grow_pop_fn {a b : NameBinder} {k : Nat} (h : a.Grown k b)
    (old : Option Nat) : a.Grown k (b.pop_fn old) := h

theorem NameBinder.Grown.grow_error {a b : NameBinder} {k : Nat} (h : a.Grown k b)
    (loc : Loc) (fmt : String) (args : List String) : a.Grown k (b.error loc fmt args) := h

theorem NameBinder.Grown.grow_note {a b : NameBinder} {k : Nat} (h : a.Grown k b)
    (loc : Option Loc) (fmt : String) (args : List String) :
    a.Grown k (b.note loc fmt args) := h

theorem NameBinder.scopes_notePrevious (decl : NamedDecl) (others : List DeclPtr)
    (st : NameBinder) : (notePrevious decl others st).scopes_ = st.scopes_ := by
  rw [notePrevious_eq]

theorem NameBinder.Grown.grow_insert_symbol (st : NameBinder) (decl : DeclPtr) :
    st.Grown 0 (st.insert_symbol decl) := by
  cases hu : startsWithUnderscore decl.decl.id.name with
  | true =>
    rw [insert_symbol_underscore _ _ hu]
    exact Grown.grow_refl st
  | false =>
    cases hs : st.scopes_ with
    | nil =>
      have : st.insert_symbol decl = st := by simp [NameBinder.insert_symbol, hu, hs]
      rw [this]
      exact Grown.grow_refl st
    | cons back rest =>
      have key : List.Forall₂ SymbolTable.Extends (back :: rest)
          ((back.insert decl.decl.id.name (Symbol.ofDecl decl)).2 :: rest) :=
        List.Forall₂.cons (SymbolTable.Extends.insert _ _ _) (forall₂_extends_refl rest)
      unfold NameBinder.Grown
      rw [hs]
      cases hf : back.find decl.decl.id.name with
      | none =>
        obtain ⟨new, _, heq⟩ := insert_symbol_fresh st decl back rest hs hu hf
        rw [heq]
        exact key
      | some old =>
        rw [insert_symbol_redeclared st decl back rest old hs hu hf]
        exact key

theorem NameBinder.Grown.grow_bind_head (decl : Node) (st : NameBinder) :
    st.Grown 0 (bind_head decl st) := by
  unfold NameBinder.bind_head
  split
  any_goals exact Grown.grow_insert_symbol _ _
  · split
    · exact Grown.grow_insert_symbol _ _
    · exact Grown.grow_refl st
  · exact Grown.grow_refl st

theorem NameBinder.Grown.grow_bind_heads (decls : List Node) (st : NameBinder) :
    st.Grown 0 (bind_heads decls st) := by
  induction decls generalizing st with
  | nil => exact Grown.grow_refl st
  | cons d ds ih => exact (Grown.grow_bind_head d st).grow_step (ih _)

theorem NameBinder.Grown.grow_bind_stmt_heads (stmts : List Node) (st : NameBinder) :
    st.Grown 0 (bind_stmt_heads stmts st) := by
  induction stmts generalizing st with
  | nil => exact Grown.grow_refl st
  | cons d ds ih =>
    rw [NameBinder.bind_stmt_heads]
    refine Grown.grow_step ?_ (ih _)
    split
    · exact Grown.grow_bind_head _ _
    · exact Grown.grow_refl st

theorem NameBinder.Grown.grow_retain (st : NameBinder) (name : String) :
    st.Grown 0 { st with scopes_ := retainIn st.scopes_ name } :=
  forall₂_extends_retainIn st.scopes_ name

mutual

theorem Form.bindForm_grown : ∀ (x : Form) (st : NameBinder),
    st.Grown 0 (Form.bind x st).2
  | .Path [] symbol, st => by
    simp only [Form.bind]
    exact (Grown.grow_refl st)
  | .Path (.mk id args :: rest) symbol, st => by
    simp only [Form.bind]
    split
    · exact ((Grown.grow_refl st).grow_error _ _ _).grow_step (bindElems_grown (.mk id args :: rest) _)
    · split
      · exact Grown.grow_step (Grown.grow_retain st id.name)
          (bindElems_grown (.mk id args :: rest) _)
      · split
        · split
          · exact (((Grown.grow_refl st).grow_error _ _ _).grow_note _ _ _).grow_step
              (bindElems_grown (.mk id args :: rest) _)
          · exact ((Grown.grow_refl st).grow_error _ _ _).grow_step (bindElems_grown (.mk id args :: rest) _)
        · exact ((Grown.grow_refl st).grow_error _ _ _).grow_step (bindElems_grown (.mk id args :: rest) _)
  | .Filter expr, st => by
    simp only [Form.bind]
    exact ((Grown.grow_refl st).grow_step (bindOpt_grown expr _))
  | .Attr, st => by
    simp only [Form.bind]
    exact (Grown.grow_refl st)
  | .PathAttr path, st => by
    simp only [Form.bind]
    exact ((Grown.grow_refl st).grow_step (NameBinder.bind_grown path _))
  | .NamedAttr args, st => by
    simp only [Form.bind]
    exact ((Grown.grow_refl st).grow_step (bindList_grown args _))
  | .PrimType, st => by
    simp only [Form.bind]
    exact (Grown.grow_refl st)
  | .TupleType args, st => by
    simp only [Form.bind]
    exact ((Grown.grow_refl st).grow_step (bindList_grown args _))
  | .ArrayType elem, st => by
    simp only [Form.bind]
    exact ((Grown.grow_refl st).grow_step (NameBinder.bind_grown elem _))
  | .FnType from_ to_, st => by
    simp only [Form.bind]
    exact (((Grown.grow_refl st).grow_step (NameBinder.bind_grown from_ _)).grow_step (bindOpt_grown to_ _))
  | .PtrType pointee, st => by
    simp only [Form.bind]
    exact ((Grown.grow_refl st).grow_step (NameBinder.bind_grown pointee _))
  | .TypeApp path, st => by
    simp only [Form.bind]
    exact ((Grown.grow_refl st).grow_step (NameBinder.bind_grown path _))
  | .ErrorType, st => by
    simp only [Form.bind]
    exact (Grown.grow_refl st)
  | .DeclStmt decl, st => by
    simp only [Form.bind]
    exact ((Grown.grow_refl st).grow_step (NameBinder.bind_grown decl _))
  | .ExprStmt expr, st => by
    simp only [Form.bind]
    exact ((Grown.grow_refl st).grow_step (NameBinder.bind_grown expr _))
  | .TypedExpr expr type, st => by
    simp only [Form.bind]
    exact (((Grown.grow_refl st).grow_step (NameBinder.bind_grown expr _)).grow_step (NameBinder.bind_grown type _))
  | .PathExpr path, st => by
    simp only [Form.bind]
    exact ((Grown.grow_refl st).grow_step (NameBinder.bind_grown path _))
  | .LiteralExpr, st => by
    simp only [Form.bind]
    exact (Grown.grow_refl st)
  | .FieldExpr expr, st => by
    simp only [Form.bind]
    exact ((Grown.grow_refl st).grow_step (NameBinder.bind_grown expr _))
  | .RecordExpr (some expr) type fields, st => by
    simp only [Form.bind]
    exact (((Grown.grow_refl st).grow_step (NameBinder.bind_grown expr _)).grow_step (bindList_grown fields _))
  | .RecordExpr none type fields, st => by
    simp only [Form.bind]
    exact (((Grown.grow_refl st).grow_step (bindOpt_grown type _)).grow_step (bindList_grown fields _))
  | .TupleExpr args, st => by
    simp only [Form.bind]
    exact ((Grown.grow_refl st).grow_step (bindList_grown args _))
  | .ArrayExpr elems, st => by
    simp only [Form.bind]
    exact ((Grown.grow_refl st).grow_step (bindList_grown elems _))
  | .RepeatArrayExpr elem, st => by
    simp only [Form.bind]
    exact ((Grown.grow_refl st).grow_step (NameBinder.bind_grown elem _))
  | .FnExpr fn, st => by
    simp only [Form.bind]
    exact ((Grown.grow_refl st).grow_step (FnExpr.bindFn_grown fn false _))
  | .BlockExpr stmts, st => by
    simp only [Form.bind]
    exact ((((Grown.grow_refl st).push false).grow_step (Grown.grow_bind_stmt_heads stmts _)).grow_step (bindList_grown stmts _)).pop
  | .CallExpr callee arg, st => by
    simp only [Form.bind]
    exact (((Grown.grow_refl st).grow_step (NameBinder.bind_grown callee _)).grow_step (NameBinder.bind_grown arg _))
  | .UnaryExpr arg, st => by
    simp only [Form.bind]
    exact ((Grown.grow_refl st).grow_step (NameBinder.bind_grown arg _))
  | .BinaryExpr left right, st => by
    simp only [Form.bind]
    exact (((Grown.grow_refl st).grow_step (NameBinder.bind_grown left _)).grow_step (NameBinder.bind_grown right _))
  | .ProjExpr expr, st => by
    simp only [Form.bind]
    exact ((Grown.grow_refl st).grow_step (NameBinder.bind_grown expr _))
  | .IfExpr (some cond) ptrn expr if_true if_false, st => by
    simp only [Form.bind]
    exact (((((Grown.grow_refl st).push false).grow_step (NameBinder.bind_grown cond _)).grow_step (NameBinder.bind_grown if_true _)).pop.grow_step (bindOpt_grown if_false _))
  | .IfExpr none ptrn expr if_true if_false, st => by
    simp only [Form.bind]
    exact ((((((Grown.grow_refl st).push false).grow_step (bindOpt_grown ptrn _)).grow_step (bindOpt_grown expr _)).grow_step (NameBinder.bind_grown if_true _)).pop.grow_step (bindOpt_grown if_false _))
  | .CaseExpr ptrn expr, st => by
    simp only [Form.bind]
    exact ((((Grown.grow_refl st).push false).grow_step (NameBinder.bind_grown ptrn _)).grow_step (NameBinder.bind_grown expr _)).pop
  | .MatchExpr arg cases, st => by
    simp only [Form.bind]
    exact (((Grown.grow_refl st).grow_step (NameBinder.bind_grown arg _)).grow_step (bindList_grown cases _))
  | .WhileExpr addr (some cond) ptrn expr body, st => by
    simp only [Form.bind]
    exact ((((((Grown.grow_refl st).push false).grow_step (NameBinder.bind_grown cond _)).grow_push_loop addr).grow_step (NameBinder.bind_grown body _)).grow_pop_loop _).pop
  | .WhileExpr addr none ptrn expr body, st => by
    simp only [Form.bind]
    exact (((((((Grown.grow_refl st).push false).grow_step (bindOpt_grown ptrn _)).grow_step (bindOpt_grown expr _)).grow_push_loop addr).grow_step (NameBinder.bind_grown body _)).grow_pop_loop _).pop
  | .ForExpr addr callee loop_body_attrs loop_body arg, st => by
    simp only [Form.bind]
    exact (((((((Grown.grow_refl st).grow_step (NameBinder.bind_grown callee _)).grow_push_loop addr).grow_step (bindAttrs_grown loop_body_attrs _)).grow_step (FnExpr.bindFn_grown loop_body true _)).grow_pop_loop _).grow_step (NameBinder.bind_grown arg _))
  | .BreakExpr loc loop, st => by
    simp only [Form.bind]
    split
    · exact (Grown.grow_refl st).grow_error _ _ _
    · exact Grown.grow_refl st
  | .ContinueExpr loc loop, st => by
    simp only [Form.bind]
    split
    · exact (Grown.grow_refl st).grow_error _ _ _
    · exact Grown.grow_refl st
  | .ReturnExpr loc fn, st => by
    simp only [Form.bind]
    split
    · exact (Grown.grow_refl st).grow_error _ _ _
    · exact Grown.grow_refl st
  | .FilterExpr filter expr, st => by
    simp only [Form.bind]
    exact (((Grown.grow_refl st).grow_step (NameBinder.bind_grown filter _)).grow_step (NameBinder.bind_grown expr _))
  | .CastExpr expr type, st => by
    simp only [Form.bind]
    exact (((Grown.grow_refl st).grow_step (NameBinder.bind_grown expr _)).grow_step (NameBinder.bind_grown type _))
  | .ImplicitCastExpr, st => by
    simp only [Form.bind]
    exact (Grown.grow_refl st)
  | .AsmExpr ins outs, st => by
    simp only [Form.bind]
    exact (((Grown.grow_refl st).grow_step (bindList_grown ins _)).grow_step (bindList_grown outs _))
  | .ErrorExpr, st => by
    simp only [Form.bind]
    exact (Grown.grow_refl st)
  | .TypedPtrn ptrn type, st => by
    simp only [Form.bind]
    exact (((Grown.grow_refl st).grow_step (bindOpt_grown ptrn _)).grow_step (NameBinder.bind_grown type _))
  | .IdPtrn decl sub_ptrn, st => by
    simp only [Form.bind]
    exact (((Grown.grow_refl st).grow_step (NameBinder.bind_grown decl _)).grow_step (bindOpt_grown sub_ptrn _))
  | .LiteralPtrn, st => by
    simp only [Form.bind]
    exact (Grown.grow_refl st)
  | .FieldPtrn ptrn, st => by
    simp only [Form.bind]
    exact ((Grown.grow_refl st).grow_step (bindOpt_grown ptrn _))
  | .RecordPtrn path fields, st => by
    simp only [Form.bind]
    exact (((Grown.grow_refl st).grow_step (NameBinder.bind_grown path _)).grow_step (bindList_grown fields _))
  | .CtorPtrn path arg, st => by
    simp only [Form.bind]
    exact (((Grown.grow_refl st).grow_step (NameBinder.bind_grown path _)).grow_step (bindOpt_grown arg _))
  | .TuplePtrn args, st => by
    simp only [Form.bind]
    exact ((Grown.grow_refl st).grow_step (bindList_grown args _))
  | .ArrayPtrn elems, st => by
    simp only [Form.bind]
    exact ((Grown.grow_refl st).grow_step (bindList_grown elems _))
  | .ErrorPtrn, st => by
    simp only [Form.bind]
    exact (Grown.grow_refl st)
  | .TypeParam decl, st => by
    simp only [Form.bind]
    exact ((Grown.grow_refl st).grow_step (Grown.grow_insert_symbol _ ⟨.TypeParam, decl⟩))
  | .TypeParamList params, st => by
    simp only [Form.bind]
    exact ((Grown.grow_refl st).grow_step (bindList_grown params _))
  | .PtrnDecl decl, st => by
    simp only [Form.bind]
    exact ((Grown.grow_refl st).grow_step (Grown.grow_insert_symbol _ ⟨.PtrnDecl, decl⟩))
  | .LetDecl init ptrn, st => by
    simp only [Form.bind]
    exact (((Grown.grow_refl st).grow_step (bindOpt_grown init _)).grow_step (NameBinder.bind_grown ptrn _))
  | .StaticDecl decl type init, st => by
    simp only [Form.bind]
    exact (((Grown.grow_refl st).grow_step (bindOpt_grown type _)).grow_step (bindOpt_grown init _))
  | .FnDecl decl type_params fn_attrs (.mk addr filter param ret_type (some body)), st => by
    simp only [Form.bind]
    exact (((((Grown.grow_refl st).push false).grow_step (bindOpt_grown type_params _)).grow_step (bindAttrs_grown fn_attrs _)).grow_step (FnExpr.bindFn_grown (.mk addr filter param ret_type (some body)) false _)).pop
  | .FnDecl decl type_params fn_attrs (.mk addr filter param ret_type none), st => by
    simp only [Form.bind]
    exact (((((Grown.grow_refl st).push false).grow_step (bindOpt_grown type_params _)).grow_step (bindOpt_grown param _)).grow_step (bindOpt_grown ret_type _)).pop
  | .FieldDecl type init, st => by
    simp only [Form.bind]
    exact (((Grown.grow_refl st).grow_step (NameBinder.bind_grown type _)).grow_step (bindOpt_grown init _))
  | .StructDecl decl type_params fields, st => by
    simp only [Form.bind]
    exact ((((Grown.grow_refl st).push false).grow_step (bindOpt_grown type_params _)).grow_step (bindList_grown fields _)).pop
  | .OptionDecl decl (some param) fields, st => by
    simp only [Form.bind]
    exact (((Grown.grow_refl st).grow_step (NameBinder.bind_grown param _)).grow_step (Grown.grow_insert_symbol _ ⟨.OptionDecl, decl⟩))
  | .OptionDecl decl none fields, st => by
    simp only [Form.bind]
    exact (((Grown.grow_refl st).grow_step (bindList_grown fields _)).grow_step (Grown.grow_insert_symbol _ ⟨.OptionDecl, decl⟩))
  | .EnumDecl decl type_params options, st => by
    simp only [Form.bind]
    exact ((((Grown.grow_refl st).push false).grow_step (bindOpt_grown type_params _)).grow_step (bindList_grown options _)).pop
  | .TypeDecl decl type_params aliased_type, st => by
    simp only [Form.bind]
    exact ((((Grown.grow_refl st).push false).grow_step (bindOpt_grown type_params _)).grow_step (NameBinder.bind_grown aliased_type _)).pop
  | .ModDecl decl decls, st => by
    simp only [Form.bind]
    exact Grown.grow_of_eq rfl
  | .ErrorDecl, st => by
    simp only [Form.bind]
    exact (Grown.grow_refl st)

theorem bindElems_grown : ∀ (x : List PathElem) (st : NameBinder),
    st.Grown 0 (bindElems x st).2
  | [], st => by
    simp only [bindElems]
    exact (Grown.grow_refl st)
  | .mk id args :: elems, st => by
    simp only [bindElems]
    exact (((Grown.grow_refl st).grow_step (bindList_grown args _)).grow_step (bindElems_grown elems _))

theorem FnExpr.bindFn_grown : ∀ (x : FnExpr) (in_for_loop : Bool) (st : NameBinder),
    st.Grown 0 (FnExpr.bind x in_for_loop st).2
  | .mk addr filter param ret_type body, true, st => by
    simp only [FnExpr.bind]
    exact (((((((Grown.grow_refl st).push false).grow_step (bindOpt_grown param _)).grow_step (bindOpt_grown ret_type _)).grow_step (bindOpt_grown filter _)).push false).grow_step (bindOpt_grown body _)).pop.pop
  | .mk addr filter param ret_type body, false, st => by
    simp only [FnExpr.bind]
    exact (((((((((Grown.grow_refl st).push false).grow_step (bindOpt_grown param _)).grow_step (bindOpt_grown ret_type _)).grow_step (bindOpt_grown filter _)).push false).grow_push_fn addr).grow_step (bindOpt_grown body _)).grow_pop_fn _).pop.pop

theorem bindAttrs_grown : ∀ (x : Option Node) (st : NameBinder),
    st.Grown 0 (bindAttrs x st).2
  | none, st => by
    simp only [bindAttrs]
    exact (Grown.grow_refl st)
  | some (.mk attrs form), st => by
    simp only [bindAttrs]
    exact ((Grown.grow_refl st).grow_step (Form.bindForm_grown form _))

theorem NameBinder.bind_grown : ∀ (x : Node) (st : NameBinder),
    st.Grown 0 (NameBinder.bind x st).2
  | .mk attrs form, st => by
    simp only [NameBinder.bind]
    exact (((Grown.grow_refl st).grow_step (bindAttrs_grown attrs _)).grow_step (Form.bindForm_grown form _))

theorem bindList_grown : ∀ (x : List Node) (st : NameBinder),
    st.Grown 0 (bindList x st).2
  | [], st => by
    simp only [bindList]
    exact (Grown.grow_refl st)
  | node :: nodes, st => by
    simp only [bindList]
    exact (((Grown.grow_refl st).grow_step (NameBinder.bind_grown node _)).grow_step (bindList_grown nodes _))

theorem bindOpt_grown : ∀ (x : Option Node) (st : NameBinder),
    st.Grown 0 (bindOpt x st).2
  | none, st => by
    simp only [bindOpt]
    exact (Grown.grow_refl st)
  | some node, st => by
    simp only [bindOpt]
    exact ((Grown.grow_refl st).grow_step (NameBinder.bind_grown node _))

end

theorem NameBinder.bind_head_eq (decl : Node) (st : NameBinder) :
    bind_head decl st =
      match headOf decl with
      | some p => st.insert_symbol p
      | none => st := by
  obtain ⟨attrs, form⟩ := decl
  cases form <;> simp only [bind_head, headOf, Node.form]
  split <;> rfl

theorem NameBinder.Declares.resolves {st : NameBinder} {p : DeclPtr} (h : st.Declares p) :
    st.Resolves p := by
  obtain ⟨f, r, sym, h1, h2, h3⟩ := h
  exact ⟨sym, by simp [find_symbol, h1, findIn, h2], h3⟩

theorem NameBinder.Declares.grown {st st1 : NameBinder} {p : DeclPtr} (h : st.Declares p)
    (hg : st.Grown 0 st1) : st1.Declares p := by
  obtain ⟨f, r, sym, h1, h2, h3⟩ := h
  unfold NameBinder.Grown at hg
  rw [h1, List.drop_zero] at hg
  cases hs : st1.scopes_ with
  | nil => rw [hs] at hg; cases hg
  | cons g r1 =>
    rw [hs] at hg
    cases hg with
    | cons hx _ =>
      obtain ⟨sym1, more, e1, e2⟩ := hx _ sym h2
      exact ⟨g, r1, sym1, hs, e1, by rw [e2]; exact List.mem_append_left _ h3⟩

theorem NameBinder.Declares.decl_insert_symbol (st : NameBinder) (p : DeclPtr)
    (back : SymbolTable) (rest : List SymbolTable) (hs : st.scopes_ = back :: rest)
    (hu : startsWithUnderscore p.decl.id.name = false) : (st.insert_symbol p).Declares p := by
  cases hf : back.find p.decl.id.name with
  | none =>
    obtain ⟨new, _, heq⟩ := insert_symbol_fresh st p back rest hs hu hf
    rw [heq]
    exact ⟨_, rest, Symbol.ofDecl p, rfl, by rw [SymbolTable.find_insert_self, hf],
      by simp [Symbol.ofDecl]⟩
  | some old =>
    rw [insert_symbol_redeclared st p back rest old hs hu hf]
    exact ⟨_, rest, ⟨old.decls ++ (Symbol.ofDecl p).decls⟩, rfl,
      by rw [SymbolTable.find_insert_self, hf], by simp [Symbol.ofDecl]⟩

theorem NameBinder.Grown.scopes_ne_nil {st st1 : NameBinder} (hg : st.Grown 0 st1)
    (h : st.scopes_ ≠ []) : st1.scopes_ ≠ [] := by
  unfold NameBinder.Grown at hg
  rw [List.drop_zero] at hg
  intro h1
  have := hg.length_eq
  rw [h1] at this
  exact h (List.length_eq_zero.1 this)

theorem NameBinder.Declares.decl_bind_stmt_heads (stmts : List Node) (st : NameBinder)
    (attrs : Option Node) (decl : Node) (p : DeclPtr)
    (hmem : Node.mk attrs (.DeclStmt decl) ∈ stmts) (hhead : headOf decl = some p)
    (hu : startsWithUnderscore p.decl.id.name = false) (hne : st.scopes_ ≠ []) :
    (bind_stmt_heads stmts st).Declares p := by
  induction stmts generalizing st with
  | nil => cases hmem
  | cons s ss ih =>
    rw [NameBinder.bind_stmt_heads]
    have hstep : st.Grown 0 (match s.form with
        | .DeclStmt decl => bind_head decl st
        | _ => st) := by
      split
      · exact Grown.grow_bind_head _ _
      · exact Grown.grow_refl st
    rcases List.mem_cons.1 hmem with h | h
    · subst h
      simp only [Node.form, bind_head_eq, hhead]
      obtain ⟨back, rest, hs⟩ := List.exists_cons_of_ne_nil hne
      exact (Declares.decl_insert_symbol st p back rest hs hu).grown (Grown.grow_bind_stmt_heads _ _)
    · exact ih _ h (hstep.scopes_ne_nil hne)

theorem bindList_getElem? (stmts : List Node) (st : NameBinder) (i : Nat) :
    (bindList stmts st).1[i]? =
      stmts[i]?.map (fun s => (NameBinder.bind s (bindList (stmts.take i) st).2).1) := by
  induction stmts generalizing st i with
  | nil => simp [bindList]
  | cons s ss ih =>
    cases i with
    | zero => simp [bindList]
    | succ i => simp [bindList, ih]

theorem bind_pathTo_unknown (x : Identifier) (st : NameBinder)
    (hx : startsWithUnderscore x.name = false) (hf : st.find_symbol x.name = none) :
    ∃ st1, NameBinder.bind (pathTo x none) st = (pathTo x none, st1) ∧
      st1.scopes_ = st.scopes_ := by
  simp only [pathTo, Node.plain, NameBinder.bind, bindAttrs, Form.bind, bindElems, bindList,
    hx, hf]
  generalize (st.error x.loc "unknown identifier '{}'" [x.name]).find_similar_symbol x.name
    = sim
  cases sim with
  | none => exact ⟨_, rfl, rfl⟩
  | some similar =>
    obtain ⟨l⟩ := similar
    cases l with
    | nil => exact ⟨_, rfl, rfl⟩
    | cons d ds => exact ⟨_, rfl, rfl⟩

theorem bind_pathTo_known (x : Identifier) (st : NameBinder) (s : Symbol)
    (hx : startsWithUnderscore x.name = false) (hf : st.find_symbol x.name = some s) :
    (NameBinder.bind (pathTo x none) st).1 = pathTo x (some s) := by
  simp [pathTo, Node.plain, NameBinder.bind, bindAttrs, Form.bind, bindElems, bindList,
    hx, hf]

theorem bind_plain (form : Form) (st : NameBinder) :
    NameBinder.bind (.plain form) st =
      (.plain (Form.bind form st).1, (Form.bind form st).2) := by
  simp only [Node.plain, NameBinder.bind, bindAttrs]

theorem Node.form_plain (form : Form) : (Node.plain form).form = form := rfl

theorem Node.paths_plain (form : Form) : (Node.plain form).paths = Form.paths form := by
  simp only [Node.plain, Node.paths, pathsOpt, List.nil_append]

theorem paths_pathTo (x : Identifier) (symbol : Option Symbol) :
    (pathTo x symbol).paths = [symbol] := by
  simp only [pathTo, Node.paths_plain, Form.paths, pathsElems, pathsList, List.append_nil]

/-- C9 as stated fails on the block `{ let x: x = 1; }`, entered with a binder that
declares nothing: the path `x` of the type of the pattern is bound to the declaration
that the same pattern introduces, and nothing is reported, because `TypedPtrn::bind`
binds the pattern before its type. -/
theorem let_name_in_own_type :
    Node.paths (NameBinder.bind blockLetTypedX emptyBinder).1 =
      [some ⟨[⟨.PtrnDecl, declX⟩]⟩] ∧
    (NameBinder.bind blockLetTypedX emptyBinder).2.errors = 0 ∧
    (NameBinder.bind blockLetTypedX emptyBinder).2.diags = [] := by
  decide

mutual

theorem Form.bindForm_ptrnDecls : ∀ (x : Form) (st : NameBinder), st.scopes_ ≠ [] →
    ∀ d ∈ Form.ptrnDecls x, startsWithUnderscore d.id.name = false →
      (Form.bind x st).2.Declares ⟨.PtrnDecl, d⟩
  | .TypedPtrn ptrn type, st, hne, d, hd, hu => by
    simp only [Form.ptrnDecls] at hd
    simp only [Form.bind]
    exact (bindOpt_ptrnDecls ptrn st hne d hd hu).grown (NameBinder.bind_grown _ _)
  | .IdPtrn decl sub_ptrn, st, hne, d, hd, hu => by
    simp only [Form.ptrnDecls, List.mem_append] at hd
    simp only [Form.bind]
    rcases hd with hd | hd
    · exact (NameBinder.bind_ptrnDecls decl st hne d hd hu).grown (bindOpt_grown _ _)
    · exact bindOpt_ptrnDecls sub_ptrn _ ((NameBinder.bind_grown decl st).scopes_ne_nil hne)
        d hd hu
  | .FieldPtrn ptrn, st, hne, d, hd, hu => by
    simp only [Form.ptrnDecls] at hd
    simp only [Form.bind]
    exact bindOpt_ptrnDecls ptrn st hne d hd hu
  | .RecordPtrn path fields, st, hne, d, hd, hu => by
    simp only [Form.ptrnDecls] at hd
    simp only [Form.bind]
    exact bindList_ptrnDecls fields _ ((NameBinder.bind_grown path st).scopes_ne_nil hne)
      d hd hu
  | .CtorPtrn path arg, st, hne, d, hd, hu => by
    simp only [Form.ptrnDecls] at hd
    simp only [Form.bind]
    exact bindOpt_ptrnDecls arg _ ((NameBinder.bind_grown path st).scopes_ne_nil hne) d hd hu
  | .TuplePtrn args, st, hne, d, hd, hu => by
    simp only [Form.ptrnDecls] at hd
    simp only [Form.bind]
    exact bindList_ptrnDecls args st hne d hd hu
  | .ArrayPtrn elems, st, hne, d, hd, hu => by
    simp only [Form.ptrnDecls] at hd
    simp only [Form.bind]
    exact bindList_ptrnDecls elems st hne d hd hu
  | .PtrnDecl decl, st, hne, d, hd, hu => by
    simp only [Form.ptrnDecls, List.mem_singleton] at hd
    subst hd
    simp only [Form.bind]
    obtain ⟨back, rest, hs⟩ := List.exists_cons_of_ne_nil hne
    exact Declares.decl_insert_symbol st ⟨.PtrnDecl, d⟩ back rest hs hu
  | .Path _ _, _, _, _, hd, _ => by simp [Form.ptrnDecls] at hd
  | .Filter _, _, _, _, hd, _ => by simp [Form.ptrnDecls] at hd
  | .Attr, _, _, _, hd, _ => by simp [Form.ptrnDecls] at hd
  | .PathAttr _, _, _, _, hd, _ => by simp [Form.ptrnDecls] at hd
  | .NamedAttr _, _, _, _, hd, _ => by simp [Form.ptrnDecls] at hd
  | .PrimType, _, _, _, hd, _ => by simp [Form.ptrnDecls] at hd
  | .TupleType _, _, _, _, hd, _ => by simp [Form.ptrnDecls] at hd
  | .ArrayType _, _, _, _, hd, _ => by simp [Form.ptrnDecls] at hd
  | .FnType _ _, _, _, _, hd, _ => by simp [Form.ptrnDecls] at hd
  | .PtrType _, _, _, _, hd, _ => by simp [Form.ptrnDecls] at hd
  | .TypeApp _, _, _, _, hd, _ => by simp [Form.ptrnDecls] at hd
  | .ErrorType, _, _, _, hd, _ => by simp [Form.ptrnDecls] at hd
  | .DeclStmt _, _, _, _, hd, _ => by simp [Form.ptrnDecls] at hd
  | .ExprStmt _, _, _, _, hd, _ => by simp [Form.ptrnDecls] at hd
  | .TypedExpr _ _, _, _, _, hd, _ => by simp [Form.ptrnDecls] at hd
  | .PathExpr _, _, _, _, hd, _ => by simp [Form.ptrnDecls] at hd
  | .LiteralExpr, _, _, _, hd, _ => by simp [Form.ptrnDecls] at hd
  | .FieldExpr _, _, _, _, hd, _ => by simp [Form.ptrnDecls] at hd
  | .RecordExpr _ _ _, _, _, _, hd, _ => by simp [Form.ptrnDecls] at hd
  | .TupleExpr _, _, _, _, hd, _ => by simp [Form.ptrnDecls] at hd
  | .ArrayExpr _, _, _, _, hd, _ => by simp [Form.ptrnDecls] at hd
  | .RepeatArrayExpr _, _, _, _, hd, _ => by simp [Form.ptrnDecls] at hd
  | .FnExpr _, _, _, _, hd, _ => by simp [Form.ptrnDecls] at hd
  | .BlockExpr _, _, _, _, hd, _ => by simp [Form.ptrnDecls] at hd
  | .CallExpr _ _, _, _, _, hd, _ => by simp [Form.ptrnDecls] at hd
  | .UnaryExpr _, _, _, _, hd, _ => by simp [Form.ptrnDecls] at hd
  | .BinaryExpr _ _, _, _, _, hd, _ => by simp [Form.ptrnDecls] at hd
  | .ProjExpr _, _, _, _, hd, _ => by simp [Form.ptrnDecls] at hd
  | .IfExpr _ _ _ _ _, _, _, _, hd, _ => by simp [Form.ptrnDecls] at hd
  | .CaseExpr _ _, _, _, _, hd, _ => by simp [Form.ptrnDecls] at hd
  | .MatchExpr _ _, _, _, _, hd, _ => by simp [Form.ptrnDecls] at hd
  | .WhileExpr _ _ _ _ _, _, _, _, hd, _ => by simp [Form.ptrnDecls] at hd
  | .ForExpr _ _ _ _ _, _, _, _, hd, _ => by simp [Form.ptrnDecls] at hd
  | .BreakExpr _ _, _, _, _, hd, _ => by simp [Form.ptrnDecls] at hd
  | .ContinueExpr _ _, _, _, _, hd, _ => by simp [Form.ptrnDecls] at hd
  | .ReturnExpr _ _, _, _, _, hd, _ => by simp [Form.ptrnDecls] at hd
  | .FilterExpr _ _, _, _, _, hd, _ => by simp [Form.ptrnDecls] at hd
  | .CastExpr _ _, _, _, _, hd, _ => by simp [Form.ptrnDecls] at hd
  | .ImplicitCastExpr, _, _, _, hd, _ => by simp [Form.ptrnDecls] at hd
  | .AsmExpr _ _, _, _, _, hd, _ => by simp [Form.ptrnDecls] at hd
  | .ErrorExpr, _, _, _, hd, _ => by simp [Form.ptrnDecls] at hd
  | .LiteralPtrn, _, _, _, hd, _ => by simp [Form.ptrnDecls] at hd
  | .ErrorPtrn, _, _, _, hd, _ => by simp [Form.ptrnDecls] at hd
  | .TypeParam _, _, _, _, hd, _ => by simp [Form.ptrnDecls] at hd
  | .TypeParamList _, _, _, _, hd, _ => by simp [Form.ptrnDecls] at hd
  | .LetDecl _ _, _, _, _, hd, _ => by simp [Form.ptrnDecls] at hd
  | .StaticDecl _ _ _, _, _, _, hd, _ => by simp [Form.ptrnDecls] at hd
  | .FnDecl _ _ _ _, _, _, _, hd, _ => by simp [Form.ptrnDecls] at hd
  | .FieldDecl _ _, _, _, _, hd, _ => by simp [Form.ptrnDecls] at hd
  | .StructDecl _ _ _, _, _, _, hd, _ => by simp [Form.ptrnDecls] at hd
  | .OptionDecl _ _ _, _, _, _, hd, _ => by simp [Form.ptrnDecls] at hd
  | .EnumDecl _ _ _, _, _, _, hd, _ => by simp [Form.ptrnDecls] at hd
  | .TypeDecl _ _ _, _, _, _, hd, _ => by simp [Form.ptrnDecls] at hd
  | .ModDecl _ _, _, _, _, hd, _ => by simp [Form.ptrnDecls] at hd
  | .ErrorDecl, _, _, _, hd, _ => by simp [Form.ptrnDecls] at hd

theorem NameBinder.bind_ptrnDecls : ∀ (x : Node) (st : NameBinder), st.scopes_ ≠ [] →
    ∀ d ∈ Node.ptrnDecls x, startsWithUnderscore d.id.name = false →
      (NameBinder.bind x st).2.Declares ⟨.PtrnDecl, d⟩
  | .mk attrs form, st, hne, d, hd, hu => by
    simp only [Node.ptrnDecls] at hd
    simp only [NameBinder.bind]
    exact Form.bindForm_ptrnDecls form _ ((bindAttrs_grown attrs st).scopes_ne_nil hne) d hd hu

theorem bindList_ptrnDecls : ∀ (x : List Node) (st : NameBinder), st.scopes_ ≠ [] →
    ∀ d ∈ ptrnDeclsList x, startsWithUnderscore d.id.name = false →
      (bindList x st).2.Declares ⟨.PtrnDecl, d⟩
  | [], st, hne, d, hd, hu => by
    simp [ptrnDeclsList] at hd
  | node :: nodes, st, hne, d, hd, hu => by
    simp only [ptrnDeclsList, List.mem_append] at hd
    simp only [bindList]
    rcases hd with hd | hd
    · exact (NameBinder.bind_ptrnDecls node st hne d hd hu).grown (bindList_grown _ _)
    · exact bindList_ptrnDecls nodes _ ((NameBinder.bind_grown node st).scopes_ne_nil hne)
        d hd hu

theorem bindOpt_ptrnDecls : ∀ (x : Option Node) (st : NameBinder), st.scopes_ ≠ [] →
    ∀ d ∈ ptrnDeclsOpt x, startsWithUnderscore d.id.name = false →
      (bindOpt x st).2.Declares ⟨.PtrnDecl, d⟩
  | none, st, hne, d, hd, hu => by
    simp [ptrnDeclsOpt] at hd
  | some node, st, hne, d, hd, hu => by
    simp only [ptrnDeclsOpt] at hd
    simp only [bindOpt]
    exact NameBinder.bind_ptrnDecls node st hne d hd hu

end

theorem bindList_append_snd (a b : List Node) (st : NameBinder) :
    (bindList (a ++ b) st).2 = (bindList b (bindList a st).2).2 := by
  induction a generalizing st with
  | nil => simp [bindList]
  | cons x xs ih => simp [bindList, ih]

theorem bindList_append (a b : List Node) (st : NameBinder) :
    bindList (a ++ b) st =
      ((bindList a st).1 ++ (bindList b (bindList a st).2).1,
        (bindList b (bindList a st).2).2) := by
  induction a generalizing st with
  | nil => simp [bindList]
  | cons x xs ih => simp [bindList, ih]

theorem blockStateAt_grown (stmts : List Node) (st : NameBinder) (i k : Nat) (h : i ≤ k) :
    (blockStateAt stmts st i).Grown 0 (blockStateAt stmts st k) := by
  have e : stmts.take k = stmts.take i ++ (stmts.take k).drop i := by
    have h1 : stmts.take i = (stmts.take k).take i := by
      rw [List.take_take, Nat.min_eq_left h]
    rw [h1, List.take_append_drop]
  unfold blockStateAt
  rw [e, bindList_append_snd]
  exact bindList_grown _ _

theorem blockStateAt_succ (stmts : List Node) (st : NameBinder) (i : Nat) (s : Node)
    (h : stmts[i]? = some s) :
    blockStateAt stmts st (i + 1) = (NameBinder.bind s (blockStateAt stmts st i)).2 := by
  have hi : i < stmts.length := by
    rcases Nat.lt_or_ge i stmts.length with h1 | h1
    · exact h1
    · rw [List.getElem?_eq_none h1] at h
      cases h
  have e : stmts.take (i + 1) = stmts.take i ++ [s] := by
    rw [List.take_succ, h]
    rfl
  unfold blockStateAt
  rw [e, bindList_append_snd]
  simp [bindList]

theorem blockStateAt_scopes_ne_nil (stmts : List Node) (st : NameBinder) (i : Nat) :
    (blockStateAt stmts st i).scopes_ ≠ [] := by
  have h0 : (st.push_scope false).scopes_ ≠ [] := by simp [NameBinder.push_scope]
  exact (bindList_grown _ _).scopes_ne_nil
    ((Grown.grow_bind_stmt_heads stmts _).scopes_ne_nil h0)

theorem bind_stmt_heads_set_let (stmts : List Node) (st : NameBinder) (i : Nat)
    (attrs decl_attrs init : Option Node) (ptrn other : Node)
    (h : stmts[i]? = some (letStmt attrs decl_attrs init ptrn)) :
    bind_stmt_heads (stmts.set i (letStmt attrs decl_attrs init other)) st =
      bind_stmt_heads stmts st := by
  induction stmts generalizing st i with
  | nil => simp
  | cons s ss ih =>
    cases i with
    | zero =>
      simp only [List.getElem?_cons_zero, Option.some.injEq] at h
      subst h
      simp only [List.set_cons_zero, bind_stmt_heads, letStmt, Node.form, bind_head]
    | succ i =>
      simp only [List.getElem?_cons_succ] at h
      simp only [List.set_cons_succ, bind_stmt_heads]
      exact ih _ i h

theorem blockStateAt_set_let (stmts : List Node) (st : NameBinder) (i j : Nat)
    (attrs decl_attrs init : Option Node) (ptrn other : Node)
    (h : stmts[i]? = some (letStmt attrs decl_attrs init ptrn)) (hj : j ≤ i) :
    blockStateAt (stmts.set i (letStmt attrs decl_attrs init other)) st j =
      blockStateAt stmts st j := by
  unfold blockStateAt
  rw [bind_stmt_heads_set_let stmts _ i attrs decl_attrs init ptrn other h]
  have e : ∀ (l : List Node) (i j : Nat) (x : Node), j ≤ i →
      (l.set i x).take j = l.take j := by
    intro l
    induction l with
    | nil => simp
    | cons y ys ih =>
      intro i j x hji
      cases j with
      | zero => simp
      | succ j =>
        cases i with
        | zero => omega
        | succ i => simp [ih i j x (by omega)]
  rw [e _ _ _ _ hj]

theorem bind_letStmt (attrs decl_attrs init : Option Node) (ptrn : Node) (st : NameBinder) :
    NameBinder.bind (letStmt attrs decl_attrs init ptrn) st =
      (letStmt (bindAttrs attrs st).1 (bindAttrs decl_attrs (bindAttrs attrs st).2).1
          (bindOpt init (bindAttrs decl_attrs (bindAttrs attrs st).2).2).1
          (NameBinder.bind ptrn
            (bindOpt init (bindAttrs decl_attrs (bindAttrs attrs st).2).2).2).1,
        (NameBinder.bind ptrn
          (bindOpt init (bindAttrs decl_attrs (bindAttrs attrs st).2).2).2).2) := by
  simp only [letStmt, NameBinder.bind, Form.bind]

/-- C9, with the types of the pattern: in `BlockExpr::bind`, whatever the block and
the binder it is entered with, the binder in which any statement of the block is
bound (the first one, a later one, or the end of the block) resolves the name of
every declaration statement of the block that registers a head (`StaticDecl`,
`FnDecl`, `StructDecl`, `EnumDecl`, `TypeDecl`, named `ModDecl`; name not beginning
with `_`) to a symbol that holds this declaration, wherever the declaration stands in
the block; so the two functions of `{ fn f() { g } fn g() { f } }` are bound to each
other without error. For a statement `let ptrn = init;` at the index `i` of any
block, with any pattern: the binder in which each statement up to the `let` is bound
is the same whatever the pattern of the `let` is, and `LetDecl::bind` binds the
initializer in the binder that the attributes leave, before the pattern, so that the
statements before the `let` and its initializer are bound as they are with any other
pattern; the binder in which any statement after the `let` is bound, and the one at
the end of the block, resolve the name of every declaration that the pattern
introduces (name not beginning with `_`) to a symbol that holds this declaration.
Inside the pattern, what is bound after a name has been inserted is bound in a binder
that resolves the name: `TypedPtrn::bind` binds the type after the pattern under it,
as in `{ let x: x = 1; }`, `IdPtrn::bind` binds the sub-pattern after the declaration,
and the loops of `TuplePtrn::bind`, `ArrayPtrn::bind` and `RecordPtrn::bind` bind each
component after those before it. In
`{ x; let x = x; x }`, entered with a binder that does not resolve `x`, the path
before the `let` and the path of the initializer stay unresolved, and the path after
the `let` is bound to the pattern. -/
theorem block_heads_then_bodies :
    (∀ (stmts : List Node) (st : NameBinder) (attrs : Option Node) (decl : Node)
        (p : DeclPtr) (i : Nat),
      Node.mk attrs (.DeclStmt decl) ∈ stmts → headOf decl = some p →
      startsWithUnderscore p.decl.id.name = false →
        (blockStateAt stmts st i).Resolves p) ∧
    (∀ (stmts : List Node) (st : NameBinder),
      ∃ out, (Form.bind (.BlockExpr stmts) st).1 = .BlockExpr out ∧
        ∀ (i : Nat) (s : Node), stmts[i]? = some s →
          out[i]? = some (NameBinder.bind s (blockStateAt stmts st i)).1) ∧
    (Node.paths (NameBinder.bind mutualBlock emptyBinder).1 =
        [some ⟨[⟨.FnDecl, ⟨2, ⟨"g", exLoc⟩, exLoc, false⟩⟩]⟩,
          some ⟨[⟨.FnDecl, ⟨1, ⟨"f", exLoc⟩, exLoc, false⟩⟩]⟩] ∧
      (NameBinder.bind mutualBlock emptyBinder).2.errors = 0) ∧
    (∀ (stmts : List Node) (st : NameBinder) (i : Nat) (attrs decl_attrs init : Option Node)
        (ptrn other : Node),
      stmts[i]? = some (letStmt attrs decl_attrs init ptrn) →
      (∀ j, j ≤ i →
        blockStateAt (stmts.set i (letStmt attrs decl_attrs init other)) st j =
          blockStateAt stmts st j) ∧
      ∀ out out1, (Form.bind (.BlockExpr stmts) st).1 = .BlockExpr out →
        (Form.bind (.BlockExpr (stmts.set i (letStmt attrs decl_attrs init other))) st).1 =
          .BlockExpr out1 →
        (∀ j, j < i → out1[j]? = out[j]?) ∧
        ∃ a1 a2 init1 p1 p2, out[i]? = some (letStmt a1 a2 init1 p1) ∧
          out1[i]? = some (letStmt a1 a2 init1 p2)) ∧
    (∀ (attrs decl_attrs init : Option Node) (ptrn : Node) (st : NameBinder),
      NameBinder.bind (letStmt attrs decl_attrs init ptrn) st =
        (letStmt (bindAttrs attrs st).1 (bindAttrs decl_attrs (bindAttrs attrs st).2).1
            (bindOpt init (bindAttrs decl_attrs (bindAttrs attrs st).2).2).1
            (NameBinder.bind ptrn
              (bindOpt init (bindAttrs decl_attrs (bindAttrs attrs st).2).2).2).1,
          (NameBinder.bind ptrn
            (bindOpt init (bindAttrs decl_attrs (bindAttrs attrs st).2).2).2).2)) ∧
    (∀ (stmts : List Node) (st : NameBinder) (i k : Nat) (attrs decl_attrs init : Option Node)
        (ptrn : Node) (d : NamedDecl),
      stmts[i]? = some (letStmt attrs decl_attrs init ptrn) → d ∈ Node.ptrnDecls ptrn →
      startsWithUnderscore d.id.name = false → i < k →
        (blockStateAt stmts st k).Resolves ⟨.PtrnDecl, d⟩) ∧
    (∀ (ptrn : Option Node) (type : Node) (st : NameBinder) (d : NamedDecl),
      st.scopes_ ≠ [] → d ∈ ptrnDeclsOpt ptrn → startsWithUnderscore d.id.name = false →
      Form.bind (.TypedPtrn ptrn type) st =
        (.TypedPtrn (bindOpt ptrn st).1 (NameBinder.bind type (bindOpt ptrn st).2).1,
          (NameBinder.bind type (bindOpt ptrn st).2).2) ∧
      (bindOpt ptrn st).2.Resolves ⟨.PtrnDecl, d⟩) ∧
    (∀ (decl : Node) (sub_ptrn : Option Node) (st : NameBinder) (d : NamedDecl),
      st.scopes_ ≠ [] → d ∈ Node.ptrnDecls decl → startsWithUnderscore d.id.name = false →
      Form.bind (.IdPtrn decl sub_ptrn) st =
        (.IdPtrn (NameBinder.bind decl st).1 (bindOpt sub_ptrn (NameBinder.bind decl st).2).1,
          (bindOpt sub_ptrn (NameBinder.bind decl st).2).2) ∧
      (NameBinder.bind decl st).2.Resolves ⟨.PtrnDecl, d⟩) ∧
    (∀ (before after : List Node) (st : NameBinder) (d : NamedDecl),
      st.scopes_ ≠ [] → d ∈ ptrnDeclsList before →
      startsWithUnderscore d.id.name = false →
      bindList (before ++ after) st =
        ((bindList before st).1 ++ (bindList after (bindList before st).2).1,
          (bindList after (bindList before st).2).2) ∧
      (bindList before st).2.Resolves ⟨.PtrnDecl, d⟩) ∧
    (Node.paths (NameBinder.bind blockLetTypedX emptyBinder).1 =
        [some ⟨[⟨.PtrnDecl, declX⟩]⟩] ∧
      (NameBinder.bind blockLetTypedX emptyBinder).2.errors = 0) ∧
    (∀ (x : Identifier) (d : NamedDecl) (st : NameBinder),
      startsWithUnderscore x.name = false → d.id.name = x.name →
      st.find_symbol x.name = none →
        Form.paths (Form.bind (letBlock x d) st).1 =
          [none, none, some ⟨[⟨.PtrnDecl, d⟩]⟩]) := by
  refine ⟨?_, ?_, by decide, ?_, ?_, ?_, ?_, ?_, ?_, by decide, ?_⟩
  · intro stmts st attrs decl p i hmem hhead hu
    exact ((Declares.decl_bind_stmt_heads stmts _ attrs decl p hmem hhead hu
      (by simp [NameBinder.push_scope])).grown (bindList_grown _ _)).resolves
  · intro stmts st
    refine ⟨(bindList stmts (bind_stmt_heads stmts (st.push_scope false))).1,
      by simp only [Form.bind], ?_⟩
    intro i s hs
    rw [bindList_getElem?, hs]
    rfl
  · intro stmts st i attrs decl_attrs init ptrn other h
    have hst := fun j hj =>
      blockStateAt_set_let stmts st i j attrs decl_attrs init ptrn other h hj
    refine ⟨hst, ?_⟩
    intro out out1 ho ho1
    have hi : i < stmts.length := by
      rcases Nat.lt_or_ge i stmts.length with h1 | h1
      · exact h1
      · rw [List.getElem?_eq_none h1] at h
        cases h
    have e : ∀ j, out[j]? =
        stmts[j]?.map (fun s => (NameBinder.bind s (blockStateAt stmts st j)).1) := by
      intro j
      simp only [Form.bind, Form.BlockExpr.injEq] at ho
      rw [← ho, bindList_getElem?]
      rfl
    have e1 : ∀ j, out1[j]? =
        (stmts.set i (letStmt attrs decl_attrs init other))[j]?.map (fun s =>
          (NameBinder.bind s
            (blockStateAt (stmts.set i (letStmt attrs decl_attrs init other)) st j)).1) := by
      intro j
      simp only [Form.bind, Form.BlockExpr.injEq] at ho1
      rw [← ho1, bindList_getElem?]
      rfl
    constructor
    · intro j hj
      rw [e, e1, List.getElem?_set_ne (Nat.ne_of_gt hj), hst j (Nat.le_of_lt hj)]
    · refine ⟨(bindAttrs attrs (blockStateAt stmts st i)).1,
        (bindAttrs decl_attrs (bindAttrs attrs (blockStateAt stmts st i)).2).1,
        (bindOpt init
          (bindAttrs decl_attrs (bindAttrs attrs (blockStateAt stmts st i)).2).2).1,
        (NameBinder.bind ptrn (bindOpt init
          (bindAttrs decl_attrs (bindAttrs attrs (blockStateAt stmts st i)).2).2).2).1,
        (NameBinder.bind other (bindOpt init
          (bindAttrs decl_attrs (bindAttrs attrs (blockStateAt stmts st i)).2).2).2).1,
        ?_, ?_⟩
      · rw [e, h, Option.map_some', bind_letStmt]
      · rw [e1, List.getElem?_set_eq_of_lt _ hi, Option.map_some', hst i (Nat.le_refl i),
          bind_letStmt]
  · intro attrs decl_attrs init ptrn st
    exact bind_letStmt attrs decl_attrs init ptrn st
  · intro stmts st i k attrs decl_attrs init ptrn d h hd hu hk
    have h1 := blockStateAt_succ stmts st i _ h
    have h2 : (blockStateAt stmts st (i + 1)).Declares ⟨.PtrnDecl, d⟩ := by
      rw [h1, bind_letStmt]
      refine NameBinder.bind_ptrnDecls ptrn _ ?_ d hd hu
      exact (bindOpt_grown init _).scopes_ne_nil
        ((bindAttrs_grown decl_attrs _).scopes_ne_nil
          ((bindAttrs_grown attrs _).scopes_ne_nil (blockStateAt_scopes_ne_nil stmts st i)))
    exact (h2.grown (blockStateAt_grown stmts st (i + 1) k hk)).resolves
  · intro ptrn type st d hne hd hu
    exact ⟨by simp only [Form.bind], (bindOpt_ptrnDecls ptrn st hne d hd hu).resolves⟩
  · intro decl sub_ptrn st d hne hd hu
    exact ⟨by simp only [Form.bind], (NameBinder.bind_ptrnDecls decl st hne d hd hu).resolves⟩
  · intro before after st d hne hd hu
    exact ⟨bindList_append before after st, (bindList_ptrnDecls before st hne d hd hu).resolves⟩
  · intro x d st hx hd hf
    have hf1 : (st.push_scope false).find_symbol x.name = none := by
      simp [find_symbol, NameBinder.push_scope, findIn, SymbolTable.find_empty]
      exact hf
    obtain ⟨s2, e1, hs2⟩ := bind_pathTo_unknown x _ hx hf1
    have hf2 : s2.find_symbol x.name = none := by
      simp only [find_symbol, hs2]
      exact hf1
    obtain ⟨s3, e2, hs3⟩ := bind_pathTo_unknown x _ hx hf2
    have hs3a : s3.scopes_ = ⟨false, []⟩ :: st.scopes_ := by rw [hs3, hs2]; rfl
    have hu : startsWithUnderscore (⟨.PtrnDecl, d⟩ : DeclPtr).decl.id.name = false := by
      simp only [hd, hx]
    obtain ⟨new, _, heq⟩ := insert_symbol_fresh s3 ⟨.PtrnDecl, d⟩ ⟨false, []⟩ st.scopes_ hs3a hu
      (SymbolTable.find_empty _ _)
    have hf4 : (s3.insert_symbol ⟨.PtrnDecl, d⟩).find_symbol x.name =
        some ⟨[⟨.PtrnDecl, d⟩]⟩ := by
      rw [heq]
      simp only [find_symbol, findIn, ← hd]
      rw [SymbolTable.find_insert_self]
      rfl
    have e3 := bind_pathTo_known x _ _ hx hf4
    simp only [letBlock, Form.bind, bindList, bind_plain, bindOpt, bind_stmt_heads, bind_head,
      Node.form_plain, e1, e2, e3, Form.paths, pathsList, pathsOpt, Node.paths_plain,
      paths_pathTo, List.append_nil, List.nil_append, List.cons_append]

theorem block_heads_then_bodies_witness :
    (blockStateAt [fnCalling 1 "f" "g", fnCalling 2 "g" "f"] emptyBinder 0).Resolves
      ⟨.FnDecl, ⟨2, ⟨"g", exLoc⟩, exLoc, false⟩⟩ :=
  block_heads_then_bodies.1 [fnCalling 1 "f" "g", fnCalling 2 "g" "f"] emptyBinder none
    (.plain (.FnDecl ⟨2, ⟨"g", exLoc⟩, exLoc, false⟩ none none
      (.mk 102 none (some (.plain (.TuplePtrn []))) none
        (some (.plain (.BlockExpr [.plain (.ExprStmt (pathExpr "f"))]))))))
    ⟨.FnDecl, ⟨2, ⟨"g", exLoc⟩, exLoc, false⟩⟩ 0
    (List.mem_cons_of_mem _ (List.mem_cons_self _ _)) rfl (by decide)

/-- C1 as stated fails on the path `x[y]`, bound in a binder whose frames declare `x`
and not `y`: the first identifier is declared, and `Path::bind` reports an error, the
one of the type argument `y`. -/
theorem Path_bind_reports_type_argument :
    startsWithUnderscore "x" = false ∧
    (∃ f ∈ shadowedBinder.scopes_, (f.find "x").isSome = true) ∧
    (Form.bind (pathWithArg "x" "y") shadowedBinder).2.errors = 1 ∧
    (Form.bind (pathWithArg "x" "y") shadowedBinder).2.diags =
      [⟨.error, some exLoc, "unknown identifier '{}'", ["y"]⟩,
       ⟨.note, none, "did you mean '{}'?", ["x"]⟩] := by
  decide

/-- C1, with the errors of the type arguments: for a path whose first identifier does
not begin with `_` and is declared in some frame of the stack, `Path::bind` stores in
`symbol` the symbol of the innermost frame that declares the name (every frame pushed
after it has no entry for the name, whatever the frames below it hold), and the
lookup reports nothing: what `Path::bind` writes and counts is what the loop over the
type arguments writes and counts, started from a binder that differs from the
initial one only in the use count of that symbol, so that a path without type
arguments leaves the counters and the log as they were. -/
theorem Path_bind_innermost (st : NameBinder) (id : Identifier) (args : List Node)
    (rest : List PathElem) (symbol : Option Symbol)
    (h1 : startsWithUnderscore id.name = false)
    (h2 : ∃ f ∈ st.scopes_, (f.find id.name).isSome = true) :
    ∃ pre t post s,
      st.scopes_ = pre ++ t :: post ∧ (∀ f ∈ pre, f.find id.name = none) ∧
      t.find id.name = some s ∧
      Form.bind (.Path (.mk id args :: rest) symbol) st =
        (.Path (bindElems (.mk id args :: rest)
            { st with scopes_ := retainIn st.scopes_ id.name }).1 (some s),
          (bindElems (.mk id args :: rest)
            { st with scopes_ := retainIn st.scopes_ id.name }).2) ∧
      (Form.bind (.Path (.mk id args :: rest) symbol) st).2.diags =
        st.diags ++ NameBinder.newDiags { st with scopes_ := retainIn st.scopes_ id.name }
          (bindElems (.mk id args :: rest)
            { st with scopes_ := retainIn st.scopes_ id.name }).2 ∧
      (Form.bind (.Path (.mk id args :: rest) symbol) st).2.errors =
        st.errors + countErrors
          (NameBinder.newDiags { st with scopes_ := retainIn st.scopes_ id.name }
            (bindElems (.mk id args :: rest)
              { st with scopes_ := retainIn st.scopes_ id.name }).2) ∧
      ((∀ e ∈ PathElem.mk id args :: rest, e.args = []) →
        (Form.bind (.Path (.mk id args :: rest) symbol) st).2.errors = st.errors ∧
        (Form.bind (.Path (.mk id args :: rest) symbol) st).2.warns = st.warns ∧
        (Form.bind (.Path (.mk id args :: rest) symbol) st).2.diags = st.diags) := by
  obtain ⟨s, hs⟩ : ∃ s, findIn st.scopes_ id.name = some s := by
    cases h : findIn st.scopes_ id.name with
    | some s => exact ⟨s, rfl⟩
    | none =>
      obtain ⟨f, hf, hf1⟩ := h2
      rw [findIn_eq_none.1 h f hf] at hf1
      cases hf1
  obtain ⟨pre, t, post, h3, h4, h5⟩ := findIn_eq_some.1 hs
  have h6 : Form.bind (.Path (.mk id args :: rest) symbol) st =
        (.Path (bindElems (.mk id args :: rest)
            { st with scopes_ := retainIn st.scopes_ id.name }).1 (some s),
          (bindElems (.mk id args :: rest)
            { st with scopes_ := retainIn st.scopes_ id.name }).2) := by
    simp only [Form.bind, h1, find_symbol, hs]
    rfl
  have h8 := bindElems_logged (.mk id args :: rest)
    { st with scopes_ := retainIn st.scopes_ id.name }
  refine ⟨pre, t, post, s, h3, h4, h5, h6, ?_, ?_, ?_⟩
  · rw [h6]
    exact h8.1
  · rw [h6]
    exact h8.2.1
  · intro h7
    rw [h6, bindElems_no_args _ _ h7]
    exact ⟨rfl, rfl, rfl⟩

theorem Path_bind_innermost_witness :
    startsWithUnderscore "x" = false ∧
    (∃ f ∈ shadowedBinder.scopes_, (f.find "x").isSome = true) ∧
    ∃ s, (Form.bind (.Path [.mk ⟨"x", exLoc⟩ []] none) shadowedBinder).1 =
      .Path [.mk ⟨"x", exLoc⟩ []] (some s) :=
  ⟨by decide, by decide,
    match Path_bind_innermost shadowedBinder ⟨"x", exLoc⟩ [] [] none (by decide)
      (by decide) with
    | ⟨_, _, _, s, _, _, _, h, _⟩ => ⟨s, by rw [h]; rfl⟩⟩

/-- The loop of `SymbolTable::find_similar` for a distance `d` that does not depend on
the bound, started with the pair `(m, b)`: either no entry is closer than `m` and
the pair is returned, or the result is the distance and the symbol of the first
entry that is closer than `m` and as close as any entry. -/
theorem foldl_find_similar (d : String → Nat) (l : List (String × SymbolPtr)) (m : Nat)
    (b : Option Symbol) :
    ((∀ e ∈ l, m ≤ d e.1) ∧
      l.foldl (fun (acc : Nat × Option Symbol) e =>
        if d e.1 < acc.1 then (d e.1, some e.2.sym) else acc) (m, b) = (m, b)) ∨
    (∃ (i : Nat) (e : String × SymbolPtr), l[i]? = some e ∧
      l.foldl (fun (acc : Nat × Option Symbol) e =>
        if d e.1 < acc.1 then (d e.1, some e.2.sym) else acc) (m, b) =
          (d e.1, some e.2.sym) ∧
      d e.1 < m ∧ (∀ e' ∈ l, d e.1 ≤ d e'.1) ∧
      ∀ (j : Nat) (e' : String × SymbolPtr), j < i → l[j]? = some e' → d e.1 < d e'.1) := by
  induction l generalizing m b with
  | nil => exact Or.inl ⟨by simp, rfl⟩
  | cons x xs ih =>
    rw [List.foldl_cons]
    by_cases hx : d x.1 < m
    · rw [if_pos hx]
      rcases ih (d x.1) (some x.2.sym) with ⟨hall, hr⟩ | ⟨i, e, hi, hr, hlt, hmin, hfirst⟩
      · refine Or.inr ⟨0, x, by simp, hr, hx, ?_, ?_⟩
        · intro e' he'
          rcases List.mem_cons.1 he' with rfl | h
          · exact Nat.le_refl _
          · exact hall e' h
        · intro j e' hj
          exact absurd hj (Nat.not_lt_zero j)
      · refine Or.inr ⟨i + 1, e, by simpa using hi, hr, Nat.lt_trans hlt hx, ?_, ?_⟩
        · intro e' he'
          rcases List.mem_cons.1 he' with rfl | h
          · exact Nat.le_of_lt hlt
          · exact hmin e' h
        · intro j e' hj hje
          cases j with
          | zero =>
            have : e' = x := by simpa using hje.symm
            rw [this]
            exact hlt
          | succ j => exact hfirst j e' (Nat.lt_of_succ_lt_succ hj) (by simpa using hje)
    · rw [if_neg hx]
      rcases ih m b with ⟨hall, hr⟩ | ⟨i, e, hi, hr, hlt, hmin, hfirst⟩
      · refine Or.inl ⟨?_, hr⟩
        intro e' he'
        rcases List.mem_cons.1 he' with rfl | h
        · exact Nat.le_of_not_lt hx
        · exact hall e' h
      · refine Or.inr ⟨i + 1, e, by simpa using hi, hr, hlt, ?_, ?_⟩
        · intro e' he'
          rcases List.mem_cons.1 he' with rfl | h
          · exact Nat.le_of_lt (Nat.lt_of_lt_of_le hlt (Nat.le_of_not_lt hx))
          · exact hmin e' h
        · intro j e' hj hje
          cases j with
          | zero =>
            have : e' = x := by simpa using hje.symm
            rw [this]
            exact Nat.lt_of_lt_of_le hlt (Nat.le_of_not_lt hx)
          | succ j => exact hfirst j e' (Nat.lt_of_succ_lt_succ hj) (by simpa using hje)

/-- C14: `SymbolTable::find_similar(name, limit, distance)` over one frame, for a
distance that does not depend on its bound argument. When no symbol of the frame is
at a distance strictly below `limit`, the result is `(limit, none)`. Otherwise the
result is `(d, s)`, where `d` is the least distance over the symbols of the frame and
`s` is the symbol of the first entry, in iteration order, at distance `d`: every entry
before it is strictly farther. -/
theorem find_similar_first_best (t : SymbolTable) (name : String) (limit : Nat)
    (distance : String → String → Nat → Nat)
    (hd : ∀ (a b : String) (m m' : Nat), distance a b m = distance a b m') :
    ((∀ e ∈ t.symbols, ¬ distance e.1 name limit < limit) →
      t.find_similar name limit distance = (limit, none)) ∧
    ((∃ e ∈ t.symbols, distance e.1 name limit < limit) →
      ∃ (i : Nat) (e : String × SymbolPtr), t.symbols[i]? = some e ∧
        t.find_similar name limit distance = (distance e.1 name limit, some e.2.sym) ∧
        (∀ e' ∈ t.symbols, distance e.1 name limit ≤ distance e'.1 name limit) ∧
        ∀ (j : Nat) (e' : String × SymbolPtr), j < i → t.symbols[j]? = some e' →
          distance e.1 name limit < distance e'.1 name limit) := by
  have hfold : t.find_similar name limit distance =
      t.symbols.foldl (fun (acc : Nat × Option Symbol) e =>
        if distance e.1 name limit < acc.1 then (distance e.1 name limit, some e.2.sym)
        else acc) (limit, none) := by
    unfold SymbolTable.find_similar
    congr 1
    funext acc e
    simp only [hd e.1 name acc.1 limit]
  rw [hfold]
  rcases foldl_find_similar (fun a => distance a name limit) t.symbols limit none with
    ⟨hall, hr⟩ | ⟨i, e, hi, hr, hlt, hmin, hfirst⟩
  · refine ⟨fun _ => hr, ?_⟩
    rintro ⟨e, he, hlt⟩
    exact absurd hlt (Nat.not_lt.2 (hall e he))
  · refine ⟨?_, fun _ => ⟨i, e, hi, hr, hmin, hfirst⟩⟩
    intro hall
    exact absurd hlt (hall e (List.getElem?_mem hi))

/-- C14 evaluated with the edit distance and limit 3, searching for `abe`: in a frame
that declares only `xyzw` nothing is close enough; in a frame that declares `abc`,
`abd` and `xyz` the result is one of its entries, at the least distance, and every
entry before it is strictly farther. -/
theorem find_similar_first_best_witness :
    (∀ (a b : String) (m m' : Nat), levenshtein a b m = levenshtein a b m') ∧
    (⟨false, [("xyzw", ⟨⟨[]⟩, 1⟩)]⟩ : SymbolTable).find_similar "abe" 3 levenshtein =
      (3, none) ∧
    ∃ (i : Nat) (e : String × SymbolPtr),
      [("abc", (⟨⟨[]⟩, 1⟩ : SymbolPtr)), ("abd", ⟨⟨[]⟩, 2⟩), ("xyz", ⟨⟨[]⟩, 1⟩)][i]? =
        some e ∧
      (⟨false, [("abc", ⟨⟨[]⟩, 1⟩), ("abd", ⟨⟨[]⟩, 2⟩), ("xyz", ⟨⟨[]⟩, 1⟩)]⟩ :
          SymbolTable).find_similar "abe" 3 levenshtein =
        (levenshtein e.1 "abe" 3, some e.2.sym) ∧
      (∀ e' ∈ [("abc", (⟨⟨[]⟩, 1⟩ : SymbolPtr)), ("abd", ⟨⟨[]⟩, 2⟩), ("xyz", ⟨⟨[]⟩, 1⟩)],
        levenshtein e.1 "abe" 3 ≤ levenshtein e'.1 "abe" 3) ∧
      ∀ (j : Nat) (e' : String × SymbolPtr), j < i →
        [("abc", (⟨⟨[]⟩, 1⟩ : SymbolPtr)), ("abd", ⟨⟨[]⟩, 2⟩), ("xyz", ⟨⟨[]⟩, 1⟩)][j]? =
          some e' →
        levenshtein e.1 "abe" 3 < levenshtein e'.1 "abe" 3 :=
  ⟨fun _ _ _ _ => rfl,
    (find_similar_first_best ⟨false, [("xyzw", ⟨⟨[]⟩, 1⟩)]⟩ "abe" 3 levenshtein
      (fun _ _ _ _ => rfl)).1 (by decide),
    (find_similar_first_best
      ⟨false, [("abc", ⟨⟨[]⟩, 1⟩), ("abd", ⟨⟨[]⟩, 2⟩), ("xyz", ⟨⟨[]⟩, 1⟩)]⟩ "abe" 3
      levenshtein (fun _ _ _ _ => rfl)).2 ⟨("abc", ⟨⟨[]⟩, 1⟩), by decide, by decide⟩⟩

theorem Form.bind_Path_snd (id : Identifier) (args : List Node) (rest : List PathElem)
    (symbol : Option Symbol) (st : NameBinder) :
    (Form.bind (.Path (.mk id args :: rest) symbol) st).2 =
      (bindElems (.mk id args :: rest) (pathLookup id symbol st).2).2 := rfl

theorem NameBinder.Run.run_then {a b c : NameBinder} {fs : List SymbolTable}
    (h1 : Run a fs b) (h2 : Run b [] c) : Run a fs c := by
  have h := Run.trans h1 h2
  rwa [List.append_nil] at h

theorem NameBinder.Run.run_first {a b c : NameBinder} {gs : List SymbolTable}
    (h1 : Run a [] b) (h2 : Run b gs c) : Run a gs c :=
  Run.trans h1 h2

theorem NameBinder.Run.run_step {a b c : NameBinder} {fs gs : List SymbolTable}
    (h1 : Run a fs b) (h2 : Run b gs c) : Run a (fs ++ gs) c :=
  Run.trans h1 h2

theorem NameBinder.Run.run_pathLookup (id : Identifier) (symbol : Option Symbol)
    (st : NameBinder) : Run st [] (pathLookup id symbol st).2 := by
  unfold pathLookup
  split
  · exact .error _ _ _ _
  · split
    · exact .retain _ _
    · dsimp only
      split
      · split
        · exact (Run.error _ _ _ _).run_then (.note _ _ _ _)
        · exact .error _ _ _ _
      · exact .error _ _ _ _

theorem NameBinder.Run.run_head (decl : Node) (st : NameBinder) :
    Run st [] (bind_head decl st) := by
  unfold NameBinder.bind_head
  split
  any_goals exact .insert_symbol _ _
  · split
    · exact .insert_symbol _ _
    · exact .refl st
  · exact .refl st

theorem NameBinder.Run.run_heads (decls : List Node) (st : NameBinder) :
    Run st [] (bind_heads decls st) := by
  induction decls generalizing st with
  | nil => exact .refl st
  | cons d ds ih => exact (Run.run_head d st).run_then (ih _)

theorem NameBinder.Run.run_stmt_heads (stmts : List Node) (st : NameBinder) :
    Run st [] (bind_stmt_heads stmts st) := by
  induction stmts generalizing st with
  | nil => exact .refl st
  | cons d ds ih =>
    rw [NameBinder.bind_stmt_heads]
    refine Run.run_then ?_ (ih _)
    split
    · exact Run.run_head _ _
    · exact .refl st

mutual

theorem Form.bindForm_run : ∀ (x : Form) (st : NameBinder),
    Run st (Form.popped x st) (Form.bind x st).2
  | .Path [] symbol, st => by
    simp only [Form.bind, Form.popped]
    exact (Run.refl st)
  | .Path (.mk id args :: rest) symbol, st => by
    rw [Form.bind_Path_snd]
    simp only [Form.popped]
    exact (Run.run_pathLookup id symbol st).run_first (bindElems_run (.mk id args :: rest) _)
  | .Filter expr, st => by
    simp only [Form.bind, Form.popped]
    exact ((Run.refl st).run_first (bindOpt_run expr _))
  | .Attr, st => by
    simp only [Form.bind, Form.popped]
    exact (Run.refl st)
  | .PathAttr path, st => by
    simp only [Form.bind, Form.popped]
    exact ((Run.refl st).run_first (NameBinder.bind_run path _))
  | .NamedAttr args, st => by
    simp only [Form.bind, Form.popped]
    exact ((Run.refl st).run_first (bindList_run args _))
  | .PrimType, st => by
    simp only [Form.bind, Form.popped]
    exact (Run.refl st)
  | .TupleType args, st => by
    simp only [Form.bind, Form.popped]
    exact ((Run.refl st).run_first (bindList_run args _))
  | .ArrayType elem, st => by
    simp only [Form.bind, Form.popped]
    exact ((Run.refl st).run_first (NameBinder.bind_run elem _))
  | .FnType from_ to_, st => by
    simp only [Form.bind, Form.popped]
    exact (((Run.refl st).run_first (NameBinder.bind_run from_ _)).run_step (bindOpt_run to_ _))
  | .PtrType pointee, st => by
    simp only [Form.bind, Form.popped]
    exact ((Run.refl st).run_first (NameBinder.bind_run pointee _))
  | .TypeApp path, st => by
    simp only [Form.bind, Form.popped]
    exact ((Run.refl st).run_first (NameBinder.bind_run path _))
  | .ErrorType, st => by
    simp only [Form.bind, Form.popped]
    exact (Run.refl st)
  | .DeclStmt decl, st => by
    simp only [Form.bind, Form.popped]
    exact ((Run.refl st).run_first (NameBinder.bind_run decl _))
  | .ExprStmt expr, st => by
    simp only [Form.bind, Form.popped]
    exact ((Run.refl st).run_first (NameBinder.bind_run expr _))
  | .TypedExpr expr type, st => by
    simp only [Form.bind, Form.popped]
    exact (((Run.refl st).run_first (NameBinder.bind_run expr _)).run_step (NameBinder.bind_run type _))
  | .PathExpr path, st => by
    simp only [Form.bind, Form.popped]
    exact ((Run.refl st).run_first (NameBinder.bind_run path _))
  | .LiteralExpr, st => by
    simp only [Form.bind, Form.popped]
    exact (Run.refl st)
  | .FieldExpr expr, st => by
    simp only [Form.bind, Form.popped]
    exact ((Run.refl st).run_first (NameBinder.bind_run expr _))
  | .RecordExpr (some expr) type fields, st => by
    simp only [Form.bind, Form.popped]
    exact (((Run.refl st).run_first (NameBinder.bind_run expr _)).run_step (bindList_run fields _))
  | .RecordExpr none type fields, st => by
    simp only [Form.bind, Form.popped]
    exact (((Run.refl st).run_first (bindOpt_run type _)).run_step (bindList_run fields _))
  | .TupleExpr args, st => by
    simp only [Form.bind, Form.popped]
    exact ((Run.refl st).run_first (bindList_run args _))
  | .ArrayExpr elems, st => by
    simp only [Form.bind, Form.popped]
    exact ((Run.refl st).run_first (bindList_run elems _))
  | .RepeatArrayExpr elem, st => by
    simp only [Form.bind, Form.popped]
    exact ((Run.refl st).run_first (NameBinder.bind_run elem _))
  | .FnExpr fn, st => by
    simp only [Form.bind, Form.popped]
    exact ((Run.refl st).run_first (FnExpr.bindFn_run fn false _))
  | .BlockExpr stmts, st => by
    simp only [Form.bind, Form.popped]
    exact (((((Run.refl st).run_then (.push_scope _ false)).run_then (Run.run_stmt_heads stmts _)).run_first (bindList_run stmts _)).run_step (.pop_scope _))
  | .CallExpr callee arg, st => by
    simp only [Form.bind, Form.popped]
    exact (((Run.refl st).run_first (NameBinder.bind_run callee _)).run_step (NameBinder.bind_run arg _))
  | .UnaryExpr arg, st => by
    simp only [Form.bind, Form.popped]
    exact ((Run.refl st).run_first (NameBinder.bind_run arg _))
  | .BinaryExpr left right, st => by
    simp only [Form.bind, Form.popped]
    exact (((Run.refl st).run_first (NameBinder.bind_run left _)).run_step (NameBinder.bind_run right _))
  | .ProjExpr expr, st => by
    simp only [Form.bind, Form.popped]
    exact ((Run.refl st).run_first (NameBinder.bind_run expr _))
  | .IfExpr (some cond) ptrn expr if_true if_false, st => by
    simp only [Form.bind, Form.popped]
    exact ((((((Run.refl st).run_then (.push_scope _ false)).run_first (NameBinder.bind_run cond _)).run_step (NameBinder.bind_run if_true _)).run_step (.pop_scope _)).run_step (bindOpt_run if_false _))
  | .IfExpr none ptrn expr if_true if_false, st => by
    simp only [Form.bind, Form.popped]
    exact (((((((Run.refl st).run_then (.push_scope _ false)).run_first (bindOpt_run ptrn _)).run_step (bindOpt_run expr _)).run_step (NameBinder.bind_run if_true _)).run_step (.pop_scope _)).run_step (bindOpt_run if_false _))
  | .CaseExpr ptrn expr, st => by
    simp only [Form.bind, Form.popped]
    exact (((((Run.refl st).run_then (.push_scope _ false)).run_first (NameBinder.bind_run ptrn _)).run_step (NameBinder.bind_run expr _)).run_step (.pop_scope _))
  | .MatchExpr arg cases, st => by
    simp only [Form.bind, Form.popped]
    exact (((Run.refl st).run_first (NameBinder.bind_run arg _)).run_step (bindList_run cases _))
  | .WhileExpr addr (some cond) ptrn expr body, st => by
    simp only [Form.bind, Form.popped]
    exact (((((((Run.refl st).run_then (.push_scope _ false)).run_first (NameBinder.bind_run cond _)).run_then (.set_loop _ (some addr))).run_step (NameBinder.bind_run body _)).run_then (.set_loop _ _)).run_step (.pop_scope _))
  | .WhileExpr addr none ptrn expr body, st => by
    simp only [Form.bind, Form.popped]
    exact ((((((((Run.refl st).run_then (.push_scope _ false)).run_first (bindOpt_run ptrn _)).run_step (bindOpt_run expr _)).run_then (.set_loop _ (some addr))).run_step (NameBinder.bind_run body _)).run_then (.set_loop _ _)).run_step (.pop_scope _))
  | .ForExpr addr callee loop_body_attrs loop_body arg, st => by
    simp only [Form.bind, Form.popped]
    exact (((((((Run.refl st).run_first (NameBinder.bind_run callee _)).run_then (.set_loop _ (some addr))).run_step (bindAttrs_run loop_body_attrs _)).run_step (FnExpr.bindFn_run loop_body true _)).run_then (.set_loop _ _)).run_step (NameBinder.bind_run arg _))
  | .BreakExpr loc loop, st => by
    simp only [Form.bind, Form.popped]
    split
    · exact .error _ _ _ _
    · exact .refl st
  | .ContinueExpr loc loop, st => by
    simp only [Form.bind, Form.popped]
    split
    · exact .error _ _ _ _
    · exact .refl st
  | .ReturnExpr loc fn, st => by
    simp only [Form.bind, Form.popped]
    split
    · exact .error _ _ _ _
    · exact .refl st
  | .FilterExpr filter expr, st => by
    simp only [Form.bind, Form.popped]
    exact (((Run.refl st).run_first (NameBinder.bind_run filter _)).run_step (NameBinder.bind_run expr _))
  | .CastExpr expr type, st => by
    simp only [Form.bind, Form.popped]
    exact (((Run.refl st).run_first (NameBinder.bind_run expr _)).run_step (NameBinder.bind_run type _))
  | .ImplicitCastExpr, st => by
    simp only [Form.bind, Form.popped]
    exact (Run.refl st)
  | .AsmExpr ins outs, st => by
    simp only [Form.bind, Form.popped]
    exact (((Run.refl st).run_first (bindList_run ins _)).run_step (bindList_run outs _))
  | .ErrorExpr, st => by
    simp only [Form.bind, Form.popped]
    exact (Run.refl st)
  | .TypedPtrn ptrn type, st => by
    simp only [Form.bind, Form.popped]
    exact (((Run.refl st).run_first (bindOpt_run ptrn _)).run_step (NameBinder.bind_run type _))
  | .IdPtrn decl sub_ptrn, st => by
    simp only [Form.bind, Form.popped]
    exact (((Run.refl st).run_first (NameBinder.bind_run decl _)).run_step (bindOpt_run sub_ptrn _))
  | .LiteralPtrn, st => by
    simp only [Form.bind, Form.popped]
    exact (Run.refl st)
  | .FieldPtrn ptrn, st => by
    simp only [Form.bind, Form.popped]
    exact ((Run.refl st).run_first (bindOpt_run ptrn _))
  | .RecordPtrn path fields, st => by
    simp only [Form.bind, Form.popped]
    exact (((Run.refl st).run_first (NameBinder.bind_run path _)).run_step (bindList_run fields _))
  | .CtorPtrn path arg, st => by
    simp only [Form.bind, Form.popped]
    exact (((Run.refl st).run_first (NameBinder.bind_run path _)).run_step (bindOpt_run arg _))
  | .TuplePtrn args, st => by
    simp only [Form.bind, Form.popped]
    exact ((Run.refl st).run_first (bindList_run args _))
  | .ArrayPtrn elems, st => by
    simp only [Form.bind, Form.popped]
    exact ((Run.refl st).run_first (bindList_run elems _))
  | .ErrorPtrn, st => by
    simp only [Form.bind, Form.popped]
    exact (Run.refl st)
  | .TypeParam decl, st => by
    simp only [Form.bind, Form.popped]
    exact ((Run.refl st).run_then (.insert_symbol _ ⟨.TypeParam, decl⟩))
  | .TypeParamList params, st => by
    simp only [Form.bind, Form.popped]
    exact ((Run.refl st).run_first (bindList_run params _))
  | .PtrnDecl decl, st => by
    simp only [Form.bind, Form.popped]
    exact ((Run.refl st).run_then (.insert_symbol _ ⟨.PtrnDecl, decl⟩))
  | .LetDecl init ptrn, st => by
    simp only [Form.bind, Form.popped]
    exact (((Run.refl st).run_first (bindOpt_run init _)).run_step (NameBinder.bind_run ptrn _))
  | .StaticDecl decl type init, st => by
    simp only [Form.bind, Form.popped]
    exact (((Run.refl st).run_first (bindOpt_run type _)).run_step (bindOpt_run init _))
  | .FnDecl decl type_params fn_attrs (.mk addr filter param ret_type (some body)), st => by
    simp only [Form.bind, Form.popped]
    exact ((((((Run.refl st).run_then (.push_scope _ false)).run_first (bindOpt_run type_params _)).run_step (bindAttrs_run fn_attrs _)).run_step (FnExpr.bindFn_run (.mk addr filter param ret_type (some body)) false _)).run_step (.pop_scope _))
  | .FnDecl decl type_params fn_attrs (.mk addr filter param ret_type none), st => by
    simp only [Form.bind, Form.popped]
    exact ((((((Run.refl st).run_then (.push_scope _ false)).run_first (bindOpt_run type_params _)).run_step (bindOpt_run param _)).run_step (bindOpt_run ret_type _)).run_step (.pop_scope _))
  | .FieldDecl type init, st => by
    simp only [Form.bind, Form.popped]
    exact (((Run.refl st).run_first (NameBinder.bind_run type _)).run_step (bindOpt_run init _))
  | .StructDecl decl type_params fields, st => by
    simp only [Form.bind, Form.popped]
    exact (((((Run.refl st).run_then (.push_scope _ false)).run_first (bindOpt_run type_params _)).run_step (bindList_run fields _)).run_step (.pop_scope _))
  | .OptionDecl decl (some param) fields, st => by
    simp only [Form.bind, Form.popped]
    exact (((Run.refl st).run_first (NameBinder.bind_run param _)).run_then (.insert_symbol _ ⟨.OptionDecl, decl⟩))
  | .OptionDecl decl none fields, st => by
    simp only [Form.bind, Form.popped]
    exact (((Run.refl st).run_first (bindList_run fields _)).run_then (.insert_symbol _ ⟨.OptionDecl, decl⟩))
  | .EnumDecl decl type_params options, st => by
    simp only [Form.bind, Form.popped]
    exact (((((Run.refl st).run_then (.push_scope _ false)).run_first (bindOpt_run type_params _)).run_step (bindList_run options _)).run_step (.pop_scope _))
  | .TypeDecl decl type_params aliased_type, st => by
    simp only [Form.bind, Form.popped]
    exact (((((Run.refl st).run_then (.push_scope _ false)).run_first (bindOpt_run type_params _)).run_step (NameBinder.bind_run aliased_type _)).run_step (.pop_scope _))
  | .ModDecl decl decls, st => by
    simp only [Form.bind, Form.popped]
    exact Run.module ((((Run.refl _).run_then (.push_scope _ false)).run_then (Run.run_heads decls _)).run_first (bindList_run decls _))
  | .ErrorDecl, st => by
    simp only [Form.bind, Form.popped]
    exact (Run.refl st)

theorem bindElems_run : ∀ (x : List PathElem) (st : NameBinder),
    Run st (poppedElems x st) (bindElems x st).2
  | [], st => by
    simp only [bindElems, poppedElems]
    exact (Run.refl st)
  | .mk id args :: elems, st => by
    simp only [bindElems, poppedElems]
    exact (((Run.refl st).run_first (bindList_run args _)).run_step (bindElems_run elems _))

theorem FnExpr.bindFn_run : ∀ (x : FnExpr) (in_for_loop : Bool) (st : NameBinder),
    Run st (FnExpr.popped x in_for_loop st) (FnExpr.bind x in_for_loop st).2
  | .mk addr filter param ret_type body, true, st => by
    simp only [FnExpr.bind, FnExpr.popped]
    exact (((((((((Run.refl st).run_then (.push_scope _ false)).run_first (bindOpt_run param _)).run_step (bindOpt_run ret_type _)).run_step (bindOpt_run filter _)).run_then (.push_scope _ false)).run_step (bindOpt_run body _)).run_step (.pop_scope _)).run_step (.pop_scope _))
  | .mk addr filter param ret_type body, false, st => by
    simp only [FnExpr.bind, FnExpr.popped]
    exact (((((((((((Run.refl st).run_then (.push_scope _ false)).run_first (bindOpt_run param _)).run_step (bindOpt_run ret_type _)).run_step (bindOpt_run filter _)).run_then (.push_scope _ false)).run_then (.set_fn _ (some addr))).run_step (bindOpt_run body _)).run_then (.set_fn _ _)).run_step (.pop_scope _)).run_step (.pop_scope _))

theorem bindAttrs_run : ∀ (x : Option Node) (st : NameBinder),
    Run st (poppedAttrs x st) (bindAttrs x st).2
  | none, st => by
    simp only [bindAttrs, poppedAttrs]
    exact (Run.refl st)
  | some (.mk attrs form), st => by
    simp only [bindAttrs, poppedAttrs]
    exact ((Run.refl st).run_first (Form.bindForm_run form _))

theorem NameBinder.bind_run : ∀ (x : Node) (st : NameBinder),
    Run st (Node.popped x st) (NameBinder.bind x st).2
  | .mk attrs form, st => by
    simp only [NameBinder.bind, Node.popped]
    exact (((Run.refl st).run_first (bindAttrs_run attrs _)).run_step (Form.bindForm_run form _))

theorem bindList_run : ∀ (x : List Node) (st : NameBinder),
    Run st (poppedList x st) (bindList x st).2
  | [], st => by
    simp only [bindList, poppedList]
    exact (Run.refl st)
  | node :: nodes, st => by
    simp only [bindList, poppedList]
    exact (((Run.refl st).run_first (NameBinder.bind_run node _)).run_step (bindList_run nodes _))

theorem bindOpt_run : ∀ (x : Option Node) (st : NameBinder),
    Run st (poppedOpt x st) (bindOpt x st).2
  | none, st => by
    simp only [bindOpt, poppedOpt]
    exact (Run.refl st)
  | some node, st => by
    simp only [bindOpt, poppedOpt]
    exact ((Run.refl st).run_first (NameBinder.bind_run node _))

end

theorem NameBinder.warnUnused_eq (top_level : Bool) (pairs : List (String × SymbolPtr))
    (st : NameBinder) :
    warnUnused top_level pairs st =
      { st with
        warns := st.warns + (pairs.filter (unreferenced top_level)).length
        diags := st.diags ++ (pairs.filter (unreferenced top_level)).flatMap unusedDiags } := by
  induction pairs generalizing st with
  | nil => simp [warnUnused]
  | cons p ps ih =>
    rw [warnUnused, ih]
    cases hd : p.2.sym.decls with
    | nil => simp [unreferenced, hd, List.filter_cons]
    | cons decl more =>
      by_cases hc : (decide (p.2.use_count ≤ 1) && !top_level && decl.kind != .FieldDecl &&
          decl.kind != .OptionDecl) = true
      · have hu : unreferenced top_level p = true := by simpa [unreferenced, hd] using hc
        simp only [hc, if_true, List.filter_cons, hu, List.length_cons, List.flatMap_cons]
        simp [NameBinder.warn, NameBinder.note, unusedDiags, hd, unusedFmt, Nat.add_assoc,
          Nat.add_comm]
      · have hu : unreferenced top_level p = false := by
          simpa [unreferenced, hd] using hc
        simp [hc, List.filter_cons, hu]

theorem NameBinder.newDiags_of_eq {st st' : NameBinder} {new : List Diag}
    (h : st'.diags = st.diags ++ new) : st.newDiags st' = new := by
  simp [NameBinder.newDiags, h]

theorem NameBinder.pop_scope_eq (st : NameBinder) (back : SymbolTable)
    (rest : List SymbolTable) (h : st.scopes_ = back :: rest) :
    st.pop_scope =
      { st with
        scopes_ := rest
        warns := st.warns + back.unused.length
        diags := st.diags ++ back.unused.flatMap unusedDiags } := by
  simp [pop_scope, h, warnUnused_eq, SymbolTable.unused]

theorem countWarnFmt_unusedDiags (pairs : List (String × SymbolPtr)) :
    countWarnFmt unusedFmt (pairs.flatMap unusedDiags) = pairs.length := by
  induction pairs with
  | nil => rfl
  | cons p ps ih =>
    simp only [List.flatMap_cons, countWarnFmt, List.countP_append, List.length_cons] at ih ⊢
    rw [ih]
    simp [unusedDiags, List.countP_cons, Nat.add_comm]

theorem NameBinder.insert_symbol_fresh_eq (st : NameBinder) (decl : DeclPtr)
    (back : SymbolTable) (rest : List SymbolTable)
    (h1 : st.scopes_ = back :: rest)
    (h2 : startsWithUnderscore decl.decl.id.name = false)
    (h3 : back.find decl.decl.id.name = none) :
    st.insert_symbol decl =
      match findIn rest decl.decl.id.name with
      | some shadow =>
        match shadow.decls with
        | first :: _ =>
          if st.warn_on_shadowing && decl.kind == .PtrnDecl && !first.decl.is_top_level then
            { st with
              scopes_ := (back.insert decl.decl.id.name (Symbol.ofDecl decl)).2 :: rest
              warns := st.warns + 1
              diags := st.diags ++
                [⟨.warn, some decl.decl.loc, shadowFmt, [decl.decl.id.name]⟩,
                  ⟨.note, some first.decl.loc, "previously declared here", []⟩] }
          else
            { st with
              scopes_ := (back.insert decl.decl.id.name (Symbol.ofDecl decl)).2 :: rest }
        | [] =>
          { st with
            scopes_ := (back.insert decl.decl.id.name (Symbol.ofDecl decl)).2 :: rest }
      | none =>
        { st with
          scopes_ := (back.insert decl.decl.id.name (Symbol.ofDecl decl)).2 :: rest } := by
  have h4 : (back.insert decl.decl.id.name (Symbol.ofDecl decl)).1 = true := by
    simp [SymbolTable.insert_fst_find, h3]
  have h5 : st.find_symbol decl.decl.id.name = findIn rest decl.decl.id.name := by
    simp [find_symbol, h1, findIn, h3]
  simp only [insert_symbol, h1, h2, h4, h5]
  cases findIn rest decl.decl.id.name with
  | none => simp
  | some shadow =>
    obtain ⟨l⟩ := shadow
    cases l with
    | nil => simp
    | cons first more =>
      by_cases h6 : (st.warn_on_shadowing && decl.kind == .PtrnDecl &&
          !first.decl.is_top_level) = true
      · simp [h6, NameBinder.warn, NameBinder.note, shadowFmt]
      · simp [h6]

/-- What `insert_symbol` writes: it only adds diagnostics, and a warning among them is
the shadowing warning for the name of the declaration, which does not begin with
`_`. -/
theorem NameBinder.insert_symbol_diags (st : NameBinder) (decl : DeclPtr) :
    ∃ new, (st.insert_symbol decl).diags = st.diags ++ new ∧
      ∀ d ∈ new, d.severity = .warn →
        d.fmt = shadowFmt ∧ d.args = [decl.decl.id.name] ∧
          startsWithUnderscore decl.decl.id.name = false := by
  cases hu : startsWithUnderscore decl.decl.id.name with
  | true => exact ⟨[], by simp [insert_symbol_underscore _ _ hu], by simp⟩
  | false =>
    cases hs : st.scopes_ with
    | nil => exact ⟨[], by simp [insert_symbol, hu, hs], by simp⟩
    | cons back rest =>
      cases hf : back.find decl.decl.id.name with
      | some old =>
        rw [insert_symbol_redeclared st decl back rest old hs hu hf]
        refine ⟨_, rfl, ?_⟩
        intro d hd hw
        rcases List.mem_cons.1 hd with rfl | hd
        · cases hw
        · simp only [previousNotes, List.mem_map] at hd
          obtain ⟨o, -, rfl⟩ := hd
          cases hw
      | none =>
        rw [insert_symbol_fresh_eq st decl back rest hs hu hf]
        split
        · split
          · split
            · refine ⟨_, rfl, ?_⟩
              intro d hd hw
              rcases List.mem_cons.1 hd with rfl | hd
              · exact ⟨rfl, rfl, rfl⟩
              · rw [List.mem_singleton.1 hd] at hw
                cases hw
            · exact ⟨[], by simp, by simp⟩
          · exact ⟨[], by simp, by simp⟩
        · exact ⟨[], by simp, by simp⟩

theorem NameBinder.insert_symbol_scopes (st : NameBinder) (decl : DeclPtr) :
    (st.insert_symbol decl).scopes_ = st.scopes_ ∨
    (startsWithUnderscore decl.decl.id.name = false ∧
      ∃ back rest, st.scopes_ = back :: rest ∧
        (st.insert_symbol decl).scopes_ =
          (back.insert decl.decl.id.name (Symbol.ofDecl decl)).2 :: rest) := by
  cases hu : startsWithUnderscore decl.decl.id.name with
  | true => exact Or.inl (by rw [insert_symbol_underscore _ _ hu])
  | false =>
    cases hs : st.scopes_ with
    | nil => exact Or.inl (by simp [insert_symbol, hu, hs])
    | cons back rest =>
      refine Or.inr ⟨rfl, back, rest, rfl, ?_⟩
      cases hf : back.find decl.decl.id.name with
      | some old => rw [insert_symbol_redeclared st decl back rest old hs hu hf]
      | none =>
        rw [insert_symbol_fresh_eq st decl back rest hs hu hf]
        split
        · split
          · split <;> rfl
          · rfl
        · rfl

theorem keys_appendDecls (name : String) (decls : List DeclPtr)
    (l : List (String × SymbolPtr)) :
    (appendDecls name decls l).map Prod.fst = l.map Prod.fst := by
  induction l with
  | nil => rfl
  | cons e es ih =>
    rw [appendDecls]
    split
    · rfl
    · simp [ih]

theorem keys_retainEntry (name : String) (l : List (String × SymbolPtr)) :
    (retainEntry name l).map Prod.fst = l.map Prod.fst := by
  induction l with
  | nil => rfl
  | cons e es ih =>
    rw [retainEntry]
    split
    · rfl
    · simp [ih]

/-- No key of the frame begins with `_`. -/
theorem named_iff_keys (l : List (String × SymbolPtr)) :
    (∀ e ∈ l, startsWithUnderscore e.1 = false) ↔
      ∀ k ∈ l.map Prod.fst, startsWithUnderscore k = false := by
  simp

theorem SymbolTable.named_insert (t : SymbolTable) (name : String) (symbol : Symbol)
    (hn : startsWithUnderscore name = false)
    (h : ∀ e ∈ t.symbols, startsWithUnderscore e.1 = false) :
    ∀ e ∈ (t.insert name symbol).2.symbols, startsWithUnderscore e.1 = false := by
  rw [named_iff_keys] at h ⊢
  unfold SymbolTable.insert
  split
  · simpa [keys_appendDecls] using h
  · intro k hk
    simp only [List.map_append, List.mem_append, List.map_cons, List.map_nil,
      List.mem_singleton] at hk
    rcases hk with hk | rfl
    · exact h k hk
    · exact hn

theorem NameBinder.named_retainIn (scopes : List SymbolTable) (name : String)
    (h : ∀ t ∈ scopes, ∀ e ∈ t.symbols, startsWithUnderscore e.1 = false) :
    ∀ t ∈ retainIn scopes name, ∀ e ∈ t.symbols, startsWithUnderscore e.1 = false := by
  induction scopes with
  | nil => simp [retainIn]
  | cons f fs ih =>
    rw [retainIn]
    split
    · intro t ht
      rcases List.mem_cons.1 ht with rfl | ht
      · rw [named_iff_keys]
        simpa [keys_retainEntry] using (named_iff_keys _).1 (h f (List.mem_cons_self _ _))
      · exact h t (List.mem_cons_of_mem _ ht)
    · intro t ht
      rcases List.mem_cons.1 ht with rfl | ht
      · exact h _ (List.mem_cons_self _ _)
      · exact ih (fun t ht => h t (List.mem_cons_of_mem _ ht)) t ht

theorem NameBinder.NoAnonymous.named_insert_symbol {st : NameBinder} (h : st.NoAnonymous)
    (decl : DeclPtr) : (st.insert_symbol decl).NoAnonymous := by
  rcases insert_symbol_scopes st decl with he | ⟨hu, back, rest, hs, he⟩
  · unfold NoAnonymous
    rw [he]
    exact h
  · unfold NoAnonymous at h ⊢
    rw [he]
    rw [hs] at h
    intro t ht
    rcases List.mem_cons.1 ht with rfl | ht
    · exact SymbolTable.named_insert back _ _ hu (h back (List.mem_cons_self _ _))
    · exact h t (List.mem_cons_of_mem _ ht)

/-- Along any execution of the binder the log only grows, and the `unused identifier`
warnings added are as many as the unused entries of the frames popped. -/
theorem NameBinder.Run.unused_count {st st' : NameBinder} {fs : List SymbolTable}
    (h : Run st fs st') :
    ∃ new, st'.diags = st.diags ++ new ∧
      countWarnFmt unusedFmt new = (fs.map (fun f => f.unused.length)).sum := by
  induction h with
  | refl st => exact ⟨[], by simp, rfl⟩
  | trans _ _ ih1 ih2 =>
    obtain ⟨n1, e1, c1⟩ := ih1
    obtain ⟨n2, e2, c2⟩ := ih2
    refine ⟨n1 ++ n2, by rw [e2, e1, List.append_assoc], ?_⟩
    simp only [countWarnFmt, List.countP_append, List.map_append, List.sum_append] at c1 c2 ⊢
    rw [c1, c2]
  | push_scope st top_level => exact ⟨[], by simp [NameBinder.push_scope], rfl⟩
  | pop_scope st =>
    cases hs : st.scopes_ with
    | nil => exact ⟨[], by simp [NameBinder.pop_scope, hs], by simp [countWarnFmt]⟩
    | cons back rest =>
      rw [pop_scope_eq st back rest hs]
      exact ⟨_, rfl, by simp [countWarnFmt_unusedDiags]⟩
  | insert_symbol st decl =>
    obtain ⟨new, e, hw⟩ := insert_symbol_diags st decl
    refine ⟨new, e, ?_⟩
    simp only [List.map_nil, List.sum_nil, countWarnFmt, List.countP_eq_zero]
    intro d hd hc
    simp only [Bool.and_eq_true, beq_iff_eq] at hc
    have := (hw d hd hc.1).1
    rw [hc.2] at this
    exact absurd this (by decide)
  | error st loc fmt args => exact ⟨_, rfl, by simp [countWarnFmt]⟩
  | note st loc fmt args => exact ⟨_, rfl, by simp [countWarnFmt]⟩
  | retain st name => exact ⟨[], by simp, rfl⟩
  | set_loop st loop => exact ⟨[], by simp, rfl⟩
  | set_fn st fn => exact ⟨[], by simp, rfl⟩
  | module _ ih =>
    obtain ⟨new, e, c⟩ := ih
    exact ⟨new, e, c⟩

/-- Along any execution of the binder that starts without a name beginning with `_` in
its frames, no such name enters a frame, and every warning written names an
identifier that does not begin with `_`. -/
theorem NameBinder.Run.named {st st' : NameBinder} {fs : List SymbolTable}
    (h : Run st fs st') (hn : st.NoAnonymous) :
    st'.NoAnonymous ∧
    (∀ f ∈ fs, ∀ e ∈ f.symbols, startsWithUnderscore e.1 = false) ∧
    ∃ new, st'.diags = st.diags ++ new ∧
      ∀ d ∈ new, d.severity = .warn →
        ∃ name, d.args = [name] ∧ startsWithUnderscore name = false := by
  induction h with
  | refl st => exact ⟨hn, by simp, [], by simp, by simp⟩
  | trans _ _ ih1 ih2 =>
    obtain ⟨a1, f1, n1, e1, w1⟩ := ih1 hn
    obtain ⟨a2, f2, n2, e2, w2⟩ := ih2 a1
    refine ⟨a2, ?_, n1 ++ n2, by rw [e2, e1, List.append_assoc], ?_⟩
    · intro f hf
      rcases List.mem_append.1 hf with hf | hf
      · exact f1 f hf
      · exact f2 f hf
    · intro d hd
      rcases List.mem_append.1 hd with hd | hd
      · exact w1 d hd
      · exact w2 d hd
  | push_scope st top_level =>
    refine ⟨?_, by simp, [], by simp [NameBinder.push_scope], by simp⟩
    intro t ht
    rcases List.mem_cons.1 ht with rfl | ht
    · simp
    · exact hn t ht
  | pop_scope st =>
    cases hs : st.scopes_ with
    | nil =>
      have : st.pop_scope = st := by simp [NameBinder.pop_scope, hs]
      rw [this]
      exact ⟨hn, by simp, [], by simp, by simp⟩
    | cons back rest =>
      have hb : ∀ e ∈ back.symbols, startsWithUnderscore e.1 = false :=
        hn back (by rw [hs]; exact List.mem_cons_self _ _)
      rw [pop_scope_eq st back rest hs]
      refine ⟨?_, ?_, _, rfl, ?_⟩
      · intro t ht
        exact hn t (by rw [hs]; exact List.mem_cons_of_mem _ ht)
      · intro f hf
        rw [List.take_succ_cons, List.take_zero, List.mem_singleton] at hf
        rw [hf]
        exact hb
      · intro d hd hw
        simp only [List.mem_flatMap, SymbolTable.unused, List.mem_filter] at hd
        obtain ⟨pair, ⟨hp, -⟩, hd⟩ := hd
        simp only [unusedDiags, List.mem_cons, List.mem_singleton, List.not_mem_nil,
          or_false] at hd
        rcases hd with rfl | rfl
        · exact ⟨pair.1, rfl, hb pair hp⟩
        · cases hw
  | insert_symbol st decl =>
    obtain ⟨new, e, hw⟩ := insert_symbol_diags st decl
    refine ⟨hn.named_insert_symbol decl, by simp, new, e, ?_⟩
    intro d hd hs
    exact ⟨_, (hw d hd hs).2.1, (hw d hd hs).2.2⟩
  | error st loc fmt args =>
    refine ⟨hn, by simp, _, rfl, ?_⟩
    intro d hd hw
    rw [List.mem_singleton.1 hd] at hw
    cases hw
  | note st loc fmt args =>
    refine ⟨hn, by simp, _, rfl, ?_⟩
    intro d hd hw
    rw [List.mem_singleton.1 hd] at hw
    cases hw
  | retain st name =>
    exact ⟨named_retainIn st.scopes_ name hn, by simp, [], by simp, by simp⟩
  | set_loop st loop => exact ⟨hn, by simp, [], by simp, by simp⟩
  | set_fn st fn => exact ⟨hn, by simp, [], by simp, by simp⟩
  | module _ ih =>
    obtain ⟨-, f1, n1, e1, w1⟩ := ih (by intro t ht; cases ht)
    exact ⟨hn, f1, n1, e1, w1⟩

theorem find_retainEntry_self (name : String) (es : List (String × SymbolPtr)) :
    ((retainEntry name es).find? (fun e => e.1 == name)).map Prod.snd =
      ((es.find? (fun e => e.1 == name)).map Prod.snd).map
        (fun p => { p with use_count := p.use_count + 1 }) := by
  induction es with
  | nil => rfl
  | cons e es ih =>
    by_cases h : e.1 = name
    · simp [retainEntry, h]
    · simp [retainEntry, h, ih]

theorem NameBinder.retainIn_eq (name : String) (pre : List SymbolTable) (t : SymbolTable)
    (post : List SymbolTable) (s : Symbol) (h1 : ∀ f ∈ pre, f.find name = none)
    (h2 : t.find name = some s) :
    retainIn (pre ++ t :: post) name =
      pre ++ { t with symbols := retainEntry name t.symbols } :: post := by
  induction pre with
  | nil => simp [retainIn, h2]
  | cons f fs ih =>
    have hf : f.find name = none := h1 f (List.mem_cons_self _ _)
    simp [retainIn, hf, ih (fun g hg => h1 g (List.mem_cons_of_mem _ hg))]

/-- C11: `NameBinder::insert_symbol` on a declaration whose name begins with `_`
returns the binder it was given: no frame, counter or diagnostic changes, however
many such declarations are inserted one after the other, so that none of them is a
redeclaration. No such name is ever the key of a frame: binding any node from a
binder whose frames hold no name beginning with `_` ends in such a binder and pops
only such frames, and every warning written on the way (unused identifier or
shadowing) names an identifier that does not begin with `_`. -/
theorem insert_symbol_anonymous :
    (∀ (st : NameBinder) (decl : DeclPtr),
      startsWithUnderscore decl.decl.id.name = true → st.insert_symbol decl = st) ∧
    (∀ (st : NameBinder) (decls : List DeclPtr),
      (∀ d ∈ decls, startsWithUnderscore d.decl.id.name = true) →
        decls.foldl insert_symbol st = st) ∧
    (∀ (x : Node) (st : NameBinder), st.NoAnonymous →
      (NameBinder.bind x st).2.NoAnonymous ∧
      (∀ f ∈ Node.popped x st, ∀ e ∈ f.symbols, startsWithUnderscore e.1 = false) ∧
      ∀ d ∈ st.newDiags (NameBinder.bind x st).2, d.severity = .warn →
        ∃ name, d.args = [name] ∧ startsWithUnderscore name = false) := by
  refine ⟨insert_symbol_underscore, ?_, ?_⟩
  · intro st decls h
    induction decls with
    | nil => rfl
    | cons d ds ih =>
      rw [List.foldl_cons, insert_symbol_underscore st d (h d (List.mem_cons_self _ _))]
      exact ih (fun d hd => h d (List.mem_cons_of_mem _ hd))
  · intro x st hn
    obtain ⟨h1, h2, new, e, hw⟩ := (NameBinder.bind_run x st).named hn
    rw [newDiags_of_eq e]
    exact ⟨h1, h2, hw⟩

/-- C11 on the block `{ let _x = 1; let _x = 2; }` bound from the empty binder: the two
declarations of `_x` leave the frame of the block empty, and nothing is reported when
the frame is popped. -/
theorem insert_symbol_anonymous_witness :
    (emptyBinder.push_scope false).insert_symbol ⟨.PtrnDecl, ⟨1, ⟨"_x", exLoc⟩, exLoc, false⟩⟩ =
      emptyBinder.push_scope false ∧
    [(⟨.PtrnDecl, ⟨1, ⟨"_x", exLoc⟩, exLoc, false⟩⟩ : DeclPtr),
      ⟨.PtrnDecl, ⟨2, ⟨"_x", exLoc⟩, exLoc, false⟩⟩].foldl insert_symbol
        (emptyBinder.push_scope false) = emptyBinder.push_scope false :=
  ⟨insert_symbol_anonymous.1 _ _ (by decide),
    insert_symbol_anonymous.2.1 _ _ (by decide)⟩

/-- C12: when `pop_scope` removes the frame `back`, it writes, in iteration order, one
`unused identifier` warning (and the note that goes with it) for each entry of `back`
to which no `Path` has been resolved, provided `back` is not top-level and the first
declaration of the symbol is neither a `FieldDecl` nor an `OptionDecl`, and nothing
else; the warning counter grows by their number. Over the binding of any node, the
number of `unused identifier` warnings written is the number of such entries over
all the frames popped. Resolving a path raises the use count of the entry found, in
the innermost frame that declares the name. -/
theorem pop_scope_unused_warnings :
    (∀ (st : NameBinder) (back : SymbolTable) (rest : List SymbolTable),
      st.scopes_ = back :: rest →
        st.pop_scope.scopes_ = rest ∧
        st.newDiags st.pop_scope = back.unused.flatMap unusedDiags ∧
        countWarnFmt unusedFmt (st.newDiags st.pop_scope) = back.unused.length ∧
        st.pop_scope.warns = st.warns + back.unused.length ∧
        st.pop_scope.errors = st.errors) ∧
    (∀ (x : Node) (st : NameBinder),
      countWarnFmt unusedFmt (st.newDiags (NameBinder.bind x st).2) =
        ((Node.popped x st).map (fun f => f.unused.length)).sum) ∧
    (∀ (st : NameBinder) (id : Identifier) (symbol : Option Symbol)
        (pre : List SymbolTable) (t : SymbolTable) (post : List SymbolTable) (p : SymbolPtr),
      startsWithUnderscore id.name = false → st.scopes_ = pre ++ t :: post →
      (∀ f ∈ pre, f.find id.name = none) → t.lookup id.name = some p →
        (pathLookup id symbol st).2.scopes_ =
          pre ++ { t with symbols := retainEntry id.name t.symbols } :: post ∧
        ({ t with symbols := retainEntry id.name t.symbols } : SymbolTable).lookup id.name =
          some { p with use_count := p.use_count + 1 }) ∧
    (countWarnFmt unusedFmt (NameBinder.bind blockUnusedX emptyBinder).2.diags = 1 ∧
      countWarnFmt unusedFmt (NameBinder.bind blockUsedX emptyBinder).2.diags = 0) := by
  refine ⟨?_, ?_, ?_, by decide⟩
  · intro st back rest hs
    have h := pop_scope_eq st back rest hs
    have hd : st.newDiags st.pop_scope = back.unused.flatMap unusedDiags :=
      newDiags_of_eq (by rw [h])
    rw [hd, countWarnFmt_unusedDiags]
    rw [h]
    exact ⟨rfl, rfl, rfl, rfl, rfl⟩
  · intro x st
    obtain ⟨new, e, c⟩ := (NameBinder.bind_run x st).unused_count
    rw [newDiags_of_eq e, c]
  · intro st id symbol pre t post p hu hs hpre ht
    have hfind : t.find id.name = some p.sym := by simp [SymbolTable.find, ht]
    have hsym : st.find_symbol id.name = some p.sym := by
      rw [find_symbol]
      exact findIn_eq_some.2 ⟨pre, t, post, hs, hpre, hfind⟩
    constructor
    · simp only [pathLookup, hu, hsym]
      rw [hs]
      exact retainIn_eq id.name pre t post p.sym hpre hfind
    · have := find_retainEntry_self id.name t.symbols
      simp only [SymbolTable.lookup] at ht ⊢
      rw [this, ht]
      rfl

/-- C13, with the option that the code tests first: `NameBinder::insert_symbol` writes
at most one shadowing warning, and it writes one exactly when the option
`warn_on_shadowing` is set, the name does not begin with `_` and its insertion into
the innermost frame `back` succeeds, the declaration is a `PtrnDecl`, and the name
was resolvable in the outer frames `rest` to a symbol whose first declaration is not
top-level. So a declaration of another kind, a pattern that shadows a top-level
declaration, and any declaration when the option is not set, give no warning. -/
theorem insert_symbol_shadowing (st : NameBinder) (decl : DeclPtr) (back : SymbolTable)
    (rest : List SymbolTable) (hs : st.scopes_ = back :: rest) :
    countWarnFmt shadowFmt (st.newDiags (st.insert_symbol decl)) ≤ 1 ∧
    (countWarnFmt shadowFmt (st.newDiags (st.insert_symbol decl)) = 1 ↔
      st.warn_on_shadowing = true ∧
      startsWithUnderscore decl.decl.id.name = false ∧
      (back.insert decl.decl.id.name (Symbol.ofDecl decl)).1 = true ∧
      decl.kind = .PtrnDecl ∧
      ∃ shadow first more, findIn rest decl.decl.id.name = some shadow ∧
        shadow.decls = first :: more ∧ first.decl.is_top_level = false) := by
  cases hu : startsWithUnderscore decl.decl.id.name with
  | true =>
    rw [insert_symbol_underscore _ _ hu]
    simp [NameBinder.newDiags, countWarnFmt]
  | false =>
    cases hf : back.find decl.decl.id.name with
    | some old =>
      have h4 : (back.insert decl.decl.id.name (Symbol.ofDecl decl)).1 = false := by
        simp [SymbolTable.insert_fst_find, hf]
      have hd : st.newDiags (st.insert_symbol decl) =
          ⟨.error, some decl.decl.loc, "identifier '{}' already declared",
            [decl.decl.id.name]⟩ :: previousNotes decl.decl old.decls :=
        newDiags_of_eq (by rw [insert_symbol_redeclared st decl back rest old hs hu hf])
      have hc : countWarnFmt shadowFmt (st.newDiags (st.insert_symbol decl)) = 0 := by
        rw [hd]
        simp [countWarnFmt, previousNotes, List.countP_cons, List.countP_eq_zero]
      rw [hc, h4]
      simp
    | none =>
      have h4 : (back.insert decl.decl.id.name (Symbol.ofDecl decl)).1 = true := by
        simp [SymbolTable.insert_fst_find, hf]
      rw [insert_symbol_fresh_eq st decl back rest hs hu hf, h4]
      cases findIn rest decl.decl.id.name with
      | none => simp [NameBinder.newDiags, countWarnFmt]
      | some shadow =>
        obtain ⟨l⟩ := shadow
        cases l with
        | nil => simp [NameBinder.newDiags, countWarnFmt]
        | cons first more =>
          by_cases h6 : (st.warn_on_shadowing && decl.kind == .PtrnDecl &&
              !first.decl.is_top_level) = true
          · simp only [h6, if_true]
            have h7 := h6
            simp only [Bool.and_eq_true, beq_iff_eq, Bool.not_eq_true'] at h7
            simp [NameBinder.newDiags, countWarnFmt, shadowFmt, List.countP_cons, h7]
          · simp only [h6]
            simp only [Bool.and_eq_true, beq_iff_eq, Bool.not_eq_true', not_and,
              Bool.not_eq_false] at h6
            simp [NameBinder.newDiags, countWarnFmt]
            intro h1 h2
            exact h6 ⟨h1, h2⟩

/-- C13 with the option set: declaring `x` by a pattern in the inner frame of
`shadowBinder true`, whose outer frame declares `x` by a pattern that is not
top-level, writes the warning. -/
theorem insert_symbol_shadowing_witness :
    (shadowBinder true).scopes_ =
      ⟨false, []⟩ :: [⟨false, [("x", ⟨⟨[⟨.PtrnDecl, declX⟩]⟩, 1⟩)]⟩] ∧
    countWarnFmt shadowFmt
      ((shadowBinder true).newDiags
        ((shadowBinder true).insert_symbol ⟨.PtrnDecl, declX2⟩)) = 1 :=
  ⟨rfl,
    (insert_symbol_shadowing (shadowBinder true) ⟨.PtrnDecl, declX2⟩ _ _ rfl).2.2
      ⟨rfl, by decide, by decide, rfl, _, _, _, rfl, rfl, rfl⟩⟩

/-- C13 as stated fails when the option `warn_on_shadowing` is not set: in
`shadowBinder false` the insertion of `x` into the inner frame succeeds, `x` was
resolvable to a symbol of the outer frame whose declaration is not top-level, and the
new declaration is a `PtrnDecl`, yet `insert_symbol` writes nothing. -/
theorem insert_symbol_shadowing_unset :
    ((⟨false, []⟩ : SymbolTable).insert "x" (Symbol.ofDecl ⟨.PtrnDecl, declX2⟩)).1 = true ∧
    (shadowBinder false).find_symbol "x" = some ⟨[⟨.PtrnDecl, declX⟩]⟩ ∧
    declX.is_top_level = false ∧
    (shadowBinder false).newDiags
      ((shadowBinder false).insert_symbol ⟨.PtrnDecl, declX2⟩) = [] := by
  decide

mutual

theorem Ty.eq_of_beq : ∀ (a b : Ty), Ty.beq a b = true → a = b
  | .type_sint a, b, h => by cases b <;> simp_all [Ty.beq]
  | .type_uint a, b, h => by cases b <;> simp_all [Ty.beq]
  | .type_real a, b, h => by cases b <;> simp_all [Ty.beq]
  | .type_bool, b, h => by cases b <;> simp_all [Ty.beq]
  | .sigma a, b, h => by
    cases b <;> simp only [Ty.beq] at h <;> try cases h
    rw [Ty.eq_of_beqList _ _ h]
  | Ty.variadic_unsafe a, b, h => by
    cases b <;> simp only [Ty.beq] at h <;> try cases h
    rw [Ty.eq_of_beq _ _ h]
  | .pi a c, b, h => by
    cases b with
    | pi b d =>
      simp only [Ty.beq, Bool.and_eq_true] at h
      rw [Ty.eq_of_beq _ _ h.1, Ty.eq_of_beq _ _ h.2]
    | _ => simp [Ty.beq] at h
  | .type_ptr a, b, h => by
    cases b <;> simp only [Ty.beq] at h <;> try cases h
    rw [Ty.eq_of_beq _ _ h]
  | .type_struct a m, b, h => by cases b <;> simp_all [Ty.beq]
  | .type_enum a m, b, h => by cases b <;> simp_all [Ty.beq]
  | .type_forall a, b, h => by cases b <;> simp_all [Ty.beq]
  | .app a c, b, h => by
    cases b with
    | app b d =>
      simp only [Ty.beq, Bool.and_eq_true] at h
      rw [Ty.eq_of_beq _ _ h.1, Ty.eq_of_beq _ _ h.2]
    | _ => simp [Ty.beq] at h
  | .tuple a, b, h => by
    cases b <;> simp only [Ty.beq] at h <;> try cases h
    rw [Ty.eq_of_beqList _ _ h]
  | .param a, b, h => by cases b <;> simp_all [Ty.beq]
  | .type_error, b, h => by cases b <;> simp_all [Ty.beq]
  | .type_no_ret, b, h => by cases b <;> simp_all [Ty.beq]

theorem Ty.eq_of_beqList : ∀ (a b : List Ty), Ty.beqList a b = true → a = b
  | [], b, h => by cases b <;> simp_all [Ty.beqList]
  | a :: as, b, h => by
    cases b with
    | nil => simp [Ty.beqList] at h
    | cons b bs =>
      simp only [Ty.beqList, Bool.and_eq_true] at h
      rw [Ty.eq_of_beq _ _ h.1, Ty.eq_of_beqList _ _ h.2]

end

mutual

theorem Ty.beq_self : ∀ (a : Ty), Ty.beq a a = true
  | .type_sint a => by simp [Ty.beq]
  | .type_uint a => by simp [Ty.beq]
  | .type_real a => by simp [Ty.beq]
  | .type_bool => by simp [Ty.beq]
  | .sigma a => by simp [Ty.beq, Ty.beqList_self a]
  | Ty.variadic_unsafe a => by simp [Ty.beq, Ty.beq_self a]
  | .pi a c => by simp [Ty.beq, Ty.beq_self a, Ty.beq_self c]
  | .type_ptr a => by simp [Ty.beq, Ty.beq_self a]
  | .type_struct a m => by simp [Ty.beq]
  | .type_enum a m => by simp [Ty.beq]
  | .type_forall a => by simp [Ty.beq]
  | .app a c => by simp [Ty.beq, Ty.beq_self a, Ty.beq_self c]
  | .tuple a => by simp [Ty.beq, Ty.beqList_self a]
  | .param a => by simp [Ty.beq]
  | .type_error => by simp [Ty.beq]
  | .type_no_ret => by simp [Ty.beq]

theorem Ty.beqList_self : ∀ (a : List Ty), Ty.beqList a a = true
  | [] => by simp [Ty.beqList]
  | a :: as => by simp [Ty.beqList, Ty.beq_self a, Ty.beqList_self as]

end

/-- Equality of types is decidable, by the test `Ty.beq`. -/
instance : DecidableEq Ty := fun a b =>
  if h : Ty.beq a b = true then isTrue (Ty.eq_of_beq a b h)
  else isFalse (fun e => h (e ▸ Ty.beq_self a))

/-! # Properties of the type checker -/

open TypeChecker

@[simp] theorem TypeChecker.error_count_error (loc : Loc) (fmt : String) (args : List String)
    (tc : TypeChecker) : (tc.error loc fmt args).error_count = tc.error_count + 1 := rfl

@[simp] theorem TypeChecker.diags_error (loc : Loc) (fmt : String) (args : List String)
    (tc : TypeChecker) :
    (tc.error loc fmt args).diags = tc.diags ++ [⟨.error, some loc, fmt, args⟩] := rfl

theorem TypeChecker.error_eq (loc : Loc) (fmt : String) (args : List String)
    (tc : TypeChecker) :
    tc.error loc fmt args =
      { tc with
        error_count := tc.error_count + 1
        diags := tc.diags ++ [⟨.error, some loc, fmt, args⟩] } := rfl

theorem TypeChecker.note_eq (loc : Option Loc) (fmt : String) (args : List String)
    (tc : TypeChecker) :
    tc.note loc fmt args = { tc with diags := tc.diags ++ [⟨.note, loc, fmt, args⟩] } := rfl

theorem TypeChecker.note_note (l1 l2 : Option Loc) (f1 f2 : String) (a1 a2 : List String)
    (tc : TypeChecker) :
    (tc.note l1 f1 a1).note l2 f2 a2 =
      { tc with diags := tc.diags ++ [⟨.note, l1, f1, a1⟩, ⟨.note, l2, f2, a2⟩] } := by
  simp [note_eq]

/-- The notes of `explain_no_ret` are not errors. -/
theorem TypeChecker.explain_no_ret_eq (type : Option Ty) (expected : Ty) (tc : TypeChecker) :
    ∃ notes, tc.explain_no_ret type expected = { tc with diags := tc.diags ++ notes } ∧
      countErrors notes = 0 := by
  unfold explain_no_ret
  split
  · exact ⟨_, note_note _ _ _ _ _ _ tc, by simp [countErrors]⟩
  · exact ⟨[], by simp, rfl⟩

theorem TypeChecker.error_explain (loc : Loc) (fmt : String) (args : List String)
    (type : Option Ty) (expected : Ty) (tc : TypeChecker) :
    ∃ new, (tc.error loc fmt args).explain_no_ret type expected =
        { tc with error_count := tc.error_count + 1, diags := tc.diags ++ new } ∧
      countErrors new = 1 := by
  obtain ⟨notes, e, c⟩ := explain_no_ret_eq type expected (tc.error loc fmt args)
  refine ⟨⟨.error, some loc, fmt, args⟩ :: notes, ?_, ?_⟩
  · rw [e]
    simp [error_eq]
  · simp only [countErrors, List.countP_cons] at c ⊢
    rw [c]
    rfl

theorem TypeChecker.expect_msg_rejects (loc : Loc) (msg : String) (expected : Ty)
    (tc : TypeChecker) : tc.Rejects expected (tc.expect_msg loc msg expected) := by
  refine ⟨rfl, ?_⟩
  unfold expect_msg should_emit_error
  cases hc : contains expected .type_error with
  | true => exact ⟨[], by simp, by simp [countErrors]⟩
  | false =>
    obtain ⟨new, e, c⟩ := error_explain loc "expected type '{}', but got {}"
      [expected.format, msg] none expected tc
    exact ⟨new, by simp only [Bool.not_false, if_true, e]; simp, by simpa using c⟩

theorem TypeChecker.expect_msg_type_rejects (w : World) (loc : Loc) (msg : String)
    (type expected : Ty) (tc : TypeChecker) (hj : w.join type expected = none)
    (ht : contains type .type_error = false) :
    tc.Rejects expected (tc.expect_msg_type w loc msg type expected) := by
  unfold expect_msg_type
  rw [hj]
  refine ⟨rfl, ?_⟩
  simp only [should_emit_error, ht, Bool.not_false, Bool.true_and]
  cases hc : contains expected .type_error with
  | true => exact ⟨[], by simp, by simp [countErrors]⟩
  | false =>
    obtain ⟨new, e, c⟩ := error_explain loc "expected type '{}', but got {} with type '{}'"
      [expected.format, msg, type.format] (some type) expected tc
    exact ⟨new, by simp only [Bool.not_false, if_true, e]; simp, by simpa using c⟩

/-- C15: `TypeChecker::infer(const Loc&, const Literal&)` returns `i32` for an integer
literal, `f64` for a floating-point literal, `bool` for a boolean literal, `u8` for a
character literal and the unsized array of `u8` for a string literal, and the checker
it was called on: nothing is reported. -/
theorem infer_literal_types (loc : Loc) (tc : TypeChecker) :
    (∀ value, tc.infer_literal loc (.integer value) = (.type_sint 32, tc)) ∧
    (∀ bits, tc.infer_literal loc (.double bits) = (.type_real 64, tc)) ∧
    (∀ value, tc.infer_literal loc (.bool value) = (.type_bool, tc)) ∧
    (∀ value, tc.infer_literal loc (.char value) = (.type_uint 8, tc)) ∧
    (∀ value, tc.infer_literal loc (.string value) =
      (Ty.variadic_unsafe (.type_uint 8), tc)) :=
  ⟨fun _ => rfl, fun _ => rfl, fun _ => rfl, fun _ => rfl, fun _ => rfl⟩

/-- C16: `TypeChecker::check(const Loc&, const Literal&, const Type*)` against the
type `expected`. When `expected` is `no_ret` the result is that of `infer`, and the
checker is unchanged. Otherwise an integer literal is accepted, with result
`expected` and nothing reported, exactly when `expected` is a signed-integer,
unsigned-integer or floating-point type; a floating-point literal exactly when
`expected` is a floating-point type; a bool, char or string literal exactly when its
synthesized type has a join with `expected`, which is then the result. A rejected
literal gives the error type, with one error unless `expected` contains the error
type. -/
theorem check_literal_cases (w : World) (loc : Loc) (lit : Literal) (expected : Ty)
    (tc : TypeChecker) :
    (is_no_ret_type expected = true →
      tc.check_literal w loc lit expected = ((tc.infer_literal loc lit).1, tc)) ∧
    (is_no_ret_type expected = false →
      (lit.is_integer = true →
        ((is_sint_type expected || is_uint_type expected || is_real_type expected) = true →
          tc.check_literal w loc lit expected = (expected, tc)) ∧
        ((is_sint_type expected || is_uint_type expected || is_real_type expected) = false →
          tc.Rejects expected (tc.check_literal w loc lit expected))) ∧
      (lit.is_double = true →
        (is_real_type expected = true →
          tc.check_literal w loc lit expected = (expected, tc)) ∧
        (is_real_type expected = false →
          tc.Rejects expected (tc.check_literal w loc lit expected))) ∧
      (lit.is_integer = false → lit.is_double = false →
        (∀ best, w.join (tc.infer_literal loc lit).1 expected = some best →
          tc.check_literal w loc lit expected = (best, tc)) ∧
        (w.join (tc.infer_literal loc lit).1 expected = none →
          tc.Rejects expected (tc.check_literal w loc lit expected)))) := by
  constructor
  · intro h
    simp only [check_literal, h, if_true]
    cases lit <;> rfl
  · intro h
    refine ⟨?_, ?_, ?_⟩
    · intro hl
      cases lit <;> simp [Literal.is_integer] at hl
      constructor
      · intro he
        simp only [Bool.or_eq_true] at he
        simp only [check_literal, h, Literal.is_integer]
        rcases he with (he | he) | he <;> simp [he]
      · intro he
        simp only [Bool.or_eq_false_iff] at he
        simp only [check_literal, h, Literal.is_integer, he.1.1, he.1.2, he.2]
        exact expect_msg_rejects _ _ _ _
    · intro hl
      cases lit <;> simp [Literal.is_double] at hl
      constructor
      · intro he
        simp [check_literal, h, Literal.is_integer, Literal.is_double, he]
      · intro he
        simp only [check_literal, h, Literal.is_integer, Literal.is_double, he]
        exact expect_msg_rejects _ _ _ _
    · intro h1 h2
      cases lit with
      | integer v => simp [Literal.is_integer] at h1
      | double v => simp [Literal.is_double] at h2
      | bool v =>
        constructor
        · intro best hj
          have hj' : w.join .type_bool expected = some best := hj
          simp [check_literal, h, Literal.is_integer, Literal.is_double, Literal.is_bool,
            expect_msg_type, hj']
        · intro hj
          have hj' : w.join .type_bool expected = none := hj
          simp only [check_literal, h, Literal.is_integer, Literal.is_double,
            Literal.is_bool]
          exact expect_msg_type_rejects w loc _ _ _ tc hj' (by decide)
      | char v =>
        constructor
        · intro best hj
          have hj' : w.join (.type_uint 8) expected = some best := hj
          simp [check_literal, h, Literal.is_integer, Literal.is_double, Literal.is_bool,
            Literal.is_char, expect_msg_type, hj']
        · intro hj
          have hj' : w.join (.type_uint 8) expected = none := hj
          simp only [check_literal, h, Literal.is_integer, Literal.is_double,
            Literal.is_bool, Literal.is_char]
          exact expect_msg_type_rejects w loc _ _ _ tc hj' (by decide)
      | string v =>
        constructor
        · intro best hj
          have hj' : w.join (Ty.variadic_unsafe (.type_uint 8)) expected = some best := hj
          simp [check_literal, h, Literal.is_integer, Literal.is_double, Literal.is_bool,
            Literal.is_char, Literal.is_string, expect_msg_type, hj']
        · intro hj
          have hj' : w.join (Ty.variadic_unsafe (.type_uint 8)) expected = none := hj
          simp only [check_literal, h, Literal.is_integer, Literal.is_double,
            Literal.is_bool, Literal.is_char, Literal.is_string]
          exact expect_msg_type_rejects w loc _ _ _ tc hj' (by decide)

/-- C17 on concrete calls, the callee being a node whose type is known. A function
from `bool` to `i32` applied to `true` has type `i32` and nothing is reported; an
array of `bool` indexed by `1` has type `bool`; indexed by `true` it has the error
type and one error is reported; and a call whose callee has type `bool` has the error
type and one error is reported. -/
theorem infer_call_examples :
    ((emptyChecker.infer_call (typedNode 1 (.pi .type_bool (.type_sint 32))) (litTrue 2)).1 =
        .type_sint 32 ∧
      (emptyChecker.infer_call (typedNode 1 (.pi .type_bool (.type_sint 32)))
        (litTrue 2)).2.error_count = 0) ∧
    ((emptyChecker.infer_call (typedNode 1 (Ty.variadic_unsafe .type_bool)) (litOne 2)).1 =
        .type_bool ∧
      (emptyChecker.infer_call (typedNode 1 (Ty.variadic_unsafe .type_bool))
        (litOne 2)).2.error_count = 0) ∧
    ((emptyChecker.infer_call (typedNode 1 (Ty.variadic_unsafe .type_bool)) (litTrue 2)).1 =
        .type_error ∧
      (emptyChecker.infer_call (typedNode 1 (Ty.variadic_unsafe .type_bool))
        (litTrue 2)).2.error_count = 1) ∧
    ((emptyChecker.infer_call (typedNode 1 .type_bool) (litTrue 2)).1 = .type_error ∧
      (emptyChecker.infer_call (typedNode 1 .type_bool) (litTrue 2)).2.error_count = 1) := by
  decide

theorem TypeChecker.check_args_eq_foldl (args : List NodeObj) (ops : List Ty)
    (tc : TypeChecker) :
    check_args args ops tc = (args.zip ops).foldl (fun tc p => (tc.check p.1 p.2).2) tc := by
  induction args generalizing ops tc with
  | nil => cases ops <;> rfl
  | cons a as ih =>
    cases ops with
    | nil => rfl
    | cons o os => simp only [check_args, List.zip_cons_cons, List.foldl_cons, ih]

theorem TypeChecker.infer_args_getElem? (args : List NodeObj) (tc : TypeChecker) (i : Nat)
    (arg : NodeObj) (h : args[i]? = some arg) :
    (infer_args args tc).1[i]? = some ((infer_args (args.take i) tc).2.infer arg).1 := by
  induction args generalizing tc i with
  | nil => simp at h
  | cons a as ih =>
    cases i with
    | zero =>
      simp only [List.getElem?_cons_zero, Option.some.injEq] at h
      subst h
      simp [infer_args]
    | succ i =>
      simp only [List.getElem?_cons_succ] at h
      simp only [infer_args, List.getElem?_cons_succ, List.take_succ_cons]
      exact ih _ i h

theorem TypeChecker.infer_args_length (args : List NodeObj) (tc : TypeChecker) :
    (infer_args args tc).1.length = args.length := by
  induction args generalizing tc with
  | nil => rfl
  | cons a as ih => simp [infer_args, ih]

/-- C18: `TypeChecker::check_tuple` on `n` components against the type `expected`. If
`expected` is a tuple type of another arity, the result is the error type and the
checker has only reported the arity mismatch: one diagnostic, and no type slot
written. If it is a tuple type of arity `n`, the result is `expected` and the
components have been checked in order, each against the component of `expected` at
its index. If it is not a tuple type, the result is the error type.
`TypeChecker::infer_tuple` returns the tuple type of the types inferred for the
components, in order, each from the checker that the components before it leave. -/
theorem check_tuple_cases (loc : Loc) (msg : String) (args : List NodeObj) (expected : Ty)
    (tc : TypeChecker) :
    (∀ ops, expected = .sigma ops → args.length ≠ ops.length →
      tc.check_tuple loc msg args expected =
          (.type_error,
            tc.error loc "expected {} argument(s) in {}, but got {}"
              [toString ops.length, msg, toString args.length]) ∧
        (tc.check_tuple loc msg args expected).2.diags.length = tc.diags.length + 1 ∧
        (tc.check_tuple loc msg args expected).2.error_count = tc.error_count + 1 ∧
        (tc.check_tuple loc msg args expected).2.types = tc.types) ∧
    (∀ ops, expected = .sigma ops → args.length = ops.length →
      tc.check_tuple loc msg args expected =
        (expected, (args.zip ops).foldl (fun tc p => (tc.check p.1 p.2).2) tc)) ∧
    ((∀ ops, expected ≠ .sigma ops) →
      tc.check_tuple loc msg args expected = tc.expect_msg loc msg expected ∧
      (tc.check_tuple loc msg args expected).1 = .type_error) ∧
    ((tc.infer_tuple args).1 = .sigma (infer_args args tc).1 ∧
      (infer_args args tc).1.length = args.length ∧
      ∀ (i : Nat) (arg : NodeObj), args[i]? = some arg →
        (infer_args args tc).1[i]? = some ((infer_args (args.take i) tc).2.infer arg).1) := by
  refine ⟨?_, ?_, ?_, rfl, infer_args_length args tc, infer_args_getElem? args tc⟩
  · intro ops he hn
    subst he
    have : tc.check_tuple loc msg args (.sigma ops) =
        (.type_error,
          tc.error loc "expected {} argument(s) in {}, but got {}"
            [toString ops.length, msg, toString args.length]) := by
      simp [check_tuple, hn]
    rw [this]
    exact ⟨rfl, by simp, rfl, rfl⟩
  · intro ops he hn
    subst he
    simp [check_tuple, hn, check_args_eq_foldl]
  · intro h
    have : tc.check_tuple loc msg args expected = tc.expect_msg loc msg expected := by
      cases expected <;> first
        | exact absurd rfl (h _)
        | rfl
    rw [this]
    exact ⟨rfl, rfl⟩

/-- C18 on the tuple `(1, true)`: checked against `(i32, bool)` it has that type and
the two components get their types; checked against `(i32, bool, bool)` it has the
error type, one error is reported and no component gets a type; checked against
`bool` it has the error type; inferred, it has the type `(i32, bool)`. -/
theorem check_tuple_examples :
    ((emptyChecker.check_tuple exLoc "tuple expression" [litOne 1, litTrue 2]
        (.sigma [.type_sint 32, .type_bool])).1 = .sigma [.type_sint 32, .type_bool] ∧
      (emptyChecker.check_tuple exLoc "tuple expression" [litOne 1, litTrue 2]
        (.sigma [.type_sint 32, .type_bool])).2.types =
          [(2, .type_bool), (1, .type_sint 32)] ∧
      (emptyChecker.check_tuple exLoc "tuple expression" [litOne 1, litTrue 2]
        (.sigma [.type_sint 32, .type_bool])).2.error_count = 0) ∧
    ((emptyChecker.check_tuple exLoc "tuple expression" [litOne 1, litTrue 2]
        (.sigma [.type_sint 32, .type_bool, .type_bool])).1 = .type_error ∧
      (emptyChecker.check_tuple exLoc "tuple expression" [litOne 1, litTrue 2]
        (.sigma [.type_sint 32, .type_bool, .type_bool])).2.types = [] ∧
      (emptyChecker.check_tuple exLoc "tuple expression" [litOne 1, litTrue 2]
        (.sigma [.type_sint 32, .type_bool, .type_bool])).2.diags.length = 1) ∧
    (emptyChecker.check_tuple exLoc "tuple expression" [litOne 1, litTrue 2]
        .type_bool).1 = .type_error ∧
    (emptyChecker.infer_tuple [litOne 1, litTrue 2]).1 =
      .sigma [.type_sint 32, .type_bool] := by
  decide

theorem TypeChecker.find_member_from_some (name : String) (l : List String) (k i : Nat) :
    find_member_from name l k = some i ↔
      ∃ j, i = k + j ∧ l[j]? = some name ∧ ∀ j', j' < j → l[j']? ≠ some name := by
  induction l generalizing k with
  | nil => simp [find_member_from]
  | cons x xs ih =>
    rw [find_member_from]
    by_cases hx : name = x
    · subst hx
      simp only [beq_self_eq_true, if_true, Option.some.injEq]
      constructor
      · intro h
        exact ⟨0, by omega, by simp, fun j' hj' => absurd hj' (Nat.not_lt_zero _)⟩
      · rintro ⟨j, hj, -, hfirst⟩
        cases j with
        | zero => omega
        | succ j => exact absurd (by simp) (hfirst 0 (Nat.succ_pos _))
    · have hne : (name == x) = false := by simpa using hx
      rw [hne]
      simp only [Bool.false_eq_true, if_false, ih]
      constructor
      · rintro ⟨j, hj, hn, hfirst⟩
        refine ⟨j + 1, by omega, by simpa using hn, ?_⟩
        intro j' hj'
        cases j' with
        | zero =>
          simp only [List.getElem?_cons_zero, ne_eq, Option.some.injEq]
          exact fun h => hx h.symm
        | succ j' => simpa using hfirst j' (by omega)
      · rintro ⟨j, hj, hn, hfirst⟩
        cases j with
        | zero =>
          simp only [List.getElem?_cons_zero, Option.some.injEq] at hn
          exact absurd hn.symm hx
        | succ j =>
          refine ⟨j, by omega, by simpa using hn, ?_⟩
          intro j' hj'
          simpa using hfirst (j' + 1) (by omega)

theorem TypeChecker.find_member_from_none (name : String) (l : List String) (k : Nat) :
    find_member_from name l k = none ↔ name ∉ l := by
  induction l generalizing k with
  | nil => simp [find_member_from]
  | cons x xs ih =>
    rw [find_member_from]
    by_cases hx : name = x
    · subst hx
      simp
    · have hne : (name == x) = false := by simpa using hx
      rw [hne]
      simp [ih, hx]

theorem TypeChecker.find_member_some (type : Ty) (member : String) (i : Nat) :
    find_member type member = some i ↔
      type.meta[i]? = some member ∧ ∀ j, j < i → type.meta[j]? ≠ some member := by
  rw [find_member, find_member_from_some]
  constructor
  · rintro ⟨j, hj, h1, h2⟩
    have : i = j := by omega
    subst this
    exact ⟨h1, h2⟩
  · rintro ⟨h1, h2⟩
    exact ⟨i, by omega, h1, h2⟩

theorem TypeChecker.find_member_lt (type : Ty) (member : String) (i : Nat)
    (h : find_member type member = some i) : i < type.meta.length := by
  have := ((find_member_some type member i).1 h).1
  by_contra hc
  rw [List.getElem?_eq_none (Nat.le_of_not_lt hc)] at this
  cases this

theorem TypeChecker.check_fields_loop_append (w : World) (loc : Loc) (struct_type : Ty)
    (app : Option Ty) (pre rest : List FieldObj) (seen : List Bool) (tc : TypeChecker) :
    check_fields_loop w loc struct_type app (pre ++ rest) seen tc =
      match check_fields_loop w loc struct_type app pre seen tc with
      | (some seen1, tc1) => check_fields_loop w loc struct_type app rest seen1 tc1
      | (none, tc1) => (none, tc1) := by
  induction pre generalizing seen tc with
  | nil => rfl
  | cons f fs ih =>
    simp only [List.cons_append, check_fields_loop]
    split
    · exact ih _ _
    · split
      · rfl
      · split
        · rfl
        · exact ih _ _

theorem namedMembers_cons_etc (struct_type : Ty) (f : FieldObj) (fs : List FieldObj)
    (h : f.is_etc = true) : namedMembers struct_type (f :: fs) = namedMembers struct_type fs := by
  simp [namedMembers, List.filter_cons, h]

theorem namedMembers_cons (struct_type : Ty) (f : FieldObj) (fs : List FieldObj)
    (h : f.is_etc = false) :
    namedMembers struct_type (f :: fs) =
      find_member struct_type f.id.name :: namedMembers struct_type fs := by
  simp [namedMembers, List.filter_cons, h]

theorem getD_set_true (seen : List Bool) (index i : Nat) (h : index < seen.length) :
    (seen.set index true).getD i false = (seen.getD i false || decide (i = index)) := by
  simp only [List.getD_eq_getElem?_getD, List.getElem?_set]
  by_cases hi : index = i
  · subst hi
    simp [h]
  · have : ¬ i = index := fun e => hi e.symm
    simp [hi, this]

/-- When no field is unknown or duplicated, and no field names a member that the
array `seen` marks, the first loop of `check_fields` runs to its end: the checker is
the one that checking every field leaves, and the array marks one more member for
each field. -/
theorem TypeChecker.check_fields_loop_ok (w : World) (loc : Loc) (struct_type : Ty)
    (app : Option Ty) (fields : List FieldObj) (seen : List Bool) (tc : TypeChecker)
    (hlen : seen.length = struct_type.meta.length)
    (h1 : none ∉ namedMembers struct_type fields)
    (h2 : (namedMembers struct_type fields).Nodup)
    (h3 : ∀ i, seen.getD i false = true → some i ∉ namedMembers struct_type fields) :
    ∃ seen1, check_fields_loop w loc struct_type app fields seen tc =
        (some seen1, tc.check_each w struct_type app fields) ∧
      seen1.length = seen.length ∧
      ∀ i, seen1.getD i false =
        (seen.getD i false || (namedMembers struct_type fields).contains (some i)) := by
  induction fields generalizing seen tc with
  | nil => exact ⟨seen, rfl, rfl, by simp [namedMembers]⟩
  | cons f fs ih =>
    cases he : f.is_etc with
    | true =>
      rw [namedMembers_cons_etc _ _ _ he] at h1 h2 h3 ⊢
      obtain ⟨s1, e1, l1, g1⟩ := ih seen tc hlen h1 h2 h3
      refine ⟨s1, ?_, l1, g1⟩
      simp only [check_fields_loop, he, if_true, e1]
      simp [check_each, List.filter_cons, he]
    | false =>
      rw [namedMembers_cons _ _ _ he] at h1 h2 h3 ⊢
      cases hf : find_member struct_type f.id.name with
      | none => exact absurd (by rw [hf]; exact List.mem_cons_self _ _) h1
      | some index =>
        rw [hf] at h1 h2 h3
        have hlt : index < seen.length := by
          rw [hlen]
          exact find_member_lt _ _ _ hf
        have hs : seen.getD index false = false := by
          cases hb : seen.getD index false with
          | false => rfl
          | true => exact absurd (List.mem_cons_self _ _) (h3 index hb)
        have h2' := List.nodup_cons.1 h2
        obtain ⟨s1, e1, l1, g1⟩ := ih (seen.set index true)
          (tc.check f.node (tc.field_type w struct_type app index)).2
          (by rw [List.length_set]; exact hlen)
          (fun h => h1 (List.mem_cons_of_mem _ h)) h2'.2
          (by
            intro i hi
            rw [getD_set_true seen index i hlt] at hi
            simp only [Bool.or_eq_true, decide_eq_true_eq] at hi
            rcases hi with hi | hi
            · exact fun h => h3 i hi (List.mem_cons_of_mem _ h)
            · rw [hi]
              exact h2'.1)
        refine ⟨s1, ?_, by rw [l1, List.length_set], ?_⟩
        · simp only [check_fields_loop, he, hf, hs, Bool.false_eq_true, if_false]
          refine Eq.trans e1 ?_
          simp [check_each, List.filter_cons, he, hf]
        · intro i
          rw [g1 i, getD_set_true seen index i hlt]
          by_cases hi : i = index
          · simp [hi]
          · have : (some i == some index) = false := by simpa using hi
            simp [hi, this, List.contains_cons]

theorem TypeChecker.report_missing_eq (loc : Loc) (msg : String) (names : List String)
    (seen : List Bool) (tc : TypeChecker) :
    report_missing loc msg names seen tc =
      { tc with
        error_count := tc.error_count + ((names.zip seen).filter (fun p => !p.2)).length
        diags := tc.diags ++ ((names.zip seen).filter (fun p => !p.2)).map
          (fun p => ⟨.error, some loc, "missing field '{}' in structure {}", [p.1, msg]⟩) } := by
  induction names generalizing seen tc with
  | nil => simp [report_missing]
  | cons name names ih =>
    cases seen with
    | nil => simp [report_missing]
    | cons b seen =>
      rw [report_missing, ih]
      cases b with
      | true => simp [List.filter_cons]
      | false =>
        simp [List.filter_cons, TypeChecker.error, TypeChecker.report, Nat.add_assoc,
          Nat.add_comm 1]

theorem zip_eq_map_range (a : List String) (b : List Bool) (n : Nat) (ha : a.length = n)
    (hb : b.length = n) :
    a.zip b = (List.range n).map (fun i => (a.getD i "", b.getD i false)) := by
  induction a generalizing b n with
  | nil =>
    simp only [List.length_nil] at ha
    subst ha
    simp
  | cons x xs ih =>
    cases b with
    | nil =>
      simp only [List.length_nil] at hb
      subst hb
      simp at ha
    | cons y ys =>
      cases n with
      | zero => simp at ha
      | succ m =>
        simp only [List.length_cons, Nat.add_right_cancel_iff] at ha hb
        rw [List.zip_cons_cons, ih ys m ha hb, List.range_succ_eq_map]
        simp [Function.comp_def]

theorem all_true_of_filter_nil (l : List (String × Bool))
    (h : l.filter (fun p => !p.2) = []) : (l.map Prod.snd).all (fun b => b) = true := by
  simp only [List.filter_eq_nil_iff, Bool.not_eq_true', Bool.not_eq_false] at h
  simp only [List.all_eq_true, List.mem_map]
  rintro b ⟨p, hp, rfl⟩
  exact h p hp

/-- The second part of `check_fields`, after a first loop that has marked in `seen`
the members that the fields name: without `...` one error is added for each member
that no field names, in the order of the members, and with `...` nothing is. -/
theorem TypeChecker.check_fields_tail (loc : Loc) (msg : String) (struct_type : Ty)
    (fields : List FieldObj) (etc : Bool) (seen : List Bool) (tc : TypeChecker)
    (hlen : seen.length = struct_type.meta.length)
    (hs : ∀ i, seen.getD i false = (namedMembers struct_type fields).contains (some i)) :
    (if !etc && !seen.all (fun b => b) then report_missing loc msg struct_type.meta seen tc
      else tc) =
      if etc then tc
      else
        { tc with
          error_count := tc.error_count + (missingMembers struct_type fields).length
          diags := tc.diags ++
            (missingMembers struct_type fields).map (missingDiag loc msg struct_type) } := by
  have hz := zip_eq_map_range struct_type.meta seen _ rfl hlen
  have hm : (struct_type.meta.zip seen).filter (fun p => !p.2) =
      (missingMembers struct_type fields).map
        (fun i => (struct_type.meta.getD i "", seen.getD i false)) := by
    rw [hz, List.filter_map, missingMembers]
    congr 1
    apply List.filter_congr
    intro i _
    have := hs i
    simp only [Function.comp_apply, this]
  cases etc with
  | true => simp
  | false =>
    simp only [Bool.not_false, Bool.true_and, Bool.false_eq_true, if_false]
    by_cases ha : seen.all (fun b => b) = true
    · have hnil : (struct_type.meta.zip seen).filter (fun p => !p.2) = [] := by
        rw [List.filter_eq_nil_iff]
        intro p hp
        have := (List.of_mem_zip hp).2
        simp only [List.all_eq_true] at ha
        simp [ha p.2 this]
      rw [hnil] at hm
      have hmm : missingMembers struct_type fields = [] := by
        cases h : missingMembers struct_type fields with
        | nil => rfl
        | cons a as => rw [h] at hm; simp at hm
      simp [ha, hmm]
    · simp only [ha, Bool.not_false, if_true]
      rw [report_missing_eq, hm]
      simp [missingDiag, Function.comp_def]

theorem TypeChecker.check_fields_loop_init (w : World) (loc : Loc) (struct_type : Ty)
    (app : Option Ty) (fields : List FieldObj) (tc : TypeChecker)
    (hok : FieldsOk struct_type fields) :
    ∃ seen, check_fields_loop w loc struct_type app fields
        (List.replicate struct_type.meta.length false) tc =
        (some seen, tc.check_each w struct_type app fields) ∧
      seen.length = struct_type.meta.length ∧
      ∀ i, seen.getD i false = (namedMembers struct_type fields).contains (some i) := by
  have hrep : ∀ i, (List.replicate struct_type.meta.length false).getD i false = false := by
    intro i
    simp only [List.getD_eq_getElem?_getD, List.getElem?_replicate]
    split <;> rfl
  obtain ⟨seen, e, l, g⟩ := check_fields_loop_ok w loc struct_type app fields
    (List.replicate struct_type.meta.length false) tc (by simp) hok.1 hok.2
    (by intro i hi; rw [hrep i] at hi; cases hi)
  refine ⟨seen, e, by rw [l]; simp, ?_⟩
  intro i
  rw [g i, hrep i, Bool.false_or]

/-- C19: `check_fields` on the fields `pre ++ f :: post`, where no field of `pre` is
unknown or duplicated and `f` is not `...`. If the name of `f` is not a member of the
struct type, the result is the error type and the checker is the one that checking
the fields of `pre` in order leaves (the entries `...` skipped), with the one error
`no field` at `f` added; if `f` names a member that a field of `pre` names, the same
holds with the one error `specified more than once`. In both cases the result does
not depend on `post`: no later field is checked. `find_member` returns the least
index at which `meta` holds the name, and nothing when `meta` does not hold it. -/
theorem check_fields_first_error (w : World) (loc : Loc) (struct_type : Ty)
    (app : Option Ty) (pre post : List FieldObj) (f : FieldObj) (etc : Bool) (msg : String)
    (tc : TypeChecker) (hpre : FieldsOk struct_type pre) (hf : f.is_etc = false) :
    (find_member struct_type f.id.name = none →
      tc.check_fields w loc struct_type app (pre ++ f :: post) etc msg =
        (.type_error,
          (tc.check_each w struct_type app pre).error f.node.loc "no field '{}' in '{}'"
            [f.id.name, struct_type.format])) ∧
    (∀ i, find_member struct_type f.id.name = some i →
      some i ∈ namedMembers struct_type pre →
      tc.check_fields w loc struct_type app (pre ++ f :: post) etc msg =
        (.type_error,
          (tc.check_each w struct_type app pre).error loc
            "field '{}' specified more than once" [f.id.name])) ∧
    (∀ (member : String) (i : Nat),
      find_member struct_type member = some i ↔
        struct_type.meta[i]? = some member ∧
          ∀ j, j < i → struct_type.meta[j]? ≠ some member) ∧
    (∀ (member : String),
      find_member struct_type member = none ↔ member ∉ struct_type.meta) := by
  obtain ⟨seen, e, -, g⟩ := check_fields_loop_init w loc struct_type app pre tc hpre
  refine ⟨?_, ?_, find_member_some struct_type, fun member => find_member_from_none member _ 0⟩
  · intro hn
    simp only [check_fields, check_fields_loop_append, e, check_fields_loop, hf, hn,
      unknown_member]
    rfl
  · intro i hi hmem
    have hs : seen.getD i false = true := by
      rw [g i]
      simpa using hmem
    simp only [check_fields, check_fields_loop_append, e, check_fields_loop, hf, hi, hs]
    rfl

/-- C19 on `struct S { x, y }`: the record `S { x = 1, z = 1, y = 1 }` has the error
type, and what is reported is the one error `no field` for `z`, after `x` has been
checked and before `y` is; the record `S { x = 1, x = 1 }` has the error type, with
the one error `specified more than once`. -/
theorem check_fields_first_error_witness :
    (checkerS.check_fields exWorld exLoc structS none
        ([fieldOne 1 "x"] ++ fieldOne 2 "z" :: [fieldOne 3 "y"]) false "expression" =
      (.type_error,
        (checkerS.check_each exWorld structS none [fieldOne 1 "x"]).error exLoc
          "no field '{}' in '{}'" ["z", structS.format])) ∧
    (checkerS.check_fields exWorld exLoc structS none
        ([fieldOne 1 "x"] ++ fieldOne 2 "x" :: []) false "expression" =
      (.type_error,
        (checkerS.check_each exWorld structS none [fieldOne 1 "x"]).error exLoc
          "field '{}' specified more than once" ["x"])) ∧
    (checkerS.check_each exWorld structS none [fieldOne 1 "x"]).error_count = 0 ∧
    (checkerS.check_each exWorld structS none [fieldOne 1 "x"]).types =
      [(1, .type_sint 32), (101, .type_sint 32)] :=
  ⟨(check_fields_first_error exWorld exLoc structS none [fieldOne 1 "x"] [fieldOne 3 "y"]
      (fieldOne 2 "z") false "expression" checkerS (by decide) rfl).1 (by decide),
    (check_fields_first_error exWorld exLoc structS none [fieldOne 1 "x"] []
      (fieldOne 2 "x") false "expression" checkerS (by decide) rfl).2.1 0 (by decide)
      (by decide),
    by decide, by decide⟩

theorem mem_namedMembers (struct_type : Ty) (fields : List FieldObj) (i : Nat) :
    some i ∈ namedMembers struct_type fields ↔
      ∃ f ∈ fields, f.is_etc = false ∧ find_member struct_type f.id.name = some i := by
  simp only [namedMembers, List.mem_map, List.mem_filter, Bool.not_eq_true']
  constructor
  · rintro ⟨f, ⟨h1, h2⟩, h3⟩
    exact ⟨f, h1, h2, h3⟩
  · rintro ⟨f, h1, h2, h3⟩
    exact ⟨f, ⟨h1, h2⟩, h3⟩

theorem TypeChecker.find_member_of_nodup (struct_type : Ty) (i : Nat) (name member : String)
    (hn : struct_type.meta.Nodup) (hi : struct_type.meta[i]? = some name) :
    find_member struct_type member = some i ↔ member = name := by
  rw [find_member_some]
  constructor
  · rintro ⟨h, -⟩
    rw [hi] at h
    exact (Option.some.inj h).symm
  · rintro rfl
    refine ⟨hi, ?_⟩
    intro j hj hjm
    have hlt : i < struct_type.meta.length := by
      by_contra hc
      rw [List.getElem?_eq_none (Nat.le_of_not_lt hc)] at hi
      cases hi
    exact (List.nodup_iff_getElem?_ne_getElem?.1 hn j i hj hlt) (hjm.trans hi.symm)

/-- C20: `check_fields` on a record of which no field is unknown or duplicated. The
result is the struct type (the applied type when there is one). The checker is the
one that checking the fields in order leaves, and then: when `etc` is set, for a
pattern with `...`, nothing more; when it is not set, for an expression or a pattern
without `...`, one `missing field` error for each member of the struct type that no
field names, in the order of the members, and so none when every member is named. A
field names the member that `find_member` finds for its name, which for a struct type
whose member names differ from each other is the member of that name.
`StructExpr::infer` calls `check_fields` without `etc`, and `StructPtrn::infer` with
`etc` set when the pattern has `...`. -/
theorem check_fields_missing (w : World) (loc : Loc) (struct_type : Ty) (app : Option Ty)
    (fields : List FieldObj) (etc : Bool) (msg : String) (tc : TypeChecker)
    (hok : FieldsOk struct_type fields) :
    tc.check_fields w loc struct_type app fields etc msg =
      (app.getD struct_type,
        if etc then tc.check_each w struct_type app fields
        else
          { tc.check_each w struct_type app fields with
            error_count := (tc.check_each w struct_type app fields).error_count +
              (missingMembers struct_type fields).length
            diags := (tc.check_each w struct_type app fields).diags ++
              (missingMembers struct_type fields).map (missingDiag loc msg struct_type) }) ∧
    (missingMembers struct_type fields).Nodup ∧
    (∀ i, i ∈ missingMembers struct_type fields ↔
      i < struct_type.meta.length ∧
        ¬ ∃ f ∈ fields, f.is_etc = false ∧ find_member struct_type f.id.name = some i) ∧
    (struct_type.meta.Nodup →
      ∀ (i : Nat) (name : String), struct_type.meta[i]? = some name →
        (i ∈ missingMembers struct_type fields ↔
          ¬ ∃ f ∈ fields, f.is_etc = false ∧ f.id.name = name)) ∧
    (∀ (expr : NodeObj), is_struct_type (tc.infer expr).1.callee_of = true →
      StructExpr.infer w loc expr fields tc =
        (tc.infer expr).2.check_fields w loc (tc.infer expr).1.callee_of
          (tc.infer expr).1.isa_app fields false "expression") ∧
    (∀ (path : NodeObj), is_struct_type (tc.infer path).1.callee_of = true →
      StructPtrn.infer w loc path fields tc =
        (tc.infer path).2.check_fields w loc (tc.infer path).1.callee_of
          (tc.infer path).1.isa_app fields (fields.any (fun field => field.is_etc))
          "pattern") := by
  obtain ⟨seen, e, l, g⟩ := check_fields_loop_init w loc struct_type app fields tc hok
  have hmem : ∀ i, i ∈ missingMembers struct_type fields ↔
      i < struct_type.meta.length ∧
        ¬ ∃ f ∈ fields, f.is_etc = false ∧ find_member struct_type f.id.name = some i := by
    intro i
    rw [← mem_namedMembers]
    simp [missingMembers]
  refine ⟨?_, ?_, hmem, ?_, ?_, ?_⟩
  · simp only [check_fields, e]
    rw [check_fields_tail loc msg struct_type fields etc seen _ l g]
  · exact List.Nodup.filter _ (List.nodup_range _)
  · intro hn i name hi
    rw [hmem i]
    have hlt : i < struct_type.meta.length := by
      by_contra hc
      rw [List.getElem?_eq_none (Nat.le_of_not_lt hc)] at hi
      cases hi
    simp only [hlt, true_and, find_member_of_nodup struct_type i name _ hn hi]
  · intro expr h
    simp [StructExpr.infer, h]
  · intro path h
    simp [StructPtrn.infer, h, has_etc]

/-- C20 on `struct S { x, y }`, whose members have the type `i32`. The expression
`S { x = 1 }` reports one error, for the member `y`; `S { y = 1, x = 1 }` reports
nothing; and for the pattern `S { x = 1, ... }`, which is checked with `etc` set,
nothing is reported although `y` is not named. -/
theorem check_fields_missing_witness :
    FieldsOk structS [fieldOne 1 "x"] ∧
    (checkerS.check_fields exWorld exLoc structS none [fieldOne 1 "x"] false
        "expression").1 = structS ∧
    (checkerS.check_fields exWorld exLoc structS none [fieldOne 1 "x"] false
        "expression").2.diags = [missingDiag exLoc "expression" structS 1] ∧
    (checkerS.check_fields exWorld exLoc structS none [fieldOne 1 "x"] false
        "expression").2.error_count = 1 ∧
    (checkerS.check_fields exWorld exLoc structS none [fieldOne 1 "y", fieldOne 2 "x"] false
        "expression").2.diags = [] ∧
    (checkerS.check_fields exWorld exLoc structS none [fieldOne 1 "x", fieldEtc 2] true
        "pattern").2.diags = [] := by
  have h := (check_fields_missing exWorld exLoc structS none [fieldOne 1 "x"] false
    "expression" checkerS (by decide)).1
  refine ⟨by decide, ?_, ?_, ?_, by decide, by decide⟩
  · rw [h]
    rfl
  · rw [h]
    decide
  · rw [h]
    decide

theorem BlockExpr.infer_stmts_append (last : Loc) (pre : List NodeObj) (next : NodeObj)
    (rest : List NodeObj) (tc : TypeChecker)
    (h : ∀ t ∈ (tc.infer_args pre).1, is_no_ret_type t = false) :
    BlockExpr.infer_stmts last (pre ++ next :: rest) tc =
      BlockExpr.infer_stmts last (next :: rest) (tc.infer_args pre).2 := by
  induction pre generalizing tc with
  | nil => rfl
  | cons p pre ih =>
    have hp : is_no_ret_type (tc.infer p).1 = false := h _ (by simp [infer_args])
    have hr : ∀ t ∈ ((tc.infer p).2.infer_args pre).1, is_no_ret_type t = false :=
      fun t ht => h t (by simp [infer_args, ht])
    cases hq : pre ++ next :: rest with
    | nil => simp at hq
    | cons q qs =>
      rw [List.cons_append, hq, BlockExpr.infer_stmts]
      simp only [hp, Bool.false_eq_true, if_false]
      rw [← hq, ih _ hr]
      rfl

theorem BlockExpr.infer_stmts_last (last : Loc) (init : List NodeObj) (back : NodeObj)
    (tc : TypeChecker) (h : ∀ t ∈ (tc.infer_args init).1, is_no_ret_type t = false) :
    BlockExpr.infer_stmts last (init ++ [back]) tc = (false, (tc.infer_args init).2) := by
  rw [BlockExpr.infer_stmts_append last init back [] tc h]
  rfl

theorem BlockExpr.infer_stmts_no_ret (last : Loc) (pre : List NodeObj) (stmt next : NodeObj)
    (post : List NodeObj) (tc : TypeChecker)
    (h : ∀ t ∈ (tc.infer_args pre).1, is_no_ret_type t = false)
    (hs : is_no_ret_type ((tc.infer_args pre).2.infer stmt).1 = true) :
    BlockExpr.infer_stmts last (pre ++ stmt :: next :: post) tc =
      (true,
        ((((tc.infer_args pre).2.infer stmt).2.error (Loc.concat next.loc last)
          "unreachable code" []).note (some stmt.loc) "after this statement" [])) := by
  rw [BlockExpr.infer_stmts_append last pre stmt (next :: post) tc h, BlockExpr.infer_stmts]
  simp only [hs, if_true, unreachable_code]

theorem getLast?_append_cons (pre : List NodeObj) (stmt : NodeObj) (post : List NodeObj) :
    (pre ++ stmt :: post).getLast? = some ((stmt :: post).getLast (List.cons_ne_nil _ _)) := by
  rw [List.getLast?_append_of_ne_nil _ (List.cons_ne_nil _ _),
    List.getLast?_eq_getLast _ (List.cons_ne_nil _ _)]

/-- C27: `BlockExpr::infer`. An empty block has the unit type and nothing happens.
For a block made of the statements `init` and then the last statement `back`, when
none of the types inferred for the statements of `init`, in order, is `no_ret`: the
last statement is inferred after them, and the type of the block is the unit type if
`last_semi` is set, whatever the type of the last statement, and the type of the last
statement if it is not. -/
theorem block_infer_type (last_semi : Bool) (tc : TypeChecker) :
    BlockExpr.infer [] last_semi tc = (.sigma [], tc) ∧
    ∀ (init : List NodeObj) (back : NodeObj),
      (∀ t ∈ (tc.infer_args init).1, is_no_ret_type t = false) →
      BlockExpr.infer (init ++ [back]) last_semi tc =
        (if last_semi then .sigma [] else ((tc.infer_args init).2.infer back).1,
          ((tc.infer_args init).2.infer back).2) := by
  refine ⟨rfl, ?_⟩
  intro init back h
  have e : (init ++ [back]).getLast? = some back := by simp
  simp only [BlockExpr.infer, e, BlockExpr.infer_stmts_last back.loc init back tc h]

/-- C27 on the blocks `{ 1; true }`, which has the type `bool`, `{ 1; true; }`, which
has the unit type, and `{ 1; break() }`, whose last statement has the type
`no_ret`, which is the type of the block. Nothing is reported. -/
theorem block_infer_examples :
    (emptyChecker.infer (BlockExpr.obj exWorld 9 exLoc [stmtLit 1 1, stmtTrue 2] false)).1 =
      .type_bool ∧
    (emptyChecker.infer (BlockExpr.obj exWorld 9 exLoc [stmtLit 1 1, stmtTrue 2] true)).1 =
      .sigma [] ∧
    (emptyChecker.infer (BlockExpr.obj exWorld 9 exLoc [stmtLit 1 1, stmtBreak 2] false)).1 =
      .type_no_ret ∧
    (emptyChecker.infer (BlockExpr.obj exWorld 9 exLoc [stmtLit 1 1, stmtBreak 2] false)).2.diags =
      [] := by
  decide

/-- C28: a block in which a statement that is not the last has the type `no_ret`. The
block is `pre ++ stmt :: next :: post`: none of the types inferred for the statements
of `pre`, in order, is `no_ret`, and the type then inferred for `stmt` is `no_ret`.
`BlockExpr::infer` and `BlockExpr::check` return the error type, and the checker is
the one after the inference of `stmt` with two diagnostics added: one error
`unreachable code`, whose location goes from the beginning of `next` to the end of
the last statement of the block, and one note at `stmt`. The statements `next` and
`post` are not visited: of them only locations occur in the result. A block
`init ++ [back]` in which no statement of `init` has the type `no_ret` is left with
what the inference or the check of `back` gives, whatever the type of `back`. -/
theorem block_unreachable_code (w : World) (loc : Loc) (last_semi : Bool)
    (tc : TypeChecker) :
    (∀ (pre : List NodeObj) (stmt next : NodeObj) (post : List NodeObj),
      (∀ t ∈ (tc.infer_args pre).1, is_no_ret_type t = false) →
      is_no_ret_type ((tc.infer_args pre).2.infer stmt).1 = true →
      BlockExpr.infer (pre ++ stmt :: next :: post) last_semi tc =
        (.type_error,
          { ((tc.infer_args pre).2.infer stmt).2 with
            error_count := ((tc.infer_args pre).2.infer stmt).2.error_count + 1
            diags := ((tc.infer_args pre).2.infer stmt).2.diags ++
              [⟨.error,
                  some (Loc.concat next.loc ((next :: post).getLast (List.cons_ne_nil _ _)).loc),
                  "unreachable code", []⟩,
                ⟨.note, some stmt.loc, "after this statement", []⟩] }) ∧
      ∀ expected,
        BlockExpr.check w loc (pre ++ stmt :: next :: post) last_semi expected tc =
          BlockExpr.infer (pre ++ stmt :: next :: post) last_semi tc) ∧
    (∀ (first last : Loc),
      Loc.concat first last = ⟨first.file, first.begin_, last.end_⟩) ∧
    (∀ (init : List NodeObj) (back : NodeObj),
      (∀ t ∈ (tc.infer_args init).1, is_no_ret_type t = false) →
      (BlockExpr.infer (init ++ [back]) last_semi tc).2 =
        ((tc.infer_args init).2.infer back).2 ∧
      ∀ expected,
        BlockExpr.check w loc (init ++ [back]) last_semi expected tc =
          if last_semi then
            ((tc.infer_args init).2.check back (.sigma [])).2.expect_msg_type w loc
              "block expression" ((tc.infer_args init).2.check back (.sigma [])).1 expected
          else (tc.infer_args init).2.check back expected) := by
  refine ⟨?_, fun _ _ => rfl, ?_⟩
  · intro pre stmt next post h hs
    have e := getLast?_append_cons pre stmt (next :: post)
    rw [List.getLast_cons (List.cons_ne_nil _ _)] at e
    have i := BlockExpr.infer_stmts_no_ret
      ((next :: post).getLast (List.cons_ne_nil _ _)).loc pre stmt next post tc h hs
    refine ⟨?_, fun expected => ?_⟩
    · simp only [BlockExpr.infer, e, i, error_eq, note_eq, List.append_assoc,
        List.singleton_append]
    · simp only [BlockExpr.infer, BlockExpr.check, e, i]
  · intro init back h
    have e : (init ++ [back]).getLast? = some back := by simp
    refine ⟨?_, fun expected => ?_⟩
    · simp only [BlockExpr.infer, e, BlockExpr.infer_stmts_last back.loc init back tc h]
    · simp only [BlockExpr.check, e, BlockExpr.infer_stmts_last back.loc init back tc h]

/-- C28 on the block `{ 0; break(); 2; 3 }`, inferred and checked against `i32`: the
result is the error type, and what is reported is the error `unreachable code` from
the beginning of `2` to the end of `3` and the note at `break()`. The statements `2`
and `3` have no type afterwards. On `{ 0; break() }` nothing is reported. -/
theorem block_unreachable_examples :
    (emptyChecker.check
        (BlockExpr.obj exWorld 9 exLoc [stmtLit 0 0, stmtBreak 1, stmtLit 2 2, stmtLit 3 3]
          false) (.type_sint 32)).1 = .type_error ∧
    (emptyChecker.check
        (BlockExpr.obj exWorld 9 exLoc [stmtLit 0 0, stmtBreak 1, stmtLit 2 2, stmtLit 3 3]
          false) (.type_sint 32)).2.diags =
      [⟨.error, some ⟨0, ⟨1, 2⟩, ⟨1, 4⟩⟩, "unreachable code", []⟩,
        ⟨.note, some (locAt 1), "after this statement", []⟩] ∧
    (emptyChecker.infer
        (BlockExpr.obj exWorld 9 exLoc [stmtLit 0 0, stmtBreak 1, stmtLit 2 2, stmtLit 3 3]
          false)).1 = .type_error ∧
    (emptyChecker.infer
        (BlockExpr.obj exWorld 9 exLoc [stmtLit 0 0, stmtBreak 1, stmtLit 2 2, stmtLit 3 3]
          false)).2.diags =
      [⟨.error, some ⟨0, ⟨1, 2⟩, ⟨1, 4⟩⟩, "unreachable code", []⟩,
        ⟨.note, some (locAt 1), "after this statement", []⟩] ∧
    (emptyChecker.infer
        (BlockExpr.obj exWorld 9 exLoc [stmtLit 0 0, stmtBreak 1, stmtLit 2 2, stmtLit 3 3]
          false)).2.type_of 2 = none ∧
    (emptyChecker.infer
        (BlockExpr.obj exWorld 9 exLoc [stmtLit 0 0, stmtBreak 1, stmtLit 2 2, stmtLit 3 3]
          false)).2.type_of 3 = none ∧
    (emptyChecker.check (BlockExpr.obj exWorld 9 exLoc [stmtLit 0 0, stmtBreak 1] false)
      (.type_sint 32)).2.diags = [] := by
  decide

/-- The `check` of `Node`, through the checker: the type is the join of the type
inferred for the node and the expected type, and the error type when they have no
join. -/
theorem TypeChecker.check_of_infer (w : World) (addr : Nat) (loc : Loc)
    (infer : TypeChecker → Ty × TypeChecker) (expected : Ty) (tc : TypeChecker) :
    (tc.check (NodeObj.of_infer w addr loc infer) expected).1 =
      (w.join (tc.infer_at addr infer).1 expected).getD .type_error := by
  simp only [check, NodeObj.of_infer, NodeObj.default_check, expect]
  cases w.join (tc.infer_at addr infer).1 expected <;> rfl

/-- C21: `IfExpr::infer` and `IfExpr::check`. Both check the condition against `bool`
first. `infer` with an `else` branch infers the `then` branch and checks the `else`
branch against its type; for a branch that takes `check` from `Node` the result of a
check is the join of the type of the branch with the expected type, and the error
type when there is none. `infer` without `else` checks the `then` branch against the
unit type. `check` checks the `then` branch against the expected type, and the `else`
branch, if any, against the type obtained. Without `else`, `check` compares nothing
with the unit type: the function `fn f(c: bool) -> i32 { if c { 3 } }`, whose body is
checked against `i32`, has the type `fn bool -> i32` and nothing is reported, while
without the return type, when the body is inferred, the same `if` is an error. -/
theorem if_expr_rules (w : World) (cond if_true : NodeObj) (tc : TypeChecker) :
    (∀ if_false,
      IfExpr.infer cond if_true (some if_false) tc =
        ((tc.check cond .type_bool).2.infer if_true).2.check if_false
          ((tc.check cond .type_bool).2.infer if_true).1) ∧
    IfExpr.infer cond if_true none tc =
      (tc.check cond .type_bool).2.check if_true (.sigma []) ∧
    (∀ expected if_false,
      IfExpr.check cond if_true (some if_false) expected tc =
        ((tc.check cond .type_bool).2.check if_true expected).2.check if_false
          ((tc.check cond .type_bool).2.check if_true expected).1) ∧
    (∀ expected,
      IfExpr.check cond if_true none expected tc =
        (tc.check cond .type_bool).2.check if_true expected) ∧
    (∀ addr loc infer expected (s : TypeChecker),
      (s.check (NodeObj.of_infer w addr loc infer) expected).1 =
        (w.join (s.infer_at addr infer).1 expected).getD .type_error) ∧
    (emptyChecker.infer fnIfNoElse).1 = .pi .type_bool (.type_sint 32) ∧
    (emptyChecker.infer fnIfNoElse).2.diags = [] ∧
    (emptyChecker.infer fnIfNoElse).2.error_count = 0 ∧
    (emptyChecker.infer fnIfNoElseInfer).1 = .pi .type_bool .type_error ∧
    (emptyChecker.infer fnIfNoElseInfer).2.diags =
      [⟨.error, some (locAt 17), "expected type '{}', but got {}", ["()", "integer literal"]⟩] :=
  ⟨fun _ => rfl, rfl, fun _ _ => rfl, fun _ => rfl,
    fun addr loc infer expected s => check_of_infer w addr loc infer expected s,
    by decide, by decide, by decide, by decide, by decide⟩

/-- C22 as stated fails on the loop `while true { 3 }`: its body has the type `i32`,
which is not the unit type, yet nothing is reported, and the loop has the unit
type. -/
theorem while_body_any_type :
    (emptyChecker.infer whileThree).1 = .sigma [] ∧
    (emptyChecker.infer whileThree).2.type_of 2 = some (.type_sint 32) ∧
    (emptyChecker.infer whileThree).2.diags = [] ∧
    (emptyChecker.infer whileThree).2.error_count = 0 := by
  decide

/-- C22, with the body inferred as the code does: `WhileExpr::infer` checks the
condition against `bool`, then infers the body, and returns the unit type; the type
of the body is compared with nothing, and the checker is left as the inference of the
body leaves it. -/
theorem while_infer_rules (cond body : NodeObj) (tc : TypeChecker) :
    WhileExpr.infer cond body tc =
      (.sigma [], ((tc.check cond .type_bool).2.infer body).2) ∧
    (WhileExpr.infer cond body tc).2.diags =
      ((tc.check cond .type_bool).2.infer body).2.diags :=
  ⟨rfl, rfl⟩

theorem MatchExpr.check_cases_some (arg_type : Ty) (cases : List CaseObj) (type : Ty)
    (tc : TypeChecker) :
    MatchExpr.check_cases arg_type cases (some type) tc =
      ((some (MatchExpr.arms arg_type cases type tc).1),
        (MatchExpr.arms arg_type cases type tc).2) := by
  induction cases generalizing type tc with
  | nil => rfl
  | cons c cs ih =>
    simp only [MatchExpr.check_cases, MatchExpr.arms]
    exact ih _ _

/-- C23 as stated fails on the match `match 1 { 1 => true, 2 => true }` checked
against `i32`: one error is reported, for the first arm, after which the type
obtained is the error type, against which the second arm is checked and accepted;
checking the expression of every arm against `i32` reports two. -/
theorem match_arms_not_against_expected :
    (MatchExpr.check exLoc (litOne 9) [armTrue 1 1, armTrue 3 2] (some (.type_sint 32))
      emptyChecker).2.error_count = 1 ∧
    (MatchExpr.arms_against (.type_sint 32) (.type_sint 32) [armTrue 1 1, armTrue 3 2]
      (emptyChecker.infer (litOne 9)).2).error_count = 2 ∧
    (MatchExpr.check exLoc (litOne 9) [armTrue 1 1, armTrue 3 2] (some (.type_sint 32))
      emptyChecker).2.diags ≠
    (MatchExpr.arms_against (.type_sint 32) (.type_sint 32) [armTrue 1 1, armTrue 3 2]
      (emptyChecker.infer (litOne 9)).2).diags := by
  decide

/-- C23, with the type obtained so far handed on in both modes: `MatchExpr::check` and
`MatchExpr::infer`. The scrutinee is inferred
first. With an expected type, the arms are gone through from that type: the pattern
of each arm is checked against the type of the scrutinee, and its expression against
the type obtained so far, the result being the type obtained for the next arm.
Without an expected type the expression of the first arm is inferred instead, and the
later arms are gone through from its type. The type of the match is the type
obtained after the last arm. A match without arms has the expected type, and without
an expected type it has the error type, with the one error `cannot infer` added.
Nothing else is reported by the match itself, whichever arms it has. -/
theorem match_check_rules (loc : Loc) (arg : NodeObj) (tc : TypeChecker) :
    (∀ cases expected,
      MatchExpr.check loc arg cases (some expected) tc =
        MatchExpr.arms (tc.infer arg).1 cases expected (tc.infer arg).2) ∧
    (∀ case_ cases,
      MatchExpr.infer loc arg (case_ :: cases) tc =
        MatchExpr.arms (tc.infer arg).1 cases
          (((tc.infer arg).2.check case_.ptrn (tc.infer arg).1).2.infer case_.expr).1
          (((tc.infer arg).2.check case_.ptrn (tc.infer arg).1).2.infer case_.expr).2) ∧
    (∀ expected, MatchExpr.check loc arg [] (some expected) tc = (expected, (tc.infer arg).2)) ∧
    MatchExpr.infer loc arg [] tc =
      (.type_error,
        { (tc.infer arg).2 with
          error_count := (tc.infer arg).2.error_count + 1
          diags := (tc.infer arg).2.diags ++
            [⟨.error, some loc, "cannot infer type for {}", ["match expression"]⟩] }) := by
  refine ⟨?_, ?_, ?_, rfl⟩
  · intro cases expected
    simp only [MatchExpr.check, MatchExpr.check_cases_some]
  · intro case_ cases
    simp only [MatchExpr.infer, MatchExpr.check, MatchExpr.check_cases,
      MatchExpr.check_cases_some]
  · intro expected
    rfl

/-- C23 on the matches `match 1 { 1 => 5, 2 => 6 }` and `match 1 { 1 => 5 }`, inferred:
both have the type `i32` and nothing is reported, whichever arms there are; and
`match 1 { }` has the error type, with one error. -/
theorem match_check_examples :
    (emptyChecker.infer (MatchExpr.obj 8 exLoc (litOne 9) [armLit 1 1 5, armLit 3 2 6])).1 =
      .type_sint 32 ∧
    (emptyChecker.infer (MatchExpr.obj 8 exLoc (litOne 9) [armLit 1 1 5, armLit 3 2 6])).2.diags =
      [] ∧
    (emptyChecker.infer (MatchExpr.obj 8 exLoc (litOne 9) [armLit 1 1 5])).1 = .type_sint 32 ∧
    (emptyChecker.infer (MatchExpr.obj 8 exLoc (litOne 9) [armLit 1 1 5])).2.diags = [] ∧
    (emptyChecker.infer (MatchExpr.obj 8 exLoc (litOne 9) [])).1 = .type_error ∧
    (emptyChecker.infer (MatchExpr.obj 8 exLoc (litOne 9) [])).2.error_count = 1 := by
  decide

theorem TypeChecker.type_of_set_type (addr : Nat) (type : Ty) (tc : TypeChecker) :
    (tc.set_type addr type).type_of addr = some type := by
  simp [type_of, set_type]

theorem TypeChecker.type_of_infer_at (addr : Nat) (f : TypeChecker → Ty × TypeChecker)
    (tc : TypeChecker) :
    (tc.infer_at addr f).2.type_of addr = some (tc.infer_at addr f).1 := by
  unfold infer_at
  cases h : tc.type_of addr with
  | some t => simpa using h
  | none => exact type_of_set_type _ _ _

theorem TypeChecker.type_of_infer (node : NodeObj) (tc : TypeChecker) :
    (tc.infer node).2.type_of node.addr = some (tc.infer node).1 :=
  type_of_infer_at _ _ _

/-- C24: `ReturnExpr::infer`, for the enclosing function `fn`. When the `type` slot of
the function holds no function type, as it does while the body of the function is
being inferred or checked, and the slot of its return type annotation holds the type
`R`, the result is `pi(R, no_ret)` and nothing is reported; when the slot of the
function holds a function type, the result is made of its codomain. When the slot of
the function holds no function type and the function has no annotation, or has one
whose slot is empty, the result is the error type, with the error
`cannot infer the type of 'return'` and then a note at the function; without
enclosing function the error alone is reported. `FnExpr::infer` infers the return
type annotation before anything else, which fills the slot of the annotation with the
type against which the body is then checked. `FnExpr::check` does not: it checks the
parameter and the body against the domain and the codomain of the expected type and
never infers the annotation. So in
`fn f() -> fn () -> i32 { || -> i32 { return(3) } }`, where the function literal is
checked, the slot of its annotation stays empty, its `return` has the error type, and
the error and the note are reported, while in `fn f() { || -> i32 { return(3) } }`,
where the same literal is inferred, the `return` has the type `fn i32 -> no_ret` and
nothing is reported. -/
theorem return_infer_cases (loc : Loc) (tc : TypeChecker) :
    (∀ (fn : FnRef) (ret_type : Nat) (R : Ty),
      fn.ret_type = some ret_type → tc.type_of ret_type = some R →
      (∀ D C, tc.type_of fn.addr ≠ some (.pi D C)) →
      ReturnExpr.infer loc (some fn) tc = (.pi R .type_no_ret, tc)) ∧
    (∀ (fn : FnRef) (D C : Ty), tc.type_of fn.addr = some (.pi D C) →
      ReturnExpr.infer loc (some fn) tc = (.pi C .type_no_ret, tc)) ∧
    (∀ (fn : FnRef), (∀ D C, tc.type_of fn.addr ≠ some (.pi D C)) →
      (fn.ret_type = none ∨ ∃ ret_type, fn.ret_type = some ret_type ∧
        tc.type_of ret_type = none) →
      ReturnExpr.infer loc (some fn) tc =
        (.type_error,
          { tc with
            error_count := tc.error_count + 1
            diags := tc.diags ++
              [⟨.error, some loc, "cannot infer the type of '{}'", ["return"]⟩,
                ⟨.note, some fn.loc, "try annotating the return type of this function",
                  []⟩] })) ∧
    ReturnExpr.infer loc none tc =
      (.type_error,
        { tc with
          error_count := tc.error_count + 1
          diags := tc.diags ++
            [⟨.error, some loc, "cannot infer the type of '{}'", ["return"]⟩] }) ∧
    (∀ (fn : FnExprObj) (ret_type body : NodeObj),
      fn.ret_type = some ret_type → fn.body = some body →
      (tc.infer ret_type).2.type_of ret_type.addr = some (tc.infer ret_type).1 ∧
      FnExpr.infer fn tc =
        (.pi ((tc.infer ret_type).2.infer fn.param).1
            (((tc.infer ret_type).2.infer fn.param).2.check body (tc.infer ret_type).1).1,
          (((tc.infer ret_type).2.infer fn.param).2.check body (tc.infer ret_type).1).2)) ∧
    (∀ (fn : FnExprObj) (body : NodeObj) (D C : Ty), fn.body = some body →
      FnExpr.check fn (.pi D C) tc =
        (.pi (tc.check fn.param D).1 ((tc.check fn.param D).2.check body C).1,
          ((tc.check fn.param D).2.check body C).2)) ∧
    (emptyChecker.infer (fnLambdaReturn true)).2.type_of 33 = none ∧
    (emptyChecker.infer (fnLambdaReturn true)).2.type_of 37 = some .type_error ∧
    (emptyChecker.infer (fnLambdaReturn true)).2.error_count = 1 ∧
    (emptyChecker.infer (fnLambdaReturn true)).2.diags =
      [⟨.error, some (locAt 37), "cannot infer the type of '{}'", ["return"]⟩,
        ⟨.note, some (locAt 31), "try annotating the return type of this function", []⟩] ∧
    (emptyChecker.infer (fnLambdaReturn false)).1 =
      .pi (.sigma []) (.pi (.sigma []) (.type_sint 32)) ∧
    (emptyChecker.infer (fnLambdaReturn false)).2.type_of 37 =
      some (.pi (.type_sint 32) .type_no_ret) ∧
    (emptyChecker.infer (fnLambdaReturn false)).2.diags = [] := by
  refine ⟨?_, ?_, ?_, rfl, ?_, ?_, by decide, by decide, by decide, by decide, by decide,
    by decide, by decide⟩
  · intro fn ret_type R h1 h2 h3
    have e : ReturnExpr.arg_type (some fn) tc = some R := by
      unfold ReturnExpr.arg_type
      cases h : tc.type_of fn.addr with
      | none => simp only [h1, h2]
      | some t =>
        cases t with
        | pi D C => exact absurd h (h3 D C)
        | _ => simp only [h1, h2]
    simp only [ReturnExpr.infer, e]
  · intro fn D C h
    simp only [ReturnExpr.infer, ReturnExpr.arg_type, h]
  · intro fn h3 h
    have e : ReturnExpr.arg_type (some fn) tc = none := by
      unfold ReturnExpr.arg_type
      cases h0 : tc.type_of fn.addr with
      | none =>
        rcases h with h1 | ⟨r, h1, h2⟩
        · simp only [h1]
        · simp only [h1, h2]
      | some t =>
        cases t with
        | pi D C => exact absurd h0 (h3 D C)
        | _ =>
          rcases h with h1 | ⟨r, h1, h2⟩
          · simp only [h1]
          · simp only [h1, h2]
    simp only [ReturnExpr.infer, e, error_eq, note_eq, List.append_assoc,
      List.singleton_append]
  · intro fn ret_type body h1 h2
    refine ⟨type_of_infer _ _, ?_⟩
    simp only [FnExpr.infer, h1, h2]
  · intro fn body D C h
    simp only [FnExpr.check, h]

/-- C24 on the function `fn f() -> i32 { return(3) }`, whose type is inferred as
`fn () -> i32` with nothing reported, the `return` having the type
`fn i32 -> no_ret`; and on `fn f() { return(3) }`, where the `return` has the error
type and the error and the note are reported. -/
theorem return_infer_examples :
    (emptyChecker.infer (fnReturn true)).1 = .pi (.sigma []) (.type_sint 32) ∧
    (emptyChecker.infer (fnReturn true)).2.diags = [] ∧
    (emptyChecker.infer (fnReturn true)).2.type_of 17 =
      some (.pi (.type_sint 32) .type_no_ret) ∧
    (emptyChecker.infer (fnReturn false)).2.type_of 17 = some .type_error ∧
    (emptyChecker.infer (fnReturn false)).2.diags =
      [⟨.error, some (locAt 17), "cannot infer the type of '{}'", ["return"]⟩,
        ⟨.note, some (locAt 21), "try annotating the return type of this function", []⟩] ∧
    (emptyChecker.infer (fnReturn false)).2.error_count = 1 := by
  decide

theorem TypeChecker.check_mut_loop_eq (shape : Shape) (tc : TypeChecker) :
    check_mut_loop shape tc =
      if shape.root_mut tc then none else some ((shape.root_decl tc).map (·.node.loc)) := by
  induction shape with
  | PathExpr path =>
    simp only [check_mut_loop, Shape.root_mut, Shape.root_decl, Shape.root]
    cases tc.mut_of path.addr with
    | true => rfl
    | false =>
      rcases path.symbol with _ | _ | ⟨decl, decls⟩ <;> rfl
  | ProjExpr expr ih =>
    simpa only [check_mut_loop, Shape.root_mut, Shape.root_decl, Shape.root] using ih
  | CallExpr callee_addr callee ih =>
    simp only [check_mut_loop, Shape.root_mut, Shape.root_decl, Shape.root]
    cases h : tc.type_of callee_addr with
    | none => rfl
    | some t =>
      cases t with
      | variadic_unsafe body =>
        simpa only [Shape.root_mut, Shape.root_decl] using ih
      | _ => rfl
  | other => rfl

theorem TypeChecker.muts_error (loc : Loc) (fmt : String) (args : List String)
    (tc : TypeChecker) : (tc.error loc fmt args).muts = tc.muts := rfl

theorem Path.apply_args_nil (w : World) (elem : PathElemObj) (type : Ty) (tc : TypeChecker)
    (h : elem.args = []) :
    Path.apply_args w elem type tc =
      if !w.kind_star type || type.isa_nominal_pi then
        .error (tc.error elem.loc "missing type arguments" [])
      else .ok (type, tc) := by
  simp only [Path.apply_args, h, List.isEmpty_nil, Bool.not_true, Bool.false_eq_true, if_false]

theorem Path.infer_elems_muts (w : World) (elems : List PathElemObj) (type : Ty)
    (tc : TypeChecker) (h : ∀ e ∈ elems, e.args = []) :
    (Path.infer_elems w elems type tc).2.muts = tc.muts := by
  induction elems generalizing type tc with
  | nil => rfl
  | cons elem rest ih =>
    have hr : ∀ e ∈ rest, e.args = [] := fun e he => h e (List.mem_cons_of_mem _ he)
    rw [Path.infer_elems, Path.apply_args_nil w elem type tc (h elem (List.mem_cons_self _ _))]
    by_cases hp : (!w.kind_star type || type.isa_nominal_pi) = true
    · rw [if_pos hp]
      rfl
    · rw [if_neg hp]
      cases rest with
      | nil => rfl
      | cons next rest =>
        simp only [Path.lookup]
        by_cases he : is_enum_type type = true
        · simp only [he, if_true]
          cases hm : find_member type.callee_of next.id.name with
          | none => rfl
          | some index => exact ih _ _ hr
        · simp only [he, if_false]
          rfl

theorem Shape.root_mut_iff (shape : Shape) (tc : TypeChecker) :
    shape.root_mut tc = true ↔
      ∃ path, shape.root tc = .PathExpr path ∧ tc.mut_of path.addr = true := by
  unfold Shape.root_mut
  split
  · next path h =>
    constructor
    · intro hm
      exact ⟨path, h, hm⟩
    · rintro ⟨p, hp, hm⟩
      rw [h] at hp
      cases hp
      exact hm
  · next h =>
    constructor
    · intro hf
      cases hf
    · rintro ⟨p, hp, -⟩
      exact absurd hp (h p)

theorem Shape.root_decl_iff (shape : Shape) (tc : TypeChecker) (decl : DeclObj) :
    shape.root_decl tc = some decl ↔
      ∃ path decls, shape.root tc = .PathExpr path ∧ path.symbol = some (decl :: decls) := by
  unfold Shape.root_decl
  split
  · next path h =>
    split
    · next d ds hs =>
      constructor
      · intro e
        cases e
        exact ⟨path, ds, h, hs⟩
      · rintro ⟨p, ds2, hp, h2⟩
        rw [h] at hp
        cases hp
        rw [hs] at h2
        cases h2
        rfl
    · next hn =>
      constructor
      · intro e
        cases e
      · rintro ⟨p, ds2, hp, h2⟩
        rw [h] at hp
        cases hp
        exact absurd h2 (hn decl ds2)
  · next h =>
    constructor
    · intro e
      cases e
    · rintro ⟨p, ds2, hp, -⟩
      exact absurd hp (h p)

theorem TypeChecker.check_mut_eq (node : ExprObj) (tc : TypeChecker) :
    tc.check_mut node =
      if node.shape.root_mut tc then (true, tc)
      else
        (false,
          { tc with
            error_count := tc.error_count + 1
            diags := tc.diags ++
              ⟨.error, some node.node.loc, "assignment to a non-mutable expression", []⟩ ::
                match node.shape.root_decl tc with
                | some decl =>
                  [⟨.note, some decl.node.loc,
                    "this error {} be solved by adding the '{}' qualifier to this symbol",
                    ["may", "mut"]⟩]
                | none => [] }) := by
  simp only [check_mut, check_mut_loop_eq]
  cases node.shape.root_mut tc with
  | true => rfl
  | false =>
    cases node.shape.root_decl tc <;> simp [error_eq, note_eq]

/-- C26: `TypeChecker::check_mut`, a function on every expression. It returns `true`
exactly when the expression that is left when every enclosing field projection and
every call whose callee has an array type are removed is a path expression whose
member `mut` is set, and then the checker is unchanged. Otherwise it returns `false`
and reports the one error `assignment to a non-mutable expression`, followed by the
note that suggests `mut` exactly when the expression that is left is a path
expression with a resolved symbol, the note being at the first declaration of the
symbol. `Path::infer` copies the member `mut` of the declaration into the member `mut`
of the path when the first declaration of the symbol is a `PtrnDecl`, and does not
assign it otherwise. -/
theorem check_mut_cases (node : ExprObj) (tc : TypeChecker) :
    ((tc.check_mut node).1 = true ↔
      ∃ path, node.shape.root tc = .PathExpr path ∧ tc.mut_of path.addr = true) ∧
    ((tc.check_mut node).1 = true → (tc.check_mut node).2 = tc) ∧
    ((tc.check_mut node).1 = false →
      (tc.check_mut node).2 =
        { tc with
          error_count := tc.error_count + 1
          diags := tc.diags ++
            ⟨.error, some node.node.loc, "assignment to a non-mutable expression", []⟩ ::
              match node.shape.root_decl tc with
              | some decl =>
                [⟨.note, some decl.node.loc,
                  "this error {} be solved by adding the '{}' qualifier to this symbol",
                  ["may", "mut"]⟩]
              | none => [] }) ∧
    (∀ decl, node.shape.root_decl tc = some decl ↔
      ∃ path decls, node.shape.root tc = .PathExpr path ∧
        path.symbol = some (decl :: decls)) ∧
    (∀ (w : World) (path : PathObj) (decl : DeclObj) (decls : List DeclObj) (m : Bool),
      path.symbol = some (decl :: decls) → decl.ptrn_mut = some m →
      (∀ e ∈ path.elems, e.args = []) →
      (Path.infer w path tc).2.mut_of path.addr = m) ∧
    (∀ (w : World) (path : PathObj) (decl : DeclObj) (decls : List DeclObj),
      path.symbol = some (decl :: decls) → decl.ptrn_mut = none →
      (∀ e ∈ path.elems, e.args = []) →
      (Path.infer w path tc).2.muts = (tc.infer decl.node).2.muts) := by
  have hc := check_mut_eq node tc
  refine ⟨?_, ?_, ?_, Shape.root_decl_iff node.shape tc, ?_, ?_⟩
  · rw [← Shape.root_mut_iff, hc]
    cases node.shape.root_mut tc <;> simp
  · intro h
    rw [hc] at h ⊢
    cases hm : node.shape.root_mut tc
    · simp [hm] at h
    · simp
  · intro h
    rw [hc] at h ⊢
    cases hm : node.shape.root_mut tc
    · simp
    · simp [hm] at h
  · intro w path decl decls m hs hm he
    simp only [Path.infer, hs, hm, mut_of, Path.infer_elems_muts w path.elems _ _ he]
    simp [set_mut]
  · intro w path decl decls hs hm he
    simp only [Path.infer, hs, hm, Path.infer_elems_muts w path.elems _ _ he]

/-- C25 on the blocks `{ let x = 1; x = 2 }`, where the error and the note at the
declaration of `x` are reported, and `{ let mut x = 1; x = 2 }`, where nothing is; in
both the assignment has the unit type. The same holds of `x++`, whose type is
`i32`. -/
theorem binary_infer_examples :
    (emptyChecker.infer (blockAssign false)).2.diags =
      [⟨.error, some (locAt 36), "assignment to a non-mutable expression", []⟩,
        ⟨.note, some (locAt 30),
          "this error {} be solved by adding the '{}' qualifier to this symbol",
          ["may", "mut"]⟩] ∧
    (emptyChecker.infer (blockAssign false)).2.type_of 37 = some (.sigma []) ∧
    (emptyChecker.infer (blockAssign true)).2.diags = [] ∧
    (emptyChecker.infer (blockAssign true)).1 = .sigma [] ∧
    (emptyChecker.infer (blockInc false)).2.error_count = 1 ∧
    (emptyChecker.infer (blockInc true)).2.diags = [] ∧
    (emptyChecker.infer (blockInc true)).1 = .type_sint 32 := by
  decide

theorem Path.infer_elems_reach (w : World) (i : Nat) (elems : List PathElemObj) (type : Ty)
    (tc : TypeChecker) (r : List PathElemObj × Ty × TypeChecker)
    (h : Path.reach w i elems type tc = some r) :
    Path.infer_elems w elems type tc = Path.infer_elems w r.1 r.2.1 r.2.2 := by
  induction i generalizing elems type tc with
  | zero =>
    simp only [Path.reach, Option.some.injEq] at h
    rw [← h]
  | succ i ih =>
    match elems, h with
    | [], h => simp [Path.reach] at h
    | [_], h => simp [Path.reach] at h
    | elem :: next :: rest, h =>
      rw [Path.reach] at h
      rw [Path.infer_elems]
      cases ha : Path.apply_args w elem type tc with
      | error e => simp [ha] at h
      | ok applied =>
        simp only [ha] at h ⊢
        cases hl : Path.lookup w elem next.id.name applied.1 applied.2 with
        | error e => simp [hl] at h
        | ok found =>
          simp only [hl] at h ⊢
          exact ih _ _ _ h

/-- C30: `Path::infer`. A path whose symbol is unset, or has no declaration, has the
error type and nothing is reported. Otherwise the first declaration of the symbol is
inferred, and the loop goes through the elements. When the loop gets to an element
with a type reached so far that is polymorphic (its kind is not `*`, a type
constructor, or it is the nominal function type of a `forall`) and the element has no
type arguments, `Path::infer` returns the error type, the one error
`missing type arguments` at the element being added to the checker of that
iteration; when the type is not polymorphic and the element has type arguments, it
returns the error type with the one error `type arguments are not allowed here`. -/
theorem path_infer_type_args (w : World) (path : PathObj) (tc : TypeChecker) :
    (path.symbol = none ∨ path.symbol = some [] → Path.infer w path tc = (.type_error, tc)) ∧
    (∀ (decl : DeclObj) (decls : List DeclObj), path.symbol = some (decl :: decls) →
      Path.infer w path tc =
        Path.infer_elems w path.elems (tc.infer decl.node).1
          (match decl.ptrn_mut with
            | some m => (tc.infer decl.node).2.set_mut path.addr m
            | none => (tc.infer decl.node).2)) ∧
    (∀ (i : Nat) (elems rest : List PathElemObj) (elem : PathElemObj) (t0 type : Ty)
        (s0 s : TypeChecker),
      Path.reach w i elems t0 s0 = some (elem :: rest, type, s) →
      ((!w.kind_star type || type.isa_nominal_pi) = true → elem.args = [] →
        Path.infer_elems w elems t0 s0 =
          (.type_error,
            { s with
              error_count := s.error_count + 1
              diags := s.diags ++ [⟨.error, some elem.loc, "missing type arguments", []⟩] })) ∧
      ((!w.kind_star type || type.isa_nominal_pi) = false → elem.args ≠ [] →
        Path.infer_elems w elems t0 s0 =
          (.type_error,
            { s with
              error_count := s.error_count + 1
              diags := s.diags ++
                [⟨.error, some elem.loc, "type arguments are not allowed here", []⟩] }))) := by
  refine ⟨?_, ?_, ?_⟩
  · rintro (h | h) <;> simp only [Path.infer, h]
  · intro decl decls h
    obtain ⟨addr, loc, symbol, elems⟩ := path
    subst h
    rfl
  · intro i elems rest elem t0 type s0 s h
    rw [Path.infer_elems_reach w i elems t0 s0 _ h]
    refine ⟨fun hp ha => ?_, fun hp ha => ?_⟩
    · simp only [Path.infer_elems, Path.apply_args, hp, ha, List.isEmpty_nil, Bool.not_true,
        Bool.false_eq_true, if_true, if_false, error_eq]
    · have he : elem.args.isEmpty = false := by
        cases hq : elem.args with
        | nil => exact absurd hq ha
        | cons a as => rfl
      simp only [Path.infer_elems, Path.apply_args, hp, he, Bool.not_false, Bool.false_eq_true,
        if_true, if_false, error_eq]

/-- C30 on paths of one element. The path `S` to a struct that takes type arguments
has the error type, with the one error `missing type arguments`; the path `x[i32]` to
a declaration of type `i32` has the error type, with the one error
`type arguments are not allowed here`; the path `x` to it has the type `i32`; and a
path without symbol has the error type, and nothing is reported. -/
theorem path_infer_examples :
    (Path.infer polyWorld (onePath (typedNode 50 (.type_struct 7 ["x"])) []) emptyChecker).1 =
      .type_error ∧
    (Path.infer polyWorld (onePath (typedNode 50 (.type_struct 7 ["x"])) [])
      emptyChecker).2.diags = [⟨.error, some (locAt 61), "missing type arguments", []⟩] ∧
    (Path.infer polyWorld
      (onePath (typedNode 50 (.type_sint 32)) [PrimType.obj polyWorld 62 (locAt 62) .I32])
      emptyChecker).1 = .type_error ∧
    (Path.infer polyWorld
      (onePath (typedNode 50 (.type_sint 32)) [PrimType.obj polyWorld 62 (locAt 62) .I32])
      emptyChecker).2.diags =
        [⟨.error, some (locAt 61), "type arguments are not allowed here", []⟩] ∧
    (Path.infer polyWorld (onePath (typedNode 50 (.type_sint 32)) []) emptyChecker).1 =
      .type_sint 32 ∧
    (Path.infer polyWorld ⟨60, locAt 60, none, [⟨locAt 61, ⟨"y", locAt 61⟩, []⟩]⟩
      emptyChecker).1 = .type_error ∧
    (Path.infer polyWorld ⟨60, locAt 60, none, [⟨locAt 61, ⟨"y", locAt 61⟩, []⟩]⟩
      emptyChecker).2.diags = [] := by
  decide

@[simp] theorem TypeChecker.overflow_error (loc : Loc) (fmt : String) (args : List String)
    (tc : TypeChecker) : (tc.error loc fmt args).overflow = tc.overflow := rfl

@[simp] theorem TypeChecker.overflow_note (loc : Option Loc) (fmt : String)
    (args : List String) (tc : TypeChecker) : (tc.note loc fmt args).overflow = tc.overflow :=
  rfl

@[simp] theorem TypeChecker.overflow_set_type (addr : Nat) (type : Ty) (tc : TypeChecker) :
    (tc.set_type addr type).overflow = tc.overflow := rfl

@[simp] theorem TypeChecker.overflow_set_mut (path : Nat) (m : Bool) (tc : TypeChecker) :
    (tc.set_mut path m).overflow = tc.overflow := rfl

@[simp] theorem TypeChecker.overflow_set_op (decl index : Nat) (type : Ty) (tc : TypeChecker) :
    (tc.set_op decl index type).overflow = tc.overflow := rfl

@[simp] theorem TypeChecker.overflow_exit_decl (decl : Nat) (tc : TypeChecker) :
    (tc.exit_decl decl).overflow = tc.overflow := rfl

@[simp] theorem TypeChecker.overflow_enter_decl (decl : Nat) (loc : Loc) (tc : TypeChecker) :
    (tc.enter_decl decl loc).2.overflow = tc.overflow := by
  unfold enter_decl
  split <;> rfl

@[simp] theorem TypeChecker.overflow_explain_no_ret (type : Option Ty) (expected : Ty)
    (tc : TypeChecker) : (tc.explain_no_ret type expected).overflow = tc.overflow := by
  unfold explain_no_ret
  split <;> rfl

@[simp] theorem TypeChecker.overflow_expect (w : World) (loc : Loc) (type expected : Ty)
    (tc : TypeChecker) : (tc.expect w loc type expected).2.overflow = tc.overflow := by
  unfold expect
  split
  · rfl
  · dsimp only
    split <;> simp

@[simp] theorem TypeChecker.overflow_expect_msg (loc : Loc) (msg : String) (expected : Ty)
    (tc : TypeChecker) : (tc.expect_msg loc msg expected).2.overflow = tc.overflow := by
  unfold expect_msg
  dsimp only
  split <;> simp

@[simp] theorem TypeChecker.overflow_expect_msg_type (w : World) (loc : Loc) (msg : String)
    (type expected : Ty) (tc : TypeChecker) :
    (tc.expect_msg_type w loc msg type expected).2.overflow = tc.overflow := by
  unfold expect_msg_type
  split
  · rfl
  · dsimp only
    split <;> simp

@[simp] theorem TypeChecker.overflow_struct_expected (loc : Loc) (type : Ty)
    (tc : TypeChecker) : (tc.struct_expected loc type).2.overflow = tc.overflow := by
  unfold struct_expected
  dsimp only
  split <;> simp

@[simp] theorem TypeChecker.overflow_unknown_member (loc : Loc) (struct_type : Ty)
    (field : String) (tc : TypeChecker) :
    (tc.unknown_member loc struct_type field).2.overflow = tc.overflow := rfl

@[simp] theorem TypeChecker.overflow_cannot_infer (loc : Loc) (msg : String)
    (tc : TypeChecker) : (tc.cannot_infer loc msg).2.overflow = tc.overflow := rfl

@[simp] theorem TypeChecker.overflow_unreachable_code (before first last : Loc)
    (tc : TypeChecker) :
    (tc.unreachable_code before first last).2.overflow = tc.overflow := rfl

theorem TypeChecker.sticky_infer_at (addr : Nat) (f : TypeChecker → Ty × TypeChecker)
    (hf : KeepsOverflow f) : KeepsOverflow (infer_at addr f) := by
  intro tc h
  unfold infer_at
  split
  · exact h
  · exact hf tc h

theorem TypeChecker.sticky_infer (node : NodeObj) (hn : node.Sticky) :
    KeepsOverflow (TypeChecker.infer node) :=
  sticky_infer_at _ _ hn.1

theorem TypeChecker.sticky_check (node : NodeObj) (hn : node.Sticky) (expected : Ty) :
    KeepsOverflow (TypeChecker.check node expected) := by
  intro tc h
  exact hn.2 expected tc h

theorem NodeObj.sticky_of_infer (w : World) (addr : Nat) (loc : Loc)
    (f : TypeChecker → Ty × TypeChecker) (hf : KeepsOverflow f) :
    (NodeObj.of_infer w addr loc f).Sticky := by
  refine ⟨hf, fun expected tc h => ?_⟩
  simp only [NodeObj.of_infer, NodeObj.default_check, overflow_expect]
  exact sticky_infer_at _ _ hf tc h

theorem TypeChecker.sticky_infer_args (args : List NodeObj) (ha : ∀ a ∈ args, a.Sticky)
    (tc : TypeChecker) (h : tc.overflow = true) : (tc.infer_args args).2.overflow = true := by
  induction args generalizing tc with
  | nil => exact h
  | cons a as ih =>
    simp only [infer_args]
    exact ih (fun b hb => ha b (List.mem_cons_of_mem _ hb)) _
      (sticky_infer a (ha a (List.mem_cons_self _ _)) tc h)

theorem TypeChecker.sticky_check_args (args : List NodeObj) (ops : List Ty)
    (ha : ∀ a ∈ args, a.Sticky) (tc : TypeChecker) (h : tc.overflow = true) :
    (check_args args ops tc).overflow = true := by
  induction args generalizing ops tc with
  | nil => simpa [check_args] using h
  | cons a as ih =>
    cases ops with
    | nil => simpa [check_args] using h
    | cons op ops =>
      simp only [check_args]
      exact ih ops (fun b hb => ha b (List.mem_cons_of_mem _ hb)) _
        (sticky_check a (ha a (List.mem_cons_self _ _)) op tc h)

theorem TupleExpr.sticky_tuple (addr : Nat) (loc : Loc) (msg : String) (args : List NodeObj)
    (ha : ∀ a ∈ args, a.Sticky) :
    NodeObj.Sticky ⟨addr, loc, infer_tuple args, check_tuple loc msg args⟩ := by
  refine ⟨fun tc h => sticky_infer_args args ha tc h, fun expected tc h => ?_⟩
  simp only [check_tuple]
  split
  · split
    · simpa using h
    · exact sticky_check_args args _ ha tc h
  · simpa using h

theorem CallExpr.sticky_infer_call (callee arg : NodeObj) (hc : callee.Sticky)
    (ha : arg.Sticky) : KeepsOverflow (infer_call callee arg) := by
  intro tc h
  have h1 := sticky_infer callee hc tc h
  simp only [infer_call]
  split
  · exact sticky_check arg ha _ _ h1
  · have h2 := sticky_infer arg ha _ h1
    split
    · dsimp only
      split
      · simpa using h2
      · exact h2
    · exact h2
  · dsimp only
    split
    · simpa using h1
    · exact h1

theorem LiteralExpr.sticky_literal (w : World) (addr : Nat) (loc : Loc) (lit : Literal) :
    (LiteralExpr.obj w addr loc lit).Sticky := by
  have hi : KeepsOverflow (infer_literal loc lit) := by
    intro tc h
    cases lit <;> exact h
  refine ⟨hi, fun expected tc h => ?_⟩
  simp only [LiteralExpr.obj, check_literal]
  split
  · exact hi tc h
  · cases lit <;>
      simp only [Literal.is_integer, Literal.is_double, Literal.is_bool, Literal.is_char,
        Literal.is_string, if_true, Bool.false_eq_true, if_false] <;>
      (try split) <;> simpa using h

theorem PrimType.sticky_prim (w : World) (addr : Nat) (loc : Loc) (tag : PrimType.Tag) :
    (PrimType.obj w addr loc tag).Sticky :=
  NodeObj.sticky_of_infer w addr loc _ (fun tc h => by cases tag <;> exact h)

theorem ReturnExpr.sticky_return (w : World) (addr : Nat) (loc : Loc) (fn : Option FnRef) :
    (ReturnExpr.obj w addr loc fn).Sticky := by
  refine NodeObj.sticky_of_infer w addr loc _ (fun tc h => ?_)
  simp only [ReturnExpr.infer]
  split
  · exact h
  · cases fn <;> simpa using h

theorem Stmt.sticky_stmt (addr : Nat) (loc : Loc) (inner : NodeObj) (hi : inner.Sticky) :
    (Stmt.obj addr loc inner).Sticky :=
  ⟨sticky_infer inner hi, fun expected => sticky_check inner hi expected⟩

theorem NodeObj.sticky_overflow (addr : Nat) (loc : Loc) : (NodeObj.overflow addr loc).Sticky :=
  ⟨fun _ _ => rfl, fun _ _ _ => rfl⟩

theorem sticky_typedNode (addr : Nat) (type : Ty) : (typedNode addr type).Sticky :=
  ⟨fun _ h => h, fun _ _ h => h⟩

theorem Path.sticky_apply_args (w : World) (elem : PathElemObj) (type : Ty)
    (ha : ∀ a ∈ elem.args, a.Sticky) (tc : TypeChecker) (h : tc.overflow = true) :
    match Path.apply_args w elem type tc with
    | .error tc1 => tc1.overflow = true
    | .ok applied => applied.2.overflow = true := by
  unfold Path.apply_args
  dsimp only
  by_cases hp : (!w.kind_star type || type.isa_nominal_pi) = true
  · by_cases he : (!elem.args.isEmpty) = true
    · rw [if_pos hp, if_pos he]
      exact sticky_infer_args elem.args ha tc h
    · rw [if_pos hp, if_neg he]
      exact h
  · by_cases he : (!elem.args.isEmpty) = true
    · rw [if_neg hp, if_pos he]
      exact h
    · rw [if_neg hp, if_neg he]
      exact h

theorem Path.sticky_lookup (w : World) (elem : PathElemObj) (member : String) (type : Ty)
    (tc : TypeChecker) (h : tc.overflow = true) :
    match Path.lookup w elem member type tc with
    | .error tc1 => tc1.overflow = true
    | .ok found => found.2.overflow = true := by
  unfold Path.lookup
  by_cases he : is_enum_type type = true
  · rw [if_pos he]
    dsimp only
    cases find_member type.callee_of member with
    | none => exact h
    | some index => exact h
  · rw [if_neg he]
    exact h

theorem Path.sticky_infer_elems (w : World) (elems : List PathElemObj)
    (ha : ∀ e ∈ elems, ∀ a ∈ e.args, a.Sticky) (type : Ty) (tc : TypeChecker)
    (h : tc.overflow = true) : (Path.infer_elems w elems type tc).2.overflow = true := by
  induction elems generalizing type tc with
  | nil => exact h
  | cons elem rest ih =>
    have h1 := Path.sticky_apply_args w elem type (ha elem (List.mem_cons_self _ _)) tc h
    rw [Path.infer_elems]
    cases ha1 : Path.apply_args w elem type tc with
    | error e =>
      rw [ha1] at h1
      exact h1
    | ok applied =>
      rw [ha1] at h1
      cases rest with
      | nil => exact h1
      | cons next rest =>
        have h2 := Path.sticky_lookup w elem next.id.name applied.1 applied.2 h1
        show (match Path.lookup w elem next.id.name applied.1 applied.2 with
          | .error tc2 => (Ty.type_error, tc2)
          | .ok found => Path.infer_elems w (next :: rest) found.1 found.2).2.overflow = true
        cases hl : Path.lookup w elem next.id.name applied.1 applied.2 with
        | error e =>
          rw [hl] at h2
          exact h2
        | ok found =>
          rw [hl] at h2
          exact ih (fun e he => ha e (List.mem_cons_of_mem _ he)) _ _ h2

theorem Path.sticky_path (w : World) (path : PathObj)
    (hd : ∀ decls, path.symbol = some decls → ∀ d ∈ decls, d.node.Sticky)
    (ha : ∀ e ∈ path.elems, ∀ a ∈ e.args, a.Sticky) : (Path.obj w path).Sticky := by
  refine NodeObj.sticky_of_infer w _ _ _ (fun tc h => ?_)
  unfold Path.infer
  split
  · next decl decls hs =>
    apply Path.sticky_infer_elems w path.elems ha
    have h1 := sticky_infer decl.node (hd _ hs decl (List.mem_cons_self _ _)) tc h
    split
    · simpa using h1
    · exact h1
  · exact h

theorem BlockExpr.sticky_infer_stmts (last : Loc) (stmts : List NodeObj)
    (hs : ∀ s ∈ stmts, s.Sticky) (tc : TypeChecker) (h : tc.overflow = true) :
    (BlockExpr.infer_stmts last stmts tc).2.overflow = true := by
  induction stmts generalizing tc with
  | nil => exact h
  | cons stmt rest ih =>
    cases rest with
    | nil => exact h
    | cons next rest =>
      have h1 := sticky_infer stmt (hs stmt (List.mem_cons_self _ _)) tc h
      rw [BlockExpr.infer_stmts]
      split
      · simpa using h1
      · exact ih (fun s hm => hs s (List.mem_cons_of_mem _ hm)) _ h1

theorem BlockExpr.sticky_block (w : World) (addr : Nat) (loc : Loc) (stmts : List NodeObj)
    (last_semi : Bool) (hs : ∀ s ∈ stmts, s.Sticky) :
    (BlockExpr.obj w addr loc stmts last_semi).Sticky := by
  refine ⟨fun tc h => ?_, fun expected tc h => ?_⟩
  · simp only [BlockExpr.obj, BlockExpr.infer]
    split
    · exact h
    · next back hb =>
      have h1 := BlockExpr.sticky_infer_stmts back.loc stmts hs tc h
      have hm : back ∈ stmts := List.mem_of_getLast?_eq_some hb
      rcases hr : BlockExpr.infer_stmts back.loc stmts tc with ⟨_ | _, tc1⟩
      · rw [hr] at h1
        exact sticky_infer back (hs back hm) _ h1
      · rw [hr] at h1
        exact h1
  · simp only [BlockExpr.obj, BlockExpr.check]
    split
    · simpa using h
    · next back hb =>
      have h1 := BlockExpr.sticky_infer_stmts back.loc stmts hs tc h
      have hm : back ∈ stmts := List.mem_of_getLast?_eq_some hb
      rcases hr : BlockExpr.infer_stmts back.loc stmts tc with ⟨_ | _, tc1⟩
      · rw [hr] at h1
        dsimp only
        split
        · simp only [overflow_expect_msg_type]
          exact sticky_check back (hs back hm) _ _ h1
        · exact sticky_check back (hs back hm) _ _ h1
      · rw [hr] at h1
        exact h1

theorem FnExpr.sticky_fn (fn : FnExprObj) (hp : fn.param.Sticky)
    (hr : ∀ r, fn.ret_type = some r → r.Sticky) (hb : ∀ b, fn.body = some b → b.Sticky) :
    (FnExpr.obj fn).Sticky := by
  refine ⟨fun tc h => ?_, fun expected tc h => ?_⟩
  · simp only [FnExpr.obj, FnExpr.infer]
    split
    · next ret_type hrt =>
      have h1 := sticky_infer fn.param hp _ (sticky_infer ret_type (hr _ hrt) tc h)
      split
      · next body hbd => exact sticky_check body (hb _ hbd) _ _ h1
      · exact h1
    · split
      · next body hbd =>
        exact sticky_infer body (hb _ hbd) _ (sticky_infer fn.param hp tc h)
      · exact h
  · simp only [FnExpr.obj, FnExpr.check]
    split
    · next domain codomain =>
      have h1 := sticky_check fn.param hp domain tc h
      split
      · next body hbd => exact sticky_check body (hb _ hbd) _ _ h1
      · exact h1
    · simpa using h

theorem FnDecl.infer_eq (this : Nat) (loc : Loc) (type_params : Option NodeObj)
    (fn : FnExprObj) (tc : TypeChecker) :
    FnDecl.infer this loc type_params fn tc =
      match (FnDecl.prepare this type_params fn tc).enter_decl this loc with
      | (false, tc3) => (.type_error, tc3)
      | (true, tc3) =>
        ((type_params.map (fun _ => Ty.type_forall this)).getD
            (tc3.infer (FnExpr.obj fn)).1,
          (match type_params.map (fun _ => Ty.type_forall this) with
            | some _ => (tc3.infer (FnExpr.obj fn)).2.set_op this 1 (tc3.infer (FnExpr.obj fn)).1
            | none => (tc3.infer (FnExpr.obj fn)).2).exit_decl this) := rfl

theorem FnDecl.sticky_prepare (this : Nat) (type_params : Option NodeObj)
    (fn : FnExprObj) (ht : ∀ t, type_params = some t → t.Sticky) (hp : fn.param.Sticky)
    (hr : ∀ r, fn.ret_type = some r → r.Sticky) (tc : TypeChecker)
    (h : tc.overflow = true) : (FnDecl.prepare this type_params fn tc).overflow = true := by
  have h1 : (match type_params with
      | some type_params => (tc.check type_params (Ty.param this)).2
      | none => tc).overflow = true := by
    split
    · next t => exact sticky_check t (ht t rfl) _ tc h
    · exact h
  unfold FnDecl.prepare
  dsimp only
  split
  · next ret_type hrt =>
    have h3 := TypeChecker.sticky_infer ret_type (hr _ hrt) _
      (TypeChecker.sticky_infer fn.param hp _ h1)
    split <;> simpa using h3
  · exact h1

theorem FnDecl.sticky_decl_infer (this : Nat) (loc : Loc) (type_params : Option NodeObj)
    (fn : FnExprObj) (ht : ∀ t, type_params = some t → t.Sticky) (hp : fn.param.Sticky)
    (hr : ∀ r, fn.ret_type = some r → r.Sticky) (hb : ∀ b, fn.body = some b → b.Sticky) :
    KeepsOverflow (FnDecl.infer this loc type_params fn) := by
  intro tc h
  have h3 := FnDecl.sticky_prepare this type_params fn ht hp hr tc h
  have h4 : ((FnDecl.prepare this type_params fn tc).enter_decl this loc).2.overflow = true := by
    simpa using h3
  rw [FnDecl.infer_eq]
  rcases he : (FnDecl.prepare this type_params fn tc).enter_decl this loc with ⟨_ | _, tc3⟩
  · rw [he] at h4
    exact h4
  · rw [he] at h4
    have h5 := TypeChecker.sticky_infer (FnExpr.obj fn) (FnExpr.sticky_fn fn hp hr hb) tc3 h4
    show ((match type_params.map (fun _ => Ty.type_forall this) with
      | some _ => (tc3.infer (FnExpr.obj fn)).2.set_op this 1 (tc3.infer (FnExpr.obj fn)).1
      | none => (tc3.infer (FnExpr.obj fn)).2).exit_decl this).overflow = true
    simp only [overflow_exit_decl]
    split
    · simpa using h5
    · exact h5

theorem FnDecl.sticky_decl (this : Nat) (loc : Loc) (type_params : Option NodeObj)
    (fn : FnExprObj) (ht : ∀ t, type_params = some t → t.Sticky) (hp : fn.param.Sticky)
    (hr : ∀ r, fn.ret_type = some r → r.Sticky) (hb : ∀ b, fn.body = some b → b.Sticky) :
    (FnDecl.obj this loc type_params fn).Sticky :=
  ⟨FnDecl.sticky_decl_infer this loc type_params fn ht hp hr hb,
    fun _ => FnDecl.sticky_decl_infer this loc type_params fn ht hp hr hb⟩

theorem Program.sticky_node (w : World) (child : Nat → NodeObj) (hc : ∀ a, (child a).Sticky)
    (addr : Nat) (loc : Loc) (node : Ast) : (Program.node w child addr loc node).Sticky := by
  have hpath : ∀ path : PathAst, (Path.obj w (Program.path child path)).Sticky := by
    intro path
    apply Path.sticky_path
    · intro decls hs d hd
      simp only [Program.path, Option.map_eq_some'] at hs
      obtain ⟨ds, -, rfl⟩ := hs
      simp only [List.mem_map] at hd
      obtain ⟨a, -, rfl⟩ := hd
      exact hc a
    · intro e he a ha
      simp only [Program.path, List.mem_map] at he
      obtain ⟨e0, -, rfl⟩ := he
      simp only [List.mem_map] at ha
      obtain ⟨a0, -, rfl⟩ := ha
      exact hc a0
  have hfn : ∀ fn : FnExprAst,
      (Program.fn child fn).param.Sticky ∧
      (∀ r, (Program.fn child fn).ret_type = some r → r.Sticky) ∧
      (∀ b, (Program.fn child fn).body = some b → b.Sticky) := by
    intro fn
    refine ⟨hc _, fun r hr => ?_, fun b hb => ?_⟩
    · simp only [Program.fn, Option.map_eq_some'] at hr
      obtain ⟨a, -, rfl⟩ := hr
      exact hc a
    · simp only [Program.fn, Option.map_eq_some'] at hb
      obtain ⟨a, -, rfl⟩ := hb
      exact hc a
  have hlist : ∀ (args : List Nat), ∀ a ∈ args.map child, a.Sticky := by
    intro args a ha
    simp only [List.mem_map] at ha
    obtain ⟨a0, -, rfl⟩ := ha
    exact hc a0
  cases node with
  | PrimType tag => exact PrimType.sticky_prim w addr loc tag
  | TypeApp path =>
    exact NodeObj.sticky_of_infer w addr loc _ (TypeChecker.sticky_infer _ (hpath path))
  | PathExpr path =>
    exact NodeObj.sticky_of_infer w addr loc _ (TypeChecker.sticky_infer _ (hpath path))
  | LiteralExpr lit => exact LiteralExpr.sticky_literal w addr loc lit
  | TupleExpr args => exact TupleExpr.sticky_tuple addr loc _ _ (hlist args)
  | TuplePtrn args => exact TupleExpr.sticky_tuple addr loc _ _ (hlist args)
  | Stmt inner => exact Stmt.sticky_stmt addr loc _ (hc inner)
  | BlockExpr stmts last_semi => exact BlockExpr.sticky_block w addr loc _ last_semi (hlist stmts)
  | CallExpr callee arg =>
    exact NodeObj.sticky_of_infer w addr loc _
      (CallExpr.sticky_infer_call _ _ (hc callee) (hc arg))
  | ReturnExpr fn => exact ReturnExpr.sticky_return w addr loc fn
  | FnExpr fn => exact FnExpr.sticky_fn _ (hfn fn).1 (hfn fn).2.1 (hfn fn).2.2
  | FnDecl type_params fn =>
    refine FnDecl.sticky_decl addr loc _ _ (fun t ht => ?_) (hfn fn).1 (hfn fn).2.1 (hfn fn).2.2
    simp only [Option.map_eq_some'] at ht
    obtain ⟨a, -, rfl⟩ := ht
    exact hc a

theorem Program.sticky_obj (w : World) (prog : Program) (depth addr : Nat) :
    (Program.obj w prog depth addr).Sticky := by
  induction depth generalizing addr with
  | zero => exact NodeObj.sticky_overflow _ _
  | succ depth ih =>
    rw [Program.obj]
    split
    · exact Program.sticky_node w _ ih _ _ _
    · exact sticky_typedNode _ _

theorem FnDecl.overflow_of_prepare (this : Nat) (loc : Loc) (type_params : Option NodeObj)
    (fn : FnExprObj) (hp : fn.param.Sticky) (hr : ∀ r, fn.ret_type = some r → r.Sticky)
    (hb : ∀ b, fn.body = some b → b.Sticky) (tc : TypeChecker)
    (h3 : (FnDecl.prepare this type_params fn tc).overflow = true) :
    (FnDecl.infer this loc type_params fn tc).2.overflow = true := by
  have h4 : ((FnDecl.prepare this type_params fn tc).enter_decl this loc).2.overflow = true := by
    simpa using h3
  rw [FnDecl.infer_eq]
  rcases he : (FnDecl.prepare this type_params fn tc).enter_decl this loc with ⟨_ | _, tc3⟩
  · rw [he] at h4
    exact h4
  · rw [he] at h4
    have h5 := TypeChecker.sticky_infer (FnExpr.obj fn) (FnExpr.sticky_fn fn hp hr hb) tc3 h4
    show ((match type_params.map (fun _ => Ty.type_forall this) with
      | some _ => (tc3.infer (FnExpr.obj fn)).2.set_op this 1 (tc3.infer (FnExpr.obj fn)).1
      | none => (tc3.infer (FnExpr.obj fn)).2).exit_decl this).overflow = true
    simp only [overflow_exit_decl]
    split
    · simpa using h5
    · exact h5

theorem TypeChecker.type_of_set_type_ne (addr other : Nat) (type : Ty) (tc : TypeChecker)
    (h : other ≠ addr) : (tc.set_type addr type).type_of other = tc.type_of other := by
  simp [type_of, set_type, List.find?_cons, Ne.symm h]

/-- The inference of the parameter `()` of `fnSelfAnnotated`, unfolded to any depth,
leaves the slots of the other nodes as they are. -/
theorem fnSelfAnnotated_param (w : World) (depth : Nat) (tc : TypeChecker) (other : Nat)
    (h : other ≠ 2) :
    (tc.infer (Program.obj w fnSelfAnnotated depth 2)).2.type_of other = tc.type_of other := by
  cases depth with
  | zero =>
    show (tc.infer_at 2 _).2.type_of other = _
    unfold infer_at
    split
    · rfl
    · exact type_of_set_type_ne 2 other _ _ h
  | succ depth =>
    show (tc.infer_at 2 _).2.type_of other = _
    unfold infer_at
    split
    · rfl
    · exact type_of_set_type_ne 2 other _ _ h

/-- The inference of the declaration of `fn f() -> f { }` overflows at every depth,
from every checker in which the slots of the declaration, of its return type and of
the path of the return type are empty. -/
theorem fnSelfAnnotated_overflow (w : World) (depth : Nat) :
    ∀ tc : TypeChecker, tc.type_of 0 = none → tc.type_of 3 = none → tc.type_of 4 = none →
      (tc.infer (Program.obj w fnSelfAnnotated depth 0)).2.overflow = true := by
  induction depth using Nat.strong_induction_on with
  | _ depth ih =>
    intro tc h0 h3 h4
    cases depth with
    | zero =>
      show (tc.infer_at 0 _).2.overflow = true
      simp only [infer_at, h0]
      rfl
    | succ n =>
      show (tc.infer_at 0 (FnDecl.infer 0 (locAt 0) none
        ⟨1, locAt 1, Program.obj w fnSelfAnnotated n 2,
          some (Program.obj w fnSelfAnnotated n 3),
          some (Program.obj w fnSelfAnnotated n 5)⟩)).2.overflow = true
      simp only [infer_at, h0, overflow_set_type]
      apply FnDecl.overflow_of_prepare
      · exact Program.sticky_obj w _ n 2
      · intro r hr
        cases hr
        exact Program.sticky_obj w _ n 3
      · intro b hb
        cases hb
        exact Program.sticky_obj w _ n 5
      · show ((((tc.infer (Program.obj w fnSelfAnnotated n 2)).2.infer
            (Program.obj w fnSelfAnnotated n 3)).2).set_type 0 _).overflow = true
        simp only [overflow_set_type]
        have g0 := fnSelfAnnotated_param w n tc 0 (by decide)
        have g3 := fnSelfAnnotated_param w n tc 3 (by decide)
        have g4 := fnSelfAnnotated_param w n tc 4 (by decide)
        rw [h0] at g0
        rw [h3] at g3
        rw [h4] at g4
        generalize (tc.infer (Program.obj w fnSelfAnnotated n 2)).2 = s at g0 g3 g4 ⊢
        cases n with
        | zero =>
          show (s.infer_at 3 _).2.overflow = true
          simp only [infer_at, g3]
          rfl
        | succ m =>
          show (s.infer_at 3 (TypeChecker.infer (Path.obj w
            ⟨4, locAt 4, some [⟨Program.obj w fnSelfAnnotated m 0, none⟩],
              [⟨locAt 4, ⟨"f", locAt 4⟩, []⟩]⟩))).2.overflow = true
          simp only [infer_at, g3, overflow_set_type]
          show (s.infer_at 4 (Path.infer w
            ⟨4, locAt 4, some [⟨Program.obj w fnSelfAnnotated m 0, none⟩],
              [⟨locAt 4, ⟨"f", locAt 4⟩, []⟩]⟩)).2.overflow = true
          simp only [infer_at, g4, overflow_set_type]
          unfold Path.infer
          dsimp only
          apply Path.sticky_infer_elems
          · intro e he a ha
            simp only [List.mem_singleton] at he
            subst he
            cases ha
          · exact ih m (by omega) s g0 g3 g4

theorem TypeChecker.decls_infer (node : NodeObj) (hn : node.KeepsDecls) (tc : TypeChecker) :
    (tc.infer node).2.decls_ = tc.decls_ := by
  unfold TypeChecker.infer infer_at
  split
  · rfl
  · exact hn.1 tc

theorem TypeChecker.decls_check (node : NodeObj) (hn : node.KeepsDecls) (expected : Ty)
    (tc : TypeChecker) : (tc.check node expected).2.decls_ = tc.decls_ :=
  hn.2 expected tc

theorem FnExpr.keeps_decls (fn : FnExprObj) (hp : fn.param.KeepsDecls)
    (hr : ∀ r, fn.ret_type = some r → r.KeepsDecls)
    (hb : ∀ b, fn.body = some b → b.KeepsDecls) : (FnExpr.obj fn).KeepsDecls := by
  refine ⟨fun tc => ?_, fun expected tc => ?_⟩
  · simp only [FnExpr.obj, FnExpr.infer]
    split
    · next ret_type hrt =>
      split
      · next body hbd =>
        rw [decls_check body (hb _ hbd), decls_infer fn.param hp,
          decls_infer ret_type (hr _ hrt)]
      · rw [decls_infer fn.param hp, decls_infer ret_type (hr _ hrt)]
    · split
      · next body hbd => rw [decls_infer body (hb _ hbd), decls_infer fn.param hp]
      · rfl
  · simp only [FnExpr.obj, FnExpr.check]
    split
    · next domain codomain =>
      split
      · next body hbd => rw [decls_check body (hb _ hbd), decls_check fn.param hp]
      · rw [decls_check fn.param hp]
    · unfold expect_msg
      dsimp only
      split
      · unfold explain_no_ret
        split <;> rfl
      · rfl

theorem FnDecl.decls_prepare (this : Nat) (type_params : Option NodeObj) (fn : FnExprObj)
    (ht : ∀ t, type_params = some t → t.KeepsDecls) (hp : fn.param.KeepsDecls)
    (hr : ∀ r, fn.ret_type = some r → r.KeepsDecls) (tc : TypeChecker) :
    (FnDecl.prepare this type_params fn tc).decls_ = tc.decls_ := by
  have h1 : (match type_params with
      | some type_params => (tc.check type_params (Ty.param this)).2
      | none => tc).decls_ = tc.decls_ := by
    split
    · next t => exact decls_check t (ht t rfl) _ tc
    · rfl
  unfold FnDecl.prepare
  dsimp only
  split
  · next ret_type hrt =>
    have h3 : ((((match type_params with
        | some type_params => (tc.check type_params (Ty.param this)).2
        | none => tc).infer fn.param).2.infer ret_type).2).decls_ = tc.decls_ := by
      rw [decls_infer ret_type (hr _ hrt), decls_infer fn.param hp, h1]
    split <;> exact h3
  · exact h1

theorem FnDecl.decls_decl_infer (this : Nat) (loc : Loc) (type_params : Option NodeObj)
    (fn : FnExprObj) (ht : ∀ t, type_params = some t → t.KeepsDecls)
    (hp : fn.param.KeepsDecls) (hr : ∀ r, fn.ret_type = some r → r.KeepsDecls)
    (hb : ∀ b, fn.body = some b → b.KeepsDecls) (tc : TypeChecker) :
    (FnDecl.infer this loc type_params fn tc).2.decls_ = tc.decls_ := by
  have h1 := FnDecl.decls_prepare this type_params fn ht hp hr tc
  rw [FnDecl.infer_eq]
  unfold enter_decl
  by_cases hc : (FnDecl.prepare this type_params fn tc).decls_.contains this = true
  · rw [if_pos hc]
    exact h1
  · rw [if_neg hc]
    show ((match type_params.map (fun _ => Ty.type_forall this) with
      | some _ => _
      | none => _ : TypeChecker).exit_decl this).decls_ = tc.decls_
    have h2 := TypeChecker.decls_infer (FnExpr.obj fn) (FnExpr.keeps_decls fn hp hr hb)
      { FnDecl.prepare this type_params fn tc with
        decls_ := this :: (FnDecl.prepare this type_params fn tc).decls_ }
    unfold exit_decl
    dsimp only
    split
    · show List.erase (TypeChecker.infer (FnExpr.obj fn) _).2.decls_ this = tc.decls_
      rw [h2]
      simp [h1]
    · rw [h2]
      simp [h1]

/-- C29: `FnDecl::infer`, `enter_decl` and `exit_decl`. A request to infer the
declaration at `this` that arrives while the declaration is in the set `decls_` and
its `type` slot is empty is rejected when it reaches `enter_decl`: the result is the
error type, with the one error `cannot infer type for recursive declaration`; for a
function without return type and without type parameters nothing happens before.
When the declaration is not in the set, it is put in the set, the function is
inferred, and it is taken out of the set: if the members of the declaration leave
the set as they find it, so does `FnDecl::infer`. For a function with a return type
the parameter and the return type are inferred before `enter_decl` is called and
before the slot is filled: a request that comes from them is not rejected. The
inference of `fn f() -> f { }` overflows at every depth to which the program is
unfolded, so it does not terminate, while that of `fn f() { f() }` returns, with the
one error. -/
theorem fn_decl_recursion (this : Nat) (loc : Loc) (fn : FnExprObj) (tc : TypeChecker) :
    (fn.ret_type = none → tc.decls_.contains this = true →
      FnDecl.infer this loc none fn tc =
        (.type_error,
          { tc with
            error_count := tc.error_count + 1
            diags := tc.diags ++
              [⟨.error, some loc, "cannot infer type for recursive declaration", []⟩] })) ∧
    (∀ type_params,
      (FnDecl.prepare this type_params fn tc).decls_.contains this = true →
      FnDecl.infer this loc type_params fn tc =
        (.type_error,
          (FnDecl.prepare this type_params fn tc).error loc
            "cannot infer type for recursive declaration" [])) ∧
    (fn.ret_type = none → tc.decls_.contains this = false →
      FnDecl.infer this loc none fn tc =
        ((TypeChecker.infer (FnExpr.obj fn) { tc with decls_ := this :: tc.decls_ }).1,
          (TypeChecker.infer (FnExpr.obj fn)
            { tc with decls_ := this :: tc.decls_ }).2.exit_decl this)) ∧
    (∀ type_params, (∀ t, type_params = some t → t.KeepsDecls) → fn.param.KeepsDecls →
      (∀ r, fn.ret_type = some r → r.KeepsDecls) → (∀ b, fn.body = some b → b.KeepsDecls) →
      (FnDecl.infer this loc type_params fn tc).2.decls_ = tc.decls_) ∧
    (∀ ret_type, fn.ret_type = some ret_type →
      FnDecl.prepare this none fn tc =
        ((tc.infer fn.param).2.infer ret_type).2.set_type this
          (.pi (tc.infer fn.param).1 ((tc.infer fn.param).2.infer ret_type).1)) ∧
    (∀ (w : World) (depth : Nat),
      (emptyChecker.infer (Program.obj w fnSelfAnnotated depth 0)).2.overflow = true) ∧
    (emptyChecker.infer (Program.obj exWorld (fnSelfCall false) 12 0)).2.overflow = false ∧
    (emptyChecker.infer (Program.obj exWorld (fnSelfCall false) 12 0)).2.diags =
      [⟨.error, some (locAt 0), "cannot infer type for recursive declaration", []⟩] ∧
    (emptyChecker.infer (Program.obj exWorld (fnSelfCall false) 12 0)).2.decls_ = [] := by
  refine ⟨?_, ?_, ?_, ?_, ?_, ?_, by decide, by decide, by decide⟩
  · intro hr hc
    rw [FnDecl.infer_eq]
    have hp : FnDecl.prepare this none fn tc = tc := by
      simp only [FnDecl.prepare, hr]
    rw [hp]
    simp only [enter_decl, hc, if_true, error_eq]
  · intro type_params hc
    rw [FnDecl.infer_eq]
    simp only [enter_decl, hc, if_true]
  · intro hr hc
    rw [FnDecl.infer_eq]
    have hp : FnDecl.prepare this none fn tc = tc := by
      simp only [FnDecl.prepare, hr]
    rw [hp]
    simp only [enter_decl, hc, Bool.false_eq_true, if_false]
    rfl
  · intro type_params ht hp hr hb
    exact FnDecl.decls_decl_infer this loc type_params fn ht hp hr hb tc
  · intro ret_type hr
    simp only [FnDecl.prepare, hr]
    rfl
  · intro w depth
    exact fnSelfAnnotated_overflow w depth emptyChecker rfl rfl rfl

/-- C29 on `fn f() -> i32 { f() }`: the annotated type is in the slot of the
declaration when the body asks for it, and nothing is reported. -/
theorem fn_decl_recursion_annotated :
    (emptyChecker.infer (Program.obj exWorld (fnSelfCall true) 12 0)).2.diags = [] ∧
    (emptyChecker.infer (Program.obj exWorld (fnSelfCall true) 12 0)).2.overflow = false ∧
    (emptyChecker.infer (Program.obj exWorld (fnSelfCall true) 12 0)).1 =
      .pi (.sigma []) (.type_sint 32) := by
  decide

/-- C31 as stated fails on `fn f() -> i32 { true }`, whose type slot is assigned the
type `fn () -> i32` of the annotations and then the type `fn () -> <error>` that the
inference returns; on `fn f() { f() }`, whose slot is assigned the error type by the
inference that is entered again and then the type of the function; and on `fn f() ->
bool { true }`, where the emitter assigns the `def` slots of the declaration and of
its function twice. -/
theorem slots_assigned_twice :
    (emptyChecker.infer fnWrongBody).2.type_writes 23 =
      [.pi (.sigma []) .type_error, .pi (.sigma []) (.type_sint 32)] ∧
    (emptyChecker.infer (Program.obj exWorld (fnSelfCall false) 12 0)).2.type_writes 0 =
      [.pi (.sigma []) .type_error, .type_error] ∧
    (Emitter.run fnTrue Emitter.init).map (fun em => (em.def_writes 0, em.def_writes 1)) =
      some (2, 2) := by
  refine ⟨by decide, by decide, rfl⟩

/-- C31, with the assignments that the code makes. `TypeChecker::infer` returns the
value of a type slot that holds one and assigns nothing; for an empty slot it runs the
`infer` of the node and then assigns the slot; `TypeChecker::check` assigns the slot
at every call. The slot of a function declaration is assigned by `FnDecl::infer`,
when the function has a return type, and again when the inference returns: for `fn
f() -> i32 { return(3) }` both values are `fn () -> i32`. `Emitter::emit` and
`Emitter::emit_head` assign the `def` slot at every call: for `fn f() -> bool { true
}` the slots of the declaration and of its function are assigned by `emit_head` and
again by `emit`, each time the direct-style form of the lambda 0. -/
theorem slot_assignments :
    (∀ (node : NodeObj) (tc : TypeChecker) (type : Ty),
      tc.type_of node.addr = some type → tc.infer node = (type, tc)) ∧
    (∀ (node : NodeObj) (tc : TypeChecker), tc.type_of node.addr = none →
      (tc.infer node).2.types = (node.addr, (node.infer tc).1) :: (node.infer tc).2.types) ∧
    (∀ (node : NodeObj) (expected : Ty) (tc : TypeChecker),
      (tc.check node expected).2.types =
        (node.addr, (node.check expected tc).1) :: (node.check expected tc).2.types) ∧
    (emptyChecker.infer (fnReturn true)).2.type_writes 23 =
      [.pi (.sigma []) (.type_sint 32), .pi (.sigma []) (.type_sint 32)] ∧
    (∀ (node : EmitObj) (em : Emitter) (r : Option Def × Emitter), node.emit em = some r →
      (em.emit node).map (fun q => q.2.defs) = some ((node.addr, r.1) :: r.2.defs)) ∧
    (∀ (decl : EmitDecl) (em : Emitter) (r : Option Def × Emitter),
      decl.emit_head em = some r →
      (em.emit_head decl).map (fun q => q.2.defs) = some ((decl.node.addr, r.1) :: r.2.defs)) ∧
    (Emitter.run fnTrue Emitter.init).map (fun em => (em.def_values 0, em.def_values 1)) =
      some
        ([some (.cps2ds (.lam 0)), some (.cps2ds (.lam 0))],
          [some (.cps2ds (.lam 0)), some (.cps2ds (.lam 0))]) := by
  refine ⟨?_, ?_, ?_, by decide, ?_, ?_, rfl⟩
  · intro node tc type h
    simp only [TypeChecker.infer, TypeChecker.infer_at, h]
  · intro node tc h
    simp only [TypeChecker.infer, TypeChecker.infer_at, h, TypeChecker.set_type]
  · intro node expected tc
    rfl
  · intro node em r h
    simp only [Emitter.emit, h, Option.map_some', Emitter.set_def]
  · intro decl em r h
    simp only [Emitter.emit_head, h, Option.map_some', Emitter.set_def]

/-- C32 as stated fails in both directions. The module `fn f() { let x = 1; x = 2 }`
has one error, the assignment to a variable that is not mutable, and no node of it is
given a type that contains the error type; the record `S { x = 1 }` of `struct S { x,
y }` has one error, the missing field, and the type `S`. The module `fn f() { y }`,
in which the binder has found no declaration of `y`, has no error of the checker, and
its nodes are given the error type. -/
theorem error_count_not_error_types :
    (emptyChecker.run [fnAssign]).1 = false ∧
    (emptyChecker.run [fnAssign]).2.error_count = 1 ∧
    (emptyChecker.run [fnAssign]).2.has_error_type = false ∧
    (checkerS.infer recordMissing).1 = structS ∧
    (checkerS.infer recordMissing).2.error_count = 1 ∧
    (checkerS.infer recordMissing).2.has_error_type = false ∧
    (emptyChecker.run [fnUnbound]).1 = true ∧
    (emptyChecker.run [fnUnbound]).2.error_count = 0 ∧
    (emptyChecker.run [fnUnbound]).2.has_error_type = true := by
  decide

/-- C32, site by site. `TypeChecker::run` returns whether the error count is zero
after `ModDecl::infer`. The methods that report a mismatch, a type that is not a
struct type, an unknown field, a type that cannot be inferred, unreachable code or a
recursive declaration return the error type, and so does `check_fields` for an
unknown or a duplicated field. After `missing field` errors `check_fields` returns the
struct type, or the applied type. After the error of `check_mut` an assignment has the
unit type and an increment or a decrement the type of its operand. A path without
symbol and a primitive type with the tag `Error` have the error type, and nothing is
reported for them. -/
theorem error_sites_types (w : World) (loc : Loc) (tc : TypeChecker) :
    (∀ decls, tc.run decls = ((ModDecl.infer decls tc).error_count == 0,
      ModDecl.infer decls tc)) ∧
    (∀ type expected, w.join type expected = none →
      (tc.expect w loc type expected).1 = .type_error) ∧
    (∀ msg type expected, w.join type expected = none →
      (tc.expect_msg_type w loc msg type expected).1 = .type_error) ∧
    (∀ msg expected, (tc.expect_msg loc msg expected).1 = .type_error) ∧
    (∀ type, (tc.struct_expected loc type).1 = .type_error) ∧
    (∀ type field, tc.unknown_member loc type field =
      (.type_error, tc.error loc "no field '{}' in '{}'" [field, type.format])) ∧
    (∀ msg, tc.cannot_infer loc msg = (.type_error, tc.error loc "cannot infer type for {}" [msg])) ∧
    (∀ before first, (tc.unreachable_code before first loc).1 = .type_error ∧
      (tc.unreachable_code before first loc).2.error_count = tc.error_count + 1) ∧
    (∀ this fn, FnExprObj.ret_type fn = none → tc.decls_.contains this = true →
      FnDecl.infer this loc none fn tc =
        (.type_error, tc.error loc "cannot infer type for recursive declaration" [])) ∧
    (∀ struct_type app fields etc msg,
      (check_fields_loop w loc struct_type app fields
          (List.replicate struct_type.meta.length false) tc).1 = none →
      (tc.check_fields w loc struct_type app fields etc msg).1 = .type_error) ∧
    (∀ struct_type app fields etc msg, FieldsOk struct_type fields →
      (tc.check_fields w loc struct_type app fields etc msg).1 = app.getD struct_type) ∧
    (∀ left right has_cmp, (BinaryExpr.infer left right true has_cmp tc).1 = .sigma []) ∧
    (∀ arg is_dec, (UnaryExpr.infer arg true is_dec tc).1 = (tc.infer arg.node).1) ∧
    (∀ path, PathObj.symbol path = none → Path.infer w path tc = (.type_error, tc)) ∧
    PrimType.infer .Error tc = (.type_error, tc) := by
  refine ⟨fun _ => rfl, ?_, ?_, fun _ _ => rfl, fun _ => rfl, fun _ _ => rfl, fun _ => rfl,
    fun _ _ => ⟨rfl, rfl⟩, ?_, ?_, ?_, fun _ _ _ => rfl, fun _ _ => ?_, ?_, rfl⟩
  · intro type expected h
    simp only [expect, h]
  · intro msg type expected h
    simp only [expect_msg_type, h]
  · intro this fn hr hc
    simp only [FnDecl.infer, hr, enter_decl, hc, if_true]
  · intro struct_type app fields etc msg h
    unfold check_fields
    simp only []
    cases hl : check_fields_loop w loc struct_type app fields
      (List.replicate struct_type.meta.length false) tc with
    | mk seen tc1 =>
      rw [hl] at h
      simp only at h
      subst h
      rfl
  · intro struct_type app fields etc msg hok
    obtain ⟨seen, e, -, -⟩ := check_fields_loop_init w loc struct_type app fields tc hok
    simp only [check_fields, e]
  · simp only [UnaryExpr.infer, Bool.true_or, if_true]
  · intro path h
    simp only [Path.infer, h]

/-- C33 as stated fails on a mismatch with a type that contains the no-return type:
`expect` on the type `fn () -> <no-ret>` of `break` against `i32` reports the
mismatch with both types printed, and the two notes that explain the no-return type.
It also fails on the path `x::y` for a variable `x` of the error type: the error for
the operator `::` prints the error type. -/
theorem expect_prints_no_ret :
    contains (.pi (.sigma []) .type_no_ret) .type_no_ret = true ∧
    (emptyChecker.expect exWorld exLoc (.pi (.sigma []) .type_no_ret) (.type_sint 32)).1 =
      .type_error ∧
    (emptyChecker.expect exWorld exLoc (.pi (.sigma []) .type_no_ret) (.type_sint 32)).2.diags =
      [⟨.error, some exLoc, "expected type '{}', but got type '{}'",
          ["i32", "fn () -> <no-ret>"]⟩,
        ⟨.note, none,
          "the type '{}' indicates a {} or {} type, used to denote the return type of functions like '{}', '{}', or '{}'",
          ["<no-ret>", "bottom", "no-return", "break", "continue", "return"]⟩,
        ⟨.note, none,
          "this error {} indicate that you forgot to add parentheses '()' in the call to one of those functions",
          ["may"]⟩] ∧
    contains .type_error .type_error = true ∧
    (Path.infer exWorld pathOfError emptyChecker).2.diags =
      [⟨.error, some (locAt 2), "operator '::' not allowed on type '{}'", ["<error>"]⟩] := by
  decide

/-- C33, for the error type and the diagnostics that test it: `expect(loc, type,
expected)` returns the join when there is one, and the checker as it is; otherwise it
returns the error type, and it reports one mismatch error, which prints both types,
exactly when neither type contains the error type; the same holds for `expect` with a
message. A type that contains the no-return type is printed, and the mismatch is then
followed by the two notes of `explain_no_ret`, which are not errors. The errors
`structure type expected`, `integer type expected as array index` and `expected
function or array type in call expression` are reported only when the type that they
print does not contain the error type. -/
theorem expect_absorbs_error_type (w : World) (loc : Loc) (tc : TypeChecker) :
    (∀ type expected best, w.join type expected = some best →
      tc.expect w loc type expected = (best, tc)) ∧
    (∀ type expected, w.join type expected = none →
      (contains type .type_error = true ∨ contains expected .type_error = true) →
      tc.expect w loc type expected = (.type_error, tc)) ∧
    (∀ type expected, w.join type expected = none →
      contains type .type_error = false → contains expected .type_error = false →
      tc.expect w loc type expected =
        (.type_error,
          (tc.error loc "expected type '{}', but got type '{}'"
            [expected.format, type.format]).explain_no_ret (some type) expected) ∧
      (tc.expect w loc type expected).2.error_count = tc.error_count + 1) ∧
    (∀ msg type expected best, w.join type expected = some best →
      tc.expect_msg_type w loc msg type expected = (best, tc)) ∧
    (∀ msg type expected, w.join type expected = none →
      (contains type .type_error = true ∨ contains expected .type_error = true) →
      tc.expect_msg_type w loc msg type expected = (.type_error, tc)) ∧
    (∀ msg type expected, w.join type expected = none →
      contains type .type_error = false → contains expected .type_error = false →
      tc.expect_msg_type w loc msg type expected =
        (.type_error,
          (tc.error loc "expected type '{}', but got {} with type '{}'"
            [expected.format, msg, type.format]).explain_no_ret (some type) expected)) ∧
    (∀ msg expected, contains expected .type_error = true →
      tc.expect_msg loc msg expected = (.type_error, tc)) ∧
    (∀ type expected, (tc.explain_no_ret type expected).error_count = tc.error_count ∧
      ((type.elim false (fun t => contains t .type_no_ret) || contains expected .type_no_ret) =
          true →
        (tc.explain_no_ret type expected).diags.length = tc.diags.length + 2)) ∧
    (∀ type, contains type .type_error = true →
      tc.struct_expected loc type = (.type_error, tc)) ∧
    (∀ type, contains type .type_error = false →
      tc.struct_expected loc type =
        (.type_error, tc.error loc "structure type expected, but got '{}'" [type.format])) ∧
    (∀ callee arg body, (tc.infer callee).1 = Ty.variadic_unsafe body →
      is_uint_type ((tc.infer callee).2.infer arg).1 = false →
      is_sint_type ((tc.infer callee).2.infer arg).1 = false →
      contains ((tc.infer callee).2.infer arg).1 .type_error = true →
      tc.infer_call callee arg = (.type_error, ((tc.infer callee).2.infer arg).2)) ∧
    (∀ callee arg, (∀ domain codomain, (tc.infer callee).1 ≠ .pi domain codomain) →
      (∀ body, (tc.infer callee).1 ≠ Ty.variadic_unsafe body) →
      contains (tc.infer callee).1 .type_error = true →
      tc.infer_call callee arg = (.type_error, (tc.infer callee).2)) := by
  refine ⟨?_, ?_, ?_, ?_, ?_, ?_, ?_, ?_, ?_, ?_, ?_, ?_⟩
  · intro type expected best h
    simp only [expect, h]
  · intro type expected h hc
    simp only [expect, h, should_emit_error]
    rcases hc with hc | hc <;> simp [hc]
  · intro type expected h ht he
    have e : tc.expect w loc type expected =
        (.type_error,
          (tc.error loc "expected type '{}', but got type '{}'"
            [expected.format, type.format]).explain_no_ret (some type) expected) := by
      simp only [expect, h, should_emit_error, ht, he, Bool.not_false, Bool.and_self, if_true]
    refine ⟨e, ?_⟩
    rw [e]
    obtain ⟨new, en, -⟩ := error_explain loc "expected type '{}', but got type '{}'"
      [expected.format, type.format] (some type) expected tc
    rw [en]
  · intro msg type expected best h
    simp only [expect_msg_type, h]
  · intro msg type expected h hc
    simp only [expect_msg_type, h, should_emit_error]
    rcases hc with hc | hc <;> simp [hc]
  · intro msg type expected h ht he
    simp only [expect_msg_type, h, should_emit_error, ht, he, Bool.not_false, Bool.and_self,
      if_true]
  · intro msg expected hc
    simp only [expect_msg, should_emit_error, hc, Bool.not_true, Bool.false_eq_true, if_false]
  · intro type expected
    refine ⟨?_, fun h => ?_⟩
    · obtain ⟨notes, e, -⟩ := explain_no_ret_eq type expected tc
      rw [e]
    · unfold explain_no_ret
      cases type with
      | none =>
        simp only [Option.elim, Bool.false_or] at h
        simp only [Bool.false_or, h, if_true, note_note, List.length_append, List.length_cons,
          List.length_nil]
      | some t =>
        simp only [Option.elim] at h
        simp only [h, if_true, note_note, List.length_append, List.length_cons,
          List.length_nil]
  · intro type hc
    simp only [struct_expected, should_emit_error, hc, Bool.not_true, Bool.false_eq_true,
      if_false]
  · intro type hc
    simp only [struct_expected, should_emit_error, hc, Bool.not_false, if_true]
  · intro callee arg body hv hu hs hc
    simp only [infer_call, hv, hu, hs, should_emit_error, hc, Bool.not_false, Bool.not_true,
      Bool.and_self, Bool.false_eq_true, if_true, if_false]
  · intro callee arg hp hv hc
    unfold infer_call
    simp only []
    cases hct : (tc.infer callee).1 with
    | pi domain codomain => exact absurd hct (hp domain codomain)
    | variadic_unsafe body => exact absurd hct (hv body)
    | _ =>
      rw [hct] at hc
      simp only [should_emit_error, hc, Bool.not_true, Bool.false_eq_true, if_false]

/-! # Properties of the emitter -/

/-- C34: `Emitter::call(callee, arg)`, with the current block `bb` and the memory
token `mem`, builds the application `res` of `callee` to `(mem, arg)`, whose type is
the codomain of the type of the callee. If that type is bottom, `res` becomes the body
of `bb`, the current block and the memory token are cleared and `res` is returned;
otherwise the current block stays, the memory token becomes the component 0 of `res`
and the component 1 is returned. -/
theorem emitter_call_cases (callee arg mem : Def) (bb : Nat) (em : Emitter)
    (hbb : em.bb_ = some bb) (hmem : em.mem_ = some mem) :
    (Def.app callee [mem, arg]).type em.lams = (callee.type em.lams).codomain ∧
    (((Def.app callee [mem, arg]).type em.lams).isa_bot = true →
      em.call callee arg =
        some (.app callee [mem, arg],
          { em with
            bodies := (bb, .app callee [mem, arg]) :: em.bodies, bb_ := none, mem_ := none })) ∧
    (((Def.app callee [mem, arg]).type em.lams).isa_bot = false →
      em.call callee arg =
        some (.extract (.app callee [mem, arg]) 1,
          { em with mem_ := some (.extract (.app callee [mem, arg]) 0) })) := by
  refine ⟨rfl, fun h => ?_, fun h => ?_⟩
  · simp only [Emitter.call, hmem, hbb, h, if_true, Emitter.set_body]
  · simp only [Emitter.call, hmem, h, Bool.false_eq_true, if_false]

/-- C34 in the block 0, whose memory token is its parameter 0: the call of the block
2, a continuation, with `true` is written into the block 0 and clears the emitter;
the call of the function `g` with `true` leaves the block and advances the memory
token. -/
theorem emitter_call_cases_witness :
    inBlockWithFn.bb_ = some 0 ∧ inBlockWithFn.mem_ = some (.param 0 0) ∧
    (inBlockWithFn.call (.lam 2) .lit_true).map (fun r => (r.2.bb_, r.2.bodies.length)) =
      some (none, 1) ∧
    (inBlockWithFn.call (.cps2ds (.lam 1)) .lit_true).map (fun r => (r.2.bb_, r.2.bodies.length)) =
      some (some 0, 0) :=
  ⟨rfl, rfl,
    by
      rw [((emitter_call_cases (.lam 2) .lit_true (.param 0 0) 0 inBlockWithFn rfl rfl).2.1 rfl)]
      rfl,
    by
      rw [((emitter_call_cases (.cps2ds (.lam 1)) .lit_true (.param 0 0) 0 inBlockWithFn rfl
        rfl).2.2 rfl)]
      rfl⟩

/-- C35 as stated fails on the locations `1:0-1:1` and `1:5-1:6` of the file 0: their
concatenation in one order is `1:0-1:6`, and in the other `1:5-1:1`. -/
theorem loc_concat_not_commutative :
    (locAt 0).file = (locAt 5).file ∧
    Loc.concat (locAt 0) (locAt 5) = ⟨0, ⟨1, 0⟩, ⟨1, 6⟩⟩ ∧
    Loc.concat (locAt 5) (locAt 0) = ⟨0, ⟨1, 5⟩, ⟨1, 1⟩⟩ ∧
    Loc.concat (locAt 0) (locAt 5) ≠ Loc.concat (locAt 5) (locAt 0) := by
  decide

/-- C35, without the symmetry: the concatenation `Loc(first, last)` has the file and
the begin of `first` and the end of `last`; it is idempotent and associative; and for
locations of the same file `Loc(a, b) = Loc(b, a)` holds exactly when `a = b`. -/
theorem loc_concat_band (a b c : Loc) :
    (Loc.concat a b).file = a.file ∧ (Loc.concat a b).begin_ = a.begin_ ∧
    (Loc.concat a b).end_ = b.end_ ∧
    Loc.concat a a = a ∧
    Loc.concat (Loc.concat a b) c = Loc.concat a (Loc.concat b c) ∧
    (a.file = b.file → (Loc.concat a b = Loc.concat b a ↔ a = b)) := by
  refine ⟨rfl, rfl, rfl, rfl, rfl, fun hf => ⟨fun h => ?_, fun h => by rw [h]⟩⟩
  obtain ⟨af, ab, ae⟩ := a
  obtain ⟨bf, bb, be⟩ := b
  simp only [Loc.concat, Loc.mk.injEq] at h
  simp only at hf
  simp only [Loc.mk.injEq]
  exact ⟨hf, h.2.1, h.2.2.symm⟩

theorem retainEntry_fst (name : String) (es : List (String × SymbolPtr)) :
    (retainEntry name es).map Prod.fst = es.map Prod.fst := by
  induction es with
  | nil => rfl
  | cons e es ih =>
    rw [retainEntry]
    split
    · rfl
    · rw [List.map_cons, List.map_cons, ih]

theorem names_retainIn (fs : List SymbolTable) (name : String) :
    (retainIn fs name).map SymbolTable.names = fs.map SymbolTable.names := by
  induction fs with
  | nil => rfl
  | cons t ts ih =>
    rw [retainIn]
    split
    · simp only [List.map_cons, SymbolTable.names, retainEntry_fst]
    · rw [List.map_cons, List.map_cons, ih]

theorem NameBinder.names_pop_scope (st : NameBinder) : st.pop_scope.names = st.names.tail := by
  simp only [NameBinder.names, scopes_pop_scope, List.map_tail]

theorem NameBinder.Kept.kept_refl (st : NameBinder) : st.Kept 0 true st :=
  ⟨Nat.zero_le _, rfl, rfl, fun _ => rfl⟩

theorem NameBinder.Kept.kept_of_eq {a b : NameBinder} (h : b.scopes_ = a.scopes_) :
    a.Kept 0 true b := by
  have e : b.names = a.names := by simp only [NameBinder.names, h]
  exact ⟨Nat.zero_le _, by rw [e]; rfl, by rw [e]; rfl, fun _ => by rw [e]; rfl⟩

theorem NameBinder.Kept.kept_of {a b : NameBinder} {c c1 : Bool} (h : a.Kept 0 c b)
    (hc : c1 = true → c = true) : a.Kept 0 c1 b :=
  ⟨h.1, h.2.1, h.2.2.1, fun e => h.2.2.2 (hc e)⟩

theorem NameBinder.Kept.kept_error {a b : NameBinder} {k : Nat} {c : Bool} (h : a.Kept k c b)
    (loc : Loc) (fmt : String) (args : List String) : a.Kept k c (b.error loc fmt args) := h

theorem NameBinder.Kept.kept_note {a b : NameBinder} {k : Nat} {c : Bool} (h : a.Kept k c b)
    (loc : Option Loc) (fmt : String) (args : List String) :
    a.Kept k c (b.note loc fmt args) := h

theorem NameBinder.Kept.kept_push_loop {a b : NameBinder} {k : Nat} {c : Bool}
    (h : a.Kept k c b) (loop : Nat) : a.Kept k c (b.push_loop loop) := h

theorem NameBinder.Kept.kept_pop_loop {a b : NameBinder} {k : Nat} {c : Bool}
    (h : a.Kept k c b) (old : Option Nat) : a.Kept k c (b.pop_loop old) := h

theorem NameBinder.Kept.kept_push_fn {a b : NameBinder} {k : Nat} {c : Bool}
    (h : a.Kept k c b) (fn : Nat) : a.Kept k c (b.push_fn fn) := h

theorem NameBinder.Kept.kept_pop_fn {a b : NameBinder} {k : Nat} {c : Bool}
    (h : a.Kept k c b) (old : Option Nat) : a.Kept k c (b.pop_fn old) := h

theorem NameBinder.Kept.kept_step {a b b1 : NameBinder} {c c2 : Bool} (h : a.Kept 0 c b)
    (h2 : b.Kept 0 c2 b1) : a.Kept 0 (c && c2) b1 := by
  obtain ⟨-, hl, ht, hc⟩ := h
  obtain ⟨-, hl2, ht2, hc2⟩ := h2
  simp only [List.drop_zero] at hl ht hc hl2 ht2 hc2
  refine ⟨Nat.zero_le _, ?_, ?_, ?_⟩
  · simp only [List.drop_zero, hl2, hl]
  · simp only [List.drop_zero, ht2, ht]
  · intro e
    simp only [Bool.and_eq_true] at e
    simp only [List.drop_zero, hc2 e.2, hc e.1]

theorem NameBinder.Kept.kept_inner {a b b1 : NameBinder} {k : Nat} {c c2 : Bool}
    (h : a.Kept (k + 1) c b) (h2 : b.Kept 0 c2 b1) : a.Kept (k + 1) c b1 := by
  obtain ⟨hk, hl, ht, hc⟩ := h
  obtain ⟨-, hl2, ht2, -⟩ := h2
  simp only [List.drop_zero] at hl2 ht2
  have e : b1.names.drop (k + 1) = b.names.drop (k + 1) := by
    rw [← List.drop_tail, ← List.drop_tail, ht2]
  refine ⟨by rw [hl2]; exact hk, by rw [e]; exact hl, by rw [e]; exact ht, fun h => ?_⟩
  rw [e]
  exact hc h

theorem NameBinder.Kept.kept_push {a b : NameBinder} {k : Nat} {c : Bool} (h : a.Kept k c b)
    (top_level : Bool) : a.Kept (k + 1) c (b.push_scope top_level) := by
  obtain ⟨hk, hl, ht, hc⟩ := h
  have e : (b.push_scope top_level).names = [] :: b.names := rfl
  refine ⟨?_, ?_, ?_, ?_⟩
  · rw [e, List.length_cons]
    exact Nat.succ_le_succ hk
  · rw [e, List.drop_succ_cons]
    exact hl
  · rw [e, List.drop_succ_cons]
    exact ht
  · rw [e, List.drop_succ_cons]
    exact hc

theorem NameBinder.Kept.kept_pop {a b : NameBinder} {k : Nat} {c : Bool}
    (h : a.Kept (k + 1) c b) : a.Kept k c b.pop_scope := by
  obtain ⟨hk, hl, ht, hc⟩ := h
  rw [← List.drop_tail] at hl ht hc
  refine ⟨?_, ?_, ?_, ?_⟩
  · rw [names_pop_scope, List.length_tail]
    omega
  · rw [names_pop_scope]
    exact hl
  · rw [names_pop_scope]
    exact ht
  · rw [names_pop_scope]
    exact hc

theorem NameBinder.Kept.kept_retain (st : NameBinder) (name : String) :
    st.Kept 0 true { st with scopes_ := retainIn st.scopes_ name } := by
  have e : ({ st with scopes_ := retainIn st.scopes_ name } : NameBinder).names = st.names :=
    names_retainIn st.scopes_ name
  exact ⟨Nat.zero_le _, by rw [e]; rfl, by rw [e]; rfl, fun _ => by rw [e]; rfl⟩

theorem NameBinder.Kept.kept_insert_symbol (st : NameBinder) (decl : DeclPtr) :
    st.Kept 0 false (st.insert_symbol decl) := by
  cases hu : startsWithUnderscore decl.decl.id.name with
  | true =>
    rw [insert_symbol_underscore _ _ hu]
    exact (Kept.kept_refl st).kept_of (fun h => by cases h)
  | false =>
    cases hs : st.scopes_ with
    | nil =>
      have : st.insert_symbol decl = st := by simp [NameBinder.insert_symbol, hu, hs]
      rw [this]
      exact (Kept.kept_refl st).kept_of (fun h => by cases h)
    | cons back rest =>
      have key : ∀ st1 : NameBinder,
          st1.scopes_ = (back.insert decl.decl.id.name (Symbol.ofDecl decl)).2 :: rest →
          st.Kept 0 false st1 := by
        intro st1 h1
        refine ⟨Nat.zero_le _, ?_, ?_, fun h => by cases h⟩
        · simp only [NameBinder.names, h1, hs, List.drop_zero, List.length_map,
            List.length_cons]
        · simp only [NameBinder.names, h1, hs, List.drop_zero, List.map_cons, List.tail_cons]
      cases hf : back.find decl.decl.id.name with
      | none =>
        obtain ⟨new, _, heq⟩ := insert_symbol_fresh st decl back rest hs hu hf
        rw [heq]
        exact key _ rfl
      | some old =>
        rw [insert_symbol_redeclared st decl back rest old hs hu hf]
        exact key _ rfl

theorem NameBinder.Kept.kept_bind_head (decl : Node) (st : NameBinder) :
    st.Kept 0 false (bind_head decl st) := by
  unfold NameBinder.bind_head
  split
  any_goals exact Kept.kept_insert_symbol _ _
  · split
    · exact Kept.kept_insert_symbol _ _
    · exact (Kept.kept_refl st).kept_of (fun h => by cases h)
  · exact (Kept.kept_refl st).kept_of (fun h => by cases h)

theorem NameBinder.Kept.kept_bind_heads (decls : List Node) (st : NameBinder) :
    st.Kept 0 false (bind_heads decls st) := by
  induction decls generalizing st with
  | nil => exact (Kept.kept_refl st).kept_of (fun h => by cases h)
  | cons d ds ih => exact (Kept.kept_bind_head d st).kept_step (ih _)

theorem NameBinder.Kept.kept_bind_stmt_heads (stmts : List Node) (st : NameBinder) :
    st.Kept 0 false (bind_stmt_heads stmts st) := by
  induction stmts generalizing st with
  | nil => exact (Kept.kept_refl st).kept_of (fun h => by cases h)
  | cons d ds ih =>
    rw [NameBinder.bind_stmt_heads]
    have h1 : st.Kept 0 false
        (match d.form with
          | .DeclStmt decl => bind_head decl st
          | _ => st) := by
      split
      · exact Kept.kept_bind_head _ _
      · exact (Kept.kept_refl st).kept_of (fun h => by cases h)
    exact h1.kept_step (ih _)

mutual

theorem Form.bindForm_kept : ∀ (x : Form) (st : NameBinder),
    st.Kept 0 (Form.exprlike x) (Form.bind x st).2
  | .Path [] symbol, st => by
    simp only [Form.bind]
    exact Kept.kept_of (Kept.kept_refl st)
      (by simp [Form.exprlike])
  | .Path (.mk id args :: rest) symbol, st => by
    simp only [Form.bind]
    refine @NameBinder.Kept.kept_of _ _ (true && exprlikeElems (.mk id args :: rest)) _ ?_
      (by simp [Form.exprlike])
    split
    · exact ((Kept.kept_refl st).kept_error _ _ _).kept_step (bindElems_kept (.mk id args :: rest) _)
    · split
      · exact Kept.kept_step (Kept.kept_retain st id.name)
          (bindElems_kept (.mk id args :: rest) _)
      · split
        · split
          · exact (((Kept.kept_refl st).kept_error _ _ _).kept_note _ _ _).kept_step
              (bindElems_kept (.mk id args :: rest) _)
          · exact ((Kept.kept_refl st).kept_error _ _ _).kept_step (bindElems_kept (.mk id args :: rest) _)
        · exact ((Kept.kept_refl st).kept_error _ _ _).kept_step (bindElems_kept (.mk id args :: rest) _)
  | .Filter expr, st => by
    simp only [Form.bind]
    exact Kept.kept_of ((Kept.kept_refl st).kept_step (bindOpt_kept expr _))
      (by simp [Form.exprlike])
  | .Attr, st => by
    simp only [Form.bind]
    exact Kept.kept_of (Kept.kept_refl st)
      (by simp [Form.exprlike])
  | .PathAttr path, st => by
    simp only [Form.bind]
    exact Kept.kept_of ((Kept.kept_refl st).kept_step (NameBinder.bind_kept path _))
      (by simp [Form.exprlike])
  | .NamedAttr args, st => by
    simp only [Form.bind]
    exact Kept.kept_of ((Kept.kept_refl st).kept_step (bindList_kept args _))
      (by simp [Form.exprlike])
  | .PrimType, st => by
    simp only [Form.bind]
    exact Kept.kept_of (Kept.kept_refl st)
      (by simp [Form.exprlike])
  | .TupleType args, st => by
    simp only [Form.bind]
    exact Kept.kept_of ((Kept.kept_refl st).kept_step (bindList_kept args _))
      (by simp [Form.exprlike])
  | .ArrayType elem, st => by
    simp only [Form.bind]
    exact Kept.kept_of ((Kept.kept_refl st).kept_step (NameBinder.bind_kept elem _))
      (by simp [Form.exprlike])
  | .FnType from_ to_, st => by
    simp only [Form.bind]
    exact Kept.kept_of (((Kept.kept_refl st).kept_step (NameBinder.bind_kept from_ _)).kept_step (bindOpt_kept to_ _))
      (by simp [Form.exprlike])
  | .PtrType pointee, st => by
    simp only [Form.bind]
    exact Kept.kept_of ((Kept.kept_refl st).kept_step (NameBinder.bind_kept pointee _))
      (by simp [Form.exprlike])
  | .TypeApp path, st => by
    simp only [Form.bind]
    exact Kept.kept_of ((Kept.kept_refl st).kept_step (NameBinder.bind_kept path _))
      (by simp [Form.exprlike])
  | .ErrorType, st => by
    simp only [Form.bind]
    exact Kept.kept_of (Kept.kept_refl st)
      (by simp [Form.exprlike])
  | .DeclStmt decl, st => by
    simp only [Form.bind]
    exact Kept.kept_of ((Kept.kept_refl st).kept_step (NameBinder.bind_kept decl _))
      (by simp [Form.exprlike])
  | .ExprStmt expr, st => by
    simp only [Form.bind]
    exact Kept.kept_of ((Kept.kept_refl st).kept_step (NameBinder.bind_kept expr _))
      (by simp [Form.exprlike])
  | .TypedExpr expr type, st => by
    simp only [Form.bind]
    exact Kept.kept_of (((Kept.kept_refl st).kept_step (NameBinder.bind_kept expr _)).kept_step (NameBinder.bind_kept type _))
      (by simp [Form.exprlike])
  | .PathExpr path, st => by
    simp only [Form.bind]
    exact Kept.kept_of ((Kept.kept_refl st).kept_step (NameBinder.bind_kept path _))
      (by simp [Form.exprlike])
  | .LiteralExpr, st => by
    simp only [Form.bind]
    exact Kept.kept_of (Kept.kept_refl st)
      (by simp [Form.exprlike])
  | .FieldExpr expr, st => by
    simp only [Form.bind]
    exact Kept.kept_of ((Kept.kept_refl st).kept_step (NameBinder.bind_kept expr _))
      (by simp [Form.exprlike])
  | .RecordExpr (some expr) type fields, st => by
    simp only [Form.bind]
    exact Kept.kept_of (((Kept.kept_refl st).kept_step (NameBinder.bind_kept expr _)).kept_step (bindList_kept fields _))
      (by simp [Form.exprlike])
  | .RecordExpr none type fields, st => by
    simp only [Form.bind]
    exact Kept.kept_of (((Kept.kept_refl st).kept_step (bindOpt_kept type _)).kept_step (bindList_kept fields _))
      (by simp [Form.exprlike])
  | .TupleExpr args, st => by
    simp only [Form.bind]
    exact Kept.kept_of ((Kept.kept_refl st).kept_step (bindList_kept args _))
      (by simp [Form.exprlike])
  | .ArrayExpr elems, st => by
    simp only [Form.bind]
    exact Kept.kept_of ((Kept.kept_refl st).kept_step (bindList_kept elems _))
      (by simp [Form.exprlike])
  | .RepeatArrayExpr elem, st => by
    simp only [Form.bind]
    exact Kept.kept_of ((Kept.kept_refl st).kept_step (NameBinder.bind_kept elem _))
      (by simp [Form.exprlike])
  | .FnExpr fn, st => by
    simp only [Form.bind]
    exact Kept.kept_of ((Kept.kept_refl st).kept_step (FnExpr.bindFn_kept fn false _))
      (by simp [Form.exprlike])
  | .BlockExpr stmts, st => by
    simp only [Form.bind]
    exact Kept.kept_of ((((Kept.kept_refl st).kept_push false).kept_inner (Kept.kept_bind_stmt_heads stmts _)).kept_inner (bindList_kept stmts _)).kept_pop
      (by simp [Form.exprlike])
  | .CallExpr callee arg, st => by
    simp only [Form.bind]
    exact Kept.kept_of (((Kept.kept_refl st).kept_step (NameBinder.bind_kept callee _)).kept_step (NameBinder.bind_kept arg _))
      (by simp [Form.exprlike])
  | .UnaryExpr arg, st => by
    simp only [Form.bind]
    exact Kept.kept_of ((Kept.kept_refl st).kept_step (NameBinder.bind_kept arg _))
      (by simp [Form.exprlike])
  | .BinaryExpr left right, st => by
    simp only [Form.bind]
    exact Kept.kept_of (((Kept.kept_refl st).kept_step (NameBinder.bind_kept left _)).kept_step (NameBinder.bind_kept right _))
      (by simp [Form.exprlike])
  | .ProjExpr expr, st => by
    simp only [Form.bind]
    exact Kept.kept_of ((Kept.kept_refl st).kept_step (NameBinder.bind_kept expr _))
      (by simp [Form.exprlike])
  | .IfExpr (some cond) ptrn expr if_true if_false, st => by
    simp only [Form.bind]
    exact Kept.kept_of (((((Kept.kept_refl st).kept_push false).kept_inner (NameBinder.bind_kept cond _)).kept_inner (NameBinder.bind_kept if_true _)).kept_pop.kept_step (bindOpt_kept if_false _))
      (by simp [Form.exprlike])
  | .IfExpr none ptrn expr if_true if_false, st => by
    simp only [Form.bind]
    exact Kept.kept_of ((((((Kept.kept_refl st).kept_push false).kept_inner (bindOpt_kept ptrn _)).kept_inner (bindOpt_kept expr _)).kept_inner (NameBinder.bind_kept if_true _)).kept_pop.kept_step (bindOpt_kept if_false _))
      (by simp [Form.exprlike])
  | .CaseExpr ptrn expr, st => by
    simp only [Form.bind]
    exact Kept.kept_of ((((Kept.kept_refl st).kept_push false).kept_inner (NameBinder.bind_kept ptrn _)).kept_inner (NameBinder.bind_kept expr _)).kept_pop
      (by simp [Form.exprlike])
  | .MatchExpr arg cases, st => by
    simp only [Form.bind]
    exact Kept.kept_of (((Kept.kept_refl st).kept_step (NameBinder.bind_kept arg _)).kept_step (bindList_kept cases _))
      (by simp [Form.exprlike])
  | .WhileExpr addr (some cond) ptrn expr body, st => by
    simp only [Form.bind]
    exact Kept.kept_of ((((((Kept.kept_refl st).kept_push false).kept_inner (NameBinder.bind_kept cond _)).kept_push_loop addr).kept_inner (NameBinder.bind_kept body _)).kept_pop_loop _).kept_pop
      (by simp [Form.exprlike])
  | .WhileExpr addr none ptrn expr body, st => by
    simp only [Form.bind]
    exact Kept.kept_of (((((((Kept.kept_refl st).kept_push false).kept_inner (bindOpt_kept ptrn _)).kept_inner (bindOpt_kept expr _)).kept_push_loop addr).kept_inner (NameBinder.bind_kept body _)).kept_pop_loop _).kept_pop
      (by simp [Form.exprlike])
  | .ForExpr addr callee loop_body_attrs loop_body arg, st => by
    simp only [Form.bind]
    exact Kept.kept_of (((((((Kept.kept_refl st).kept_step (NameBinder.bind_kept callee _)).kept_push_loop addr).kept_step (bindAttrs_kept loop_body_attrs _)).kept_step (FnExpr.bindFn_kept loop_body true _)).kept_pop_loop _).kept_step (NameBinder.bind_kept arg _))
      (by simp [Form.exprlike])
  | .BreakExpr loc loop, st => by
    simp only [Form.bind]
    refine @NameBinder.Kept.kept_of _ _ true _ ?_ (by simp [Form.exprlike])
    split
    · exact (Kept.kept_refl st).kept_error _ _ _
    · exact Kept.kept_refl st
  | .ContinueExpr loc loop, st => by
    simp only [Form.bind]
    refine @NameBinder.Kept.kept_of _ _ true _ ?_ (by simp [Form.exprlike])
    split
    · exact (Kept.kept_refl st).kept_error _ _ _
    · exact Kept.kept_refl st
  | .ReturnExpr loc fn, st => by
    simp only [Form.bind]
    refine @NameBinder.Kept.kept_of _ _ true _ ?_ (by simp [Form.exprlike])
    split
    · exact (Kept.kept_refl st).kept_error _ _ _
    · exact Kept.kept_refl st
  | .FilterExpr filter expr, st => by
    simp only [Form.bind]
    exact Kept.kept_of (((Kept.kept_refl st).kept_step (NameBinder.bind_kept filter _)).kept_step (NameBinder.bind_kept expr _))
      (by simp [Form.exprlike])
  | .CastExpr expr type, st => by
    simp only [Form.bind]
    exact Kept.kept_of (((Kept.kept_refl st).kept_step (NameBinder.bind_kept expr _)).kept_step (NameBinder.bind_kept type _))
      (by simp [Form.exprlike])
  | .ImplicitCastExpr, st => by
    simp only [Form.bind]
    exact Kept.kept_of (Kept.kept_refl st)
      (by simp [Form.exprlike])
  | .AsmExpr ins outs, st => by
    simp only [Form.bind]
    exact Kept.kept_of (((Kept.kept_refl st).kept_step (bindList_kept ins _)).kept_step (bindList_kept outs _))
      (by simp [Form.exprlike])
  | .ErrorExpr, st => by
    simp only [Form.bind]
    exact Kept.kept_of (Kept.kept_refl st)
      (by simp [Form.exprlike])
  | .TypedPtrn ptrn type, st => by
    simp only [Form.bind]
    exact Kept.kept_of (((Kept.kept_refl st).kept_step (bindOpt_kept ptrn _)).kept_step (NameBinder.bind_kept type _))
      (by simp [Form.exprlike])
  | .IdPtrn decl sub_ptrn, st => by
    simp only [Form.bind]
    exact Kept.kept_of (((Kept.kept_refl st).kept_step (NameBinder.bind_kept decl _)).kept_step (bindOpt_kept sub_ptrn _))
      (by simp [Form.exprlike])
  | .LiteralPtrn, st => by
    simp only [Form.bind]
    exact Kept.kept_of (Kept.kept_refl st)
      (by simp [Form.exprlike])
  | .FieldPtrn ptrn, st => by
    simp only [Form.bind]
    exact Kept.kept_of ((Kept.kept_refl st).kept_step (bindOpt_kept ptrn _))
      (by simp [Form.exprlike])
  | .RecordPtrn path fields, st => by
    simp only [Form.bind]
    exact Kept.kept_of (((Kept.kept_refl st).kept_step (NameBinder.bind_kept path _)).kept_step (bindList_kept fields _))
      (by simp [Form.exprlike])
  | .CtorPtrn path arg, st => by
    simp only [Form.bind]
    exact Kept.kept_of (((Kept.kept_refl st).kept_step (NameBinder.bind_kept path _)).kept_step (bindOpt_kept arg _))
      (by simp [Form.exprlike])
  | .TuplePtrn args, st => by
    simp only [Form.bind]
    exact Kept.kept_of ((Kept.kept_refl st).kept_step (bindList_kept args _))
      (by simp [Form.exprlike])
  | .ArrayPtrn elems, st => by
    simp only [Form.bind]
    exact Kept.kept_of ((Kept.kept_refl st).kept_step (bindList_kept elems _))
      (by simp [Form.exprlike])
  | .ErrorPtrn, st => by
    simp only [Form.bind]
    exact Kept.kept_of (Kept.kept_refl st)
      (by simp [Form.exprlike])
  | .TypeParam decl, st => by
    simp only [Form.bind]
    exact Kept.kept_of ((Kept.kept_refl st).kept_step (Kept.kept_insert_symbol _ ⟨.TypeParam, decl⟩))
      (by simp [Form.exprlike])
  | .TypeParamList params, st => by
    simp only [Form.bind]
    exact Kept.kept_of ((Kept.kept_refl st).kept_step (bindList_kept params _))
      (by simp [Form.exprlike])
  | .PtrnDecl decl, st => by
    simp only [Form.bind]
    exact Kept.kept_of ((Kept.kept_refl st).kept_step (Kept.kept_insert_symbol _ ⟨.PtrnDecl, decl⟩))
      (by simp [Form.exprlike])
  | .LetDecl init ptrn, st => by
    simp only [Form.bind]
    exact Kept.kept_of (((Kept.kept_refl st).kept_step (bindOpt_kept init _)).kept_step (NameBinder.bind_kept ptrn _))
      (by simp [Form.exprlike])
  | .StaticDecl decl type init, st => by
    simp only [Form.bind]
    exact Kept.kept_of (((Kept.kept_refl st).kept_step (bindOpt_kept type _)).kept_step (bindOpt_kept init _))
      (by simp [Form.exprlike])
  | .FnDecl decl type_params fn_attrs (.mk addr filter param ret_type (some body)), st => by
    simp only [Form.bind]
    exact Kept.kept_of (((((Kept.kept_refl st).kept_push false).kept_inner (bindOpt_kept type_params _)).kept_inner (bindAttrs_kept fn_attrs _)).kept_inner (FnExpr.bindFn_kept (.mk addr filter param ret_type (some body)) false _)).kept_pop
      (by simp [Form.exprlike])
  | .FnDecl decl type_params fn_attrs (.mk addr filter param ret_type none), st => by
    simp only [Form.bind]
    exact Kept.kept_of (((((Kept.kept_refl st).kept_push false).kept_inner (bindOpt_kept type_params _)).kept_inner (bindOpt_kept param _)).kept_inner (bindOpt_kept ret_type _)).kept_pop
      (by simp [Form.exprlike])
  | .FieldDecl type init, st => by
    simp only [Form.bind]
    exact Kept.kept_of (((Kept.kept_refl st).kept_step (NameBinder.bind_kept type _)).kept_step (bindOpt_kept init _))
      (by simp [Form.exprlike])
  | .StructDecl decl type_params fields, st => by
    simp only [Form.bind]
    exact Kept.kept_of ((((Kept.kept_refl st).kept_push false).kept_inner (bindOpt_kept type_params _)).kept_inner (bindList_kept fields _)).kept_pop
      (by simp [Form.exprlike])
  | .OptionDecl decl (some param) fields, st => by
    simp only [Form.bind]
    exact Kept.kept_of (((Kept.kept_refl st).kept_step (NameBinder.bind_kept param _)).kept_step (Kept.kept_insert_symbol _ ⟨.OptionDecl, decl⟩))
      (by simp [Form.exprlike])
  | .OptionDecl decl none fields, st => by
    simp only [Form.bind]
    exact Kept.kept_of (((Kept.kept_refl st).kept_step (bindList_kept fields _)).kept_step (Kept.kept_insert_symbol _ ⟨.OptionDecl, decl⟩))
      (by simp [Form.exprlike])
  | .EnumDecl decl type_params options, st => by
    simp only [Form.bind]
    exact Kept.kept_of ((((Kept.kept_refl st).kept_push false).kept_inner (bindOpt_kept type_params _)).kept_inner (bindList_kept options _)).kept_pop
      (by simp [Form.exprlike])
  | .TypeDecl decl type_params aliased_type, st => by
    simp only [Form.bind]
    exact Kept.kept_of ((((Kept.kept_refl st).kept_push false).kept_inner (bindOpt_kept type_params _)).kept_inner (NameBinder.bind_kept aliased_type _)).kept_pop
      (by simp [Form.exprlike])
  | .ModDecl decl decls, st => by
    simp only [Form.bind]
    exact Kept.kept_of (Kept.kept_of_eq rfl) (by simp [Form.exprlike])
  | .ErrorDecl, st => by
    simp only [Form.bind]
    exact Kept.kept_of (Kept.kept_refl st)
      (by simp [Form.exprlike])

theorem bindElems_kept : ∀ (x : List PathElem) (st : NameBinder),
    st.Kept 0 (exprlikeElems x) (bindElems x st).2
  | [], st => by
    simp only [bindElems]
    exact Kept.kept_of (Kept.kept_refl st)
      (by simp [exprlikeElems])
  | .mk id args :: elems, st => by
    simp only [bindElems]
    exact Kept.kept_of (((Kept.kept_refl st).kept_step (bindList_kept args _)).kept_step (bindElems_kept elems _))
      (by simp [exprlikeElems])

theorem FnExpr.bindFn_kept : ∀ (x : FnExpr) (in_for_loop : Bool) (st : NameBinder),
    st.Kept 0 true (FnExpr.bind x in_for_loop st).2
  | .mk addr filter param ret_type body, true, st => by
    simp only [FnExpr.bind]
    exact (((((((Kept.kept_refl st).kept_push false).kept_inner (bindOpt_kept param _)).kept_inner (bindOpt_kept ret_type _)).kept_inner (bindOpt_kept filter _)).kept_push false).kept_inner (bindOpt_kept body _)).kept_pop.kept_pop
  | .mk addr filter param ret_type body, false, st => by
    simp only [FnExpr.bind]
    exact (((((((((Kept.kept_refl st).kept_push false).kept_inner (bindOpt_kept param _)).kept_inner (bindOpt_kept ret_type _)).kept_inner (bindOpt_kept filter _)).kept_push false).kept_push_fn addr).kept_inner (bindOpt_kept body _)).kept_pop_fn _).kept_pop.kept_pop

theorem bindAttrs_kept : ∀ (x : Option Node) (st : NameBinder),
    st.Kept 0 (exprlikeAttrs x) (bindAttrs x st).2
  | none, st => by
    simp only [bindAttrs]
    exact Kept.kept_of (Kept.kept_refl st)
      (by simp [exprlikeAttrs])
  | some (.mk attrs form), st => by
    simp only [bindAttrs]
    exact Kept.kept_of ((Kept.kept_refl st).kept_step (Form.bindForm_kept form _))
      (by simp [exprlikeAttrs])

theorem NameBinder.bind_kept : ∀ (x : Node) (st : NameBinder),
    st.Kept 0 (Node.exprlike x) (NameBinder.bind x st).2
  | .mk attrs form, st => by
    simp only [NameBinder.bind]
    exact Kept.kept_of (((Kept.kept_refl st).kept_step (bindAttrs_kept attrs _)).kept_step (Form.bindForm_kept form _))
      (by simp [Node.exprlike])

theorem bindList_kept : ∀ (x : List Node) (st : NameBinder),
    st.Kept 0 (exprlikeList x) (bindList x st).2
  | [], st => by
    simp only [bindList]
    exact Kept.kept_of (Kept.kept_refl st)
      (by simp [exprlikeList])
  | node :: nodes, st => by
    simp only [bindList]
    exact Kept.kept_of (((Kept.kept_refl st).kept_step (NameBinder.bind_kept node _)).kept_step (bindList_kept nodes _))
      (by simp [exprlikeList])

theorem bindOpt_kept : ∀ (x : Option Node) (st : NameBinder),
    st.Kept 0 (exprlikeOpt x) (bindOpt x st).2
  | none, st => by
    simp only [bindOpt]
    exact Kept.kept_of (Kept.kept_refl st)
      (by simp [exprlikeOpt])
  | some node, st => by
    simp only [bindOpt]
    exact Kept.kept_of ((Kept.kept_refl st).kept_step (NameBinder.bind_kept node _))
      (by simp [exprlikeOpt])

end

/-- C36: binding a node leaves the frame stack with the depth it had, and the
current function and the current loop as they were; of the frames that it finds it
changes the names of the innermost one at most. Binding a node that is an
expression (or a type, a path, a filter or an attribute, which expressions hold)
leaves every frame with the names it had: what it declares goes into frames that the
same call pushes and pops. The block `{ let x = 1; x }`, bound under a frame that
declares `y`, leaves the frame with the name `y`; the declaration `let x = 1` alone,
which is not an expression, adds `x` to it. -/
theorem bind_scope_discipline (x : Node) (st : NameBinder) :
    (NameBinder.bind x st).2.scopes_.length = st.scopes_.length ∧
    (NameBinder.bind x st).2.cur_fn_ = st.cur_fn_ ∧
    (NameBinder.bind x st).2.cur_loop_ = st.cur_loop_ ∧
    (NameBinder.bind x st).2.names.tail = st.names.tail ∧
    (x.exprlike = true → (NameBinder.bind x st).2.names = st.names) ∧
    blockLetX.exprlike = true ∧
    (NameBinder.bind blockLetX binderWithY).2.names = [["y"]] ∧
    letDeclX.exprlike = false ∧
    (NameBinder.bind letDeclX binderWithY).2.names = [["y", "x"]] := by
  have h := NameBinder.bind_kept x st
  have hc := NameBinder.bind_ctx x st
  obtain ⟨-, hl, ht, hn⟩ := h
  simp only [List.drop_zero] at hl ht hn
  refine ⟨?_, hc.1, hc.2.1, ht, hn, by decide, by decide, by decide, by decide⟩
  simpa only [NameBinder.names, List.length_map] using hl

/-- C37: `BlockExpr::infer` and `BlockExpr::check` on a block that ends with `;`. Both
go through the statements but the last in the same way, inferring them. `infer` then
infers the last statement and returns the unit type, whatever the type of the
statement; `check` checks the last statement against the unit type and compares what
it obtains with the expected type. The block `{ 1; }` is inferred as `()` and nothing
is reported, while its check against `()` reports that `()` was expected for the
integer literal and returns the error type; in `{ 1; 2; }` checked against `()` only
the statement `2;` is an error. So the function `fn f() { 1; }` is accepted and
`fn f() -> () { 1; }` is rejected, and in `fn f(c: bool) { if c { 1; } else { 2; } }`,
where `IfExpr::infer` infers the first branch and checks the second against its type
`()`, only the literal `2` is reported. -/
theorem block_infer_check (w : World) (loc : Loc) (stmts : List NodeObj)
    (tc : TypeChecker) :
    (∀ back expected, stmts.getLast? = some back →
      (BlockExpr.infer_stmts back.loc stmts tc).1 = false →
      BlockExpr.infer stmts true tc =
        (.sigma [], ((BlockExpr.infer_stmts back.loc stmts tc).2.infer back).2) ∧
      BlockExpr.check w loc stmts true expected tc =
        ((BlockExpr.infer_stmts back.loc stmts tc).2.check back (.sigma [])).2.expect_msg_type
          w loc "block expression"
          ((BlockExpr.infer_stmts back.loc stmts tc).2.check back (.sigma [])).1 expected) ∧
    (emptyChecker.infer blockOneSemi).1 = .sigma [] ∧
    (emptyChecker.infer blockOneSemi).2.diags = [] ∧
    (emptyChecker.infer blockOneSemi).2.error_count = 0 ∧
    (emptyChecker.check blockOneSemi (.sigma [])).1 = .type_error ∧
    (emptyChecker.check blockOneSemi (.sigma [])).2.error_count = 1 ∧
    (emptyChecker.check blockOneSemi (.sigma [])).2.diags =
      [⟨.error, some (locAt 1), "expected type '{}', but got {}", ["()", "integer literal"]⟩] ∧
    (emptyChecker.infer blockTwoSemi).2.diags = [] ∧
    (emptyChecker.check blockTwoSemi (.sigma [])).2.diags =
      [⟨.error, some (locAt 2), "expected type '{}', but got {}", ["()", "integer literal"]⟩] ∧
    (emptyChecker.infer (fnOneSemi false)).1 = .pi (.sigma []) (.sigma []) ∧
    (emptyChecker.infer (fnOneSemi false)).2.error_count = 0 ∧
    (emptyChecker.infer (fnOneSemi true)).1 = .pi (.sigma []) .type_error ∧
    (emptyChecker.infer (fnOneSemi true)).2.error_count = 1 ∧
    (emptyChecker.infer (fnOneSemi true)).2.diags =
      [⟨.error, some (locAt 1), "expected type '{}', but got {}", ["()", "integer literal"]⟩] ∧
    (emptyChecker.infer fnIfSemi).2.error_count = 1 ∧
    (emptyChecker.infer fnIfSemi).2.diags =
      [⟨.error, some (locAt 51), "expected type '{}', but got {}",
        ["()", "integer literal"]⟩] := by
  refine ⟨?_, by decide, by decide, by decide, by decide, by decide, by decide, by decide,
    by decide, by decide, by decide, by decide, by decide, by decide, by decide, by decide⟩
  intro back expected hb hs
  simp only [BlockExpr.check, BlockExpr.infer, hb]
  cases hs1 : BlockExpr.infer_stmts back.loc stmts tc with
  | mk unreachable tc1 =>
    rw [hs1] at hs
    simp only at hs
    subst hs
    exact ⟨rfl, rfl⟩

/-- C38: what `FnExpr::emit` leaves of the emitter. When it is called with the current
block `old`, on return the current block is `old`, and the memory token is the
parameter 0 of `old`, whatever it was before the call. In the body of `f` of
`fn g(x: bool) -> bool { x } fn f() -> bool { g(true); |y: bool| y; g(true) }` the
memory token after `g(true);` is the component 0 of the result of that call; after the
function literal it is the parameter 0 of the block again, so that the second call
takes the token that the first call took, and the body of `f` does not hold the first
call. -/
theorem fn_expr_emit_frame :
    (∀ (this : Nat) (type : Ty) (param : Option EmitPtrn) (body : Option EmitObj)
        (em : Emitter) (old : Nat) (r : Option Def × Emitter),
      em.bb_ = some old → FnExpr.emit this type param body em = some r →
      r.2.bb_ = some old ∧ r.2.mem_ = some (.param old 0)) ∧
    afterFirstCall.map (fun em => (em.bb_, em.mem_)) =
      some (some 1,
        some (.extract (.app (.cps2ds (.lam 0)) [.param 1 0, .lit_true]) 0)) ∧
    (afterFirstCall.bind (Emitter.emit fnLiteral)).map (fun r => (r.2.bb_, r.2.mem_)) =
      some (some 1, some (.param 1 0)) ∧
    (Emitter.run fnTwoCalls Emitter.init).map (fun em => em.bodies.head?) =
      some (some (1,
        .app (.param 1 2)
          [.extract (.app (.cps2ds (.lam 0)) [.param 1 0, .lit_true]) 0,
            .extract (.app (.cps2ds (.lam 0)) [.param 1 0, .lit_true]) 1])) := by
  refine ⟨?_, rfl, rfl, rfl⟩
  intro this type param body em old r hbb h
  unfold FnExpr.emit at h
  cases hl : FnExpr.lam_of this type em with
  | none => rw [hl] at h; cases h
  | some p =>
    obtain ⟨lam, em0⟩ := p
    have h0 : em0.bb_ = some old := by
      unfold FnExpr.lam_of at hl
      split at hl
      · cases hl
        exact hbb
      · cases hl
      · unfold Emitter.emit_lam at hl
        split at hl
        · cases hl
          exact hbb
        · cases hl
    rw [hl] at h
    simp only [] at h
    cases hp : FnExpr.emit_param param lam (em0.enter lam).2 with
    | none => rw [hp] at h; cases h
    | some em1 =>
      rw [hp] at h
      simp only [] at h
      cases hb : FnExpr.emit_body body lam em1 with
      | none => rw [hb] at h; cases h
      | some em2 =>
        rw [hb] at h
        cases h
        simp only [h0]
        exact ⟨rfl, rfl⟩

/-- C39: the current block where `FnExpr::emit` writes the application of the return
continuation. `FnExpr::emit` of a function with a body returns only if the emission
of the body has left a current block set; it does not test the block, which
`ForExpr::emit` does before it calls the continuation of its body. In `fn f() -> bool
{ return(true) }` the emission of the body `{ return(true) }` clears the current
block, and `FnExpr::emit` goes through the null block; the same body in a `for` loop
is emitted. -/
theorem fn_expr_emit_block_unset :
    (∀ (this : Nat) (type : Ty) (param : Option EmitPtrn) (body : EmitObj) (em : Emitter)
        (r : Option Def × Emitter),
      FnExpr.emit this type param (some body) em = some r →
      ∃ (em2 : Emitter) (res : Def) (em3 : Emitter) (bb : Nat), em2.emit body = some (some res, em3) ∧ em3.bb_ = some bb) ∧
    (match ModDecl.emit_heads fnReturnCall Emitter.init with
      | some em => ((em.enter 0).2.emit blockReturnCall).map (fun r => r.2.bb_)
      | none => none) = some none ∧
    (Emitter.run fnReturnCall Emitter.init).isNone = true ∧
    (Emitter.run fnForReturn Emitter.init).map (fun em => em.bodies.map Prod.fst) =
      some [2, 1, 0] := by
  refine ⟨?_, rfl, rfl, rfl⟩
  intro this type param body em r h
  unfold FnExpr.emit at h
  cases hl : FnExpr.lam_of this type em with
  | none => rw [hl] at h; cases h
  | some p =>
    obtain ⟨lam, em0⟩ := p
    rw [hl] at h
    simp only [] at h
    cases hp : FnExpr.emit_param param lam (em0.enter lam).2 with
    | none => rw [hp] at h; cases h
    | some em1 =>
      rw [hp] at h
      simp only [] at h
      cases hb : FnExpr.emit_body (some body) lam em1 with
      | none => rw [hb] at h; cases h
      | some em2 =>
        unfold FnExpr.emit_body at hb
        simp only [] at hb
        cases he : em1.emit body with
        | none => rw [he] at hb; cases hb
        | some q =>
          obtain ⟨res, em3⟩ := q
          cases res with
          | none => rw [he] at hb; cases hb
          | some res =>
            cases hbb : em3.bb_ with
            | none => rw [he] at hb; simp only [hbb] at hb; cases hb
            | some bb => exact ⟨em1, res, em3, bb, he, hbb⟩

/-- C40: the blocks that receive a body when a `while` loop is emitted.
`WhileExpr::emit` makes the blocks `hd`, `bd` and `brk`, jumps to `hd`, emits the
condition, and writes the branch into `hd`, whatever the current block is after the
condition; `IfExpr::emit` writes its branch into the current block. For `fn f(a:
bool) { while a { } }` every block receives one body. For `fn f(a: bool) { while if
a { true } else { false } { } }` the emission of the condition starts in the block
1, the head of the loop, and ends in the block 6, the join of the `if`: the block 1
receives two bodies, the branch of the `if` and the branch of the loop, and the block
6, which the emitter enters and leaves, receives none. -/
theorem while_emit_branch_block :
    (∀ (this : Nat) (cond body : EmitObj) (em : Emitter) (r : Option Def × Emitter),
      WhileExpr.emit this cond body em = some r →
      ∃ (j : Option Def × Emitter) (c : Def) (em1 : Emitter) (mem : Def)
          (b : Option Def × Emitter),
        (({ em with
            lams :=
              em.lams ++ [IrTy.type_bb none] ++ [IrTy.type_bb none] ++
                [IrTy.type_bb none] }.set_loop
          this (Def.lam em.lams.length) (Def.lam (em.lams.length + 2))).jump em.lams.length none) =
          some j ∧
        j.2.emit cond = some (some c, em1) ∧ em1.mem_ = some mem ∧
        ((em1.set_body em.lams.length
            (.branch c (.lam (em.lams.length + 1)) (.lam (em.lams.length + 2)) mem)).enter
          (em.lams.length + 1)).2.emit body = some b) ∧
    (Emitter.run fnWhile Emitter.init).map (fun em => em.bodies.map Prod.fst) =
      some [3, 2, 1, 0] ∧
    atWhileHead.map (fun em => em.bb_) = some (some 1) ∧
    (atWhileHead.bind (Emitter.emit ifCond)).map (fun r => r.2.bb_) = some (some 6) ∧
    (Emitter.run fnWhileIf Emitter.init).map (fun em => em.bodies.map Prod.fst) =
      some [3, 2, 1, 5, 4, 1, 0] ∧
    (Emitter.run fnWhileIf Emitter.init).map (fun em => (em.body_writes 1, em.body_writes 6)) =
      some (2, 0) ∧
    (Emitter.run fnWhileIf Emitter.init).map (fun em => em.bodies.filter (fun e => e.1 == 1)) =
      some
        [(1, .branch (.param 6 1) (.lam 2) (.lam 3) (.param 6 0)),
          (1, .branch (.param 0 1) (.lam 4) (.lam 5) (.param 1 0))] := by
  refine ⟨?_, rfl, rfl, rfl, rfl, rfl, rfl⟩
  intro this cond body em r h
  unfold WhileExpr.emit at h
  simp only [Emitter.lam, List.length_append, List.length_singleton] at h
  split at h
  · next j hj =>
    split at h
    · next c em1 hc =>
      split at h
      · next mem hm =>
        split at h
        · next b hb => exact ⟨j, c, em1, mem, b, hj, hc, hm, hb⟩
        · cases h
      · cases h
    · cases h
  · cases h

/-! # The passes and their logs -/

namespace TypeChecker

theorem since_self (tc : TypeChecker) : tc.Since tc.error_count tc.diags :=
  ⟨[], by simp, by simp [countErrors]⟩

theorem since_of_eq {count : Nat} {diags : List Diag} {tc tc1 : TypeChecker}
    (h : tc.Since count diags) (h1 : tc1.diags = tc.diags)
    (h2 : tc1.error_count = tc.error_count) : tc1.Since count diags := by
  obtain ⟨new, e1, e2⟩ := h
  exact ⟨new, by rw [h1, e1], by rw [h2, e2]⟩

theorem since_report {count : Nat} {diags : List Diag} {tc : TypeChecker} (d : Diag)
    (h : tc.Since count diags) : (tc.report d).Since count diags := by
  obtain ⟨new, e1, e2⟩ := h
  refine ⟨new ++ [d], ?_, ?_⟩
  · cases hs : d.severity <;> simp [report, hs, e1]
  · cases hs : d.severity <;>
      simp [report, hs, e2, countErrors, List.countP_append, List.countP_cons, Nat.add_assoc]

theorem since_error {count : Nat} {diags : List Diag} {tc : TypeChecker} (loc : Loc)
    (fmt : String) (args : List String) (h : tc.Since count diags) :
    (tc.error loc fmt args).Since count diags :=
  since_report _ h

theorem since_note {count : Nat} {diags : List Diag} {tc : TypeChecker} (loc : Option Loc)
    (fmt : String) (args : List String) (h : tc.Since count diags) :
    (tc.note loc fmt args).Since count diags :=
  since_report _ h

theorem since_set_type {count : Nat} {diags : List Diag} {tc : TypeChecker} (addr : Nat)
    (type : Ty) (h : tc.Since count diags) : (tc.set_type addr type).Since count diags :=
  since_of_eq h rfl rfl

theorem since_set_mut {count : Nat} {diags : List Diag} {tc : TypeChecker} (path : Nat)
    (m : Bool) (h : tc.Since count diags) : (tc.set_mut path m).Since count diags :=
  since_of_eq h rfl rfl

theorem since_set_op {count : Nat} {diags : List Diag} {tc : TypeChecker} (decl index : Nat)
    (type : Ty) (h : tc.Since count diags) : (tc.set_op decl index type).Since count diags :=
  since_of_eq h rfl rfl

theorem since_exit_decl {count : Nat} {diags : List Diag} {tc : TypeChecker} (decl : Nat)
    (h : tc.Since count diags) : (tc.exit_decl decl).Since count diags :=
  since_of_eq h rfl rfl

theorem since_enter_decl {count : Nat} {diags : List Diag} {tc : TypeChecker} (decl : Nat)
    (loc : Loc) (h : tc.Since count diags) : (tc.enter_decl decl loc).2.Since count diags := by
  unfold enter_decl
  split
  · exact since_error _ _ _ h
  · exact since_of_eq h rfl rfl

theorem since_explain_no_ret {count : Nat} {diags : List Diag} {tc : TypeChecker}
    (type : Option Ty) (expected : Ty) (h : tc.Since count diags) :
    (tc.explain_no_ret type expected).Since count diags := by
  unfold explain_no_ret
  split
  · exact since_note _ _ _ (since_note _ _ _ h)
  · exact h

theorem since_expect_msg_type {count : Nat} {diags : List Diag} {tc : TypeChecker}
    (w : World) (loc : Loc) (msg : String) (type expected : Ty) (h : tc.Since count diags) :
    (tc.expect_msg_type w loc msg type expected).2.Since count diags := by
  unfold expect_msg_type
  split
  · exact h
  · dsimp only
    split
    · exact since_explain_no_ret _ _ (since_error _ _ _ h)
    · exact h

theorem since_expect_msg {count : Nat} {diags : List Diag} {tc : TypeChecker} (loc : Loc)
    (msg : String) (expected : Ty) (h : tc.Since count diags) :
    (tc.expect_msg loc msg expected).2.Since count diags := by
  unfold expect_msg
  dsimp only
  split
  · exact since_explain_no_ret _ _ (since_error _ _ _ h)
  · exact h

theorem since_expect {count : Nat} {diags : List Diag} {tc : TypeChecker} (w : World)
    (loc : Loc) (type expected : Ty) (h : tc.Since count diags) :
    (tc.expect w loc type expected).2.Since count diags := by
  unfold expect
  split
  · exact h
  · dsimp only
    split
    · exact since_explain_no_ret _ _ (since_error _ _ _ h)
    · exact h

theorem since_struct_expected {count : Nat} {diags : List Diag} {tc : TypeChecker}
    (loc : Loc) (type : Ty) (h : tc.Since count diags) :
    (tc.struct_expected loc type).2.Since count diags := by
  unfold struct_expected
  dsimp only
  split
  · exact since_error _ _ _ h
  · exact h

theorem since_unknown_member {count : Nat} {diags : List Diag} {tc : TypeChecker}
    (loc : Loc) (struct_type : Ty) (field : String) (h : tc.Since count diags) :
    (tc.unknown_member loc struct_type field).2.Since count diags :=
  since_error _ _ _ h

theorem since_cannot_infer {count : Nat} {diags : List Diag} {tc : TypeChecker}
    (loc : Loc) (msg : String) (h : tc.Since count diags) :
    (tc.cannot_infer loc msg).2.Since count diags :=
  since_error _ _ _ h

theorem since_unreachable_code {count : Nat} {diags : List Diag} {tc : TypeChecker}
    (before first last : Loc) (h : tc.Since count diags) :
    (tc.unreachable_code before first last).2.Since count diags :=
  since_note _ _ _ (since_error _ _ _ h)

theorem since_check_mut {count : Nat} {diags : List Diag} {tc : TypeChecker}
    (node : ExprObj) (h : tc.Since count diags) :
    (tc.check_mut node).2.Since count diags := by
  unfold check_mut
  split
  · exact h
  · dsimp only
    split
    · exact since_note _ _ _ (since_error _ _ _ h)
    · exact since_error _ _ _ h

theorem since_infer_literal {count : Nat} {diags : List Diag} {tc : TypeChecker}
    (loc : Loc) (lit : Literal) (h : tc.Since count diags) :
    (tc.infer_literal loc lit).2.Since count diags := by
  unfold infer_literal
  repeat (first | exact h | split)

theorem since_check_literal {count : Nat} {diags : List Diag} {tc : TypeChecker}
    (w : World) (loc : Loc) (lit : Literal) (expected : Ty) (h : tc.Since count diags) :
    (tc.check_literal w loc lit expected).2.Since count diags := by
  unfold check_literal
  repeat (first
    | exact h
    | exact since_infer_literal _ _ h
    | exact since_expect_msg _ _ _ h
    | exact since_expect_msg_type _ _ _ _ _ h
    | split)

theorem since_infer_at {count : Nat} {diags : List Diag} {tc : TypeChecker} (addr : Nat)
    (f : TypeChecker → Ty × TypeChecker) (hf : ∀ tc : TypeChecker, tc.Since count diags →
      (f tc).2.Since count diags) (h : tc.Since count diags) :
    (tc.infer_at addr f).2.Since count diags := by
  unfold infer_at
  split
  · exact h
  · exact since_set_type _ _ (hf _ h)

theorem since_infer {count : Nat} {diags : List Diag} {tc : TypeChecker} {node : NodeObj}
    (hn : node.Logs) (h : tc.Since count diags) : (tc.infer node).2.Since count diags :=
  since_infer_at _ _ (fun tc1 h1 => (hn count diags tc1 h1).1) h

theorem since_check {count : Nat} {diags : List Diag} {tc : TypeChecker} {node : NodeObj}
    (hn : node.Logs) (type : Ty) (h : tc.Since count diags) :
    (tc.check node type).2.Since count diags :=
  since_set_type _ _ ((hn count diags tc h).2 type)

end TypeChecker

theorem NodeObj.logs_of_infer (w : World) (addr : Nat) (loc : Loc)
    (infer : TypeChecker → Ty × TypeChecker)
    (hf : ∀ (count : Nat) (diags : List Diag) (tc : TypeChecker), tc.Since count diags →
      (infer tc).2.Since count diags) : (NodeObj.of_infer w addr loc infer).Logs := by
  intro count diags tc h
  exact ⟨hf _ _ _ h, fun expected =>
    TypeChecker.since_expect _ _ _ _ (TypeChecker.since_infer_at _ _ (hf count diags) h)⟩

namespace TypeChecker

theorem since_infer_args {count : Nat} {diags : List Diag} (args : List NodeObj)
    (ha : ∀ a ∈ args, a.Logs) (tc : TypeChecker) (h : tc.Since count diags) :
    (tc.infer_args args).2.Since count diags := by
  induction args generalizing tc with
  | nil => exact h
  | cons a as ih =>
    simp only [infer_args]
    exact ih (fun x hx => ha x (List.mem_cons_of_mem _ hx)) _
      (since_infer (ha a (List.mem_cons_self _ _)) h)

theorem since_check_args {count : Nat} {diags : List Diag} (args : List NodeObj)
    (ops : List Ty) (ha : ∀ a ∈ args, a.Logs) (tc : TypeChecker) (h : tc.Since count diags) :
    (tc.check_args args ops).Since count diags := by
  induction args generalizing tc ops with
  | nil => simpa [check_args] using h
  | cons a as ih =>
    cases ops with
    | nil => simpa [check_args] using h
    | cons op ops =>
      simp only [check_args]
      exact ih ops (fun x hx => ha x (List.mem_cons_of_mem _ hx)) _
        (since_check (ha a (List.mem_cons_self _ _)) _ h)

theorem since_infer_tuple {count : Nat} {diags : List Diag} {tc : TypeChecker}
    {args : List NodeObj} (ha : ∀ a ∈ args, a.Logs) (h : tc.Since count diags) :
    (tc.infer_tuple args).2.Since count diags :=
  since_infer_args args ha tc h

theorem since_check_tuple {count : Nat} {diags : List Diag} {tc : TypeChecker}
    {args : List NodeObj} (ha : ∀ a ∈ args, a.Logs) (loc : Loc) (msg : String)
    (expected : Ty) (h : tc.Since count diags) :
    (tc.check_tuple loc msg args expected).2.Since count diags := by
  unfold check_tuple
  split
  · split
    · exact since_error _ _ _ h
    · exact since_check_args args _ ha tc h
  · exact since_expect_msg _ _ _ h

theorem since_infer_call {count : Nat} {diags : List Diag} {tc : TypeChecker}
    {callee arg : NodeObj} (hc : callee.Logs) (ha : arg.Logs) (h : tc.Since count diags) :
    (tc.infer_call callee arg).2.Since count diags := by
  have h1 := since_infer hc h
  unfold infer_call
  dsimp only
  split
  · exact since_check ha _ h1
  · split
    · dsimp only
      split
      · exact since_error _ _ _ (since_infer ha h1)
      · exact since_infer ha h1
    · exact since_infer ha h1
  · dsimp only
    split
    · exact since_error _ _ _ h1
    · exact h1

theorem since_check_fields_loop {count : Nat} {diags : List Diag} (w : World) (loc : Loc)
    (struct_type : Ty) (app : Option Ty) (fields : List FieldObj)
    (hf : ∀ f ∈ fields, f.is_etc = false → f.node.Logs) (seen : List Bool) (tc : TypeChecker)
    (h : tc.Since count diags) :
    (check_fields_loop w loc struct_type app fields seen tc).2.Since count diags := by
  induction fields generalizing seen tc with
  | nil => exact h
  | cons f fs ih =>
    have hfs : ∀ x ∈ fs, x.is_etc = false → x.node.Logs :=
      fun x hx => hf x (List.mem_cons_of_mem _ hx)
    simp only [check_fields_loop]
    split
    · exact ih hfs _ _ h
    · next hetc =>
      have hf0 : f.node.Logs := hf f (List.mem_cons_self _ _) (by simpa using hetc)
      split
      · exact since_unknown_member _ _ _ h
      · split
        · exact since_error _ _ _ h
        · exact ih hfs _ _ (since_check hf0 _ h)

theorem since_report_missing {count : Nat} {diags : List Diag} (loc : Loc) (msg : String)
    (names : List String) (seen : List Bool) (tc : TypeChecker) (h : tc.Since count diags) :
    (report_missing loc msg names seen tc).Since count diags := by
  induction names generalizing seen tc with
  | nil => simpa [report_missing] using h
  | cons n ns ih =>
    cases seen with
    | nil => simpa [report_missing] using h
    | cons s ss =>
      simp only [report_missing]
      apply ih
      split
      · exact since_error _ _ _ h
      · exact h

theorem since_check_fields {count : Nat} {diags : List Diag} {tc : TypeChecker}
    {fields : List FieldObj} (hf : ∀ f ∈ fields, f.is_etc = false → f.node.Logs) (w : World) (loc : Loc)
    (struct_type : Ty) (app : Option Ty) (etc : Bool) (msg : String)
    (h : tc.Since count diags) :
    (tc.check_fields w loc struct_type app fields etc msg).2.Since count diags := by
  have h1 := since_check_fields_loop w loc struct_type app fields hf
    (List.replicate struct_type.meta.length false) tc h
  unfold check_fields
  dsimp only
  split
  · rename_i tc1 heq
    rw [heq] at h1
    exact h1
  · rename_i seen tc1 heq
    rw [heq] at h1
    dsimp only
    split
    · exact since_report_missing _ _ _ _ _ h1
    · exact h1

end TypeChecker

theorem Path.since_apply_args {count : Nat} {diags : List Diag} (w : World)
    (elem : PathElemObj) (ha : ∀ a ∈ elem.args, a.Logs) (type : Ty) (tc : TypeChecker)
    (h : tc.Since count diags) :
    match Path.apply_args w elem type tc with
    | .error tc1 => tc1.Since count diags
    | .ok r => r.2.Since count diags := by
  unfold Path.apply_args
  dsimp only
  split_ifs <;>
    first
    | exact TypeChecker.since_infer_args _ ha _ h
    | exact TypeChecker.since_error _ _ _ h
    | exact h

theorem Path.since_lookup {count : Nat} {diags : List Diag} (w : World)
    (elem : PathElemObj) (member : String) (type : Ty) (tc : TypeChecker)
    (h : tc.Since count diags) :
    match Path.lookup w elem member type tc with
    | .error tc1 => tc1.Since count diags
    | .ok r => r.2.Since count diags := by
  unfold Path.lookup
  split_ifs
  · dsimp only
    cases TypeChecker.find_member type.callee_of member with
    | none => exact TypeChecker.since_unknown_member _ _ _ h
    | some index => exact h
  · exact TypeChecker.since_error _ _ _ h

theorem Path.since_infer_elems {count : Nat} {diags : List Diag} (w : World)
    (elems : List PathElemObj) (he : ∀ elem ∈ elems, ∀ a ∈ elem.args, a.Logs) (type : Ty)
    (tc : TypeChecker) (h : tc.Since count diags) :
    (Path.infer_elems w elems type tc).2.Since count diags := by
  induction elems generalizing type tc with
  | nil => exact h
  | cons elem rest ih =>
    have h1 := Path.since_apply_args w elem (he elem (List.mem_cons_self _ _)) type tc h
    unfold Path.infer_elems
    cases ha : Path.apply_args w elem type tc with
    | error tc1 =>
      rw [ha] at h1
      exact h1
    | ok applied =>
      rw [ha] at h1
      dsimp only at h1 ⊢
      cases rest with
      | nil => exact h1
      | cons next rest1 =>
        have h2 := Path.since_lookup w elem next.id.name applied.1 applied.2 h1
        dsimp only
        cases hl : Path.lookup w elem next.id.name applied.1 applied.2 with
        | error tc2 =>
          rw [hl] at h2
          exact h2
        | ok found =>
          rw [hl] at h2
          exact ih (fun e hm => he e (List.mem_cons_of_mem _ hm)) _ _ h2

theorem Path.since_path_infer {count : Nat} {diags : List Diag} (w : World) (path : PathObj)
    (hs : ∀ decls, path.symbol = some decls → ∀ d ∈ decls, d.node.Logs)
    (he : ∀ elem ∈ path.elems, ∀ a ∈ elem.args, a.Logs) (tc : TypeChecker)
    (h : tc.Since count diags) : (Path.infer w path tc).2.Since count diags := by
  unfold Path.infer
  split
  · rename_i decl rest heq
    have hd : decl.node.Logs := hs _ heq decl (List.mem_cons_self _ _)
    apply Path.since_infer_elems w path.elems he
    split
    · exact TypeChecker.since_set_mut _ _ (TypeChecker.since_infer hd h)
    · exact TypeChecker.since_infer hd h
  · exact h

theorem Path.logs_path (w : World) (path : PathObj)
    (hs : ∀ decls, path.symbol = some decls → ∀ d ∈ decls, d.node.Logs)
    (he : ∀ elem ∈ path.elems, ∀ a ∈ elem.args, a.Logs) : (Path.obj w path).Logs :=
  NodeObj.logs_of_infer w _ _ _ (fun _ _ tc h => Path.since_path_infer w path hs he tc h)

theorem BlockExpr.since_infer_stmts {count : Nat} {diags : List Diag} (last : Loc)
    (stmts : List NodeObj) (hs : ∀ s ∈ stmts, s.Logs) (tc : TypeChecker)
    (h : tc.Since count diags) :
    (BlockExpr.infer_stmts last stmts tc).2.Since count diags := by
  induction stmts generalizing tc with
  | nil => exact h
  | cons s rest ih =>
    cases rest with
    | nil => exact h
    | cons next rest1 =>
      have h1 := TypeChecker.since_infer (hs s (List.mem_cons_self _ _)) h
      simp only [BlockExpr.infer_stmts]
      split
      · exact TypeChecker.since_unreachable_code _ _ _ h1
      · exact ih (fun x hx => hs x (List.mem_cons_of_mem _ hx)) _ h1

theorem BlockExpr.logs_block (w : World) (addr : Nat) (loc : Loc) (stmts : List NodeObj)
    (last_semi : Bool) (hs : ∀ s ∈ stmts, s.Logs) :
    (BlockExpr.obj w addr loc stmts last_semi).Logs := by
  intro count diags tc h
  have hb : ∀ back, stmts.getLast? = some back → back.Logs := fun back hb =>
    hs back (List.mem_of_getLast?_eq_some hb)
  constructor
  · show (BlockExpr.infer stmts last_semi tc).2.Since count diags
    unfold BlockExpr.infer
    split
    · exact h
    · rename_i back hback
      have h1 := BlockExpr.since_infer_stmts back.loc stmts hs tc h
      split
      · rename_i tc1 heq
        rw [heq] at h1
        exact h1
      · rename_i tc1 heq
        rw [heq] at h1
        exact TypeChecker.since_infer (hb back hback) h1
  · intro expected
    show (BlockExpr.check w loc stmts last_semi expected tc).2.Since count diags
    unfold BlockExpr.check
    split
    · exact TypeChecker.since_expect_msg_type _ _ _ _ _ h
    · rename_i back hback
      have h1 := BlockExpr.since_infer_stmts back.loc stmts hs tc h
      split
      · rename_i tc1 heq
        rw [heq] at h1
        exact h1
      · rename_i tc1 heq
        rw [heq] at h1
        dsimp only at h1
        split
        · exact TypeChecker.since_expect_msg_type _ _ _ _ _
            (TypeChecker.since_check (hb back hback) _ h1)
        · exact TypeChecker.since_check (hb back hback) _ h1

theorem NodeObj.logs_base (w : World) (addr : Nat) (loc : Loc) :
    (NodeObj.base w addr loc).Logs :=
  NodeObj.logs_of_infer w _ _ _ (fun _ _ _ h => TypeChecker.since_cannot_infer _ _ h)

theorem logs_typedNode (addr : Nat) (type : Ty) : (typedNode addr type).Logs :=
  fun _ _ _ h => ⟨h, fun _ => h⟩

theorem NodeObj.logs_overflow (addr : Nat) (loc : Loc) : (NodeObj.overflow addr loc).Logs :=
  fun _ _ _ h => ⟨TypeChecker.since_of_eq h rfl rfl, fun _ => TypeChecker.since_of_eq h rfl rfl⟩

theorem PrimType.logs_prim (w : World) (addr : Nat) (loc : Loc) (tag : PrimType.Tag) :
    (PrimType.obj w addr loc tag).Logs := by
  refine NodeObj.logs_of_infer w _ _ _ (fun count diags tc h => ?_)
  cases tag <;> exact h

theorem TupleType.logs_tuple_type (w : World) (addr : Nat) (loc : Loc) (args : List NodeObj)
    (ha : ∀ a ∈ args, a.Logs) : (TupleType.obj w addr loc args).Logs :=
  NodeObj.logs_of_infer w _ _ _ (fun _ _ _ h => TypeChecker.since_infer_tuple ha h)

theorem ArrayType.logs_array_type (w : World) (addr : Nat) (loc : Loc) (elem : NodeObj)
    (he : elem.Logs) : (ArrayType.obj w addr loc elem).Logs :=
  NodeObj.logs_of_infer w _ _ _ (fun _ _ _ h => TypeChecker.since_infer he h)

theorem FnType.logs_fn_type (w : World) (addr : Nat) (loc : Loc) (from_ to_ : NodeObj)
    (hf : from_.Logs) (ht : to_.Logs) : (FnType.obj w addr loc from_ to_).Logs :=
  NodeObj.logs_of_infer w _ _ _ (fun _ _ _ h =>
    TypeChecker.since_infer ht (TypeChecker.since_infer hf h))

theorem PtrType.logs_ptr_type (w : World) (addr : Nat) (loc : Loc) (pointee : NodeObj)
    (hp : pointee.Logs) : (PtrType.obj w addr loc pointee).Logs :=
  NodeObj.logs_of_infer w _ _ _ (fun _ _ _ h => TypeChecker.since_infer hp h)

theorem TypeApp.logs_type_app (w : World) (addr : Nat) (loc : Loc) (path : PathObj)
    (hp : (Path.obj w path).Logs) : (TypeApp.obj w addr loc path).Logs :=
  NodeObj.logs_of_infer w _ _ _ (fun _ _ _ h => TypeChecker.since_infer hp h)

theorem PathExpr.logs_path_expr (w : World) (addr : Nat) (loc : Loc) (path : PathObj)
    (hp : (Path.obj w path).Logs) : (PathExpr.obj w addr loc path).node.Logs :=
  NodeObj.logs_of_infer w _ _ _ (fun _ _ _ h => TypeChecker.since_infer hp h)

theorem Stmt.logs_stmt (addr : Nat) (loc : Loc) (inner : NodeObj) (hi : inner.Logs) :
    (Stmt.obj addr loc inner).Logs :=
  fun _ _ _ h => ⟨TypeChecker.since_infer hi h, fun _ => TypeChecker.since_check hi _ h⟩

theorem IdPtrn.logs_id_ptrn (addr : Nat) (loc : Loc) (decl : NodeObj) (hd : decl.Logs) :
    (IdPtrn.obj addr loc decl).Logs :=
  fun _ _ _ h => ⟨TypeChecker.since_infer hd h, fun _ => TypeChecker.since_check hd _ h⟩

theorem TypedPtrn.logs_typed (w : World) (addr : Nat) (loc : Loc) (ptrn type : NodeObj)
    (hp : ptrn.Logs) (ht : type.Logs) : (TypedPtrn.obj w addr loc ptrn type).Logs :=
  NodeObj.logs_of_infer w _ _ _ (fun _ _ _ h =>
    TypeChecker.since_check hp _ (TypeChecker.since_infer ht h))

theorem LiteralExpr.logs_literal (w : World) (addr : Nat) (loc : Loc) (lit : Literal) :
    (LiteralExpr.obj w addr loc lit).Logs :=
  fun _ _ _ h => ⟨TypeChecker.since_infer_literal loc _ h,
    fun _ => TypeChecker.since_check_literal _ _ _ _ h⟩

theorem FieldExpr.logs_field (addr : Nat) (loc : Loc) (id : Identifier) (expr : NodeObj)
    (he : expr.Logs) : (FieldExpr.obj addr loc id expr).node.Logs :=
  fun _ _ _ h => ⟨TypeChecker.since_cannot_infer _ _ h,
    fun _ => TypeChecker.since_check he _ h⟩

theorem StructExpr.logs_struct_expr (w : World) (addr : Nat) (loc : Loc) (expr : NodeObj)
    (fields : List FieldObj) (he : expr.Logs) (hf : ∀ f ∈ fields, f.is_etc = false → f.node.Logs) :
    (StructExpr.obj w addr loc expr fields).Logs := by
  refine NodeObj.logs_of_infer w _ _ _ (fun count diags tc h => ?_)
  have h1 := TypeChecker.since_infer he h
  unfold StructExpr.infer
  dsimp only
  split
  · exact TypeChecker.since_struct_expected _ _ h1
  · exact TypeChecker.since_check_fields hf _ _ _ _ _ _ h1

theorem StructPtrn.logs_struct_ptrn (w : World) (addr : Nat) (loc : Loc) (path : NodeObj)
    (fields : List FieldObj) (hp : path.Logs) (hf : ∀ f ∈ fields, f.is_etc = false → f.node.Logs) :
    (StructPtrn.obj w addr loc path fields).Logs := by
  refine NodeObj.logs_of_infer w _ _ _ (fun count diags tc h => ?_)
  have h1 := TypeChecker.since_infer hp h
  unfold StructPtrn.infer
  dsimp only
  split
  · exact TypeChecker.since_struct_expected _ _ h1
  · exact TypeChecker.since_check_fields hf _ _ _ _ _ _ h1

theorem TupleExpr.logs_tuple (addr : Nat) (loc : Loc) (args : List NodeObj)
    (ha : ∀ a ∈ args, a.Logs) : (TupleExpr.obj addr loc args).Logs :=
  fun _ _ _ h => ⟨TypeChecker.since_infer_tuple ha h,
    fun _ => TypeChecker.since_check_tuple ha _ _ _ h⟩

theorem TuplePtrn.logs_tuple_ptrn (addr : Nat) (loc : Loc) (args : List NodeObj)
    (ha : ∀ a ∈ args, a.Logs) : (TuplePtrn.obj addr loc args).Logs :=
  fun _ _ _ h => ⟨TypeChecker.since_infer_tuple ha h,
    fun _ => TypeChecker.since_check_tuple ha _ _ _ h⟩

theorem ArrayExpr.since_check_elems {count : Nat} {diags : List Diag} (elem_type : Ty)
    (elems : List NodeObj) (he : ∀ e ∈ elems, e.Logs) (tc : TypeChecker)
    (h : tc.Since count diags) :
    (ArrayExpr.check_elems elem_type elems tc).Since count diags := by
  induction elems generalizing tc with
  | nil => exact h
  | cons e es ih =>
    simp only [ArrayExpr.check_elems]
    exact ih (fun x hx => he x (List.mem_cons_of_mem _ hx)) _
      (TypeChecker.since_check (he e (List.mem_cons_self _ _)) _ h)

theorem ArrayExpr.logs_array (addr : Nat) (loc : Loc) (elems : List NodeObj)
    (he : ∀ e ∈ elems, e.Logs) : (ArrayExpr.obj addr loc elems).Logs := by
  intro count diags tc h
  constructor
  · show (ArrayExpr.infer loc elems tc).2.Since count diags
    unfold ArrayExpr.infer
    cases elems with
    | nil => exact TypeChecker.since_cannot_infer _ _ h
    | cons front rest =>
      exact ArrayExpr.since_check_elems _ rest
        (fun x hx => he x (List.mem_cons_of_mem _ hx)) _
        (TypeChecker.since_infer (he front (List.mem_cons_self _ _)) h)
  · intro expected
    show (ArrayExpr.check loc elems expected tc).2.Since count diags
    unfold ArrayExpr.check
    split
    · exact ArrayExpr.since_check_elems _ elems he _ h
    · exact TypeChecker.since_expect_msg _ _ _ h

theorem FnExpr.logs_fn (fn : FnExprObj) (hp : fn.param.Logs)
    (hr : ∀ r, fn.ret_type = some r → r.Logs) (hb : ∀ b, fn.body = some b → b.Logs) :
    (FnExpr.obj fn).Logs := by
  intro count diags tc h
  constructor
  · show (FnExpr.infer fn tc).2.Since count diags
    unfold FnExpr.infer
    split
    · rename_i ret_type hret
      have h1 := TypeChecker.since_infer hp (TypeChecker.since_infer (hr _ hret) h)
      dsimp only
      split
      · rename_i body hbody
        exact TypeChecker.since_check (hb _ hbody) _ h1
      · exact h1
    · split
      · rename_i body hbody
        exact TypeChecker.since_infer (hb _ hbody) (TypeChecker.since_infer hp h)
      · exact TypeChecker.since_cannot_infer _ _ h
  · intro expected
    show (FnExpr.check fn expected tc).2.Since count diags
    unfold FnExpr.check
    split
    · dsimp only
      split
      · rename_i body hbody
        exact TypeChecker.since_check (hb _ hbody) _ (TypeChecker.since_check hp _ h)
      · exact TypeChecker.since_check hp _ h
    · exact TypeChecker.since_expect_msg _ _ _ h

theorem CallExpr.logs_call (w : World) (addr : Nat) (loc : Loc) (callee arg : NodeObj)
    (hc : callee.Logs) (ha : arg.Logs) : (CallExpr.obj w addr loc callee arg).Logs := by
  intro count diags tc h
  exact ⟨TypeChecker.since_infer_call hc ha h, fun expected =>
    TypeChecker.since_expect _ _ _ _
      (TypeChecker.since_infer_at _ _ (fun _ h1 => TypeChecker.since_infer_call hc ha h1) h)⟩

theorem ForExpr.logs_for (w : World) (addr : Nat) (loc : Loc) (callee arg : NodeObj)
    (hc : callee.Logs) (ha : arg.Logs) : (ForExpr.obj w addr loc callee arg).Logs :=
  NodeObj.logs_of_infer w _ _ _ (fun _ _ _ h => TypeChecker.since_infer_call hc ha h)

theorem ProjExpr.logs_proj (w : World) (addr : Nat) (loc : Loc) (expr : ExprObj)
    (field : Identifier) (he : expr.node.Logs) :
    (ProjExpr.obj w addr loc expr field).node.Logs := by
  refine NodeObj.logs_of_infer w _ _ _ (fun count diags tc h => ?_)
  have h1 := TypeChecker.since_infer he h
  unfold ProjExpr.infer
  dsimp only
  split
  · exact TypeChecker.since_struct_expected _ _ h1
  · split
    · exact h1
    · exact TypeChecker.since_unknown_member _ _ _ h1

theorem IfExpr.logs_if (addr : Nat) (loc : Loc) (cond if_true : NodeObj)
    (if_false : Option NodeObj) (hc : cond.Logs) (ht : if_true.Logs)
    (hf : ∀ f, if_false = some f → f.Logs) :
    (IfExpr.obj addr loc cond if_true if_false).Logs := by
  intro count diags tc h
  have h1 := TypeChecker.since_check hc .type_bool h
  constructor
  · show (IfExpr.infer cond if_true if_false tc).2.Since count diags
    unfold IfExpr.infer
    cases if_false with
    | some f => exact TypeChecker.since_check (hf f rfl) _ (TypeChecker.since_infer ht h1)
    | none => exact TypeChecker.since_check ht _ h1
  · intro expected
    show (IfExpr.check cond if_true if_false expected tc).2.Since count diags
    unfold IfExpr.check
    cases if_false with
    | some f => exact TypeChecker.since_check (hf f rfl) _ (TypeChecker.since_check ht _ h1)
    | none => exact TypeChecker.since_check ht _ h1

theorem MatchExpr.since_check_cases {count : Nat} {diags : List Diag} (arg_type : Ty)
    (cases : List CaseObj) (hp : ∀ c ∈ cases, c.ptrn.Logs) (he : ∀ c ∈ cases, c.expr.Logs)
    (type : Option Ty) (tc : TypeChecker) (h : tc.Since count diags) :
    (MatchExpr.check_cases arg_type cases type tc).2.Since count diags := by
  induction cases generalizing type tc with
  | nil => exact h
  | cons c cs ih =>
    have h1 := TypeChecker.since_check (hp c (List.mem_cons_self _ _)) arg_type h
    simp only [MatchExpr.check_cases]
    apply ih (fun x hx => hp x (List.mem_cons_of_mem _ hx))
      (fun x hx => he x (List.mem_cons_of_mem _ hx))
    cases type with
    | some t => exact TypeChecker.since_check (he c (List.mem_cons_self _ _)) _ h1
    | none => exact TypeChecker.since_infer (he c (List.mem_cons_self _ _)) h1

theorem MatchExpr.since_match_check {count : Nat} {diags : List Diag} (loc : Loc)
    (arg : NodeObj) (cases : List CaseObj) (ha : arg.Logs) (hp : ∀ c ∈ cases, c.ptrn.Logs)
    (he : ∀ c ∈ cases, c.expr.Logs) (expected : Option Ty) (tc : TypeChecker)
    (h : tc.Since count diags) :
    (MatchExpr.check loc arg cases expected tc).2.Since count diags := by
  have h1 := MatchExpr.since_check_cases (tc.infer arg).1 cases hp he expected _
    (TypeChecker.since_infer ha h)
  unfold MatchExpr.check
  dsimp only
  split
  · rename_i type tc1 heq
    rw [heq] at h1
    exact h1
  · rename_i tc1 heq
    rw [heq] at h1
    exact TypeChecker.since_cannot_infer _ _ h1

theorem MatchExpr.logs_match (addr : Nat) (loc : Loc) (arg : NodeObj) (cases : List CaseObj)
    (ha : arg.Logs) (hp : ∀ c ∈ cases, c.ptrn.Logs) (he : ∀ c ∈ cases, c.expr.Logs) :
    (MatchExpr.obj addr loc arg cases).Logs :=
  fun _ _ tc h => ⟨MatchExpr.since_match_check loc arg cases ha hp he none tc h,
    fun expected => MatchExpr.since_match_check loc arg cases ha hp he (some expected) tc h⟩

theorem WhileExpr.logs_while (w : World) (addr : Nat) (loc : Loc) (cond body : NodeObj)
    (hc : cond.Logs) (hb : body.Logs) : (WhileExpr.obj w addr loc cond body).Logs :=
  NodeObj.logs_of_infer w _ _ _ (fun _ _ _ h =>
    TypeChecker.since_infer hb (TypeChecker.since_check hc _ h))

theorem BreakExpr.logs_break (w : World) (addr : Nat) (loc : Loc) :
    (BreakExpr.obj w addr loc).Logs :=
  NodeObj.logs_of_infer w _ _ _ (fun _ _ _ h => h)

theorem ReturnExpr.logs_return (w : World) (addr : Nat) (loc : Loc) (fn : Option FnRef) :
    (ReturnExpr.obj w addr loc fn).Logs := by
  refine NodeObj.logs_of_infer w _ _ _ (fun count diags tc h => ?_)
  unfold ReturnExpr.infer
  split
  · exact h
  · dsimp only
    split
    · exact TypeChecker.since_note _ _ _ (TypeChecker.since_error _ _ _ h)
    · exact TypeChecker.since_error _ _ _ h

theorem UnaryExpr.logs_unary (w : World) (addr : Nat) (loc : Loc) (arg : ExprObj)
    (is_inc is_dec : Bool) (ha : arg.node.Logs) :
    (UnaryExpr.obj w addr loc arg is_inc is_dec).Logs := by
  refine NodeObj.logs_of_infer w _ _ _ (fun count diags tc h => ?_)
  have h1 := TypeChecker.since_infer ha h
  unfold UnaryExpr.infer
  dsimp only
  split
  · exact TypeChecker.since_check_mut _ h1
  · exact h1

theorem BinaryExpr.logs_binary (w : World) (addr : Nat) (loc : Loc) (left : ExprObj)
    (right : NodeObj) (has_eq has_cmp : Bool) (hl : left.node.Logs) (hr : right.Logs) :
    (BinaryExpr.obj w addr loc left right has_eq has_cmp).Logs := by
  refine NodeObj.logs_of_infer w _ _ _ (fun count diags tc h => ?_)
  have h1 := TypeChecker.since_check hr (tc.infer left.node).1 (TypeChecker.since_infer hl h)
  unfold BinaryExpr.infer
  dsimp only
  split
  · exact TypeChecker.since_check_mut _ h1
  · exact h1

theorem TypeParam.logs_type_param (addr : Nat) (loc : Loc) : (TypeParam.obj addr loc).Logs :=
  fun _ _ _ h => ⟨TypeChecker.since_cannot_infer _ _ h, fun _ => h⟩

theorem PtrnDecl.logs_ptrn_decl (addr : Nat) (loc : Loc) : (PtrnDecl.obj addr loc).Logs :=
  fun _ _ _ h => ⟨TypeChecker.since_cannot_infer _ _ h, fun _ => h⟩

theorem TypeParamList.since_check_params {count : Nat} {diags : List Diag}
    (extract : Ty → Nat → Ty) (expected : Ty) (params : List NodeObj)
    (hp : ∀ p ∈ params, p.Logs) (i : Nat) (tc : TypeChecker) (h : tc.Since count diags) :
    (TypeParamList.check_params extract expected params i tc).Since count diags := by
  induction params generalizing i tc with
  | nil => exact h
  | cons p ps ih =>
    simp only [TypeParamList.check_params]
    exact ih (fun x hx => hp x (List.mem_cons_of_mem _ hx)) _ _
      (TypeChecker.since_check (hp p (List.mem_cons_self _ _)) _ h)

theorem TypeParamList.logs_type_params (extract : Ty → Nat → Ty) (addr : Nat) (loc : Loc)
    (params : List NodeObj) (hp : ∀ p ∈ params, p.Logs) :
    (TypeParamList.obj extract addr loc params).Logs := by
  intro count diags tc h
  refine ⟨TypeChecker.since_cannot_infer _ _ h, fun expected => ?_⟩
  show (TypeParamList.check extract params expected tc).2.Since count diags
  unfold TypeParamList.check
  split
  · rename_i param
    exact TypeChecker.since_check (hp param (List.mem_cons_self _ _)) _ h
  · exact TypeParamList.since_check_params extract expected params hp 0 tc h

theorem LetDecl.logs_let (w : World) (addr : Nat) (loc : Loc) (ptrn : NodeObj)
    (init : Option NodeObj) (hp : ptrn.Logs) (hi : ∀ i, init = some i → i.Logs) :
    (LetDecl.obj w addr loc ptrn init).Logs := by
  refine NodeObj.logs_of_infer w _ _ _ (fun count diags tc h => ?_)
  unfold LetDecl.infer
  cases init with
  | some i => exact TypeChecker.since_check hp _ (TypeChecker.since_infer (hi i rfl) h)
  | none => exact TypeChecker.since_infer hp h

theorem FieldDecl.logs_field_decl (w : World) (addr : Nat) (loc : Loc) (type : NodeObj)
    (ht : type.Logs) : (FieldDecl.obj w addr loc type).Logs :=
  NodeObj.logs_of_infer w _ _ _ (fun _ _ _ h => TypeChecker.since_infer ht h)

theorem ModDecl.since_mod_infer {count : Nat} {diags : List Diag} (decls : List NodeObj)
    (hd : ∀ d ∈ decls, d.Logs) (tc : TypeChecker) (h : tc.Since count diags) :
    (ModDecl.infer decls tc).Since count diags := by
  unfold ModDecl.infer
  induction decls generalizing tc with
  | nil => exact h
  | cons d ds ih =>
    simp only [List.foldl_cons]
    exact ih (fun x hx => hd x (List.mem_cons_of_mem _ hx)) _
      (TypeChecker.since_infer (hd d (List.mem_cons_self _ _)) h)

theorem ModDecl.logs_mod (w : World) (addr : Nat) (loc : Loc) (decls : List NodeObj)
    (hd : ∀ d ∈ decls, d.Logs) : (ModDecl.obj w addr loc decls).Logs :=
  NodeObj.logs_of_infer w _ _ _ (fun _ _ tc h => ModDecl.since_mod_infer decls hd tc h)

theorem FnDecl.since_prepare {count : Nat} {diags : List Diag} (this : Nat)
    (type_params : Option NodeObj) (fn : FnExprObj)
    (ht : ∀ t, type_params = some t → t.Logs) (hp : fn.param.Logs)
    (hr : ∀ r, fn.ret_type = some r → r.Logs) (tc : TypeChecker)
    (h : tc.Since count diags) :
    (FnDecl.prepare this type_params fn tc).Since count diags := by
  cases type_params with
  | none =>
    unfold FnDecl.prepare
    dsimp only
    split
    · next ret_type hrt =>
      exact TypeChecker.since_set_type _ _
        (TypeChecker.since_infer (hr _ hrt) (TypeChecker.since_infer hp h))
    · exact h
  | some t =>
    have h1 := TypeChecker.since_check (ht t rfl) (Ty.param this) h
    unfold FnDecl.prepare
    dsimp only
    split
    · next ret_type hrt =>
      exact TypeChecker.since_set_type _ _ (TypeChecker.since_set_op _ _ _
        (TypeChecker.since_infer (hr _ hrt) (TypeChecker.since_infer hp h1)))
    · exact h1

theorem FnDecl.since_decl_infer {count : Nat} {diags : List Diag} (this : Nat) (loc : Loc)
    (type_params : Option NodeObj) (fn : FnExprObj)
    (ht : ∀ t, type_params = some t → t.Logs) (hp : fn.param.Logs)
    (hr : ∀ r, fn.ret_type = some r → r.Logs) (hb : ∀ b, fn.body = some b → b.Logs)
    (tc : TypeChecker) (h : tc.Since count diags) :
    (FnDecl.infer this loc type_params fn tc).2.Since count diags := by
  have hfn : (FnExpr.obj fn).Logs := FnExpr.logs_fn fn hp hr hb
  have h4 := TypeChecker.since_enter_decl this loc
    (FnDecl.since_prepare this type_params fn ht hp hr tc h)
  rw [FnDecl.infer_eq]
  rcases he : (FnDecl.prepare this type_params fn tc).enter_decl this loc with ⟨_ | _, tc3⟩
  · rw [he] at h4
    exact h4
  · rw [he] at h4
    have h5 := TypeChecker.since_infer hfn h4
    show TypeChecker.Since count diags
      ((match type_params.map (fun _ => Ty.type_forall this) with
      | some _ => (tc3.infer (FnExpr.obj fn)).2.set_op this 1 (tc3.infer (FnExpr.obj fn)).1
      | none => (tc3.infer (FnExpr.obj fn)).2).exit_decl this)
    apply TypeChecker.since_exit_decl
    split
    · exact TypeChecker.since_set_op _ _ _ h5
    · exact h5

theorem FnDecl.logs_fn_decl (this : Nat) (loc : Loc) (type_params : Option NodeObj)
    (fn : FnExprObj) (ht : ∀ t, type_params = some t → t.Logs) (hp : fn.param.Logs)
    (hr : ∀ r, fn.ret_type = some r → r.Logs) (hb : ∀ b, fn.body = some b → b.Logs) :
    (FnDecl.obj this loc type_params fn).Logs :=
  fun _ _ tc h => ⟨FnDecl.since_decl_infer this loc type_params fn ht hp hr hb tc h,
    fun _ => FnDecl.since_decl_infer this loc type_params fn ht hp hr hb tc h⟩

theorem StructDecl.since_infer_fields {count : Nat} {diags : List Diag} (this : Nat)
    (fields : List NodeObj) (hf : ∀ f ∈ fields, f.Logs) (i : Nat) (tc : TypeChecker)
    (h : tc.Since count diags) :
    (StructDecl.infer_fields this fields i tc).Since count diags := by
  induction fields generalizing i tc with
  | nil => exact h
  | cons f fs ih =>
    simp only [StructDecl.infer_fields]
    exact ih (fun x hx => hf x (List.mem_cons_of_mem _ hx)) _ _
      (TypeChecker.since_set_op _ _ _
        (TypeChecker.since_infer (hf f (List.mem_cons_self _ _)) h))

theorem StructDecl.logs_struct_decl (w : World) (this : Nat) (loc : Loc)
    (meta : List String) (type_params : Option NodeObj) (fields : List NodeObj)
    (ht : ∀ t, type_params = some t → t.Logs) (hf : ∀ f ∈ fields, f.Logs) :
    (StructDecl.obj w this loc meta type_params fields).Logs := by
  refine NodeObj.logs_of_infer w _ _ _ (fun count diags tc h => ?_)
  unfold StructDecl.infer
  dsimp only
  apply StructDecl.since_infer_fields this fields hf
  apply TypeChecker.since_set_type
  cases type_params with
  | some t => exact TypeChecker.since_check (ht t rfl) _ h
  | none => exact h

theorem EnumDecl.since_infer_options {count : Nat} {diags : List Diag} (this : Nat)
    (enum_type : Ty) (type_params : Option NodeObj) (options : List OptionObj)
    (ho : ∀ o ∈ options, o.node.Logs)
    (hp : ∀ o ∈ options, ∀ p, o.param = some p → p.Logs) (i : Nat) (tc : TypeChecker) (h : tc.Since count diags) :
    (EnumDecl.infer_options this enum_type type_params options i tc).Since count diags := by
  induction options generalizing i tc with
  | nil => exact h
  | cons o os ih =>
    simp only [EnumDecl.infer_options]
    apply ih (fun x hx => ho x (List.mem_cons_of_mem _ hx))
      (fun x hx => hp x (List.mem_cons_of_mem _ hx))
    apply TypeChecker.since_set_op
    apply TypeChecker.since_check (ho o (List.mem_cons_self _ _))
    cases hpar : o.param with
    | some p => exact TypeChecker.since_infer (hp o (List.mem_cons_self _ _) p hpar) h
    | none => exact h

theorem EnumDecl.logs_enum_decl (w : World) (this : Nat) (loc : Loc) (meta : List String)
    (type_params : Option NodeObj) (options : List OptionObj)
    (ht : ∀ t, type_params = some t → t.Logs) (ho : ∀ o ∈ options, o.node.Logs)
    (hp : ∀ o ∈ options, ∀ p, o.param = some p → p.Logs) :
    (EnumDecl.obj w this loc meta type_params options).Logs := by
  refine NodeObj.logs_of_infer w _ _ _ (fun count diags tc h => ?_)
  unfold EnumDecl.infer
  dsimp only
  apply EnumDecl.since_infer_options this _ type_params options ho hp
  apply TypeChecker.since_set_type
  cases type_params with
  | some t => exact TypeChecker.since_check (ht t rfl) _ h
  | none => exact h

theorem NodeObj.Made.logs {w : World} {node : NodeObj} (h : node.Made w) : node.Logs := by
  induction h with
  | base addr loc => exact NodeObj.logs_base w addr loc
  | typed addr type => exact logs_typedNode addr type
  | overflow addr loc => exact NodeObj.logs_overflow addr loc
  | Path path _ _ ihs ihe => exact Path.logs_path w path ihs ihe
  | PrimType addr loc tag => exact PrimType.logs_prim w addr loc tag
  | TupleType addr loc args _ ih => exact TupleType.logs_tuple_type w addr loc args ih
  | ArrayType addr loc elem _ ih => exact ArrayType.logs_array_type w addr loc elem ih
  | FnType addr loc from_ to_ _ _ ih1 ih2 =>
    exact FnType.logs_fn_type w addr loc from_ to_ ih1 ih2
  | PtrType addr loc pointee _ ih => exact PtrType.logs_ptr_type w addr loc pointee ih
  | TypeApp addr loc path _ ih => exact TypeApp.logs_type_app w addr loc path ih
  | Stmt addr loc inner _ ih => exact Stmt.logs_stmt addr loc inner ih
  | TypedExpr addr loc expr type _ _ ih1 ih2 =>
    exact TypedPtrn.logs_typed w addr loc expr type ih1 ih2
  | PathExpr addr loc path _ ih => exact PathExpr.logs_path_expr w addr loc path ih
  | LiteralExpr addr loc lit => exact LiteralExpr.logs_literal w addr loc lit
  | FieldExpr addr loc id expr _ ih => exact FieldExpr.logs_field addr loc id expr ih
  | StructExpr addr loc expr fields _ _ ih1 ih2 =>
    exact StructExpr.logs_struct_expr w addr loc expr fields ih1 ih2
  | TupleExpr addr loc args _ ih => exact TupleExpr.logs_tuple addr loc args ih
  | ArrayExpr addr loc elems _ ih => exact ArrayExpr.logs_array addr loc elems ih
  | FnExpr fn _ _ _ ih1 ih2 ih3 => exact FnExpr.logs_fn fn ih1 ih2 ih3
  | BlockExpr addr loc stmts last_semi _ ih =>
    exact BlockExpr.logs_block w addr loc stmts last_semi ih
  | CallExpr addr loc callee arg _ _ ih1 ih2 =>
    exact CallExpr.logs_call w addr loc callee arg ih1 ih2
  | ProjExpr addr loc expr field _ ih => exact ProjExpr.logs_proj w addr loc expr field ih
  | IfExpr addr loc cond if_true if_false _ _ _ ih1 ih2 ih3 =>
    exact IfExpr.logs_if addr loc cond if_true if_false ih1 ih2 ih3
  | MatchExpr addr loc arg cases _ _ _ ih1 ih2 ih3 =>
    exact MatchExpr.logs_match addr loc arg cases ih1 ih2 ih3
  | WhileExpr addr loc cond body _ _ ih1 ih2 =>
    exact WhileExpr.logs_while w addr loc cond body ih1 ih2
  | ForExpr addr loc callee arg _ _ ih1 ih2 =>
    exact ForExpr.logs_for w addr loc callee arg ih1 ih2
  | BreakExpr addr loc => exact BreakExpr.logs_break w addr loc
  | ReturnExpr addr loc fn => exact ReturnExpr.logs_return w addr loc fn
  | UnaryExpr addr loc arg is_inc is_dec _ ih =>
    exact UnaryExpr.logs_unary w addr loc arg is_inc is_dec ih
  | BinaryExpr addr loc left right has_eq has_cmp _ _ ih1 ih2 =>
    exact BinaryExpr.logs_binary w addr loc left right has_eq has_cmp ih1 ih2
  | TypeParam addr loc => exact TypeParam.logs_type_param addr loc
  | TypeParamList extract addr loc params _ ih =>
    exact TypeParamList.logs_type_params extract addr loc params ih
  | PtrnDecl addr loc => exact PtrnDecl.logs_ptrn_decl addr loc
  | LetDecl addr loc ptrn init _ _ ih1 ih2 =>
    exact LetDecl.logs_let w addr loc ptrn init ih1 ih2
  | FnDecl this loc type_params fn _ _ _ _ ih1 ih2 ih3 ih4 =>
    exact FnDecl.logs_fn_decl this loc type_params fn ih1 ih2 ih3 ih4
  | FieldDecl addr loc type _ ih => exact FieldDecl.logs_field_decl w addr loc type ih
  | StructDecl this loc meta type_params fields _ _ ih1 ih2 =>
    exact StructDecl.logs_struct_decl w this loc meta type_params fields ih1 ih2
  | EnumDecl this loc meta type_params options _ _ _ ih1 ih2 ih3 =>
    exact EnumDecl.logs_enum_decl w this loc meta type_params options ih1 ih2 ih3
  | ModDecl addr loc decls _ ih => exact ModDecl.logs_mod w addr loc decls ih
  | IdPtrn addr loc decl _ ih => exact IdPtrn.logs_id_ptrn addr loc decl ih
  | StructPtrn addr loc path fields _ _ ih1 ih2 =>
    exact StructPtrn.logs_struct_ptrn w addr loc path fields ih1 ih2
  | TuplePtrn addr loc args _ ih => exact TuplePtrn.logs_tuple_ptrn addr loc args ih

theorem Program.made_node (w : World) (child : Nat → NodeObj) (hc : ∀ a, (child a).Made w)
    (addr : Nat) (loc : Loc) (node : Ast) : (Program.node w child addr loc node).Made w := by
  have hpath : ∀ path : PathAst, (Path.obj w (Program.path child path)).Made w := by
    intro path
    apply NodeObj.Made.Path
    · intro decls hs d hd
      simp only [Program.path, Option.map_eq_some'] at hs
      obtain ⟨ds, -, rfl⟩ := hs
      simp only [List.mem_map] at hd
      obtain ⟨a, -, rfl⟩ := hd
      exact hc a
    · intro e he a ha
      simp only [Program.path, List.mem_map] at he
      obtain ⟨e0, -, rfl⟩ := he
      simp only [List.mem_map] at ha
      obtain ⟨a0, -, rfl⟩ := ha
      exact hc a0
  have hfn : ∀ fn : FnExprAst,
      (Program.fn child fn).param.Made w ∧
      (∀ r, (Program.fn child fn).ret_type = some r → r.Made w) ∧
      (∀ b, (Program.fn child fn).body = some b → b.Made w) := by
    intro fn
    refine ⟨hc _, fun r hr => ?_, fun b hb => ?_⟩
    · simp only [Program.fn, Option.map_eq_some'] at hr
      obtain ⟨a, -, rfl⟩ := hr
      exact hc a
    · simp only [Program.fn, Option.map_eq_some'] at hb
      obtain ⟨a, -, rfl⟩ := hb
      exact hc a
  have hlist : ∀ (args : List Nat), ∀ a ∈ args.map child, a.Made w := by
    intro args a ha
    simp only [List.mem_map] at ha
    obtain ⟨a0, -, rfl⟩ := ha
    exact hc a0
  cases node with
  | PrimType tag => exact .PrimType addr loc tag
  | TypeApp path => exact .TypeApp addr loc _ (hpath path)
  | PathExpr path => exact .PathExpr addr loc _ (hpath path)
  | LiteralExpr lit => exact .LiteralExpr addr loc lit
  | TupleExpr args => exact .TupleExpr addr loc _ (hlist args)
  | TuplePtrn args => exact .TuplePtrn addr loc _ (hlist args)
  | Stmt inner => exact .Stmt addr loc _ (hc inner)
  | BlockExpr stmts last_semi => exact .BlockExpr addr loc _ last_semi (hlist stmts)
  | CallExpr callee arg => exact .CallExpr addr loc _ _ (hc callee) (hc arg)
  | ReturnExpr fn => exact .ReturnExpr addr loc fn
  | FnExpr fn => exact .FnExpr _ (hfn fn).1 (hfn fn).2.1 (hfn fn).2.2
  | FnDecl type_params fn =>
    refine .FnDecl addr loc _ _ (fun t ht => ?_) (hfn fn).1 (hfn fn).2.1 (hfn fn).2.2
    simp only [Option.map_eq_some'] at ht
    obtain ⟨a, -, rfl⟩ := ht
    exact hc a

theorem Program.made_obj (w : World) (prog : Program) (depth addr : Nat) :
    (Program.obj w prog depth addr).Made w := by
  induction depth generalizing addr with
  | zero => exact .overflow _ _
  | succ depth ih =>
    rw [Program.obj]
    split
    · exact Program.made_node w _ ih _ _ _
    · exact .typed _ _

theorem TypeChecker.since_newDiags {tc tc1 : TypeChecker}
    (h : tc1.Since tc.error_count tc.diags) :
    tc1.diags = tc.diags ++ tc.newDiags tc1 ∧
    tc1.error_count = tc.error_count + countErrors (tc.newDiags tc1) := by
  obtain ⟨new, e1, e2⟩ := h
  have e : tc.newDiags tc1 = new := by simp [TypeChecker.newDiags, e1]
  rw [e]
  exact ⟨e1, e2⟩

theorem TypeChecker.run_made (w : World) (decls : List NodeObj) (tc : TypeChecker)
    (hd : ∀ d ∈ decls, d.Made w) :
    (tc.run decls).2.diags = tc.diags ++ tc.newDiags (tc.run decls).2 ∧
    ((tc.run decls).1 = true ↔
      tc.error_count = 0 ∧ ∀ d ∈ tc.newDiags (tc.run decls).2, d.severity ≠ .error) := by
  have h := TypeChecker.since_newDiags
    (ModDecl.since_mod_infer decls (fun d hm => (hd d hm).logs) tc tc.since_self)
  refine ⟨h.1, ?_⟩
  simp only [TypeChecker.run, beq_iff_eq]
  rw [h.2, Nat.add_eq_zero_iff, countErrors_eq_zero]

/-- C6: `NameBinder::run` returns true exactly when the error counter was zero before
the pass and no diagnostic of severity error is among those written by the pass.
`TypeChecker::run` calls `ModDecl::infer` on the module: for a module whose
declarations are objects of the classes of `check.cpp`, and so for the nodes of any
program unfolded to any depth, the pass only adds to the log, and `run` returns true
exactly when the counter was zero before the pass and no diagnostic of severity error
is among those that the pass has reported. Warnings and notes written by either pass
do not enter the condition: the binder accepts `{ let x = 1; }` with the warning for
the unused `x` and its note, and the checker rejects `fn f() { return(3) }` for the one
error, not for the note, and accepts `fn f() -> i32 { return(3) }`. -/
theorem run_true_iff_no_error :
    (∀ (st : NameBinder) (mod : Node),
      (NameBinder.run st mod).2.2 = true ↔
        st.errors = 0 ∧ ∀ d ∈ st.newDiags (NameBinder.run st mod).2.1, d.severity ≠ .error) ∧
    (∀ (w : World) (decls : List NodeObj) (tc : TypeChecker), (∀ d ∈ decls, d.Made w) →
      (tc.run decls).2.diags = tc.diags ++ tc.newDiags (tc.run decls).2 ∧
      ((tc.run decls).1 = true ↔
        tc.error_count = 0 ∧ ∀ d ∈ tc.newDiags (tc.run decls).2, d.severity ≠ .error)) ∧
    (∀ (w : World) (prog : Program) (depth : Nat) (addrs : List Nat) (tc : TypeChecker),
      (tc.run (addrs.map (Program.obj w prog depth))).2.diags =
        tc.diags ++ tc.newDiags (tc.run (addrs.map (Program.obj w prog depth))).2 ∧
      ((tc.run (addrs.map (Program.obj w prog depth))).1 = true ↔
        tc.error_count = 0 ∧
        ∀ d ∈ tc.newDiags (tc.run (addrs.map (Program.obj w prog depth))).2,
          d.severity ≠ .error)) ∧
    ((NameBinder.run emptyBinder blockUnusedX).2.2 = true ∧
      (NameBinder.run emptyBinder blockUnusedX).2.1.diags =
        [⟨.warn, some exLoc, "unused identifier '{}'", ["x"]⟩,
          ⟨.note, none, "prefix unused identifiers with '_'", []⟩]) ∧
    ((emptyChecker.run [fnReturn false]).1 = false ∧
      (emptyChecker.run [fnReturn false]).2.diags =
        [⟨.error, some (locAt 17), "cannot infer the type of '{}'", ["return"]⟩,
          ⟨.note, some (locAt 21), "try annotating the return type of this function", []⟩]) ∧
    ((emptyChecker.run [fnReturn true]).1 = true ∧
      (emptyChecker.run [fnReturn true]).2.diags = []) := by
  refine ⟨?_, ?_, ?_, by decide, by decide, by decide⟩
  · intro st mod
    have h := (NameBinder.bind_logged mod st).2.1
    simp only [NameBinder.run, beq_iff_eq, h, Nat.add_eq_zero_iff, countErrors_eq_zero]
  · intro w decls tc hd
    exact TypeChecker.run_made w decls tc hd
  · intro w prog depth addrs tc
    refine TypeChecker.run_made w _ tc (fun d hm => ?_)
    simp only [List.mem_map] at hm
    obtain ⟨a, -, rfl⟩ := hm
    exact Program.made_obj w prog depth a

end artic
